import Mathlib

/-!
# Render graph: resource lifetime, state tracking, pass compilation and execution

A shallow embedding of `Engine/Source/Rendering/Src/RenderGraph.cpp`.

* C++ objects that are mutated through pointers (graph resources) live in the builder's
  `resources` vector; a pointer to one is its position in that vector.
* A fatal assertion stops the process; `Outcome.fatal` keeps the state reached at that moment.
* Dereferencing a pointer that designates no object is `Outcome.undefinedBehaviour`.
-/

namespace Rendering

/-! ## Outcomes of engine code -/

/-- Result of running engine code on a state of type `σ`: it ran to completion (`ok`), a fatal
assertion stopped it (`fatal`, with the state at that moment), or it dereferenced a pointer that
designates no object (`undefinedBehaviour`). -/
inductive Outcome (σ : Type) where
  | ok (s : σ)
  | fatal (s : σ)
  | undefinedBehaviour
  deriving DecidableEq, Repr

/-- Sequencing: continue with `f` only after a completed run. -/
def Outcome.andThen {σ : Type} (o : Outcome σ) (f : σ → Outcome σ) : Outcome σ :=
  match o with
  | .ok s => f s
  | .fatal s => .fatal s
  | .undefinedBehaviour => .undefinedBehaviour

/-- Run a callee that works on a component `τ` of the state; `put` stores the component back. -/
def Outcome.lift {σ τ : Type} (o : Outcome τ) (put : τ → σ) : Outcome σ :=
  match o with
  | .ok t => .ok (put t)
  | .fatal t => .fatal (put t)
  | .undefinedBehaviour => .undefinedBehaviour

/-- Whether the run completed. -/
def Outcome.isOk {σ : Type} : Outcome σ → Bool
  | .ok _ => true
  | _ => false

/-- Whether the run was stopped by a fatal assertion. -/
def Outcome.isFatal {σ : Type} : Outcome σ → Bool
  | .fatal _ => true
  | _ => false

/-- The state an outcome carries, if any. -/
def Outcome.state? {σ : Type} : Outcome σ → Option σ
  | .ok s => some s
  | .fatal s => some s
  | .undefinedBehaviour => none

/-- Modelled from the spec: the `Assert` macro (Common/Debug.h is not among the sources). A
violated assertion "aborts via a fatal assertion/fail path"; a satisfied one has no effect. -/
def Assert {σ : Type} (expression : Bool) (s : σ) : Outcome σ :=
  if expression then .ok s else .fatal s

/-- Modelled from the spec: the `QuickFail` macro (Common/Debug.h is not among the sources):
an unconditional fatal failure. -/
def QuickFail {σ : Type} (s : σ) : Outcome σ :=
  .fatal s

/-- Apply `f` to the element at position `i`; other positions (and the list, when `i` is out of
range) are unchanged. -/
def updateAt {α : Type} (f : α → α) : List α → Nat → List α
  | [], _ => []
  | x :: xs, 0 => f x :: xs
  | x :: xs, i + 1 => x :: updateAt f xs i

/-- Run `f x` for every `x` of `xs`, in order, threading the state; stops at the first run that
does not complete. -/
def forEach {α σ : Type} (f : α → σ → Outcome σ) : List α → σ → Outcome σ
  | [], s => .ok s
  | x :: xs, s => (f x s).andThen (forEach f xs)

/-! ## Device-level enumerations and descriptors -/

/-- States of a device buffer (`RHI::BufferState`). The enumeration is declared outside the
sources at hand; the four enumerators the render graph names are listed, `other` stands for any
further enumerator. -/
inductive BufferState where
  | copySrc
  | copyDst
  | shaderReadOnly
  | storage
  | other (tag : Nat)
  deriving DecidableEq, Repr

/-- States of a device texture (`RHI::TextureState`). The enumeration is declared outside the
sources at hand; the enumerators the sources name are listed, `other` stands for any further
enumerator. -/
inductive TextureState where
  | undefined
  | copySrc
  | copyDst
  | shaderReadOnly
  | renderTarget
  | storage
  | depthStencilReadonly
  | depthStencilWrite
  | other (tag : Nat)
  deriving DecidableEq, Repr

/-- Kinds of graph resource (`RGResType`); `max` is the enumeration's end marker, which no
constructor assigns. -/
inductive RGResType where
  | buffer
  | texture
  | max
  deriving DecidableEq, Repr

/-- Modelled from the spec: the buffer descriptor ("size/format/usage/initial-state"); its
declaration is not among the sources. -/
structure RGBufferDesc where
  size : Nat
  usages : Nat
  initialState : BufferState
  deriving DecidableEq, Repr

/-- Modelled from the spec: the texture descriptor ("size/format/usage/initial-state"), with the
fields ResourcePoolTest.cpp fills in; its declaration is not among the sources. -/
structure RGTextureDesc where
  dimension : Nat
  extent : Nat × Nat × Nat
  format : Nat
  usages : Nat
  mipLevels : Nat
  samples : Nat
  initialState : TextureState
  deriving DecidableEq, Repr

namespace RHI

/-- A device buffer object, designated in C++ by `RHI::Buffer*`: its address and the create info
`GetCreateInfo()` returns. A C++ pointer to it is an `Option RHI.Buffer`, `none` being nullptr. -/
structure Buffer where
  address : Nat
  createInfo : RGBufferDesc
  deriving DecidableEq, Repr

/-- A device texture object, designated in C++ by `RHI::Texture*`. -/
structure Texture where
  address : Nat
  createInfo : RGTextureDesc
  deriving DecidableEq, Repr

end RHI

/-! ## Pooled resource allocator -/

/-- Modelled from the spec: an object kept by the pooled resource allocator (ResourcePool.h is
not among the sources): its descriptor and the number of handles to it held outside the pool. -/
structure PooledResource (Desc : Type) where
  desc : Desc
  holders : Nat
  deriving DecidableEq, Repr

/-- Handle to a pooled object (`PooledBufferRef`, `PooledTextureRef`): the object's position in
the pool, which is its identity. An empty handle is `none` of `Option PooledRef`. -/
abbrev PooledRef := Nat

/-- Modelled from the spec: the pooled resource allocator of one device (ResourcePool.h is not
among the sources). `allocateCalls` is a ghost log of the descriptors `Allocate` was called
with. -/
structure ResourcePool (Desc : Type) where
  pooledResources : List (PooledResource Desc)
  allocateCalls : List Desc
  deriving DecidableEq, Repr

/-- Modelled from the spec: `Allocate(desc) -> handle`, "first-fit by descriptor equality, else
allocate new": the first pooled object with an equal descriptor and no outside holder is handed
out again; when there is none a new object is appended to the pool. -/
def ResourcePool.Allocate {Desc : Type} [DecidableEq Desc] (pool : ResourcePool Desc)
    (desc : Desc) : PooledRef × ResourcePool Desc :=
  match pool.pooledResources.findIdx? (fun p => p.holders == 0 && decide (p.desc = desc)) with
  | some i =>
    (i, { pooledResources :=
            updateAt (fun p => { p with holders := p.holders + 1 }) pool.pooledResources i,
          allocateCalls := pool.allocateCalls ++ [desc] })
  | none =>
    (pool.pooledResources.length,
      { pooledResources := pool.pooledResources ++ [{ desc := desc, holders := 1 }],
        allocateCalls := pool.allocateCalls ++ [desc] })

/-- Modelled from the spec: dropping a handle "releases the pooled object back to the pool": the
object loses one outside holder. -/
def ResourcePool.Release {Desc : Type} (pool : ResourcePool Desc) (ref : PooledRef) :
    ResourcePool Desc :=
  { pool with
    pooledResources := updateAt (fun p => { p with holders := p.holders - 1 }) pool.pooledResources ref }

/-- The part of `RHI::Device` that resource lifetime management touches: the per-device buffer
and texture pools reached through `BufferPool::Get(device)` and `TexturePool::Get(device)`. -/
structure Pools where
  bufferPool : ResourcePool RGBufferDesc
  texturePool : ResourcePool RGTextureDesc
  deriving DecidableEq, Repr

/-- Assigning to a handle variable drops the handle it held: `old` is the handle given up. -/
def ResourcePool.drop {Desc : Type} (pool : ResourcePool Desc) (old : Option PooledRef) :
    ResourcePool Desc :=
  match old with
  | some ref => pool.Release ref
  | none => pool

/-! ## Command recording -/

/-- What a command encoder records. `bufferBarrier b s t` is
`ResourceBarrier(RHI::Barrier::Transition(b, s, t))`; `callback f` is one invocation of the
user-supplied recording callback `f` of a pass. -/
inductive Command where
  | begin
  | beginCopyPass
  | beginComputePass
  | beginGraphicsPass (colorAttachmentNum : Nat) (hasDepthStencilAttachment : Bool)
  | bufferBarrier (buffer : Option RHI.Buffer) (before after : BufferState)
  | textureBarrier (texture : Option RHI.Texture) (before after : TextureState)
  | callback (func : Nat)
  | endPass
  | endEncoding
  deriving DecidableEq, Repr

/-- A command encoder (`RHI::CommandCommandEncoder`): the commands recorded so far, oldest
first. -/
abbrev CommandEncoder := List Command

/-! ## Resources -/

/-- The data members of class `RGResource`. `refCount` is a mathematical integer: its C++ type is
declared outside the sources at hand; a decrement at 0 leaves a non-zero count, as it does in
C++ for a signed and for an unsigned counter alike. -/
structure RGResourceBase where
  type : RGResType
  forceUsed : Bool
  imported : Bool
  devirtualized : Bool
  refCount : Int
  deriving DecidableEq, Repr

/-- C++ `RGResource::RGResource(RGResType inType)`. -/
def RGResourceBase.new (inType : RGResType) : RGResourceBase :=
  { type := inType, forceUsed := false, imported := false, devirtualized := false, refCount := 0 }

/-- Class `RGBuffer`. `rhiHandle` is an `RHI::Buffer*` (`none` is nullptr), `pooledBuffer` a
pooled handle (`none` is the empty handle). -/
structure RGBuffer extends RGResourceBase where
  desc : RGBufferDesc
  rhiHandle : Option RHI.Buffer
  pooledBuffer : Option PooledRef
  currentState : BufferState
  deriving DecidableEq, Repr

/-- Class `RGTexture`. -/
structure RGTexture extends RGResourceBase where
  desc : RGTextureDesc
  rhiHandle : Option RHI.Texture
  pooledTexture : Option PooledRef
  currentState : TextureState
  deriving DecidableEq, Repr

/-- C++ `RGBuffer::RGBuffer(RGBufferDesc inDesc)`. -/
def RGBuffer.new (inDesc : RGBufferDesc) : RGBuffer :=
  { toRGResourceBase := RGResourceBase.new RGResType.buffer
    desc := inDesc
    rhiHandle := none
    pooledBuffer := none
    currentState := inDesc.initialState }

/-- C++ `RGBuffer::RGBuffer(RHI::Buffer* inImportedBuffer)`; the argument is dereferenced, so it
designates a device buffer. -/
def RGBuffer.newImported (inImportedBuffer : RHI.Buffer) : RGBuffer :=
  { toRGResourceBase := { RGResourceBase.new RGResType.buffer with imported := true }
    desc := inImportedBuffer.createInfo
    rhiHandle := some inImportedBuffer
    pooledBuffer := none
    currentState := inImportedBuffer.createInfo.initialState }

/-- C++ `RGBuffer::GetRHI`: `none` when `Assert(devirtualized)` fails, else the value of
`rhiHandle`. -/
def RGBuffer.GetRHI (self : RGBuffer) : Option (Option RHI.Buffer) :=
  match Assert self.devirtualized () with
  | .ok _ => some self.rhiHandle
  | _ => none

/-- C++ `RGBuffer::Transition`. The argument `GetRHI()` is evaluated before `ResourceBarrier` is
called. -/
def RGBuffer.Transition (self : RGBuffer) (commandEncoder : CommandEncoder)
    (transitionTo : BufferState) : Outcome (RGBuffer × CommandEncoder) :=
  match self.GetRHI with
  | none => .fatal (self, commandEncoder)
  | some rhi =>
    .ok ({ self with currentState := transitionTo },
         commandEncoder ++ [Command.bufferBarrier rhi self.currentState transitionTo])

/-- C++ `RGBuffer::Devirtualize`. -/
def RGBuffer.Devirtualize (self : RGBuffer) (device : Pools) : Outcome (RGBuffer × Pools) :=
  (Assert (!self.devirtualized) (self, device)).andThen fun (self, device) =>
    let self := { self with devirtualized := true }
    if self.imported then
      .ok (self, device)
    else
      let (allocated, pool) := device.bufferPool.Allocate self.desc
      .ok ({ self with pooledBuffer := some allocated },
           { device with bufferPool := pool.drop self.pooledBuffer })

/-- C++ `RGBuffer::UndoDevirtualize`. Dropping the pooled handle acts on the pool of the device the
handle came from, which is why the pools are threaded through. -/
def RGBuffer.UndoDevirtualize (self : RGBuffer) (device : Pools) : Outcome (RGBuffer × Pools) :=
  (Assert self.devirtualized (self, device)).andThen fun (self, device) =>
    let self := { self with devirtualized := false }
    if self.imported then
      .ok (self, device)
    else
      .ok ({ self with pooledBuffer := none },
           { device with bufferPool := device.bufferPool.drop self.pooledBuffer })

/-- C++ `RGTexture::RGTexture(RGTextureDesc inDesc)`. -/
def RGTexture.new (inDesc : RGTextureDesc) : RGTexture :=
  { toRGResourceBase := RGResourceBase.new RGResType.texture
    desc := inDesc
    rhiHandle := none
    pooledTexture := none
    currentState := inDesc.initialState }

/-- C++ `RGTexture::RGTexture(RHI::Texture* inImportedTexture)`. -/
def RGTexture.newImported (inImportedTexture : RHI.Texture) : RGTexture :=
  { toRGResourceBase := { RGResourceBase.new RGResType.texture with imported := true }
    desc := inImportedTexture.createInfo
    rhiHandle := some inImportedTexture
    pooledTexture := none
    currentState := inImportedTexture.createInfo.initialState }

/-- C++ `RGTexture::GetRHI`: `none` when `Assert(devirtualized)` fails, else the value of
`rhiHandle`. -/
def RGTexture.GetRHI (self : RGTexture) : Option (Option RHI.Texture) :=
  match Assert self.devirtualized () with
  | .ok _ => some self.rhiHandle
  | _ => none

/-- C++ `RGTexture::Transition`. -/
def RGTexture.Transition (self : RGTexture) (commandEncoder : CommandEncoder)
    (transitionTo : TextureState) : Outcome (RGTexture × CommandEncoder) :=
  match self.GetRHI with
  | none => .fatal (self, commandEncoder)
  | some rhi =>
    .ok ({ self with currentState := transitionTo },
         commandEncoder ++ [Command.textureBarrier rhi self.currentState transitionTo])

/-- C++ `RGTexture::Devirtualize`. -/
def RGTexture.Devirtualize (self : RGTexture) (device : Pools) : Outcome (RGTexture × Pools) :=
  (Assert (!self.devirtualized) (self, device)).andThen fun (self, device) =>
    let self := { self with devirtualized := true }
    if self.imported then
      .ok (self, device)
    else
      let (allocated, pool) := device.texturePool.Allocate self.desc
      .ok ({ self with pooledTexture := some allocated },
           { device with texturePool := pool.drop self.pooledTexture })

/-- C++ `RGTexture::UndoDevirtualize`. -/
def RGTexture.UndoDevirtualize (self : RGTexture) (device : Pools) :
    Outcome (RGTexture × Pools) :=
  (Assert self.devirtualized (self, device)).andThen fun (self, device) =>
    let self := { self with devirtualized := false }
    if self.imported then
      .ok (self, device)
    else
      .ok ({ self with pooledTexture := none },
           { device with texturePool := device.texturePool.drop self.pooledTexture })

/-- An object of a class derived from `RGResource`: what an `RGResourceRef` points to. -/
inductive RGResource where
  | buffer (b : RGBuffer)
  | texture (t : RGTexture)
  deriving DecidableEq, Repr

/-- The `RGResource` data members of the object. -/
def RGResource.base : RGResource → RGResourceBase
  | .buffer b => b.toRGResourceBase
  | .texture t => t.toRGResourceBase

/-- Write the `RGResource` data members of the object. -/
def RGResource.setBase (self : RGResource) (base : RGResourceBase) : RGResource :=
  match self with
  | .buffer b => .buffer { b with toRGResourceBase := base }
  | .texture t => .texture { t with toRGResourceBase := base }

/-- The pooled handle of the object (`pooledBuffer` or `pooledTexture`). -/
def RGResource.pooled : RGResource → Option PooledRef
  | .buffer b => b.pooledBuffer
  | .texture t => t.pooledTexture

/-- C++ `RGResource::Type`. -/
def RGResource.Type (self : RGResource) : RGResType :=
  self.base.type

/-- C++ `RGResource::MaskAsUsed`. -/
def RGResource.MaskAsUsed (self : RGResource) : RGResource :=
  self.setBase { self.base with forceUsed := true }

/-- C++ `RGResource::IsForceUsed`. -/
def RGResource.IsForceUsed (self : RGResource) : Bool :=
  self.base.forceUsed

/-- Virtual call `Devirtualize(device)`. -/
def RGResource.Devirtualize (self : RGResource) (device : Pools) : Outcome (RGResource × Pools) :=
  match self with
  | .buffer b => (b.Devirtualize device).lift fun (b, d) => (.buffer b, d)
  | .texture t => (t.Devirtualize device).lift fun (t, d) => (.texture t, d)

/-- Virtual call `UndoDevirtualize()`. -/
def RGResource.UndoDevirtualize (self : RGResource) (device : Pools) :
    Outcome (RGResource × Pools) :=
  match self with
  | .buffer b => (b.UndoDevirtualize device).lift fun (b, d) => (.buffer b, d)
  | .texture t => (t.UndoDevirtualize device).lift fun (t, d) => (.texture t, d)

/-- C++ `RGResource::IncRefCountAndUpdateResource`. -/
def RGResource.IncRefCountAndUpdateResource (self : RGResource) (device : Pools) :
    Outcome (RGResource × Pools) :=
  (if self.base.refCount = 0 then self.Devirtualize device else .ok (self, device)).andThen
    fun (self, device) => .ok (self.setBase { self.base with refCount := self.base.refCount + 1 }, device)

/-- C++ `RGResource::DecRefAndUpdateResource`. -/
def RGResource.DecRefAndUpdateResource (self : RGResource) (device : Pools) :
    Outcome (RGResource × Pools) :=
  let self := self.setBase { self.base with refCount := self.base.refCount - 1 }
  if self.base.refCount = 0 then self.UndoDevirtualize device else .ok (self, device)

/-- One of the two lifetime calls the builder and the passes make on a resource. -/
inductive RefOp where
  | inc
  | dec
  deriving DecidableEq, Repr

/-- Make one lifetime call on a resource: `inc` is `IncRefCountAndUpdateResource(device)`, `dec`
is `DecRefAndUpdateResource()`. -/
def RGResource.applyOp (op : RefOp) (s : RGResource × Pools) : Outcome (RGResource × Pools) :=
  match op with
  | .inc => s.1.IncRefCountAndUpdateResource s.2
  | .dec => s.1.DecRefAndUpdateResource s.2

/-- Make a sequence of lifetime calls on a resource, in order. -/
def RGResource.runOps (ops : List RefOp) (s : RGResource × Pools) : Outcome (RGResource × Pools) :=
  forEach RGResource.applyOp ops s

/-- No `dec` of the sequence is applied to the resource while its refCount is 0. -/
def RGResource.noDecrementAtZero : List RefOp → RGResource × Pools → Bool
  | [], _ => true
  | op :: ops, s =>
    !(decide (op = RefOp.dec) && decide (s.1.base.refCount = 0)) &&
      match RGResource.applyOp op s with
      | .ok next => RGResource.noDecrementAtZero ops next
      | _ => true

/-- The resource is as one of the four constructors leaves it: `RGBuffer(desc)`,
`RGTexture(desc)` (what `CreateBuffer`/`CreateTexture` build) or `RGBuffer(imported)`,
`RGTexture(imported)` (what `ImportBuffer`/`ImportTexture` build). -/
def RGResource.Constructed (r : RGResource) : Prop :=
  (∃ d, r = .buffer (RGBuffer.new d)) ∨ (∃ d, r = .texture (RGTexture.new d)) ∨
  (∃ h, r = .buffer (RGBuffer.newImported h)) ∨ (∃ h, r = .texture (RGTexture.newImported h))

/-! ## Sample inputs -/

/-- A device whose pools hold nothing yet. -/
def emptyPools : Pools :=
  { bufferPool := { pooledResources := [], allocateCalls := [] }
    texturePool := { pooledResources := [], allocateCalls := [] } }

/-- Descriptor of a 4096-byte buffer. -/
def sampleBufferDesc : RGBufferDesc :=
  { size := 4096, usages := 0, initialState := BufferState.other 0 }

/-- Descriptor of a 1920x1080 two-dimensional texture. -/
def sampleTextureDesc : RGTextureDesc :=
  { dimension := 2, extent := (1920, 1080, 1), format := 0, usages := 0, mipLevels := 1,
    samples := 1, initialState := TextureState.undefined }

/-- An externally owned device buffer. -/
def sampleDeviceBuffer : RHI.Buffer :=
  { address := 1, createInfo := sampleBufferDesc }

/-- An externally owned device texture. -/
def sampleDeviceTexture : RHI.Texture :=
  { address := 2, createInfo := sampleTextureDesc }

/-! ## Resource views -/

/-- C++ `RGBufferRef`, `RGTextureRef`, `RGResourceRef`: a C++ pointer to a graph resource, `none`
being nullptr and `some i` the object at position `i` of the builder's `resources`. -/
abbrev RGResourceRef := Option Nat

/-- Pointer to a buffer of the graph (`RGBuffer*`). -/
abbrev RGBufferRef := RGResourceRef

/-- Pointer to a texture of the graph (`RGTexture*`). -/
abbrev RGTextureRef := RGResourceRef

/-- Kinds of resource view (`RGResViewType`). -/
inductive RGResViewType where
  | bufferView
  | textureView
  deriving DecidableEq, Repr

/-- Modelled from the spec: the "sub-range/format descriptor" of a buffer view; its declaration
is not among the sources. -/
structure RGBufferViewDesc where
  offset : Nat
  size : Nat
  deriving DecidableEq, Repr

/-- Modelled from the spec: the "sub-range/format descriptor" of a texture view; its declaration
is not among the sources. -/
structure RGTextureViewDesc where
  format : Nat
  baseMipLevel : Nat
  mipLevelNum : Nat
  deriving DecidableEq, Repr

/-- The data members of class `RGResourceView`. -/
structure RGResourceViewBase where
  type : RGResViewType
  devirtualized : Bool
  deriving DecidableEq, Repr

/-- C++ `RGResourceView::RGResourceView(RGResViewType inType)`. -/
def RGResourceViewBase.new (inType : RGResViewType) : RGResourceViewBase :=
  { type := inType, devirtualized := false }

/-- Class `RGBufferView`; `rhiHandle` is an `RHI::BufferView*`. -/
structure RGBufferView extends RGResourceViewBase where
  buffer : RGBufferRef
  desc : RGBufferViewDesc
  rhiHandle : Option Nat
  deriving DecidableEq, Repr

/-- Class `RGTextureView`; `rhiHandle` is an `RHI::TextureView*`. -/
structure RGTextureView extends RGResourceViewBase where
  texture : RGTextureRef
  desc : RGTextureViewDesc
  rhiHandle : Option Nat
  deriving DecidableEq, Repr

/-- C++ `RGBufferView::RGBufferView(RGBufferRef inBuffer, RGBufferViewDesc inDesc)`. -/
def RGBufferView.new (inBuffer : RGBufferRef) (inDesc : RGBufferViewDesc) : RGBufferView :=
  { toRGResourceViewBase := RGResourceViewBase.new RGResViewType.bufferView
    buffer := inBuffer
    desc := inDesc
    rhiHandle := none }

/-- C++ `RGBufferView::GetBuffer`. -/
def RGBufferView.GetBuffer (self : RGBufferView) : RGBufferRef :=
  self.buffer

/-- C++ `RGBufferView::GetRHI`. -/
def RGBufferView.GetRHI (self : RGBufferView) : Option Nat :=
  self.rhiHandle

/-- C++ `RGBufferView::GetResource`. -/
def RGBufferView.GetResource (self : RGBufferView) : RGResourceRef :=
  self.buffer

/-- C++ `RGTextureView::RGTextureView(RGTextureRef inTexture, RGTextureViewDesc inDesc)`. Its
initializer list is `RGResourceView(RGResViewType::textureView), desc(std::move(inDesc)),
rhiHandle(nullptr)`: the member `texture` is not initialized and `inTexture` is not used.
`indeterminate` is the value the storage of `texture` happens to hold. -/
def RGTextureView.new (indeterminate : RGTextureRef) (_inTexture : RGTextureRef)
    (inDesc : RGTextureViewDesc) : RGTextureView :=
  { toRGResourceViewBase := RGResourceViewBase.new RGResViewType.textureView
    texture := indeterminate
    desc := inDesc
    rhiHandle := none }

/-- C++ `RGTextureView::GetTexture`. -/
def RGTextureView.GetTexture (self : RGTextureView) : RGTextureRef :=
  self.texture

/-- C++ `RGTextureView::GetRHI`. -/
def RGTextureView.GetRHI (self : RGTextureView) : Option Nat :=
  self.rhiHandle

/-- C++ `RGTextureView::GetResource`. -/
def RGTextureView.GetResource (self : RGTextureView) : RGResourceRef :=
  self.texture

/-- An object of a class derived from `RGResourceView`. -/
inductive RGResourceView where
  | bufferView (v : RGBufferView)
  | textureView (v : RGTextureView)
  deriving DecidableEq, Repr

/-- Virtual call `GetResource()`. -/
def RGResourceView.GetResource : RGResourceView → RGResourceRef
  | .bufferView v => v.GetResource
  | .textureView v => v.GetResource

/-- Pointer to a view of the graph (`RGBufferViewRef`, `RGTextureViewRef`): nullptr or a position
in the builder's `views`. -/
abbrev RGResourceViewRef := Option Nat

/-- Pointer to a buffer view of the graph (`RGBufferView*`). -/
abbrev RGBufferViewRef := RGResourceViewRef

/-- Pointer to a texture view of the graph (`RGTextureView*`). -/
abbrev RGTextureViewRef := RGResourceViewRef

/-! ## Bind groups -/

/-- The binding types the render graph names (`RHI::BindingType`). -/
inductive BindingType where
  | sampler
  | uniformBuffer
  | storageBuffer
  | texture
  | storageTexture
  deriving DecidableEq, Repr

/-- C++ `RGBindItemDesc`: a type tag and a union of three pointers, of which the method that builds
the item sets the one its tag selects; the two others are never read. -/
structure RGBindItemDesc where
  type : BindingType
  sampler : Option Nat
  bufferView : RGBufferViewRef
  textureView : RGTextureViewRef
  deriving DecidableEq, Repr

/-- C++ `RGBindGroupDesc`: the layout pointer and the items by name, in the order the map `items`
is iterated. -/
structure RGBindGroupDesc where
  layout : Option Nat
  items : List (String × RGBindItemDesc)
  deriving DecidableEq, Repr

/-- C++ `RGBindGroupDesc::Create`. -/
def RGBindGroupDesc.Create (inLayout : Option Nat) : RGBindGroupDesc :=
  { layout := inLayout, items := [] }

/-- C++ `items.contains(inName)`. -/
def RGBindGroupDesc.contains (self : RGBindGroupDesc) (inName : String) : Bool :=
  self.items.any fun item => item.1 == inName

/-- C++ `RGBindGroupDesc::Sampler`. -/
def RGBindGroupDesc.Sampler (self : RGBindGroupDesc) (inName : String) (inSampler : Option Nat) :
    Outcome RGBindGroupDesc :=
  (Assert (!self.contains inName) self).andThen fun self =>
    .ok { self with items := self.items ++ [(inName,
      { type := BindingType.sampler, sampler := inSampler, bufferView := none,
        textureView := none })] }

/-- C++ `RGBindGroupDesc::UniformBuffer`. -/
def RGBindGroupDesc.UniformBuffer (self : RGBindGroupDesc) (inName : String)
    (bufferView : RGBufferViewRef) : Outcome RGBindGroupDesc :=
  (Assert (!self.contains inName) self).andThen fun self =>
    .ok { self with items := self.items ++ [(inName,
      { type := BindingType.uniformBuffer, sampler := none, bufferView := bufferView,
        textureView := none })] }

/-- C++ `RGBindGroupDesc::StorageBuffer`. -/
def RGBindGroupDesc.StorageBuffer (self : RGBindGroupDesc) (inName : String)
    (bufferView : RGBufferViewRef) : Outcome RGBindGroupDesc :=
  (Assert (!self.contains inName) self).andThen fun self =>
    .ok { self with items := self.items ++ [(inName,
      { type := BindingType.storageBuffer, sampler := none, bufferView := bufferView,
        textureView := none })] }

/-- C++ `RGBindGroupDesc::Texture`. -/
def RGBindGroupDesc.Texture (self : RGBindGroupDesc) (inName : String)
    (textureView : RGTextureViewRef) : Outcome RGBindGroupDesc :=
  (Assert (!self.contains inName) self).andThen fun self =>
    .ok { self with items := self.items ++ [(inName,
      { type := BindingType.texture, sampler := none, bufferView := none,
        textureView := textureView })] }

/-- C++ `RGBindGroupDesc::StorageTexture`. -/
def RGBindGroupDesc.StorageTexture (self : RGBindGroupDesc) (inName : String)
    (textureView : RGTextureViewRef) : Outcome RGBindGroupDesc :=
  (Assert (!self.contains inName) self).andThen fun self =>
    .ok { self with items := self.items ++ [(inName,
      { type := BindingType.storageTexture, sampler := none, bufferView := none,
        textureView := textureView })] }

/-- Class `RGBindGroup`; `rhiHandle` is an `RHI::BindGroup*`. -/
structure RGBindGroup where
  desc : RGBindGroupDesc
  rhiHandle : Option Nat
  deriving DecidableEq, Repr

/-- C++ `RGBindGroup::RGBindGroup(RGBindGroupDesc inDesc)`. The constructor initializes `desc`
only; `rhiHandle` is read by no code modelled here. -/
def RGBindGroup.new (inDesc : RGBindGroupDesc) : RGBindGroup :=
  { desc := inDesc, rhiHandle := none }

/-- C++ `RGBindGroup::GetDesc`. -/
def RGBindGroup.GetDesc (self : RGBindGroup) : RGBindGroupDesc :=
  self.desc

/-- Pointer to a bind group of the graph (`RGBindGroup*`): nullptr or a position in the
builder's `bindGroups`. -/
abbrev RGBindGroupRef := Option Nat

/-! ## Passes: data -/

/-- C++ `Internal::IsBufferStateRead`. -/
def Internal.IsBufferStateRead (state : BufferState) : Bool :=
  state == BufferState.copySrc || state == BufferState.shaderReadOnly

/-- C++ `Internal::IsBufferStateWrite`. -/
def Internal.IsBufferStateWrite (state : BufferState) : Bool :=
  state == BufferState.copyDst || state == BufferState.storage

/-- C++ `Internal::IsTextureStateRead`. -/
def Internal.IsTextureStateRead (state : TextureState) : Bool :=
  state == TextureState.copySrc || state == TextureState.shaderReadOnly ||
    state == TextureState.depthStencilReadonly

/-- C++ `Internal::IsTextureStateWrite`. -/
def Internal.IsTextureStateWrite (state : TextureState) : Bool :=
  state == TextureState.copyDst || state == TextureState.shaderReadOnly ||
    state == TextureState.renderTarget || state == TextureState.storage ||
    state == TextureState.depthStencilWrite

/-- Kinds of pass (`RGPassType`). -/
inductive RGPassType where
  | copy
  | compute
  | raster
  deriving DecidableEq, Repr

/-- The member `transitionInfos` of a pass: the state requested for each buffer and for each
texture, keyed by the resource's position in the builder's `resources`, in the order the maps are
iterated. -/
structure RGTransitionInfos where
  buffer : List (Nat × BufferState)
  texture : List (Nat × TextureState)
  deriving DecidableEq, Repr

/-- The data members of class `RGPass`. `reads` is a set of non-null resource pointers, kept as
a list without repetition in the order the set is iterated. -/
structure RGPassBase where
  name : String
  type : RGPassType
  reads : List Nat
  transitionInfos : RGTransitionInfos
  deriving DecidableEq, Repr

/-- C++ `RGPass::RGPass(std::string inName, RGPassType inType)`. -/
def RGPassBase.new (inName : String) (inType : RGPassType) : RGPassBase :=
  { name := inName, type := inType, reads := [], transitionInfos := { buffer := [], texture := [] } }

/-- C++ `RGCopyPassDesc`. -/
structure RGCopyPassDesc where
  copySrcs : List RGResourceRef
  copyDsts : List RGResourceRef
  deriving DecidableEq, Repr

/-- C++ `RGColorAttachment`: the view; the load/store members copied to the device structure play no
part in compilation. -/
structure RGColorAttachment where
  view : RGTextureViewRef
  deriving DecidableEq, Repr

/-- C++ `RGDepthStencilAttachment`. -/
structure RGDepthStencilAttachment where
  view : RGTextureViewRef
  deriving DecidableEq, Repr

/-- C++ `RGRasterPassDesc`. -/
structure RGRasterPassDesc where
  colorAttachments : List RGColorAttachment
  depthStencilAttachment : Option RGDepthStencilAttachment
  deriving DecidableEq, Repr

/-- Class `RGCopyPass`. `func` names the user-supplied recording callback. -/
structure RGCopyPass extends RGPassBase where
  passDesc : RGCopyPassDesc
  func : Nat
  asyncCopy : Bool
  deriving DecidableEq, Repr

/-- Class `RGComputePass`. -/
structure RGComputePass extends RGPassBase where
  asyncCompute : Bool
  bindGroups : List RGBindGroupRef
  func : Nat
  deriving DecidableEq, Repr

/-- Class `RGRasterPass`. -/
structure RGRasterPass extends RGPassBase where
  passDesc : RGRasterPassDesc
  bindGroups : List RGBindGroupRef
  func : Nat
  deriving DecidableEq, Repr

/-- C++ `RGCopyPass::RGCopyPass`. -/
def RGCopyPass.new (inName : String) (inPassDesc : RGCopyPassDesc) (inFunc : Nat)
    (inAsyncCopy : Bool) : RGCopyPass :=
  { toRGPassBase := RGPassBase.new inName RGPassType.copy
    passDesc := inPassDesc
    func := inFunc
    asyncCopy := inAsyncCopy }

/-- C++ `RGComputePass::RGComputePass`. -/
def RGComputePass.new (inName : String) (inBindGroups : List RGBindGroupRef) (inFunc : Nat)
    (inAsyncCompute : Bool) : RGComputePass :=
  { toRGPassBase := RGPassBase.new inName RGPassType.compute
    asyncCompute := inAsyncCompute
    bindGroups := inBindGroups
    func := inFunc }

/-- C++ `RGRasterPass::RGRasterPass`. -/
def RGRasterPass.new (inName : String) (inPassDesc : RGRasterPassDesc)
    (inBindGroupds : List RGBindGroupRef) (inFunc : Nat) : RGRasterPass :=
  { toRGPassBase := RGPassBase.new inName RGPassType.raster
    passDesc := inPassDesc
    bindGroups := inBindGroupds
    func := inFunc }

/-- An object of a class derived from `RGPass`. -/
inductive RGPass where
  | copy (p : RGCopyPass)
  | compute (p : RGComputePass)
  | raster (p : RGRasterPass)
  deriving DecidableEq, Repr

/-- The `RGPass` data members of the object. -/
def RGPass.base : RGPass → RGPassBase
  | .copy p => p.toRGPassBase
  | .compute p => p.toRGPassBase
  | .raster p => p.toRGPassBase

/-- Write the `RGPass` data members of the object. -/
def RGPass.setBase (self : RGPass) (base : RGPassBase) : RGPass :=
  match self with
  | .copy p => .copy { p with toRGPassBase := base }
  | .compute p => .compute { p with toRGPassBase := base }
  | .raster p => .raster { p with toRGPassBase := base }

/-! ## Device, fences and builder state -/

/-- C++ `RGAsyncInfo`. -/
structure RGAsyncInfo where
  hasAsyncCopy : Bool
  hasAsyncCompute : Bool
  deriving DecidableEq, Repr

/-- C++ `RGAsyncInfo::RGAsyncInfo()`. -/
def RGAsyncInfo.new : RGAsyncInfo :=
  { hasAsyncCopy := false, hasAsyncCompute := false }

/-- C++ `RGFencePack`: three `RHI::Fence*`. -/
structure RGFencePack where
  mainFence : Option Nat
  asyncComputeFence : Option Nat
  asyncCopyFence : Option Nat
  deriving DecidableEq, Repr

/-- C++ `RGFencePack::RGFencePack(inMainFence, inAsyncComputeFence, inAsyncCopyFence)`. -/
def RGFencePack.new (inMainFence inAsyncComputeFence inAsyncCopyFence : Option Nat) :
    RGFencePack :=
  { mainFence := inMainFence
    asyncComputeFence := inAsyncComputeFence
    asyncCopyFence := inAsyncCopyFence }

/-- Queue classes of a device (`RHI::QueueType`). -/
inductive QueueType where
  | graphics
  | compute
  | transfer
  deriving DecidableEq, Repr

/-- What the device is asked to do outside command recording: `fenceReset f` is `f->Reset()`,
`submit q i c f` is `device.GetQueue(q, i)->Submit(c, f)` for the command buffer created `c`-th. -/
inductive QueueEvent where
  | fenceReset (fence : Nat)
  | submit (queue : QueueType) (index : Nat) (cmdBuffer : Nat) (fence : Option Nat)
  deriving DecidableEq, Repr

/-- The device (`RHI::Device&`) as the render graph sees it: its pools, the number of transfer
and compute queues `GetQueueNum` reports, the command buffers created so far with what was
recorded into each, and the fence resets and submissions so far. -/
structure Device where
  pools : Pools
  transferQueueNum : Nat
  computeQueueNum : Nat
  commandBuffers : List CommandEncoder
  queueEvents : List QueueEvent
  deriving DecidableEq, Repr

/-- The three calls that change a graph resource while a graph is executed. -/
inductive ResourceCall where
  | incRef
  | decRef
  | transition
  deriving DecidableEq, Repr

/-- Ghost record of one call made on a graph resource: which resource (its position in
`resources`), which call, and the resource as the call left it. -/
structure ResourceEvent where
  resource : Nat
  call : ResourceCall
  after : RGResource
  deriving DecidableEq, Repr

/-- One step of the ghost timeline of a builder. `command c x` is the command `x` recorded into
the command buffer created `c`-th by the code of a pass other than a barrier, `barrier c r` a
completed `Transition` of the resource at position `r` whose barrier went into command buffer
`c`, `incRef r` and `decRef r` a completed `IncRefCountAndUpdateResource` and
`DecRefAndUpdateResource` on the resource at position `r`. -/
inductive Step where
  | command (cmdBuffer : Nat) (command : Command)
  | barrier (cmdBuffer : Nat) (resource : Nat)
  | incRef (resource : Nat)
  | decRef (resource : Nat)
  deriving DecidableEq, Repr

/-- Class `RGBuilder`. The vectors own the objects, and a pointer to an object is its position.
`resourceEvents` is a ghost log of the calls made on resources, oldest first, and `timeline` a
ghost log of these calls and of the commands recorded, in the order in which they happen. -/
structure RGBuilder where
  device : Device
  executed : Bool
  asyncInfo : RGAsyncInfo
  resources : List RGResource
  views : List RGResourceView
  bindGroups : List RGBindGroup
  passes : List RGPass
  resourceEvents : List ResourceEvent
  timeline : List Step
  deriving DecidableEq, Repr

/-- C++ `RGBuilder::RGBuilder(RHI::Device& inDevice)`. -/
def RGBuilder.new (inDevice : Device) : RGBuilder :=
  { device := inDevice, executed := false, asyncInfo := RGAsyncInfo.new, resources := [],
    views := [], bindGroups := [], passes := [], resourceEvents := [], timeline := [] }

/-- C++ `RGBuilder::CreateBuffer`: the new buffer's pointer and the builder afterwards. -/
def RGBuilder.CreateBuffer (self : RGBuilder) (inDesc : RGBufferDesc) : RGBufferRef × RGBuilder :=
  (some self.resources.length,
    { self with resources := self.resources ++ [RGResource.buffer (RGBuffer.new inDesc)] })

/-- C++ `RGBuilder::CreateTexture`. -/
def RGBuilder.CreateTexture (self : RGBuilder) (inDesc : RGTextureDesc) :
    RGTextureRef × RGBuilder :=
  (some self.resources.length,
    { self with resources := self.resources ++ [RGResource.texture (RGTexture.new inDesc)] })

/-- C++ `RGBuilder::CreateBufferView`. -/
def RGBuilder.CreateBufferView (self : RGBuilder) (inBuffer : RGBufferRef)
    (inDesc : RGBufferViewDesc) : RGBufferViewRef × RGBuilder :=
  (some self.views.length,
    { self with views := self.views ++ [RGResourceView.bufferView (RGBufferView.new inBuffer inDesc)] })

/-- C++ `RGBuilder::CreateTextureView`; `indeterminate` is what the uninitialized member `texture`
of the new view holds. -/
def RGBuilder.CreateTextureView (self : RGBuilder) (indeterminate : RGTextureRef)
    (inTexture : RGTextureRef) (inDesc : RGTextureViewDesc) : RGTextureViewRef × RGBuilder :=
  (some self.views.length,
    { self with
      views := self.views ++
        [RGResourceView.textureView (RGTextureView.new indeterminate inTexture inDesc)] })

/-- C++ `RGBuilder::ImportBuffer`. -/
def RGBuilder.ImportBuffer (self : RGBuilder) (inBuffer : RHI.Buffer) : RGBufferRef × RGBuilder :=
  (some self.resources.length,
    { self with resources := self.resources ++ [RGResource.buffer (RGBuffer.newImported inBuffer)] })

/-- C++ `RGBuilder::ImportTexture`. -/
def RGBuilder.ImportTexture (self : RGBuilder) (inTexture : RHI.Texture) :
    RGTextureRef × RGBuilder :=
  (some self.resources.length,
    { self with
      resources := self.resources ++ [RGResource.texture (RGTexture.newImported inTexture)] })

/-- C++ `RGBuilder::AllocateBindGroup`. -/
def RGBuilder.AllocateBindGroup (self : RGBuilder) (inDesc : RGBindGroupDesc) :
    RGBindGroupRef × RGBuilder :=
  (some self.bindGroups.length,
    { self with bindGroups := self.bindGroups ++ [RGBindGroup.new inDesc] })

/-- C++ `RGBuilder::AddCopyPass`. -/
def RGBuilder.AddCopyPass (self : RGBuilder) (inName : String) (inPassDesc : RGCopyPassDesc)
    (inFunc : Nat) (inAsyncCopy : Bool) : RGBuilder :=
  { self with
    passes := self.passes ++ [RGPass.copy (RGCopyPass.new inName inPassDesc inFunc inAsyncCopy)] }

/-- C++ `RGBuilder::AddComputePass`. -/
def RGBuilder.AddComputePass (self : RGBuilder) (inName : String)
    (inBindGroups : List RGBindGroupRef) (inFunc : Nat) (inAsyncCompute : Bool) : RGBuilder :=
  { self with
    passes := self.passes ++
      [RGPass.compute (RGComputePass.new inName inBindGroups inFunc inAsyncCompute)] }

/-- C++ `RGBuilder::AddRasterPass`. -/
def RGBuilder.AddRasterPass (self : RGBuilder) (inName : String) (inPassDesc : RGRasterPassDesc)
    (inBindGroupds : List RGBindGroupRef) (inFunc : Nat) : RGBuilder :=
  { self with
    passes := self.passes ++
      [RGPass.raster (RGRasterPass.new inName inPassDesc inBindGroupds inFunc)] }

/-- C++ `resource->MaskAsUsed()` for the resource an `RGResourceRef` of this builder points to. -/
def RGBuilder.MaskAsUsed (self : RGBuilder) (resource : Nat) : RGBuilder :=
  { self with resources := updateAt RGResource.MaskAsUsed self.resources resource }

/-! ## Passes: compilation -/

/-- C++ `reads.emplace(resource)` on a set: the element is added unless it is already there. -/
def setEmplace (set : List Nat) (x : Nat) : List Nat :=
  if x ∈ set then set else set ++ [x]

/-- The graph buffer view a `RGBufferViewRef` points to, if it points to one. -/
def RGBuilder.bufferView? (g : RGBuilder) (ref : RGBufferViewRef) : Option RGBufferView :=
  match ref with
  | none => none
  | some i =>
    match g.views[i]? with
    | some (RGResourceView.bufferView v) => some v
    | _ => none

/-- The graph texture view a `RGTextureViewRef` points to, if it points to one. -/
def RGBuilder.textureView? (g : RGBuilder) (ref : RGTextureViewRef) : Option RGTextureView :=
  match ref with
  | none => none
  | some i =>
    match g.views[i]? with
    | some (RGResourceView.textureView v) => some v
    | _ => none

/-- The bind group a `RGBindGroupRef` points to, if it points to one. -/
def RGBuilder.bindGroup? (g : RGBuilder) (ref : RGBindGroupRef) : Option RGBindGroup :=
  match ref with
  | none => none
  | some i => g.bindGroups[i]?

/-- The resource a `RGResourceRef` points to, if it points to one. -/
def RGBuilder.resource? (g : RGBuilder) (ref : RGResourceRef) : Option RGResource :=
  match ref with
  | none => none
  | some i => g.resources[i]?

/-- C++ `RGPass::SaveBufferTransitionInfo`. The map `transitionInfos.buffer` is kept as the list
of its entries, and `emplace` puts the new entry at the end of the list. The container is
declared in `RenderGraph.h`; the order in which it is walked need not be the order of insertion,
so what is stated of a pass is meant up to the order of the entries of one map. -/
def RGPassBase.SaveBufferTransitionInfo (self : RGPassBase) (buffer : RGBufferRef)
    (state : BufferState) : Outcome RGPassBase :=
  match buffer with
  | none => Assert false self
  | some b =>
    let self :=
      if Internal.IsBufferStateRead state then { self with reads := setEmplace self.reads b }
      else self
    match self.transitionInfos.buffer.lookup b with
    | none =>
      .ok { self with
            transitionInfos :=
              { self.transitionInfos with buffer := self.transitionInfos.buffer ++ [(b, state)] } }
    | some recorded =>
      if Internal.IsBufferStateWrite state then QuickFail self
      else if Internal.IsBufferStateRead state then
        Assert (Internal.IsBufferStateWrite recorded) self
      else QuickFail self

/-- C++ `RGPass::SaveTextureTransitionInfo`. The map `transitionInfos.texture` is kept as the
list of its entries, as the buffer map is. -/
def RGPassBase.SaveTextureTransitionInfo (self : RGPassBase) (texture : RGTextureRef)
    (state : TextureState) : Outcome RGPassBase :=
  match texture with
  | none => Assert false self
  | some t =>
    let self :=
      if Internal.IsTextureStateRead state then { self with reads := setEmplace self.reads t }
      else self
    match self.transitionInfos.texture.lookup t with
    | none =>
      .ok { self with
            transitionInfos :=
              { self.transitionInfos with texture := self.transitionInfos.texture ++ [(t, state)] } }
    | some recorded =>
      if Internal.IsTextureStateWrite state then QuickFail self
      else if Internal.IsTextureStateRead state then
        Assert (Internal.IsTextureStateWrite recorded) self
      else QuickFail self

/-- Body of the "writes first" loop of `RGPass::CompileForBindGroups` for one item. -/
def RGPassBase.compileWriteItem (g : RGBuilder) (bindItem : String × RGBindItemDesc)
    (self : RGPassBase) : Outcome RGPassBase :=
  let itemDesc := bindItem.2
  if itemDesc.type = BindingType.storageBuffer then
    match g.bufferView? itemDesc.bufferView with
    | none => .undefinedBehaviour
    | some view => self.SaveBufferTransitionInfo view.GetBuffer BufferState.storage
  else if itemDesc.type = BindingType.storageTexture then
    match g.textureView? itemDesc.textureView with
    | none => .undefinedBehaviour
    | some view => self.SaveTextureTransitionInfo view.GetTexture TextureState.storage
  else .ok self

/-- Body of the "reads" loop of `RGPass::CompileForBindGroups` for one item. -/
def RGPassBase.compileReadItem (g : RGBuilder) (bindItem : String × RGBindItemDesc)
    (self : RGPassBase) : Outcome RGPassBase :=
  let itemDesc := bindItem.2
  if itemDesc.type = BindingType.uniformBuffer then
    match g.bufferView? itemDesc.bufferView with
    | none => .undefinedBehaviour
    | some view => self.SaveBufferTransitionInfo view.GetBuffer BufferState.shaderReadOnly
  else if itemDesc.type = BindingType.texture then
    match g.textureView? itemDesc.textureView with
    | none => .undefinedBehaviour
    | some view => self.SaveTextureTransitionInfo view.GetTexture TextureState.shaderReadOnly
  else .ok self

/-- Body of the outer loop of `RGPass::CompileForBindGroups` for one bind group. -/
def RGPassBase.compileBindGroup (g : RGBuilder) (bindGroup : RGBindGroupRef)
    (self : RGPassBase) : Outcome RGPassBase :=
  match g.bindGroup? bindGroup with
  | none => .undefinedBehaviour
  | some bg =>
    let bindItems := bg.GetDesc.items
    (forEach (RGPassBase.compileWriteItem g) bindItems self).andThen
      (forEach (RGPassBase.compileReadItem g) bindItems)

/-- C++ `RGPass::CompileForBindGroups`; `g` is the builder whose objects the pointers designate. -/
def RGPassBase.CompileForBindGroups (self : RGPassBase) (g : RGBuilder)
    (bindGroups : List RGBindGroupRef) : Outcome RGPassBase :=
  forEach (RGPassBase.compileBindGroup g) bindGroups self

/-- Body of the two loops of `RGCopyPass::CompileForCopyPassDesc` for one resource. -/
def RGPassBase.compileCopyResource (g : RGBuilder) (bufferState : BufferState)
    (textureState : TextureState) (resource : RGResourceRef) (self : RGPassBase) :
    Outcome RGPassBase :=
  match g.resource? resource with
  | none => .undefinedBehaviour
  | some r =>
    if r.Type = RGResType.buffer then self.SaveBufferTransitionInfo resource bufferState
    else if r.Type = RGResType.texture then self.SaveTextureTransitionInfo resource textureState
    else QuickFail self

/-- C++ `RGCopyPass::CompileForCopyPassDesc`. -/
def RGCopyPass.CompileForCopyPassDesc (self : RGCopyPass) (g : RGBuilder) : Outcome RGCopyPass :=
  ((forEach (RGPassBase.compileCopyResource g BufferState.copyDst TextureState.copyDst)
      self.passDesc.copyDsts self.toRGPassBase).andThen
    (forEach (RGPassBase.compileCopyResource g BufferState.copySrc TextureState.copySrc)
      self.passDesc.copySrcs)).lift fun base => { self with toRGPassBase := base }

/-- C++ `RGCopyPass::Compile`. -/
def RGCopyPass.Compile (self : RGCopyPass) (g : RGBuilder) (outAsyncInfo : RGAsyncInfo) :
    Outcome (RGCopyPass × RGAsyncInfo) :=
  ((self.CompileForCopyPassDesc g).lift fun self => (self, outAsyncInfo)).andThen
    fun (self, outAsyncInfo) =>
      .ok (self, { outAsyncInfo with hasAsyncCopy := outAsyncInfo.hasAsyncCopy || self.asyncCopy })

/-- C++ `RGComputePass::Compile`. -/
def RGComputePass.Compile (self : RGComputePass) (g : RGBuilder) (outAsyncInfo : RGAsyncInfo) :
    Outcome (RGComputePass × RGAsyncInfo) :=
  ((self.toRGPassBase.CompileForBindGroups g self.bindGroups).lift
      fun base => ({ self with toRGPassBase := base }, outAsyncInfo)).andThen
    fun (self, outAsyncInfo) =>
      .ok (self,
        { outAsyncInfo with hasAsyncCompute := outAsyncInfo.hasAsyncCompute || self.asyncCompute })

/-- Body of the loop of `RGRasterPass::CompileForRasterPassDesc` for one color attachment. -/
def RGPassBase.compileColorAttachment (g : RGBuilder) (colorAttachment : RGColorAttachment)
    (self : RGPassBase) : Outcome RGPassBase :=
  match g.textureView? colorAttachment.view with
  | none => .undefinedBehaviour
  | some view => self.SaveTextureTransitionInfo view.GetTexture TextureState.renderTarget

/-- C++ `RGRasterPass::CompileForRasterPassDesc`. -/
def RGRasterPass.CompileForRasterPassDesc (self : RGRasterPass) (g : RGBuilder) :
    Outcome RGRasterPass :=
  ((forEach (RGPassBase.compileColorAttachment g) self.passDesc.colorAttachments
      self.toRGPassBase).andThen fun base =>
    match self.passDesc.depthStencilAttachment with
    | some depthStencilAttachment =>
      match g.textureView? depthStencilAttachment.view with
      | none => .undefinedBehaviour
      | some view => base.SaveTextureTransitionInfo view.GetTexture TextureState.depthStencilWrite
    | none => .ok base).lift fun base => { self with toRGPassBase := base }

/-- C++ `RGRasterPass::Compile`. -/
def RGRasterPass.Compile (self : RGRasterPass) (g : RGBuilder) (outAsyncInfo : RGAsyncInfo) :
    Outcome (RGRasterPass × RGAsyncInfo) :=
  ((self.CompileForRasterPassDesc g).andThen fun self =>
    (self.toRGPassBase.CompileForBindGroups g self.bindGroups).lift
      fun base => { self with toRGPassBase := base }).lift fun self => (self, outAsyncInfo)

/-- Virtual call `Compile(outAsyncInfo)`. -/
def RGPass.Compile (self : RGPass) (g : RGBuilder) (outAsyncInfo : RGAsyncInfo) :
    Outcome (RGPass × RGAsyncInfo) :=
  match self with
  | .copy p => (p.Compile g outAsyncInfo).lift fun (p, a) => (RGPass.copy p, a)
  | .compute p => (p.Compile g outAsyncInfo).lift fun (p, a) => (RGPass.compute p, a)
  | .raster p => (p.Compile g outAsyncInfo).lift fun (p, a) => (RGPass.raster p, a)

/-! ## Passes: execution -/

/-- C++ `read->IncRefCountAndUpdateResource(device)` for the resource at position `read`; a call that
returns is entered in the ghost log. -/
def RGBuilder.incRefAt (read : Nat) (w : RGBuilder) : Outcome RGBuilder :=
  match w.resources[read]? with
  | none => .undefinedBehaviour
  | some r =>
    match r.IncRefCountAndUpdateResource w.device.pools with
    | .ok (r', pools) =>
      .ok { w with
            resources := w.resources.set read r'
            device := { w.device with pools := pools }
            resourceEvents := w.resourceEvents ++ [{ resource := read, call := .incRef, after := r' }]
            timeline := w.timeline ++ [Step.incRef read] }
    | .fatal (r', pools) =>
      .fatal { w with
               resources := w.resources.set read r'
               device := { w.device with pools := pools } }
    | .undefinedBehaviour => .undefinedBehaviour

/-- C++ `read->DecRefAndUpdateResource()` for the resource at position `read`; a call that returns is
entered in the ghost log. -/
def RGBuilder.decRefAt (read : Nat) (w : RGBuilder) : Outcome RGBuilder :=
  match w.resources[read]? with
  | none => .undefinedBehaviour
  | some r =>
    match r.DecRefAndUpdateResource w.device.pools with
    | .ok (r', pools) =>
      .ok { w with
            resources := w.resources.set read r'
            device := { w.device with pools := pools }
            resourceEvents := w.resourceEvents ++ [{ resource := read, call := .decRef, after := r' }]
            timeline := w.timeline ++ [Step.decRef read] }
    | .fatal (r', pools) =>
      .fatal { w with
               resources := w.resources.set read r'
               device := { w.device with pools := pools } }
    | .undefinedBehaviour => .undefinedBehaviour

/-- C++ `RGPass::DevirtualizeResources`. -/
def RGPassBase.DevirtualizeResources (self : RGPassBase) (w : RGBuilder) : Outcome RGBuilder :=
  forEach RGBuilder.incRefAt self.reads w

/-- C++ `RGPass::FinalizeResources`. -/
def RGPassBase.FinalizeResources (self : RGPassBase) (w : RGBuilder) : Outcome RGBuilder :=
  forEach RGBuilder.decRefAt self.reads w

/-- Store what has been recorded into the command buffer created `cmdBuffer`-th. -/
def RGBuilder.setCommands (w : RGBuilder) (cmdBuffer : Nat) (commands : CommandEncoder) :
    RGBuilder :=
  { w with device := { w.device with commandBuffers := w.device.commandBuffers.set cmdBuffer commands } }

/-- Record one command into the command buffer created `cmdBuffer`-th. -/
def RGBuilder.record (cmdBuffer : Nat) (command : Command) (w : RGBuilder) : Outcome RGBuilder :=
  match w.device.commandBuffers[cmdBuffer]? with
  | none => .undefinedBehaviour
  | some commands =>
    .ok { w.setCommands cmdBuffer (commands ++ [command]) with
          timeline := w.timeline ++ [Step.command cmdBuffer command] }

/-- Body of the first loop of `RGPass::TransitionResources`:
`bufferTransition.first->Transition(*commandEncoder, bufferTransition.second)`. -/
def RGBuilder.transitionBufferAt (cmdBuffer : Nat) (bufferTransition : Nat × BufferState)
    (w : RGBuilder) : Outcome RGBuilder :=
  match w.resources[bufferTransition.1]?, w.device.commandBuffers[cmdBuffer]? with
  | some (RGResource.buffer b), some commandEncoder =>
    match b.Transition commandEncoder bufferTransition.2 with
    | .ok (b', commands) =>
      .ok { w.setCommands cmdBuffer commands with
            resources := w.resources.set bufferTransition.1 (RGResource.buffer b')
            resourceEvents := w.resourceEvents ++
              [{ resource := bufferTransition.1, call := .transition, after := RGResource.buffer b' }]
            timeline := w.timeline ++ [Step.barrier cmdBuffer bufferTransition.1] }
    | .fatal (b', commands) =>
      .fatal { w.setCommands cmdBuffer commands with
               resources := w.resources.set bufferTransition.1 (RGResource.buffer b') }
    | .undefinedBehaviour => .undefinedBehaviour
  | _, _ => .undefinedBehaviour

/-- Body of the second loop of `RGPass::TransitionResources`. -/
def RGBuilder.transitionTextureAt (cmdBuffer : Nat) (textureTransition : Nat × TextureState)
    (w : RGBuilder) : Outcome RGBuilder :=
  match w.resources[textureTransition.1]?, w.device.commandBuffers[cmdBuffer]? with
  | some (RGResource.texture t), some commandEncoder =>
    match t.Transition commandEncoder textureTransition.2 with
    | .ok (t', commands) =>
      .ok { w.setCommands cmdBuffer commands with
            resources := w.resources.set textureTransition.1 (RGResource.texture t')
            resourceEvents := w.resourceEvents ++
              [{ resource := textureTransition.1, call := .transition, after := RGResource.texture t' }]
            timeline := w.timeline ++ [Step.barrier cmdBuffer textureTransition.1] }
    | .fatal (t', commands) =>
      .fatal { w.setCommands cmdBuffer commands with
               resources := w.resources.set textureTransition.1 (RGResource.texture t') }
    | .undefinedBehaviour => .undefinedBehaviour
  | _, _ => .undefinedBehaviour

/-- C++ `RGPass::TransitionResources`; the encoder records into the command buffer created
`cmdBuffer`-th. Each map is walked in the order of its list. -/
def RGPassBase.TransitionResources (self : RGPassBase) (cmdBuffer : Nat) (w : RGBuilder) :
    Outcome RGBuilder :=
  (forEach (RGBuilder.transitionBufferAt cmdBuffer) self.transitionInfos.buffer w).andThen
    (forEach (RGBuilder.transitionTextureAt cmdBuffer) self.transitionInfos.texture)

namespace Internal

/-- C++ `CommandBuffersGuard::Context`: the command buffer of each role, by creation rank. -/
structure Context where
  mainCmdBuffer : Nat
  asyncCopyCmdBuffer : Nat
  asyncComputeCmdBuffer : Nat
  deriving DecidableEq, Repr

/-- Class `CommandBuffersGuard`. -/
structure CommandBuffersGuard where
  fencePack : RGFencePack
  useAsyncCopy : Bool
  useAsyncCompute : Bool
  mainCmdBuffer : Nat
  asyncCopyCmdBuffer : Option Nat
  asyncComputeCmdBuffer : Option Nat
  deriving DecidableEq, Repr

end Internal

/-- C++ `device.CreateCommandBuffer()`: the rank of the new, empty command buffer and the device
afterwards. -/
def Device.CreateCommandBuffer (device : Device) : Nat × Device :=
  (device.commandBuffers.length, { device with commandBuffers := device.commandBuffers ++ [[]] })

/-- C++ `device.GetQueueNum(type)`; the sources never ask for the graphics queue count. -/
def Device.GetQueueNum (device : Device) (type : QueueType) : Nat :=
  match type with
  | .transfer => device.transferQueueNum
  | .compute => device.computeQueueNum
  | .graphics => 1

/-- The constructor `CommandBuffersGuard::CommandBuffersGuard` up to, and without, the call
`inAction(context)`: the guard, the context handed to the action, and the device afterwards. -/
def Internal.CommandBuffersGuard.new (device : Device) (inAsyncInfo : RGAsyncInfo)
    (inFencePack : RGFencePack) : Internal.CommandBuffersGuard × Internal.Context × Device :=
  let allowAsyncCopy := decide (device.GetQueueNum QueueType.transfer > 1)
  let allowAsyncCompute := decide (device.GetQueueNum QueueType.compute > 1)
  let useAsyncCopy := inAsyncInfo.hasAsyncCopy && allowAsyncCopy
  let useAsyncCompute := inAsyncInfo.hasAsyncCompute && allowAsyncCompute
  let (mainCmdBuffer, device) := device.CreateCommandBuffer
  let (asyncCopyCmdBuffer, device) :=
    if useAsyncCopy then (some device.CreateCommandBuffer.1, device.CreateCommandBuffer.2)
    else (none, device)
  let (asyncComputeCmdBuffer, device) :=
    if useAsyncCompute then (some device.CreateCommandBuffer.1, device.CreateCommandBuffer.2)
    else (none, device)
  ({ fencePack := inFencePack, useAsyncCopy := useAsyncCopy, useAsyncCompute := useAsyncCompute,
     mainCmdBuffer := mainCmdBuffer, asyncCopyCmdBuffer := asyncCopyCmdBuffer,
     asyncComputeCmdBuffer := asyncComputeCmdBuffer },
   { mainCmdBuffer := mainCmdBuffer
     asyncCopyCmdBuffer := if useAsyncCopy then asyncCopyCmdBuffer.getD mainCmdBuffer else mainCmdBuffer
     asyncComputeCmdBuffer :=
       if useAsyncCompute then asyncComputeCmdBuffer.getD mainCmdBuffer else mainCmdBuffer },
   device)

/-- C++ `if (fence) { fence->Reset(); }`. -/
def Device.resetFence (device : Device) (fence : Option Nat) : Device :=
  match fence with
  | some f => { device with queueEvents := device.queueEvents ++ [QueueEvent.fenceReset f] }
  | none => device

/-- C++ `device.GetQueue(queue, index)->Submit(cmdBuffer, fence)`. -/
def Device.submit (device : Device) (queue : QueueType) (index : Nat) (cmdBuffer : Nat)
    (fence : Option Nat) : Device :=
  { device with queueEvents := device.queueEvents ++ [QueueEvent.submit queue index cmdBuffer fence] }

/-- The destructor `CommandBuffersGuard::~CommandBuffersGuard`. -/
def Internal.CommandBuffersGuard.destroy (self : Internal.CommandBuffersGuard) (device : Device) :
    Device :=
  let device := device.resetFence self.fencePack.mainFence
  let device := device.resetFence self.fencePack.asyncCopyFence
  let device := device.resetFence self.fencePack.asyncComputeFence
  let device := device.submit QueueType.graphics 0 self.mainCmdBuffer self.fencePack.mainFence
  let device :=
    if self.useAsyncCopy then
      device.submit QueueType.transfer 1 (self.asyncCopyCmdBuffer.getD self.mainCmdBuffer)
        self.fencePack.asyncCopyFence
    else device
  if self.useAsyncCompute then
    device.submit QueueType.compute 1 (self.asyncComputeCmdBuffer.getD self.mainCmdBuffer)
      self.fencePack.asyncComputeFence
  else device

/-- The scope every pass's `Execute` shares: `cmdBuffer->Begin()`, the begin of the native pass,
`TransitionResources`, one call of the recording callback, `EndPass()`, `End()`. -/
def RGPassBase.executeScope (self : RGPassBase) (cmdBuffer : Nat) (beginPass : Command)
    (func : Nat) (w : RGBuilder) : Outcome RGBuilder :=
  (w.record cmdBuffer Command.begin).andThen fun w =>
  (w.record cmdBuffer beginPass).andThen fun w =>
  (self.TransitionResources cmdBuffer w).andThen fun w =>
  (w.record cmdBuffer (Command.callback func)).andThen fun w =>
  (w.record cmdBuffer Command.endPass).andThen fun w =>
  w.record cmdBuffer Command.endEncoding

/-- C++ `RGCopyPass::Execute`. -/
def RGCopyPass.Execute (self : RGCopyPass) (cmdBuffers : Internal.Context) (w : RGBuilder) :
    Outcome RGBuilder :=
  let cmdBuffer := if self.asyncCopy then cmdBuffers.asyncCopyCmdBuffer else cmdBuffers.mainCmdBuffer
  self.toRGPassBase.executeScope cmdBuffer Command.beginCopyPass self.func w

/-- C++ `RGComputePass::Execute`. -/
def RGComputePass.Execute (self : RGComputePass) (cmdBuffers : Internal.Context) (w : RGBuilder) :
    Outcome RGBuilder :=
  let cmdBuffer :=
    if self.asyncCompute then cmdBuffers.asyncComputeCmdBuffer else cmdBuffers.mainCmdBuffer
  self.toRGPassBase.executeScope cmdBuffer Command.beginComputePass self.func w

/-- C++ `Internal::GetRasterPassColorAttachments` and `Internal::GetRasterPassDepthStencilAttachment`
dereference the view of every attachment: whether each of them designates a texture view. -/
def Internal.rasterAttachmentsDesignateViews (g : RGBuilder) (desc : RGRasterPassDesc) : Bool :=
  desc.colorAttachments.all (fun a => (g.textureView? a.view).isSome) &&
    match desc.depthStencilAttachment with
    | some a => (g.textureView? a.view).isSome
    | none => true

/-- C++ `RGRasterPass::Execute`. Reading the attachments dereferences their views, and when one of
them designates no view the whole run is undefined, whatever was recorded before. -/
def RGRasterPass.Execute (self : RGRasterPass) (cmdBuffers : Internal.Context) (w : RGBuilder) :
    Outcome RGBuilder :=
  let cmdBuffer := cmdBuffers.mainCmdBuffer
  if Internal.rasterAttachmentsDesignateViews w self.passDesc then
    self.toRGPassBase.executeScope cmdBuffer
      (Command.beginGraphicsPass self.passDesc.colorAttachments.length
        self.passDesc.depthStencilAttachment.isSome) self.func w
  else .undefinedBehaviour

/-- Virtual call `Execute(device, cmdBuffers)`. -/
def RGPass.Execute (self : RGPass) (cmdBuffers : Internal.Context) (w : RGBuilder) :
    Outcome RGBuilder :=
  match self with
  | .copy p => p.Execute cmdBuffers w
  | .compute p => p.Execute cmdBuffers w
  | .raster p => p.Execute cmdBuffers w

/-! ## Builder: compile and execute -/

/-- Body of the first loop of `RGBuilder::Compile`: `pass->Compile(asyncInfo)` for the pass at
position `i`. -/
def RGBuilder.compilePassAt (i : Nat) (w : RGBuilder) : Outcome RGBuilder :=
  match w.passes[i]? with
  | none => .undefinedBehaviour
  | some pass =>
    (pass.Compile w w.asyncInfo).lift fun (pass, asyncInfo) =>
      { w with passes := w.passes.set i pass, asyncInfo := asyncInfo }

/-- Body of the third loop of `RGBuilder::Compile` for the resource at position `i`. -/
def RGBuilder.devirtualizeIfForceUsed (i : Nat) (w : RGBuilder) : Outcome RGBuilder :=
  match w.resources[i]? with
  | none => .undefinedBehaviour
  | some resource => if resource.IsForceUsed then w.incRefAt i else .ok w

/-- C++ `RGBuilder::Compile`. -/
def RGBuilder.Compile (self : RGBuilder) : Outcome RGBuilder :=
  (forEach RGBuilder.compilePassAt (List.range self.passes.length) self).andThen fun self =>
  (forEach (fun pass w => pass.base.DevirtualizeResources w) self.passes self).andThen fun self =>
  forEach RGBuilder.devirtualizeIfForceUsed (List.range self.resources.length) self

/-- Body of the loop of `RGBuilder::ExecuteInternal` for one pass. -/
def RGBuilder.executePass (context : Internal.Context) (pass : RGPass) (w : RGBuilder) :
    Outcome RGBuilder :=
  (pass.Execute context w).andThen pass.base.FinalizeResources

/-- C++ `RGBuilder::ExecuteInternal`: the guard is constructed, its constructor runs the action (the
loop over the passes), and the guard is destroyed when the action has returned. -/
def RGBuilder.ExecuteInternal (self : RGBuilder) (inFencePack : RGFencePack) : Outcome RGBuilder :=
  let (guard, context, device) := Internal.CommandBuffersGuard.new self.device self.asyncInfo inFencePack
  let self := { self with device := device }
  (forEach (RGBuilder.executePass context) self.passes self).andThen fun self =>
    .ok { self with device := guard.destroy self.device }

/-- C++ `RGBuilder::Execute`. -/
def RGBuilder.Execute (self : RGBuilder) (inFencePack : RGFencePack) : Outcome RGBuilder :=
  (Assert (!self.executed) self).andThen fun self =>
  self.Compile.andThen fun self =>
  (self.ExecuteInternal inFencePack).andThen fun self =>
  .ok { self with executed := true }

/-- A created buffer after its first increment: devirtualized, refCount 1, holding the pooled
object 0. -/
def sampleLiveBuffer : RGBuffer :=
  { RGBuffer.new sampleBufferDesc with devirtualized := true, refCount := 1, pooledBuffer := some 0 }

/-- A created texture after its first increment. -/
def sampleLiveTexture : RGTexture :=
  { RGTexture.new sampleTextureDesc with devirtualized := true, refCount := 1, pooledTexture := some 0 }

/-- The pools after `sampleLiveBuffer` was given the pooled buffer 0. -/
def samplePoolsOneBuffer : Pools :=
  { bufferPool := { pooledResources := [{ desc := sampleBufferDesc, holders := 1 }],
                    allocateCalls := [sampleBufferDesc] }
    texturePool := { pooledResources := [], allocateCalls := [] } }

/-! ## Reading the ghost log -/

/-- The calls of a log in order: on which resource, which call. -/
def calls (events : List ResourceEvent) : List (Nat × ResourceCall) :=
  events.map fun e => (e.resource, e.call)

/-- How many times `call` was made on resource `r` according to a log. -/
def callCount (events : List ResourceEvent) (call : ResourceCall) (r : Nat) : Nat :=
  (calls events).count (r, call)

/-- Increments minus decrements made on resource `r` according to a log. -/
def netCount (events : List ResourceEvent) (r : Nat) : Int :=
  (callCount events ResourceCall.incRef r : Int) - (callCount events ResourceCall.decRef r : Int)

/-- Number of passes of the builder that have resource `r` in their `reads` set. -/
def RGBuilder.readerCount (g : RGBuilder) (r : Nat) : Nat :=
  g.passes.countP fun pass => decide (r ∈ pass.base.reads)

/-- A builder on which `Execute` has not been called: no call has been made on a resource
(every resource has the refCount 0 and the cleared devirtualized flag its constructor gave it;
`MaskAsUsed` may have been called), and every pass is as its constructor left it. -/
def RGBuilder.Fresh (g : RGBuilder) : Prop :=
  g.executed = false ∧ g.resourceEvents = [] ∧
  (∀ x ∈ g.resources, x.base.refCount = 0 ∧ x.base.devirtualized = false) ∧
  (∀ pass ∈ g.passes,
    pass.base.reads = [] ∧ pass.base.transitionInfos = { buffer := [], texture := [] })

/-- Every entry of the log shows the resource as the calls up to it leave it: the refCount is
the number of increments minus the number of decrements so far, the resource is devirtualized
exactly when that is positive, and a transition was made on a devirtualized resource. -/
def LogConsistent (events : List ResourceEvent) : Prop :=
  ∀ P e S, events = P ++ e :: S →
    e.after.base.refCount = netCount (P ++ [e]) e.resource ∧
    (e.after.base.devirtualized = true ↔ 0 < e.after.base.refCount) ∧
    (e.call = ResourceCall.transition → e.after.base.devirtualized = true)

/-- The log and the resources of the builder agree. -/
def RGBuilder.Consistent (w : RGBuilder) : Prop :=
  LogConsistent w.resourceEvents ∧
  ∀ r x, w.resources[r]? = some x →
    x.base.refCount = netCount w.resourceEvents r ∧
    (x.base.devirtualized = true ↔ 0 < x.base.refCount)

/-- The builder `w'` is reached from `w` by making exactly the calls `ks` on resources, in this
order: the passes and the force-used marks are untouched, the log grows by `ks`, and agreement of
log and resources is kept. -/
def Run (w w' : RGBuilder) (ks : List (Nat × ResourceCall)) : Prop :=
  w'.passes = w.passes ∧
  w'.resources.map (fun x => x.base.forceUsed) = w.resources.map (fun x => x.base.forceUsed) ∧
  (∃ evs, w'.resourceEvents = w.resourceEvents ++ evs ∧ calls evs = ks) ∧
  (w.Consistent → w'.Consistent)

/-- The increments `DevirtualizeResources` of a pass makes, in order. -/
def RGPassBase.incCalls (self : RGPassBase) : List (Nat × ResourceCall) :=
  self.reads.map fun r => (r, ResourceCall.incRef)

/-- The decrements `FinalizeResources` of a pass makes, in order. -/
def RGPassBase.decCalls (self : RGPassBase) : List (Nat × ResourceCall) :=
  self.reads.map fun r => (r, ResourceCall.decRef)

/-- The transitions `TransitionResources` of a pass makes, in order. -/
def RGPassBase.transitionCalls (self : RGPassBase) : List (Nat × ResourceCall) :=
  self.transitionInfos.buffer.map (fun t => (t.1, ResourceCall.transition)) ++
    self.transitionInfos.texture.map (fun t => (t.1, ResourceCall.transition))

/-- Whether the resource at position `i` is marked force-used. -/
def RGBuilder.forceUsedAt (w : RGBuilder) (i : Nat) : Bool :=
  match w.resources[i]? with
  | some x => x.IsForceUsed
  | none => false

/-- A device with one queue of each class, nothing pooled and nothing recorded. -/
def sampleDevice : Device :=
  { pools := emptyPools, transferQueueNum := 1, computeQueueNum := 1, commandBuffers := [],
    queueEvents := [] }

/-- Bind group descriptor: buffer view 0 as uniform buffer "in", buffer view 1 as storage buffer
"out". -/
def sampleReadWriteBindings : RGBindGroupDesc :=
  { layout := none
    items :=
      [("in", { type := BindingType.uniformBuffer, sampler := none, bufferView := some 0,
                textureView := none }),
       ("out", { type := BindingType.storageBuffer, sampler := none, bufferView := some 1,
                 textureView := none })] }

/-- Bind group descriptor: buffer view 0 as uniform buffer "in". -/
def sampleReadBindings : RGBindGroupDesc :=
  { layout := none
    items :=
      [("in", { type := BindingType.uniformBuffer, sampler := none, bufferView := some 0,
                textureView := none })] }

/-- A graph of two buffers and two compute passes: the first pass reads buffer 0 as a uniform
buffer and writes buffer 1 as a storage buffer, the second pass reads buffer 0 again. No pass
reads buffer 1. -/
def sampleGraphUnmarked : RGBuilder :=
  let g := RGBuilder.new sampleDevice
  let (a, g) := g.CreateBuffer sampleBufferDesc
  let (b, g) := g.CreateBuffer sampleBufferDesc
  let (_, g) := g.CreateBufferView a { offset := 0, size := 4096 }
  let (_, g) := g.CreateBufferView b { offset := 0, size := 4096 }
  let (bg0, g) := g.AllocateBindGroup sampleReadWriteBindings
  let (bg1, g) := g.AllocateBindGroup sampleReadBindings
  let g := g.AddComputePass "first" [bg0] 1 false
  g.AddComputePass "second" [bg1] 2 false

/-- The same graph with `MaskAsUsed` called on buffer 1, the buffer no pass reads. -/
def sampleGraph : RGBuilder :=
  sampleGraphUnmarked.MaskAsUsed 1

/-- The builder an outcome carries, `fallback` when it carries none. -/
def Outcome.stateD {σ : Type} (o : Outcome σ) (fallback : σ) : σ :=
  match o with
  | .ok s => s
  | .fatal s => s
  | .undefinedBehaviour => fallback

/-- The sample graph after `Compile`. -/
def sampleCompiled : RGBuilder :=
  sampleGraph.Compile.stateD sampleGraph

/-- The unmarked sample graph after `Compile`. -/
def sampleCompiledUnmarked : RGBuilder :=
  sampleGraphUnmarked.Compile.stateD sampleGraphUnmarked

/-- No fence is supplied. -/
def noFences : RGFencePack :=
  RGFencePack.new none none none

instance (g : RGBuilder) : Decidable g.Fresh := by
  unfold RGBuilder.Fresh
  infer_instance

/-! ## Reading bind groups -/

/-- The item has binding type `type` and its buffer view is a buffer view of the graph whose
`GetBuffer()` is the buffer at position `b`. -/
def RGBuilder.bindsBuffer (g : RGBuilder) (item : RGBindItemDesc) (type : BindingType) (b : Nat) :
    Prop :=
  item.type = type ∧
    (g.bufferView? item.bufferView).map RGBufferView.GetBuffer = some (some b)

/-- The item has binding type `type` and its texture view is a texture view of the graph whose
`GetTexture()` is the texture at position `t`. -/
def RGBuilder.bindsTexture (g : RGBuilder) (item : RGBindItemDesc) (type : BindingType)
    (t : Nat) : Prop :=
  item.type = type ∧
    (g.textureView? item.textureView).map RGTextureView.GetTexture = some (some t)

instance (g : RGBuilder) (item : RGBindItemDesc) (type : BindingType) (b : Nat) :
    Decidable (g.bindsBuffer item type b) := by
  unfold RGBuilder.bindsBuffer
  infer_instance

instance (g : RGBuilder) (item : RGBindItemDesc) (type : BindingType) (t : Nat) :
    Decidable (g.bindsTexture item type t) := by
  unfold RGBuilder.bindsTexture
  infer_instance

/-- The items of the bind group a `RGBindGroupRef` points to, in iteration order, if it points
to one. -/
def RGBuilder.groupItems? (g : RGBuilder) (bindGroup : RGBindGroupRef) :
    Option (List (String × RGBindItemDesc)) :=
  (g.bindGroup? bindGroup).map fun group => group.GetDesc.items

/-- Bind group descriptor: buffer view 0 as storage buffer "out". -/
def sampleWriteBindings : RGBindGroupDesc :=
  { layout := none
    items :=
      [("out", { type := BindingType.storageBuffer, sampler := none, bufferView := some 0,
                 textureView := none })] }

/-- Bind group descriptor: buffer view 0 as storage buffer "out" and as uniform buffer "in". -/
def sampleWriteReadBindings : RGBindGroupDesc :=
  { layout := none
    items :=
      [("in", { type := BindingType.uniformBuffer, sampler := none, bufferView := some 0,
                textureView := none }),
       ("out", { type := BindingType.storageBuffer, sampler := none, bufferView := some 0,
                 textureView := none })] }

/-- Bind group descriptor: texture view 1 as storage texture "image" and as texture "sampled". -/
def sampleTextureWriteReadBindings : RGBindGroupDesc :=
  { layout := none
    items :=
      [("image", { type := BindingType.storageTexture, sampler := none, bufferView := none,
                   textureView := some 1 }),
       ("sampled", { type := BindingType.texture, sampler := none, bufferView := none,
                     textureView := some 1 })] }

/-- A builder with one buffer (resource 0), one texture (resource 1), a view of each (views 0
and 1; the member `texture` of the texture view, which `CreateTextureView` does not set, is
taken to hold the pointer to the texture) and four bind groups: 0 binds
the buffer as uniform buffer, 1 binds it as storage buffer, 2 binds it as both, 3 binds the
texture as storage texture and as texture. -/
def sampleBindings : RGBuilder :=
  let g := RGBuilder.new sampleDevice
  let (b, g) := g.CreateBuffer sampleBufferDesc
  let (t, g) := g.CreateTexture sampleTextureDesc
  let (_, g) := g.CreateBufferView b { offset := 0, size := 4096 }
  let (_, g) := g.CreateTextureView t t { format := 0, baseMipLevel := 0, mipLevelNum := 1 }
  let (_, g) := g.AllocateBindGroup sampleReadBindings
  let (_, g) := g.AllocateBindGroup sampleWriteBindings
  let (_, g) := g.AllocateBindGroup sampleWriteReadBindings
  let (_, g) := g.AllocateBindGroup sampleTextureWriteReadBindings
  g

/-! ## Reading passes: the state requests of a pass -/

/-- One call of `SaveBufferTransitionInfo` or `SaveTextureTransitionInfo` with a non-null
pointer: the resource's position and the state passed. -/
inductive StateRequest where
  | buffer (buffer : Nat) (state : BufferState)
  | texture (texture : Nat) (state : TextureState)
  deriving DecidableEq, Repr

/-- Make the call a request stands for. -/
def RGPassBase.save (request : StateRequest) (self : RGPassBase) : Outcome RGPassBase :=
  match request with
  | .buffer b state => self.SaveBufferTransitionInfo (some b) state
  | .texture t state => self.SaveTextureTransitionInfo (some t) state

/-- Make the calls of a list of requests, in order, stopping at the first that fails. -/
def RGPassBase.saveAll (requests : List StateRequest) (self : RGPassBase) : Outcome RGPassBase :=
  forEach RGPassBase.save requests self

/-- The buffer-map entry a request asks for. -/
def StateRequest.bufferEntry : StateRequest → Option (Nat × BufferState)
  | .buffer b state => some (b, state)
  | .texture _ _ => none

/-- The texture-map entry a request asks for. -/
def StateRequest.textureEntry : StateRequest → Option (Nat × TextureState)
  | .buffer _ _ => none
  | .texture t state => some (t, state)

/-- The resource a request puts in the reads set: the request's resource when its state is a
read state. -/
def StateRequest.readKey : StateRequest → Option Nat
  | .buffer b state => if Internal.IsBufferStateRead state then some b else none
  | .texture t state => if Internal.IsTextureStateRead state then some t else none

/-- A key of one of the two maps of `transitionInfos`: a buffer pointer or a texture pointer. -/
inductive MapKey where
  | buffer (b : Nat)
  | texture (t : Nat)
  deriving DecidableEq, Repr

/-- The map key a request is about. -/
def StateRequest.key : StateRequest → MapKey
  | .buffer b _ => MapKey.buffer b
  | .texture t _ => MapKey.texture t

/-- Whether the state a request passes is a write state (`IsBufferStateWrite`,
`IsTextureStateWrite`); storage, renderTarget and depthStencilWrite are. -/
def StateRequest.isWrite : StateRequest → Bool
  | .buffer _ state => Internal.IsBufferStateWrite state
  | .texture _ state => Internal.IsTextureStateWrite state

/-- Whether the pass's transition maps have an entry under the key. -/
def RGPassBase.hasEntry (self : RGPassBase) : MapKey → Bool
  | .buffer b => (self.transitionInfos.buffer.lookup b).isSome
  | .texture t => (self.transitionInfos.texture.lookup t).isSome

/-- The keys of the write requests of a list, in order, with repetition. -/
def writeKeys (requests : List StateRequest) : List MapKey :=
  (requests.filter StateRequest.isWrite).map StateRequest.key

/-- Concatenate the lists `f` gives for the elements of a list; nothing if `f` gives nothing for
some element. -/
def collect {α β : Type} (f : α → Option (List β)) : List α → Option (List β)
  | [] => some []
  | x :: xs =>
    match f x, collect f xs with
    | some a, some b => some (a ++ b)
    | _, _ => none

/-- The request the "writes first" loop of `CompileForBindGroups` makes for one item, provided
the item's view pointer designates a view of the graph with a non-null resource pointer. -/
def RGBuilder.writeRequest? (g : RGBuilder) (bindItem : String × RGBindItemDesc) :
    Option (List StateRequest) :=
  if bindItem.2.type = BindingType.storageBuffer then
    match g.bufferView? bindItem.2.bufferView with
    | some view => view.GetBuffer.map fun b => [StateRequest.buffer b BufferState.storage]
    | none => none
  else if bindItem.2.type = BindingType.storageTexture then
    match g.textureView? bindItem.2.textureView with
    | some view => view.GetTexture.map fun t => [StateRequest.texture t TextureState.storage]
    | none => none
  else some []

/-- The request the "reads" loop of `CompileForBindGroups` makes for one item. -/
def RGBuilder.readRequest? (g : RGBuilder) (bindItem : String × RGBindItemDesc) :
    Option (List StateRequest) :=
  if bindItem.2.type = BindingType.uniformBuffer then
    match g.bufferView? bindItem.2.bufferView with
    | some view => view.GetBuffer.map fun b => [StateRequest.buffer b BufferState.shaderReadOnly]
    | none => none
  else if bindItem.2.type = BindingType.texture then
    match g.textureView? bindItem.2.textureView with
    | some view =>
      view.GetTexture.map fun t => [StateRequest.texture t TextureState.shaderReadOnly]
    | none => none
  else some []

/-- The requests `CompileForBindGroups` makes for one bind group: the write requests of all its
items, then the read requests of all its items. -/
def RGBuilder.groupRequests? (g : RGBuilder) (bindGroup : RGBindGroupRef) :
    Option (List StateRequest) :=
  match g.bindGroup? bindGroup with
  | none => none
  | some bg =>
    match collect g.writeRequest? bg.GetDesc.items, collect g.readRequest? bg.GetDesc.items with
    | some writes, some reads => some (writes ++ reads)
    | _, _ => none

/-- The request a loop of `CompileForCopyPassDesc` makes for one resource, provided the pointer
designates a buffer or a texture of the graph. -/
def RGBuilder.copyRequest? (g : RGBuilder) (bufferState : BufferState)
    (textureState : TextureState) (resource : RGResourceRef) : Option (List StateRequest) :=
  match resource with
  | none => none
  | some i =>
    match g.resources[i]? with
    | none => none
    | some r =>
      if r.Type = RGResType.buffer then some [StateRequest.buffer i bufferState]
      else if r.Type = RGResType.texture then some [StateRequest.texture i textureState]
      else none

/-- The request made for one attachment view in state `state`. -/
def RGBuilder.attachmentRequest? (g : RGBuilder) (state : TextureState)
    (view : RGTextureViewRef) : Option (List StateRequest) :=
  match g.textureView? view with
  | some view => view.GetTexture.map fun t => [StateRequest.texture t state]
  | none => none

/-- The requests `CompileForRasterPassDesc` makes: the color attachments as render targets, then
the depth-stencil attachment, if present, as depth-stencil write. -/
def RGBuilder.attachmentRequests? (g : RGBuilder) (desc : RGRasterPassDesc) :
    Option (List StateRequest) :=
  match collect (fun (c : RGColorAttachment) => g.attachmentRequest? TextureState.renderTarget
      c.view) desc.colorAttachments,
    (match desc.depthStencilAttachment with
     | some depth => g.attachmentRequest? TextureState.depthStencilWrite depth.view
     | none => some []) with
  | some colors, some depth => some (colors ++ depth)
  | _, _ => none

/-- The state requests `Compile` of a pass makes when nothing fails, in the order it makes them;
nothing if a pointer the pass would follow is null or designates no object of the graph (or, in
a copy pass, a resource that is neither buffer nor texture). -/
def RGBuilder.requests? (g : RGBuilder) (pass : RGPass) : Option (List StateRequest) :=
  match pass with
  | .copy p =>
    match collect (g.copyRequest? BufferState.copyDst TextureState.copyDst) p.passDesc.copyDsts,
      collect (g.copyRequest? BufferState.copySrc TextureState.copySrc) p.passDesc.copySrcs with
    | some dsts, some srcs => some (dsts ++ srcs)
    | _, _ => none
  | .compute p => collect g.groupRequests? p.bindGroups
  | .raster p =>
    match g.attachmentRequests? p.passDesc, collect g.groupRequests? p.bindGroups with
    | some attachments, some bindings => some (attachments ++ bindings)
    | _, _ => none

/-- The buffers among the resources a list of pointers designates, in the order of the list. -/
def RGBuilder.buffersAmong (g : RGBuilder) (refs : List RGResourceRef) : List Nat :=
  refs.filterMap fun ref =>
    match g.resource? ref with
    | some r => if r.Type = RGResType.buffer then ref else none
    | none => none

/-- The textures among the resources a list of pointers designates, in the order of the list. -/
def RGBuilder.texturesAmong (g : RGBuilder) (refs : List RGResourceRef) : List Nat :=
  refs.filterMap fun ref =>
    match g.resource? ref with
    | some r => if r.Type = RGResType.texture then ref else none
    | none => none

/-- The texture an attachment's view gives: `view->GetTexture()`, provided the view pointer
designates a texture view of the graph and the pointer it returns is not null. -/
def RGBuilder.attachmentTexture? (g : RGBuilder) (view : RGTextureViewRef) : Option Nat :=
  (g.textureView? view).bind RGTextureView.GetTexture

/-! ## Reading passes: what `Execute` does -/

/-- The recording callback of the pass. -/
def RGPass.func : RGPass → Nat
  | .copy p => p.func
  | .compute p => p.func
  | .raster p => p.func

/-- The command buffer `Execute` of the pass records into: the asynchronous one of the context
for a copy or compute pass constructed as asynchronous, the main one otherwise. -/
def RGPass.cmdBuffer (pass : RGPass) (cmdBuffers : Internal.Context) : Nat :=
  match pass with
  | .copy p => if p.asyncCopy then cmdBuffers.asyncCopyCmdBuffer else cmdBuffers.mainCmdBuffer
  | .compute p =>
    if p.asyncCompute then cmdBuffers.asyncComputeCmdBuffer else cmdBuffers.mainCmdBuffer
  | .raster _ => cmdBuffers.mainCmdBuffer

/-- The command that begins the native pass scope matching the pass. -/
def RGPass.beginPass : RGPass → Command
  | .copy _ => Command.beginCopyPass
  | .compute _ => Command.beginComputePass
  | .raster p =>
    Command.beginGraphicsPass p.passDesc.colorAttachments.length
      p.passDesc.depthStencilAttachment.isSome

/-- The timeline of one completed `Execute` of the pass: Begin, the begin of the native pass,
one barrier per buffer entry of the transition map, one per texture entry, the callback, EndPass,
End. -/
def RGPass.executeSteps (pass : RGPass) (cmdBuffers : Internal.Context) : List Step :=
  [Step.command (pass.cmdBuffer cmdBuffers) Command.begin,
    Step.command (pass.cmdBuffer cmdBuffers) pass.beginPass] ++
  (pass.base.transitionInfos.buffer.map fun e => Step.barrier (pass.cmdBuffer cmdBuffers) e.1) ++
  (pass.base.transitionInfos.texture.map fun e => Step.barrier (pass.cmdBuffer cmdBuffers) e.1) ++
  [Step.command (pass.cmdBuffer cmdBuffers) (Command.callback pass.func),
    Step.command (pass.cmdBuffer cmdBuffers) Command.endPass,
    Step.command (pass.cmdBuffer cmdBuffers) Command.endEncoding]

/-- The timeline of one completed `FinalizeResources`: one decrement per element of `reads`. -/
def RGPassBase.finalizeSteps (self : RGPassBase) : List Step :=
  self.reads.map Step.decRef

/-- The callback a timeline step invokes, if it invokes one. -/
def Step.callback? : Step → Option Nat
  | .command _ (Command.callback func) => some func
  | _ => none

/-- Whether the step is a call of `IncRefCountAndUpdateResource`. -/
def Step.isIncRef : Step → Bool
  | .incRef _ => true
  | _ => false

/-- Whether the command is a barrier taking a buffer to `state`. -/
def Command.isBufferBarrierTo (state : BufferState) : Command → Bool
  | .bufferBarrier _ _ after => after = state
  | _ => false

/-- Whether the command is a barrier taking a texture to `state`. -/
def Command.isTextureBarrierTo (state : TextureState) : Command → Bool
  | .textureBarrier _ _ after => after = state
  | _ => false

/-- The context the guard of `ExecuteInternal` hands to the passes of the builder. -/
def RGBuilder.context (g : RGBuilder) (fencePack : RGFencePack) : Internal.Context :=
  (Internal.CommandBuffersGuard.new g.device g.asyncInfo fencePack).2.1

/-- The builder as the passes of `ExecuteInternal` find it: the guard has created its command
buffers. -/
def RGBuilder.guarded (g : RGBuilder) (fencePack : RGFencePack) : RGBuilder :=
  { g with device := (Internal.CommandBuffersGuard.new g.device g.asyncInfo fencePack).2.2 }

/-- From `w` to `w'` the timeline has grown by `steps`, the command buffer created
`cmdBuffer`-th, if there is one, by `commands`, and the passes are as they were. -/
def Does (cmdBuffer : Nat) (w w' : RGBuilder) (steps : List Step) (commands : List Command) :
    Prop :=
  w'.timeline = w.timeline ++ steps ∧ w'.passes = w.passes ∧
    ∀ old, w.device.commandBuffers[cmdBuffer]? = some old →
      w'.device.commandBuffers[cmdBuffer]? = some (old ++ commands)

/-- The first pass of the sample graph after `Compile`: it writes buffer 1 as storage buffer and
reads buffer 0 as uniform buffer, so its buffer transition map is 1 ↦ storage, 0 ↦
shaderReadOnly. -/
def sampleFirstPass : RGPass :=
  RGPass.compute
    { name := "first", type := RGPassType.compute, reads := [0]
      transitionInfos :=
        { buffer := [(1, BufferState.storage), (0, BufferState.shaderReadOnly)], texture := [] }
      asyncCompute := false, bindGroups := [some 0], func := 1 }

/-! ## Reading the queue events -/

/-- The fence resets of the guard's destructor: one per non-null fence of the pack, in the order
main, async copy, async compute. -/
def RGFencePack.resetEvents (self : RGFencePack) : List QueueEvent :=
  [self.mainFence, self.asyncCopyFence, self.asyncComputeFence].reduceOption.map
    QueueEvent.fenceReset

/-- Whether the event is a submission of a command buffer. -/
def QueueEvent.isSubmit : QueueEvent → Bool
  | .submit _ _ _ _ => true
  | .fenceReset _ => false

/-- The submissions of the guard's destructor: the main command buffer to graphics queue 0, the
async-copy command buffer to transfer queue 1 if used, the async-compute command buffer to
compute queue 1 if used. -/
def Internal.CommandBuffersGuard.submitEvents (self : Internal.CommandBuffersGuard) :
    List QueueEvent :=
  [QueueEvent.submit QueueType.graphics 0 self.mainCmdBuffer self.fencePack.mainFence] ++
  (if self.useAsyncCopy then
    [QueueEvent.submit QueueType.transfer 1 (self.asyncCopyCmdBuffer.getD self.mainCmdBuffer)
      self.fencePack.asyncCopyFence]
   else []) ++
  (if self.useAsyncCompute then
    [QueueEvent.submit QueueType.compute 1 (self.asyncComputeCmdBuffer.getD self.mainCmdBuffer)
      self.fencePack.asyncComputeFence]
   else [])

/-! ## Pipeline, layout and sampler caches -/

namespace Render

/-- Modelled from the spec: `Common::HashUtils::CityHash(data, size)`, "a deterministic,
non-cryptographic content hash over POD descriptor byte-ranges" (Common/Hash.h is not among the
sources). `hasher` stands for the function from the content of a byte range to the value
computed; the content is given as the list of the values stored in the range; the result is a
`size_t`. -/
def CityHash (hasher : List Nat → Nat) (data : List Nat) : Nat :=
  hasher data % 2 ^ 64

/-- The members of `BindGroupLayoutDesc` that `PipelineLayoutDesc::Hash` reads: `layoutIndex` and
the content of `entries[0 .. entryNum)`. -/
structure BindGroupLayoutDesc where
  layoutIndex : Nat
  entries : List Nat
  deriving DecidableEq, Repr

/-- The members of `PipelineLayoutDesc` that `PipelineLayoutDesc::Hash` reads:
`bindGroupLayoutDescs[0 .. bindGroupLayoutNum)` and the content of
`pipelineConstantLayoutDescs[0 .. pipelineConstantNum)`. -/
structure PipelineLayoutDesc where
  bindGroupLayoutDescs : List BindGroupLayoutDesc
  pipelineConstantLayoutDescs : List Nat
  deriving DecidableEq, Repr

/-- C++ `PipelineLayoutDesc::Hash`. -/
def PipelineLayoutDesc.Hash (hasher : List Nat → Nat) (self : PipelineLayoutDesc) : Nat :=
  let computeBindGroupLayoutHash := fun (desc : BindGroupLayoutDesc) =>
    CityHash hasher [CityHash hasher [desc.layoutIndex], CityHash hasher desc.entries]
  let values := self.bindGroupLayoutDescs.map computeBindGroupLayoutHash
  let values := values ++ [CityHash hasher self.pipelineConstantLayoutDescs]
  CityHash hasher values

/-- A shader instance as the pipeline descriptors use it: the device shader `rhiHandle` and the
value `Hash()` returns (the function is declared outside the sources at hand). -/
structure ShaderInstance where
  rhiHandle : Option Nat
  hash : Nat
  deriving DecidableEq, Repr

/-- C++ `ShaderInstance::Hash()`, a `size_t`. -/
def ShaderInstance.Hash (self : ShaderInstance) : Nat :=
  self.hash % 2 ^ 64

/-- C++ `ComputePipelineShaderSet`. -/
structure ComputePipelineShaderSet where
  computeShader : ShaderInstance
  deriving DecidableEq, Repr

/-- C++ `ComputePipelineStateDesc`. -/
structure ComputePipelineStateDesc where
  shaders : ComputePipelineShaderSet
  deriving DecidableEq, Repr

/-- C++ `ComputePipelineStateDesc::Hash`. -/
def ComputePipelineStateDesc.Hash (hasher : List Nat → Nat) (self : ComputePipelineStateDesc) :
    Nat :=
  CityHash hasher [self.shaders.computeShader.Hash]

/-- C++ `RasterPipelineShaderSet`. -/
structure RasterPipelineShaderSet where
  vertexShader : ShaderInstance
  pixelShader : ShaderInstance
  geometryShader : ShaderInstance
  domainShader : ShaderInstance
  hullShader : ShaderInstance
  deriving DecidableEq, Repr

/-- The members of `RHI::VertexAttribute` that `RasterPipelineStateDesc::Hash` reads;
`semanticName` is the content of the bytes of the member `semanticName` that are hashed. -/
structure VertexAttribute where
  format : Nat
  offset : Nat
  semanticName : List Nat
  semanticIndex : Nat
  deriving DecidableEq, Repr

/-- The members of `RHI::VertexBufferLayout` that `RasterPipelineStateDesc::Hash` reads. -/
structure VertexBufferLayout where
  stride : Nat
  stepMode : Nat
  attributes : List VertexAttribute
  deriving DecidableEq, Repr

/-- C++ `VertexState`: `bufferLayouts[0 .. bufferLayoutNum)`. -/
structure VertexState where
  bufferLayouts : List VertexBufferLayout
  deriving DecidableEq, Repr

/-- C++ `FragmentState`: the content of `colorTargets[0 .. colorTargetNum)`. -/
structure FragmentState where
  colorTargets : List Nat
  deriving DecidableEq, Repr

/-- C++ `RasterPipelineStateDesc`; the primitive, depth-stencil and multi-sample states are
given by the content of their bytes. -/
structure RasterPipelineStateDesc where
  shaders : RasterPipelineShaderSet
  vertexState : VertexState
  primitiveState : List Nat
  depthStencilState : List Nat
  multiSampleState : List Nat
  fragmentState : FragmentState
  deriving DecidableEq, Repr

/-- C++ `RasterPipelineStateDesc::Hash`. -/
def RasterPipelineStateDesc.Hash (hasher : List Nat → Nat) (self : RasterPipelineStateDesc) :
    Nat :=
  let computeVertexAttributeHash := fun (vertexAttribute : VertexAttribute) =>
    CityHash hasher
      [CityHash hasher [vertexAttribute.format], CityHash hasher [vertexAttribute.offset],
        CityHash hasher vertexAttribute.semanticName,
        CityHash hasher [vertexAttribute.semanticIndex]]
  let computeVertexBufferLayoutHash := fun (bufferLayout : VertexBufferLayout) =>
    CityHash hasher
      ([CityHash hasher [bufferLayout.stride], CityHash hasher [bufferLayout.stepMode]] ++
        bufferLayout.attributes.map computeVertexAttributeHash)
  let computeVertexStateHash := fun (state : VertexState) =>
    CityHash hasher (state.bufferLayouts.map computeVertexBufferLayoutHash)
  let computeFragmentStateHash := fun (state : FragmentState) =>
    CityHash hasher state.colorTargets
  CityHash hasher
    [self.shaders.vertexShader.Hash, self.shaders.pixelShader.Hash,
      self.shaders.geometryShader.Hash, self.shaders.domainShader.Hash,
      self.shaders.hullShader.Hash, computeVertexStateHash self.vertexState,
      CityHash hasher self.primitiveState, CityHash hasher self.depthStencilState,
      CityHash hasher self.multiSampleState, computeFragmentStateHash self.fragmentState]

/-- The sampler descriptor (`SamplerDesc`, passed on to `RHI::Device::CreateSampler`) with the
members `DX12Sampler::CreateDX12Descriptor` reads; its declaration is not among the sources.
The two level-of-detail clamps are given by the bit patterns of their 32-bit floats. -/
structure SamplerDesc where
  addressModeU : Nat
  addressModeV : Nat
  addressModeW : Nat
  magFilter : Nat
  minFilter : Nat
  mipFilter : Nat
  lodMinClamp : Nat
  lodMaxClamp : Nat
  comparisonFunc : Nat
  maxAnisotropy : Nat
  deriving DecidableEq, Repr

/-- The content of the bytes `&desc .. &desc + sizeof(SamplerDesc)`. -/
def SamplerDesc.bytes (self : SamplerDesc) : List Nat :=
  [self.addressModeU, self.addressModeV, self.addressModeW, self.magFilter, self.minFilter,
    self.mipFilter, self.lodMinClamp, self.lodMaxClamp, self.comparisonFunc, self.maxAnisotropy]

/-- The level-of-detail clamps are 32-bit patterns and the anisotropy fits eight bits. -/
def SamplerDesc.inRange (self : SamplerDesc) : Prop :=
  self.lodMinClamp < 2 ^ 32 ∧ self.lodMaxClamp < 2 ^ 32 ∧ self.maxAnisotropy < 2 ^ 8

/-- Class `Sampler`: `address` is the identity of the object (the rank of its construction in
its cache) and `rhiHandle` the device sampler `CreateSampler(inDesc)` returned, given by the
descriptor it was created from. -/
structure Sampler where
  address : Nat
  rhiHandle : SamplerDesc
  deriving DecidableEq, Repr

/-- C++ `Sampler::Sampler(RHI::Device& inDevice, const SamplerDesc& inDesc)`. -/
def Sampler.new (address : Nat) (inDesc : SamplerDesc) : Sampler :=
  { address := address, rhiHandle := inDesc }

/-- Class `PipelineLayout`: `address` is the identity of the object; the constructor sets `hash`
and, its body being a TODO, leaves `rhiHandle` null and `bindGroupLayouts` empty. -/
structure PipelineLayout where
  address : Nat
  hash : Nat
  rhiHandle : Option Nat
  deriving DecidableEq, Repr

/-- C++ `PipelineLayout::PipelineLayout(inDevice, inDesc, inHash)`. -/
def PipelineLayout.new (address : Nat) (_inDesc : PipelineLayoutDesc) (inHash : Nat) :
    PipelineLayout :=
  { address := address, hash := inHash, rhiHandle := none }

/-- Class `PipelineLayoutCache`: the map `pipelineLayouts` from hash to owned object, in the
order of insertion. `constructed` is a ghost count of the objects the cache has constructed. -/
structure PipelineLayoutCache where
  pipelineLayouts : List (Nat × PipelineLayout)
  constructed : Nat
  deriving DecidableEq, Repr

/-- C++ `PipelineLayoutCache::PipelineLayoutCache(RHI::Device& inDevice)`. -/
def PipelineLayoutCache.new : PipelineLayoutCache :=
  { pipelineLayouts := [], constructed := 0 }

/-- C++ `PipelineLayoutCache::Invalidate`. -/
def PipelineLayoutCache.Invalidate (self : PipelineLayoutCache) : PipelineLayoutCache :=
  { self with pipelineLayouts := [] }

/-- C++ `PipelineLayoutCache::GetLayout(const PipelineLayoutDesc& desc)`: the object returned and
the cache afterwards. -/
def PipelineLayoutCache.GetLayout (hasher : List Nat → Nat) (self : PipelineLayoutCache)
    (desc : PipelineLayoutDesc) : PipelineLayout × PipelineLayoutCache :=
  let hash := desc.Hash hasher
  match self.pipelineLayouts.lookup hash with
  | none =>
    let layout := PipelineLayout.new self.constructed desc hash
    (layout,
      { pipelineLayouts := self.pipelineLayouts ++ [(hash, layout)]
        constructed := self.constructed + 1 })
  | some layout => (layout, self)

/-- C++ `PipelineLayoutCache::GetLayout(const ComputePipelineShaderSet& shaders)`: a TODO that
returns nullptr. -/
def PipelineLayoutCache.GetLayoutOfComputeShaders (_self : PipelineLayoutCache)
    (_shaders : ComputePipelineShaderSet) : Option PipelineLayout :=
  none

/-- C++ `PipelineLayoutCache::GetLayout(const RasterPipelineShaderSet& shaders)`: a TODO that
returns nullptr. -/
def PipelineLayoutCache.GetLayoutOfRasterShaders (_self : PipelineLayoutCache)
    (_shaders : RasterPipelineShaderSet) : Option PipelineLayout :=
  none

/-- Class `SamplerCache`. -/
structure SamplerCache where
  samplers : List (Nat × Sampler)
  constructed : Nat
  deriving DecidableEq, Repr

/-- C++ `SamplerCache::SamplerCache(RHI::Device& inDevice)`. -/
def SamplerCache.new : SamplerCache :=
  { samplers := [], constructed := 0 }

/-- C++ `SamplerCache::FindOrCreateSampler`. -/
def SamplerCache.FindOrCreateSampler (hasher : List Nat → Nat) (self : SamplerCache)
    (desc : SamplerDesc) : Sampler × SamplerCache :=
  let hash := CityHash hasher desc.bytes
  match self.samplers.lookup hash with
  | none =>
    let sampler := Sampler.new self.constructed desc
    (sampler,
      { samplers := self.samplers ++ [(hash, sampler)], constructed := self.constructed + 1 })
  | some sampler => (sampler, self)

/-- Class `ComputePipelineState`. -/
structure ComputePipelineState where
  address : Nat
  hash : Nat
  pipelineLayout : PipelineLayout
  deriving DecidableEq, Repr

/-- C++ `ComputePipelineState::ComputePipelineState(inDevice, inDesc, inHash)`:
`pipelineLayout->GetRHI()` reads a member through the pointer the layout cache returned, which
is undefined when that pointer is null. -/
def ComputePipelineState.new (layouts : PipelineLayoutCache) (address : Nat)
    (inDesc : ComputePipelineStateDesc) (inHash : Nat) : Outcome ComputePipelineState :=
  match layouts.GetLayoutOfComputeShaders inDesc.shaders with
  | none => .undefinedBehaviour
  | some pipelineLayout =>
    .ok { address := address, hash := inHash, pipelineLayout := pipelineLayout }

/-- Class `RasterPipelineState`. -/
structure RasterPipelineState where
  address : Nat
  hash : Nat
  pipelineLayout : PipelineLayout
  deriving DecidableEq, Repr

/-- C++ `RasterPipelineState::RasterPipelineState(inDevice, inDesc, inHash)`. -/
def RasterPipelineState.new (layouts : PipelineLayoutCache) (address : Nat)
    (inDesc : RasterPipelineStateDesc) (inHash : Nat) : Outcome RasterPipelineState :=
  match layouts.GetLayoutOfRasterShaders inDesc.shaders with
  | none => .undefinedBehaviour
  | some pipelineLayout =>
    .ok { address := address, hash := inHash, pipelineLayout := pipelineLayout }

/-- Class `PipelineCache`. -/
structure PipelineCache where
  computePipelines : List (Nat × ComputePipelineState)
  rasterPipelines : List (Nat × RasterPipelineState)
  constructed : Nat
  deriving DecidableEq, Repr

/-- C++ `PipelineCache::PipelineCache(RHI::Device& inDevice)`. -/
def PipelineCache.new : PipelineCache :=
  { computePipelines := [], rasterPipelines := [], constructed := 0 }

/-- C++ `PipelineCache::Invalidate`. -/
def PipelineCache.Invalidate (self : PipelineCache) : PipelineCache :=
  { self with computePipelines := [], rasterPipelines := [] }

/-- C++ `PipelineCache::GetPipeline(const ComputePipelineStateDesc& desc)`; `layouts` is the
layout cache of the device, `PipelineLayoutCache::Get(device)`. -/
def PipelineCache.GetPipeline (hasher : List Nat → Nat) (layouts : PipelineLayoutCache)
    (self : PipelineCache) (desc : ComputePipelineStateDesc) :
    Outcome (ComputePipelineState × PipelineCache) :=
  let hash := desc.Hash hasher
  match self.computePipelines.lookup hash with
  | none =>
    (ComputePipelineState.new layouts self.constructed desc hash).lift fun pipeline =>
      (pipeline,
        { self with
          computePipelines := self.computePipelines ++ [(hash, pipeline)]
          constructed := self.constructed + 1 })
  | some pipeline => .ok (pipeline, self)

/-- C++ `PipelineCache::GetPipeline(const RasterPipelineStateDesc& desc)`. -/
def PipelineCache.GetRasterPipeline (hasher : List Nat → Nat) (layouts : PipelineLayoutCache)
    (self : PipelineCache) (desc : RasterPipelineStateDesc) :
    Outcome (RasterPipelineState × PipelineCache) :=
  let hash := desc.Hash hasher
  match self.rasterPipelines.lookup hash with
  | none =>
    (RasterPipelineState.new layouts self.constructed desc hash).lift fun pipeline =>
      (pipeline,
        { self with
          rasterPipelines := self.rasterPipelines ++ [(hash, pipeline)]
          constructed := self.constructed + 1 })
  | some pipeline => .ok (pipeline, self)

/-- Every object of the cache has its own identity, given out before the count `constructed`. -/
def PipelineLayoutCache.WellFormed (self : PipelineLayoutCache) : Prop :=
  (self.pipelineLayouts.map fun e => e.2.address).Nodup ∧
    ∀ e ∈ self.pipelineLayouts, e.2.address < self.constructed

/-- Every object of the cache has its own identity, given out before the count `constructed`. -/
def SamplerCache.WellFormed (self : SamplerCache) : Prop :=
  (self.samplers.map fun e => e.2.address).Nodup ∧
    ∀ e ∈ self.samplers, e.2.address < self.constructed

/-- Every object of a map of the cache has its own identity in that map, given out before the
count `constructed`. -/
def PipelineCache.WellFormed (self : PipelineCache) : Prop :=
  (self.computePipelines.map fun e => e.2.address).Nodup ∧
    (self.rasterPipelines.map fun e => e.2.address).Nodup ∧
    (∀ e ∈ self.computePipelines, e.2.address < self.constructed) ∧
    ∀ e ∈ self.rasterPipelines, e.2.address < self.constructed

/-- A sampler descriptor that differs from the all-zero one in the two level-of-detail clamps
and the anisotropy only. -/
def SamplerDesc.ofClamps (lodMinClamp lodMaxClamp maxAnisotropy : Nat) : SamplerDesc :=
  { addressModeU := 0, addressModeV := 0, addressModeW := 0, magFilter := 0, minFilter := 0,
    mipFilter := 0, lodMinClamp := lodMinClamp, lodMaxClamp := lodMaxClamp, comparisonFunc := 0,
    maxAnisotropy := maxAnisotropy }

end Render

/-! ## The end-to-end scenario -/

/-- The graph of the end-to-end scenario on the sample device: buffer B (resource 0) and texture
T (resource 1) with the given descriptors, a view of each (views 0 and 1), a compute pass that
binds B as storage buffer, then a raster pass that binds B as uniform buffer and has the view of
T as its color attachment. `indeterminate` is the value the member `texture` of the texture
view holds, which `CreateTextureView` does not set. Neither pass is asynchronous and no resource
is marked as used. -/
def scenarioGraph (indeterminate : RGTextureRef) (bufferDesc : RGBufferDesc)
    (textureDesc : RGTextureDesc) : RGBuilder :=
  let g := RGBuilder.new sampleDevice
  let (b, g) := g.CreateBuffer bufferDesc
  let (t, g) := g.CreateTexture textureDesc
  let (_, g) := g.CreateBufferView b { offset := 0, size := 4096 }
  let (tv, g) := g.CreateTextureView indeterminate t
    { format := 0, baseMipLevel := 0, mipLevelNum := 1 }
  let (bgW, g) := g.AllocateBindGroup sampleWriteBindings
  let (bgR, g) := g.AllocateBindGroup sampleReadBindings
  let g := g.AddComputePass "compute" [bgW] 1 false
  g.AddRasterPass "raster"
    { colorAttachments := [{ view := tv }], depthStencilAttachment := none } [bgR] 2

/-- The states recorded for buffer `b` by the passes of the builder, in declaration order of the
passes. -/
def RGBuilder.recordedBufferStates (g : RGBuilder) (b : Nat) : List BufferState :=
  g.passes.filterMap fun pass => pass.base.transitionInfos.buffer.lookup b

/-- The states recorded for texture `t` by the passes of the builder, in declaration order of
the passes. -/
def RGBuilder.recordedTextureStates (g : RGBuilder) (t : Nat) : List TextureState :=
  g.passes.filterMap fun pass => pass.base.transitionInfos.texture.lookup t

/-- The refCount resource `r` has after each call made on it, according to a log. -/
def refCounts (events : List ResourceEvent) (r : Nat) : List Int :=
  (events.filter fun e => e.resource = r).map fun e => e.after.base.refCount

/-- Whether the pass was constructed as asynchronous (a raster pass never is). -/
def RGPass.isAsync : RGPass → Bool
  | .copy p => p.asyncCopy
  | .compute p => p.asyncCompute
  | .raster _ => false

/-- The resources a pass transitions: the keys of its two transition maps, buffers first. -/
def RGPassBase.transitioned (self : RGPassBase) : List Nat :=
  self.transitionInfos.buffer.map Prod.fst ++ self.transitionInfos.texture.map Prod.fst

/-- A graph of one buffer and two compute passes: the first pass binds the buffer as uniform
buffer, the second binds it as storage buffer. The last (and only) reader of the buffer is the
first pass. -/
def readThenWriteGraph : RGBuilder :=
  let g := RGBuilder.new sampleDevice
  let (b, g) := g.CreateBuffer sampleBufferDesc
  let (_, g) := g.CreateBufferView b { offset := 0, size := 4096 }
  let (bgR, g) := g.AllocateBindGroup sampleReadBindings
  let (bgW, g) := g.AllocateBindGroup sampleWriteBindings
  let g := g.AddComputePass "reader" [bgR] 1 false
  g.AddComputePass "writer" [bgW] 2 false

/-- Bind group descriptor: buffer view 0 as uniform buffer under two names. -/
def sampleReadTwiceBindings : RGBindGroupDesc :=
  { layout := none
    items :=
      [("first", { type := BindingType.uniformBuffer, sampler := none, bufferView := some 0,
                   textureView := none }),
       ("second", { type := BindingType.uniformBuffer, sampler := none, bufferView := some 0,
                    textureView := none })] }

/-- A builder with one buffer (resource 0), a view of it (view 0) and two bind groups: 0 binds
the buffer as uniform buffer under two names, 1 binds it as uniform buffer once. -/
def sampleReadTwice : RGBuilder :=
  let g := RGBuilder.new sampleDevice
  let (b, g) := g.CreateBuffer sampleBufferDesc
  let (_, g) := g.CreateBufferView b { offset := 0, size := 4096 }
  let (_, g) := g.AllocateBindGroup sampleReadTwiceBindings
  let (_, g) := g.AllocateBindGroup sampleReadBindings
  g

/-- The lifetime invariant of a resource: it is devirtualized exactly while its refCount is
positive, and, unless it is imported, its pooled handle is non-empty exactly while its refCount
is positive. -/
def RGResource.Live (r : RGResource) : Prop :=
  (r.base.devirtualized = true ↔ 0 < r.base.refCount) ∧
  (r.base.imported = false → (r.pooled.isSome = true ↔ 0 < r.base.refCount))

/-! ## Half-precision floats (`Common/Math/Half.h`) -/

namespace Common

/-- The bit-fields of `Internal::FullFloat<std::endian::little>`, the union of a 32-bit `float`
with `mantissa : 23`, `exponent : 8` and `sign : 1`: a float is given by its three fields. -/
structure FullFloat where
  mantissa : Nat
  exponent : Nat
  sign : Nat
  deriving DecidableEq, Repr

/-- The fields fit the widths of the bit-fields. -/
def FullFloat.InRange (self : FullFloat) : Prop :=
  self.mantissa < 2 ^ 23 ∧ self.exponent < 2 ^ 8 ∧ self.sign < 2

instance (self : FullFloat) : Decidable self.InRange := by
  unfold FullFloat.InRange
  infer_instance

/-- The float with the 32-bit pattern `bits`: the mantissa is the low 23 bits, the exponent the
next 8, the sign the top bit. -/
def FullFloat.ofBits (bits : Nat) : FullFloat :=
  { mantissa := bits % 2 ^ 23, exponent := bits / 2 ^ 23 % 2 ^ 8, sign := bits / 2 ^ 31 % 2 }

/-- The bit-fields of `HalfFloat<std::endian::little>`, the union of the `uint16_t value` with
`mantissa : 10`, `exponent : 5` and `sign : 1`. -/
structure HalfFloat where
  mantissa : Nat
  exponent : Nat
  sign : Nat
  deriving DecidableEq, Repr

/-- The fields fit the widths of the bit-fields. -/
def HalfFloat.InRange (self : HalfFloat) : Prop :=
  self.mantissa < 2 ^ 10 ∧ self.exponent < 2 ^ 5 ∧ self.sign < 2

instance (self : HalfFloat) : Decidable self.InRange := by
  unfold HalfFloat.InRange
  infer_instance

/-- The union member `value`: the mantissa is its low 10 bits, the exponent the next 5, the sign
the top bit. -/
def HalfFloat.value (self : HalfFloat) : Nat :=
  self.mantissa + self.exponent * 2 ^ 10 + self.sign * 2 ^ 15

/-- The half whose union member `value` is `value`. -/
def HalfFloat.ofValue (value : Nat) : HalfFloat :=
  { mantissa := value % 2 ^ 10, exponent := value / 2 ^ 10 % 2 ^ 5, sign := value / 2 ^ 15 % 2 }

/-- The test of `HalfFloat::Set` that guards `this->value++`:
`((this->mantissa >> (13 - newExp)) & 1) != 0u`, with the mantissa just stored. -/
def HalfFloat.roundsUp (mantissa : Nat) (newExp : Int) : Bool :=
  (mantissa >>> (13 - newExp).toNat) &&& 1 ≠ 0

/-- C++ `HalfFloat::Set(float inValue)`. `newExp` is an `int32_t`; a value stored into a
bit-field or converted to `uint16_t` is reduced modulo two to the width. -/
def HalfFloat.Set (self : HalfFloat) (inValue : FullFloat) : HalfFloat :=
  let full := inValue
  let self := { self with sign := full.sign % 2 }
  if full.exponent ≤ 112 then
    let self := { self with exponent := 0, mantissa := 0 }
    let newExp : Int := (full.exponent : Int) - 127 + 15
    if 14 - newExp ≤ 24 then
      let tMantissa := (full.mantissa ||| 0x800000) % 2 ^ 32
      let self :=
        { self with mantissa := (tMantissa >>> (14 - newExp).toNat) % 2 ^ 16 % 2 ^ 10 }
      if HalfFloat.roundsUp self.mantissa newExp then
        HalfFloat.ofValue ((self.value + 1) % 2 ^ 16)
      else self
    else self
  else if full.exponent ≥ 143 then
    { self with exponent := 30, mantissa := 1023 }
  else
    { self with
      exponent := (((full.exponent : Int) - 127 + 15) % 2 ^ 16).toNat % 2 ^ 5
      mantissa := (full.mantissa >>> 13) % 2 ^ 16 % 2 ^ 10 }

/-- C++ `HalfFloat::AsFloat`. `std::trunc(std::log2(static_cast<float>(tMantissa)))` is taken to
be the integer floor of the binary logarithm; `mantissaShift` and the expressions it enters are
`uint32_t`, computed modulo 2^32. -/
def HalfFloat.AsFloat (self : HalfFloat) : FullFloat :=
  let result : FullFloat := { mantissa := 0, exponent := 0, sign := 0 }
  let result := { result with sign := self.sign % 2 }
  if self.exponent = 0 then
    let tMantissa := self.mantissa
    if tMantissa = 0 then
      { result with exponent := 0, mantissa := 0 }
    else
      let mantissaShift := (10 + 2 ^ 32 - Nat.log2 tMantissa % 2 ^ 32) % 2 ^ 32
      { result with
        exponent := (127 - (15 - 1) + 2 ^ 32 - mantissaShift) % 2 ^ 32 % 2 ^ 8
        mantissa :=
          (tMantissa <<< ((mantissaShift + 23 + 2 ^ 32 - 10) % 2 ^ 32)) % 2 ^ 32 % 2 ^ 23 }
  else if self.exponent = 31 then
    { result with exponent := 142, mantissa := 8380416 }
  else
    { result with
      exponent := ((self.exponent : Int) - 15 + 127).toNat % 2 ^ 8
      mantissa := (self.mantissa <<< 13) % 2 ^ 32 % 2 ^ 23 }

end Common

/-! ## Descriptors in memory -/

namespace Render

/-- What the memory holds: the content of the byte at each address. -/
abbrev Memory := Nat → Nat

/-- The content of the `size` bytes from `address` on. -/
def Memory.range (memory : Memory) (address size : Nat) : List Nat :=
  (List.range size).map fun i => memory (address + i)

/-- C++ `BindGroupLayoutDesc` with the members `PipelineLayoutDesc::Hash` reads: `layoutIndex`,
`entryNum` and the pointer `entries`, an address. -/
structure BindGroupLayoutDescData where
  layoutIndex : Nat
  entryNum : Nat
  entries : Nat
  deriving DecidableEq, Repr

/-- C++ `PipelineLayoutDesc` with the members `Hash` reads: `bindGroupLayoutNum`, the array
`bindGroupLayoutDescs`, `pipelineConstantNum` and the pointer `pipelineConstantLayoutDescs`, an
address. -/
structure PipelineLayoutDescData where
  bindGroupLayoutNum : Nat
  bindGroupLayoutDescs : List BindGroupLayoutDescData
  pipelineConstantNum : Nat
  pipelineConstantLayoutDescs : Nat
  deriving DecidableEq, Repr

/-- C++ `PipelineLayoutDesc::Hash` on a descriptor in memory. `entrySize` and `constantSize` are
`sizeof(RHI::BindGroupLayoutEntry)` and `sizeof(PipelineConstantLayoutDesc)`, the byte counts
are `size_t` products. Nothing is returned when the loop would index past the array
`bindGroupLayoutDescs` or its `int` counter would overflow. -/
def PipelineLayoutDescData.Hash (hasher : List Nat → Nat) (memory : Memory)
    (entrySize constantSize : Nat) (self : PipelineLayoutDescData) : Option Nat :=
  let computeBindGroupLayoutHash := fun (desc : BindGroupLayoutDescData) =>
    CityHash hasher
      [CityHash hasher [desc.layoutIndex],
       CityHash hasher (memory.range desc.entries (desc.entryNum * entrySize % 2 ^ 64))]
  if self.bindGroupLayoutNum ≤ self.bindGroupLayoutDescs.length ∧
      self.bindGroupLayoutNum < 2 ^ 31 then
    let values :=
      (self.bindGroupLayoutDescs.take self.bindGroupLayoutNum).map computeBindGroupLayoutHash
    let values := values ++
      [CityHash hasher
        (memory.range self.pipelineConstantLayoutDescs
          (self.pipelineConstantNum * constantSize % 2 ^ 64))]
    some (CityHash hasher values)
  else none

/-- The content of a descriptor in memory: what `PipelineLayoutDesc::Hash` reads of it. -/
def PipelineLayoutDescData.content (memory : Memory) (entrySize constantSize : Nat)
    (self : PipelineLayoutDescData) : PipelineLayoutDesc :=
  { bindGroupLayoutDescs :=
      (self.bindGroupLayoutDescs.take self.bindGroupLayoutNum).map fun desc =>
        { layoutIndex := desc.layoutIndex
          entries := memory.range desc.entries (desc.entryNum * entrySize % 2 ^ 64) }
    pipelineConstantLayoutDescs :=
      memory.range self.pipelineConstantLayoutDescs
        (self.pipelineConstantNum * constantSize % 2 ^ 64) }

/-- Two bind group layout descriptors in two memories have the same content: equal
`layoutIndex`, equal `entryNum`, and the same bytes in their entry arrays. -/
def BindGroupLayoutDescData.SameContent (memory1 memory2 : Memory) (entrySize : Nat)
    (a b : BindGroupLayoutDescData) : Prop :=
  a.layoutIndex = b.layoutIndex ∧ a.entryNum = b.entryNum ∧
    memory1.range a.entries (a.entryNum * entrySize % 2 ^ 64) =
      memory2.range b.entries (b.entryNum * entrySize % 2 ^ 64)

/-- A memory whose content repeats every eight bytes. -/
def sampleMemory : Memory :=
  fun address => address % 8

/-- A pipeline layout descriptor with two bind group layouts (of two and one four-byte entries,
stored at the addresses 0 and 32) and two eight-byte pipeline constants stored at address 64. -/
def sampleLayoutData : PipelineLayoutDescData :=
  { bindGroupLayoutNum := 2
    bindGroupLayoutDescs :=
      [{ layoutIndex := 0, entryNum := 2, entries := 0 },
       { layoutIndex := 1, entryNum := 1, entries := 32 }]
    pipelineConstantNum := 2
    pipelineConstantLayoutDescs := 64 }

/-- The same content as `sampleLayoutData`, with the arrays stored at other addresses and the
array of bind group layouts followed by an element that is not counted. -/
def sampleLayoutDataMoved : PipelineLayoutDescData :=
  { bindGroupLayoutNum := 2
    bindGroupLayoutDescs :=
      [{ layoutIndex := 0, entryNum := 2, entries := 800 },
       { layoutIndex := 1, entryNum := 1, entries := 1600 },
       { layoutIndex := 7, entryNum := 0, entries := 0 }]
    pipelineConstantNum := 2
    pipelineConstantLayoutDescs := 160 }

end Render

/-- Every resource of the builder satisfies the lifetime invariant. -/
def RGBuilder.AllLive (w : RGBuilder) : Prop :=
  ∀ x ∈ w.resources, x.Live

/-! ## Reading the states the graph tracks -/

/-- The state the graph has on record for a resource: the member `currentState` of the buffer
or of the texture. -/
def RGResource.state : RGResource → BufferState ⊕ TextureState
  | .buffer b => Sum.inl b.currentState
  | .texture t => Sum.inr t.currentState

/-- The member `initialState` of the descriptor of the resource. -/
def RGResource.initialState : RGResource → BufferState ⊕ TextureState
  | .buffer b => Sum.inl b.desc.initialState
  | .texture t => Sum.inr t.desc.initialState

/-- The state on record for the resource at position `r`, if there is a resource there. -/
def RGBuilder.stateAt (w : RGBuilder) (r : Nat) : Option (BufferState ⊕ TextureState) :=
  (w.resources[r]?).map RGResource.state

/-- Every resource of the builder has the state its constructor gave it, the `initialState` of
its descriptor. -/
def RGBuilder.AtInitialStates (g : RGBuilder) : Prop :=
  ∀ x ∈ g.resources, x.state = x.initialState

instance (g : RGBuilder) : Decidable g.AtInitialStates := by
  unfold RGBuilder.AtInitialStates
  infer_instance

/-- What the state on record for the resource at position `r` becomes when the pass has made
its transitions: the state the pass's map of the matching kind holds for `r`, if it holds
one. -/
def RGPassBase.nextState (self : RGPassBase) (r : Nat) :
    BufferState ⊕ TextureState → BufferState ⊕ TextureState
  | .inl s => Sum.inl ((self.transitionInfos.buffer.lookup r).getD s)
  | .inr s => Sum.inr ((self.transitionInfos.texture.lookup r).getD s)

/-- In the words of the specification: the state recorded for buffer `r` in the latest of the
passes `earlier` whose transition map contains `r`, or `initial` if there is none. -/
def lastKnownBufferState (earlier : List RGPass) (r : Nat) (initial : BufferState) :
    BufferState :=
  ((earlier.filterMap fun pass => pass.base.transitionInfos.buffer.lookup r).getLast?).getD
    initial

/-- In the words of the specification: the state recorded for texture `r` in the latest of the
passes `earlier` whose transition map contains `r`, or `initial` if there is none. -/
def lastKnownTextureState (earlier : List RGPass) (r : Nat) (initial : TextureState) :
    TextureState :=
  ((earlier.filterMap fun pass => pass.base.transitionInfos.texture.lookup r).getLast?).getD
    initial

/-- The two transition maps of the pass are maps: no key occurs twice. -/
def RGPassBase.KeysNodup (self : RGPassBase) : Prop :=
  (self.transitionInfos.buffer.map Prod.fst).Nodup ∧
    (self.transitionInfos.texture.map Prod.fst).Nodup

/-- Whether the command is a resource barrier. -/
def Command.isBarrier : Command → Bool
  | .bufferBarrier _ _ _ => true
  | .textureBarrier _ _ _ => true
  | _ => false

/-- Whether the resource at position `r` of the builder is devirtualized, if there is one. -/
def RGBuilder.devirtualizedAt (w : RGBuilder) (r : Nat) : Option Bool :=
  (w.resources[r]?).map fun x => x.base.devirtualized

/-- A graph of one buffer and one compute pass that binds the buffer as storage buffer. No pass
reads the buffer and it is not marked as used. -/
def writeOnlyGraph : RGBuilder :=
  let g := RGBuilder.new sampleDevice
  let (b, g) := g.CreateBuffer sampleBufferDesc
  let (_, g) := g.CreateBufferView b { offset := 0, size := 4096 }
  let (bgW, g) := g.AllocateBindGroup sampleWriteBindings
  g.AddComputePass "writer" [bgW] 1 false

/-- A graph of one buffer and two compute passes: the first pass binds the buffer as storage
buffer, the second binds it as uniform buffer. -/
def writeThenReadGraph : RGBuilder :=
  let g := RGBuilder.new sampleDevice
  let (b, g) := g.CreateBuffer sampleBufferDesc
  let (_, g) := g.CreateBufferView b { offset := 0, size := 4096 }
  let (bgW, g) := g.AllocateBindGroup sampleWriteBindings
  let (bgR, g) := g.AllocateBindGroup sampleReadBindings
  let g := g.AddComputePass "writer" [bgW] 1 false
  g.AddComputePass "reader" [bgR] 2 false

/-- The pass of `writeOnlyGraph` and the first pass of `writeThenReadGraph` after `Compile`:
the buffer transition map is 0 ↦ storage, and the pass reads nothing. -/
def sampleWriterPass : RGPass :=
  RGPass.compute
    { name := "writer", type := RGPassType.compute, reads := []
      transitionInfos := { buffer := [(0, BufferState.storage)], texture := [] }
      asyncCompute := false, bindGroups := [some 0], func := 1 }

/-- The second pass of `writeThenReadGraph` after `Compile`: the buffer transition map is
0 ↦ shaderReadOnly, and the pass reads buffer 0. -/
def sampleReaderPass : RGPass :=
  RGPass.compute
    { name := "reader", type := RGPassType.compute, reads := [0]
      transitionInfos := { buffer := [(0, BufferState.shaderReadOnly)], texture := [] }
      asyncCompute := false, bindGroups := [some 1], func := 2 }

/-- The graph `writeOnlyGraph` after `Compile`. -/
def writeOnlyCompiled : RGBuilder :=
  writeOnlyGraph.Compile.stateD writeOnlyGraph

/-- The graph `writeThenReadGraph` after `Compile`. -/
def writeThenReadCompiled : RGBuilder :=
  writeThenReadGraph.Compile.stateD writeThenReadGraph

namespace Render

/-- One call made on a pipeline cache: `GetPipeline` with a compute descriptor, `GetPipeline`
with a raster descriptor, or `Invalidate`. -/
inductive PipelineCacheCall where
  | getCompute (desc : ComputePipelineStateDesc)
  | getRaster (desc : RasterPipelineStateDesc)
  | invalidate

/-- Make one call on the cache, keeping the cache it leaves. -/
def PipelineCache.call (hasher : List Nat → Nat) (layouts : PipelineLayoutCache)
    (call : PipelineCacheCall) (self : PipelineCache) : Outcome PipelineCache :=
  match call with
  | .getCompute desc => (self.GetPipeline hasher layouts desc).lift Prod.snd
  | .getRaster desc => (self.GetRasterPipeline hasher layouts desc).lift Prod.snd
  | .invalidate => .ok self.Invalidate

/-- The cache is one the code can reach: a new cache on which the calls of some list have been
made, one after the other, and have all returned. -/
def PipelineCache.Reachable (hasher : List Nat → Nat) (layouts : PipelineLayoutCache)
    (self : PipelineCache) : Prop :=
  ∃ calls, forEach (PipelineCache.call hasher layouts) calls PipelineCache.new = Outcome.ok self

end Render

/-! ## Reading passes: the requests made for one buffer -/

/-- The state recorded under a key of the transition maps, if there is one. -/
def RGPassBase.entry? (self : RGPassBase) : MapKey → Option (BufferState ⊕ TextureState)
  | .buffer b => (self.transitionInfos.buffer.lookup b).map Sum.inl
  | .texture t => (self.transitionInfos.texture.lookup t).map Sum.inr

/-- The requests of a list that are about buffer `b`, in order. -/
def requestsFor (b : Nat) (requests : List StateRequest) : List StateRequest :=
  requests.filter fun r => decide (r.key = MapKey.buffer b)

/-- The requests of a list that are not about buffer `b`, in order. -/
def requestsBeside (b : Nat) (requests : List StateRequest) : List StateRequest :=
  requests.filter fun r => decide (r.key ≠ MapKey.buffer b)

/-- How many items of the bind group bind buffer `b` with binding type `type`. -/
def RGBuilder.bindingCount (g : RGBuilder) (type : BindingType) (b : Nat)
    (bindGroup : RGBindGroupRef) : Nat :=
  match g.groupItems? bindGroup with
  | some items => items.countP fun item => decide (g.bindsBuffer item.2 type b)
  | none => 0

/-- For each bind group of a list, in order: how many of its items bind buffer `b` as
StorageBuffer, and how many as UniformBuffer. -/
def RGBuilder.bindingCounts (g : RGBuilder) (b : Nat) (bindGroups : List RGBindGroupRef) :
    List (Nat × Nat) :=
  bindGroups.map fun bindGroup =>
    (g.bindingCount BindingType.storageBuffer b bindGroup,
      g.bindingCount BindingType.uniformBuffer b bindGroup)

/-- The counts of a bind-group list that binds the buffer once as StorageBuffer and once as
UniformBuffer, the StorageBuffer binding not in a later bind group than the UniformBuffer
binding: one bind group holds both bindings, or the bind group with the StorageBuffer binding
comes before the one with the UniformBuffer binding; the other bind groups hold neither. -/
def WriteNotAfterRead (counts : List (Nat × Nat)) : Prop :=
  (∃ n m, counts = List.replicate n (0, 0) ++ (1, 1) :: List.replicate m (0, 0)) ∨
  ∃ n m k, counts =
    List.replicate n (0, 0) ++ (1, 0) :: (List.replicate m (0, 0) ++ (0, 1) ::
      List.replicate k (0, 0))

/-- The counts of a bind-group list that binds the buffer once as StorageBuffer and once as
UniformBuffer, the bind group with the UniformBuffer binding before the one with the
StorageBuffer binding. -/
def ReadBeforeWrite (counts : List (Nat × Nat)) : Prop :=
  ∃ n m k, counts =
    List.replicate n (0, 0) ++ (0, 1) :: (List.replicate m (0, 0) ++ (1, 0) ::
      List.replicate k (0, 0))

/-- The bind groups a compute or raster pass was constructed with; a copy pass has none. -/
def RGPass.bindGroups? : RGPass → Option (List RGBindGroupRef)
  | .copy _ => none
  | .compute p => some p.bindGroups
  | .raster p => some p.bindGroups

/-- Bind group descriptor: buffer view 0 as storage buffer "out" and as uniform buffer "in",
and buffer view 1 as uniform buffer "other". -/
def sampleWriteReadOtherBindings : RGBindGroupDesc :=
  { layout := none
    items :=
      [("in", { type := BindingType.uniformBuffer, sampler := none, bufferView := some 0,
                textureView := none }),
       ("other", { type := BindingType.uniformBuffer, sampler := none, bufferView := some 1,
                   textureView := none }),
       ("out", { type := BindingType.storageBuffer, sampler := none, bufferView := some 0,
                 textureView := none })] }

/-- Bind group descriptor: buffer view 0 as storage buffer "out" and as uniform buffer "in",
and buffer view 1 as uniform buffer under the two names "other" and "more". -/
def sampleWriteReadTwiceBindings : RGBindGroupDesc :=
  { layout := none
    items :=
      [("in", { type := BindingType.uniformBuffer, sampler := none, bufferView := some 0,
                textureView := none }),
       ("more", { type := BindingType.uniformBuffer, sampler := none, bufferView := some 1,
                  textureView := none }),
       ("other", { type := BindingType.uniformBuffer, sampler := none, bufferView := some 1,
                   textureView := none }),
       ("out", { type := BindingType.storageBuffer, sampler := none, bufferView := some 0,
                 textureView := none })] }

/-- Bind group descriptor: buffer view 1 as uniform buffer "other". -/
def sampleOtherBindings : RGBindGroupDesc :=
  { layout := none
    items :=
      [("other", { type := BindingType.uniformBuffer, sampler := none, bufferView := some 1,
                   textureView := none })] }

/-- A builder with two buffers (resources 0 and 1), a view of each (views 0 and 1) and six bind
groups: 0 binds buffer 0 as uniform buffer, 1 binds it as storage buffer, 2 binds it as both,
3 binds it as both and buffer 1 as uniform buffer, 4 binds it as both and buffer 1 as uniform
buffer twice, 5 binds buffer 1 as uniform buffer. -/
def sampleBufferBindings : RGBuilder :=
  let g := RGBuilder.new sampleDevice
  let (b, g) := g.CreateBuffer sampleBufferDesc
  let (c, g) := g.CreateBuffer sampleBufferDesc
  let (_, g) := g.CreateBufferView b { offset := 0, size := 4096 }
  let (_, g) := g.CreateBufferView c { offset := 0, size := 4096 }
  let (_, g) := g.AllocateBindGroup sampleReadBindings
  let (_, g) := g.AllocateBindGroup sampleWriteBindings
  let (_, g) := g.AllocateBindGroup sampleWriteReadBindings
  let (_, g) := g.AllocateBindGroup sampleWriteReadOtherBindings
  let (_, g) := g.AllocateBindGroup sampleWriteReadTwiceBindings
  let (_, g) := g.AllocateBindGroup sampleOtherBindings
  g

/-! # Theorems -/

section ResourceLemmas

theorem drop_allocateCalls {Desc : Type} (pool : ResourcePool Desc) (old : Option PooledRef) :
    (pool.drop old).allocateCalls = pool.allocateCalls := by
  cases old <;> rfl

theorem inc_of_pos (r : RGResource) (device : Pools) (h : r.base.refCount ≠ 0) :
    r.IncRefCountAndUpdateResource device =
      .ok (r.setBase { r.base with refCount := r.base.refCount + 1 }, device) := by
  simp [RGResource.IncRefCountAndUpdateResource, h, Outcome.andThen]

theorem inc_buffer_zero (b : RGBuffer) (device : Pools) (h0 : b.refCount = 0)
    (hd : b.devirtualized = false) :
    (RGResource.buffer b).IncRefCountAndUpdateResource device =
      .ok (if b.imported then
             (.buffer { b with devirtualized := true, refCount := 1 }, device)
           else
             (.buffer { b with devirtualized := true, refCount := 1,
                               pooledBuffer := some (device.bufferPool.Allocate b.desc).1 },
              { device with
                bufferPool := (device.bufferPool.Allocate b.desc).2.drop b.pooledBuffer })) := by
  cases hi : b.imported <;>
    simp [RGResource.IncRefCountAndUpdateResource, RGResource.Devirtualize, RGBuffer.Devirtualize,
      Assert, Outcome.andThen, Outcome.lift, RGResource.base, RGResource.setBase, h0, hd, hi]

end ResourceLemmas

section ResourceLemmas2

theorem inc_texture_zero (t : RGTexture) (device : Pools) (h0 : t.refCount = 0)
    (hd : t.devirtualized = false) :
    (RGResource.texture t).IncRefCountAndUpdateResource device =
      .ok (if t.imported then
             (.texture { t with devirtualized := true, refCount := 1 }, device)
           else
             (.texture { t with devirtualized := true, refCount := 1,
                                pooledTexture := some (device.texturePool.Allocate t.desc).1 },
              { device with
                texturePool := (device.texturePool.Allocate t.desc).2.drop t.pooledTexture })) := by
  cases hi : t.imported <;>
    simp [RGResource.IncRefCountAndUpdateResource, RGResource.Devirtualize, RGTexture.Devirtualize,
      Assert, Outcome.andThen, Outcome.lift, RGResource.base, RGResource.setBase, h0, hd, hi]

theorem dec_of_ne_one (r : RGResource) (device : Pools) (h : r.base.refCount ≠ 1) :
    r.DecRefAndUpdateResource device =
      .ok (r.setBase { r.base with refCount := r.base.refCount - 1 }, device) := by
  have h1 : ¬ (r.base.refCount - 1 = 0) := by omega
  cases r <;> simp_all [RGResource.DecRefAndUpdateResource, RGResource.base, RGResource.setBase]

theorem dec_buffer_one (b : RGBuffer) (device : Pools) (h1 : b.refCount = 1)
    (hd : b.devirtualized = true) :
    (RGResource.buffer b).DecRefAndUpdateResource device =
      .ok (if b.imported then
             (.buffer { b with devirtualized := false, refCount := 0 }, device)
           else
             (.buffer { b with devirtualized := false, refCount := 0, pooledBuffer := none },
              { device with bufferPool := device.bufferPool.drop b.pooledBuffer })) := by
  cases hi : b.imported <;>
    simp [RGResource.DecRefAndUpdateResource, RGResource.UndoDevirtualize,
      RGBuffer.UndoDevirtualize, Assert, Outcome.andThen, Outcome.lift, RGResource.base,
      RGResource.setBase, h1, hd, hi]

theorem dec_texture_one (t : RGTexture) (device : Pools) (h1 : t.refCount = 1)
    (hd : t.devirtualized = true) :
    (RGResource.texture t).DecRefAndUpdateResource device =
      .ok (if t.imported then
             (.texture { t with devirtualized := false, refCount := 0 }, device)
           else
             (.texture { t with devirtualized := false, refCount := 0, pooledTexture := none },
              { device with texturePool := device.texturePool.drop t.pooledTexture })) := by
  cases hi : t.imported <;>
    simp [RGResource.DecRefAndUpdateResource, RGResource.UndoDevirtualize,
      RGTexture.UndoDevirtualize, Assert, Outcome.andThen, Outcome.lift, RGResource.base,
      RGResource.setBase, h1, hd, hi]

end ResourceLemmas2

section LifetimeLemmas

theorem inc_base (r : RGResource) (device : Pools)
    (hinv : r.base.refCount = 0 → r.base.devirtualized = false) :
    ∃ r' device', r.IncRefCountAndUpdateResource device = .ok (r', device') ∧
      r'.base = { r.base with
                  refCount := r.base.refCount + 1
                  devirtualized := if r.base.refCount = 0 then true else r.base.devirtualized } := by
  by_cases h0 : r.base.refCount = 0
  · cases r with
    | buffer b =>
      have hd : b.devirtualized = false := hinv h0
      have h0' : b.refCount = 0 := h0
      rw [inc_buffer_zero b device h0' hd]
      cases hi : b.imported <;> simp [RGResource.base, h0', hd, hi]
    | texture t =>
      have hd : t.devirtualized = false := hinv h0
      have h0' : t.refCount = 0 := h0
      rw [inc_texture_zero t device h0' hd]
      cases hi : t.imported <;> simp [RGResource.base, h0', hd, hi]
  · rw [inc_of_pos r device h0]
    cases r <;> simp_all [RGResource.base, RGResource.setBase]

theorem dec_base (r : RGResource) (device : Pools)
    (hinv : r.base.refCount = 1 → r.base.devirtualized = true) :
    ∃ r' device', r.DecRefAndUpdateResource device = .ok (r', device') ∧
      r'.base = { r.base with
                  refCount := r.base.refCount - 1
                  devirtualized := if r.base.refCount = 1 then false else r.base.devirtualized } := by
  by_cases h1 : r.base.refCount = 1
  · cases r with
    | buffer b =>
      have hd : b.devirtualized = true := hinv h1
      have h1' : b.refCount = 1 := h1
      rw [dec_buffer_one b device h1' hd]
      cases hi : b.imported <;> simp [RGResource.base, h1', hd, hi]
    | texture t =>
      have hd : t.devirtualized = true := hinv h1
      have h1' : t.refCount = 1 := h1
      rw [dec_texture_one t device h1' hd]
      cases hi : t.imported <;> simp [RGResource.base, h1', hd, hi]
  · rw [dec_of_ne_one r device h1]
    cases r <;> simp_all [RGResource.base, RGResource.setBase]

/-- Induction along a sequence of lifetime calls: a property every call keeps (and under which
every call completes) holds after the whole sequence, which completes. -/
theorem runOps_induct (P : RGResource × Pools → Prop)
    (hstep : ∀ op s, P s → ∃ s', RGResource.applyOp op s = .ok s' ∧ P s') :
    ∀ (ops : List RefOp) (s : RGResource × Pools), P s →
      ∃ s', RGResource.runOps ops s = .ok s' ∧ P s' := by
  intro ops
  induction ops with
  | nil => intro s hs; exact ⟨s, rfl, hs⟩
  | cons op ops ih =>
    intro s hs
    obtain ⟨s1, h1, hP1⟩ := hstep op s hs
    obtain ⟨s2, h2, hP2⟩ := ih s1 hP1
    refine ⟨s2, ?_, hP2⟩
    simp only [RGResource.runOps, forEach, h1, Outcome.andThen] at h2 ⊢
    exact h2

theorem applyOp_keeps_invariant (op : RefOp) (s : RGResource × Pools)
    (hinv : s.1.base.devirtualized = true ↔ 0 < s.1.base.refCount) :
    ∃ s', RGResource.applyOp op s = .ok s' ∧
      (s'.1.base.devirtualized = true ↔ 0 < s'.1.base.refCount) ∧
      s'.1.base.imported = s.1.base.imported := by
  obtain ⟨r, device⟩ := s
  simp only at hinv
  cases op with
  | inc =>
    have hz : r.base.refCount = 0 → r.base.devirtualized = false := by
      intro h0
      cases hd : r.base.devirtualized
      · rfl
      · have := hinv.mp hd
        omega
    obtain ⟨r', device', he, hb⟩ := inc_base r device hz
    refine ⟨(r', device'), he, ?_, ?_⟩
    · simp only [hb]
      by_cases h0 : r.base.refCount = 0
      · simp [h0]
      · simp only [h0, if_false]
        rw [hinv]
        omega
    · simp [hb]
  | dec =>
    have hz : r.base.refCount = 1 → r.base.devirtualized = true := by
      intro h1
      exact hinv.mpr (by omega)
    obtain ⟨r', device', he, hb⟩ := dec_base r device hz
    refine ⟨(r', device'), he, ?_, ?_⟩
    · simp only [hb]
      by_cases h1 : r.base.refCount = 1
      · simp [h1]
      · simp only [h1, if_false]
        rw [hinv]
        omega
    · simp [hb]

end LifetimeLemmas

/-! ## C3: the lifetime invariant -/

/-- C3, counterexample. An imported buffer as `ImportBuffer` constructs it (no call made on it
yet) is not devirtualized although it is imported: the stated invariant
`devirtualized ⇔ (refCount > 0 OR imported)` fails in this reachable state. -/
theorem imported_buffer_breaks_stated_invariant :
    RGResource.Constructed (RGResource.buffer (RGBuffer.newImported sampleDeviceBuffer)) ∧
    RGResource.noDecrementAtZero []
      (RGResource.buffer (RGBuffer.newImported sampleDeviceBuffer), emptyPools) = true ∧
    RGResource.runOps [] (RGResource.buffer (RGBuffer.newImported sampleDeviceBuffer), emptyPools) =
      Outcome.ok (RGResource.buffer (RGBuffer.newImported sampleDeviceBuffer), emptyPools) ∧
    ¬ ((RGBuffer.newImported sampleDeviceBuffer).devirtualized = true ↔
        (0 < (RGBuffer.newImported sampleDeviceBuffer).refCount ∨
          (RGBuffer.newImported sampleDeviceBuffer).imported = true)) := by
  refine ⟨Or.inr (Or.inr (Or.inl ⟨sampleDeviceBuffer, rfl⟩)), rfl, rfl, ?_⟩
  decide

/-- C3, amended. In every state of a resource reachable from its construction (by
CreateBuffer/CreateTexture or ImportBuffer/ImportTexture) through any sequence of
IncRefCountAndUpdateResource and DecRefAndUpdateResource calls in which no decrement is applied
at refCount 0, every call of the sequence returns and `devirtualized ⇔ refCount > 0` holds,
whether the resource is imported or not; so `devirtualized ⇔ (refCount > 0 OR imported)` holds
for every resource that is not imported. -/
theorem devirtualized_iff_refCount_pos (r0 : RGResource) (pools : Pools) (ops : List RefOp)
    (hc : r0.Constructed) (_hz : RGResource.noDecrementAtZero ops (r0, pools) = true) :
    ∃ r pools', RGResource.runOps ops (r0, pools) = Outcome.ok (r, pools') ∧
      (r.base.devirtualized = true ↔ 0 < r.base.refCount) ∧
      (r.base.imported = false →
        (r.base.devirtualized = true ↔ (0 < r.base.refCount ∨ r.base.imported = true))) := by
  have h0 : (r0, pools).1.base.devirtualized = true ↔ 0 < (r0, pools).1.base.refCount := by
    rcases hc with ⟨d, rfl⟩ | ⟨d, rfl⟩ | ⟨h, rfl⟩ | ⟨h, rfl⟩ <;>
      simp [RGResource.base, RGBuffer.new, RGTexture.new, RGBuffer.newImported,
        RGTexture.newImported, RGResourceBase.new]
  obtain ⟨⟨r, pools'⟩, hrun, hinv⟩ :=
    runOps_induct (fun s => s.1.base.devirtualized = true ↔ 0 < s.1.base.refCount)
      (fun op s hs => by
        obtain ⟨s', he, hi, _⟩ := applyOp_keeps_invariant op s hs
        exact ⟨s', he, hi⟩)
      ops (r0, pools) h0
  refine ⟨r, pools', hrun, hinv, ?_⟩
  intro hni
  simp only at hinv
  rw [hinv]
  simp [hni]

/-- C3, witness: a created buffer taken through inc, inc, dec, dec, inc. -/
theorem devirtualized_iff_refCount_pos_witness :
    RGResource.Constructed (RGResource.buffer (RGBuffer.new sampleBufferDesc)) ∧
    RGResource.noDecrementAtZero [RefOp.inc, RefOp.inc, RefOp.dec, RefOp.dec, RefOp.inc]
      (RGResource.buffer (RGBuffer.new sampleBufferDesc), emptyPools) = true ∧
    ∃ r pools', RGResource.runOps [RefOp.inc, RefOp.inc, RefOp.dec, RefOp.dec, RefOp.inc]
        (RGResource.buffer (RGBuffer.new sampleBufferDesc), emptyPools) = Outcome.ok (r, pools') ∧
      (r.base.devirtualized = true ↔ 0 < r.base.refCount) ∧
      (r.base.imported = false →
        (r.base.devirtualized = true ↔ (0 < r.base.refCount ∨ r.base.imported = true))) :=
  ⟨Or.inl ⟨sampleBufferDesc, rfl⟩, by decide,
    devirtualized_iff_refCount_pos _ _ _ (Or.inl ⟨sampleBufferDesc, rfl⟩) (by decide)⟩

theorem allocate_allocateCalls {Desc : Type} [DecidableEq Desc] (pool : ResourcePool Desc)
    (desc : Desc) : (pool.Allocate desc).2.allocateCalls = pool.allocateCalls ++ [desc] := by
  unfold ResourcePool.Allocate
  split <;> rfl

/-! ## C4, C5: one increment, one decrement -/

/-- C4. For a resource in a state the code can reach (virtual whenever its refCount is 0),
IncRefCountAndUpdateResource returns and increases refCount by exactly 1; when refCount was 0
and the resource is not imported, the pooled handle becomes the result of the pool's `Allocate`
called with the resource's own descriptor (the only call made on a pool) and the resource is
marked devirtualized; when refCount was already > 0, no pool is touched and the pooled handle and
the devirtualized flag are unchanged. -/
theorem incRef_increments_and_materializes (r : RGResource) (device : Pools)
    (hinv : r.base.refCount = 0 → r.base.devirtualized = false) :
    ∃ r' device', r.IncRefCountAndUpdateResource device = Outcome.ok (r', device') ∧
      r'.base.refCount = r.base.refCount + 1 ∧
      (r.base.refCount = 0 → r.base.imported = false →
        r'.base.devirtualized = true ∧
        match r with
        | .buffer b =>
          r'.pooled = some (device.bufferPool.Allocate b.desc).1 ∧
          device'.bufferPool.allocateCalls = device.bufferPool.allocateCalls ++ [b.desc] ∧
          device'.texturePool = device.texturePool
        | .texture t =>
          r'.pooled = some (device.texturePool.Allocate t.desc).1 ∧
          device'.texturePool.allocateCalls = device.texturePool.allocateCalls ++ [t.desc] ∧
          device'.bufferPool = device.bufferPool) ∧
      (0 < r.base.refCount →
        device' = device ∧ r'.pooled = r.pooled ∧
        r'.base.devirtualized = r.base.devirtualized) := by
  by_cases h0 : r.base.refCount = 0
  · cases r with
    | buffer b =>
      have hd : b.devirtualized = false := hinv h0
      have h0' : b.refCount = 0 := h0
      rw [inc_buffer_zero b device h0' hd]
      cases hi : b.imported
      · refine ⟨_, _, rfl, ?_, ?_, ?_⟩
        · simp [RGResource.base, h0']
        · intro _ _
          simp only [RGResource.base, RGResource.pooled, drop_allocateCalls, true_and]
          exact ⟨allocate_allocateCalls _ _, trivial⟩
        · intro hpos
          simp [RGResource.base, h0'] at hpos
      · refine ⟨_, _, rfl, ?_, ?_, ?_⟩
        · simp [RGResource.base, h0']
        · intro _ hni
          simp [RGResource.base, hi] at hni
        · intro hpos
          simp [RGResource.base, h0'] at hpos
    | texture t =>
      have hd : t.devirtualized = false := hinv h0
      have h0' : t.refCount = 0 := h0
      rw [inc_texture_zero t device h0' hd]
      cases hi : t.imported
      · refine ⟨_, _, rfl, ?_, ?_, ?_⟩
        · simp [RGResource.base, h0']
        · intro _ _
          simp only [RGResource.base, RGResource.pooled, drop_allocateCalls, true_and]
          exact ⟨allocate_allocateCalls _ _, trivial⟩
        · intro hpos
          simp [RGResource.base, h0'] at hpos
      · refine ⟨_, _, rfl, ?_, ?_, ?_⟩
        · simp [RGResource.base, h0']
        · intro _ hni
          simp [RGResource.base, hi] at hni
        · intro hpos
          simp [RGResource.base, h0'] at hpos
  · rw [inc_of_pos r device h0]
    refine ⟨_, _, rfl, ?_, ?_, ?_⟩
    · cases r <;> simp [RGResource.base, RGResource.setBase]
    · intro h; exact absurd h h0
    · intro _
      cases r <;> simp [RGResource.base, RGResource.setBase, RGResource.pooled]

/-- C4, witness: the first increment of a created buffer allocates from the buffer pool. -/
theorem incRef_increments_and_materializes_witness :
    ((RGResource.buffer (RGBuffer.new sampleBufferDesc)).base.refCount = 0 →
      (RGResource.buffer (RGBuffer.new sampleBufferDesc)).base.devirtualized = false) ∧
    ∃ r' device',
      (RGResource.buffer (RGBuffer.new sampleBufferDesc)).IncRefCountAndUpdateResource emptyPools =
        Outcome.ok (r', device') ∧
      r'.base.refCount = 1 ∧ r'.base.devirtualized = true ∧ r'.pooled = some 0 ∧
      device'.bufferPool.allocateCalls = [sampleBufferDesc] := by
  refine ⟨fun _ => rfl, ?_⟩
  obtain ⟨r', device', he, hrc, hz, _⟩ :=
    incRef_increments_and_materializes (RGResource.buffer (RGBuffer.new sampleBufferDesc))
      emptyPools (fun _ => rfl)
  obtain ⟨hd, hp, hc, _⟩ := hz rfl rfl
  exact ⟨r', device', he, hrc, hd, hp, hc⟩

/-- C5. For a resource with refCount ≥ 1 in a state the code can reach (devirtualized whenever
its refCount is positive), DecRefAndUpdateResource returns and decreases refCount by exactly 1;
if the result is 0 and the resource is not imported, the pooled handle is dropped (it becomes
empty and the pool takes the object back) and the resource is marked virtual; if the result is
> 0, the pooled handle, the devirtualized flag and the pools are unchanged. -/
theorem decRef_decrements_and_releases (r : RGResource) (device : Pools)
    (hge : 1 ≤ r.base.refCount)
    (hinv : 0 < r.base.refCount → r.base.devirtualized = true) :
    ∃ r' device', r.DecRefAndUpdateResource device = Outcome.ok (r', device') ∧
      r'.base.refCount = r.base.refCount - 1 ∧
      (r.base.refCount - 1 = 0 → r.base.imported = false →
        r'.pooled = none ∧ r'.base.devirtualized = false ∧
        match r with
        | .buffer b =>
          device' = { device with bufferPool := device.bufferPool.drop b.pooledBuffer }
        | .texture t =>
          device' = { device with texturePool := device.texturePool.drop t.pooledTexture }) ∧
      (0 < r.base.refCount - 1 →
        device' = device ∧ r'.pooled = r.pooled ∧
        r'.base.devirtualized = r.base.devirtualized) := by
  have hdv : r.base.devirtualized = true := hinv (by omega)
  by_cases h1 : r.base.refCount = 1
  · cases r with
    | buffer b =>
      have h1' : b.refCount = 1 := h1
      have hd : b.devirtualized = true := hdv
      rw [dec_buffer_one b device h1' hd]
      cases hi : b.imported
      · refine ⟨_, _, rfl, ?_, ?_, ?_⟩
        · simp [RGResource.base, h1']
        · intro _ _
          simp [RGResource.base, RGResource.pooled]
        · intro hpos
          simp [RGResource.base, h1'] at hpos
      · refine ⟨_, _, rfl, ?_, ?_, ?_⟩
        · simp [RGResource.base, h1']
        · intro _ hni
          simp [RGResource.base, hi] at hni
        · intro hpos
          simp [RGResource.base, h1'] at hpos
    | texture t =>
      have h1' : t.refCount = 1 := h1
      have hd : t.devirtualized = true := hdv
      rw [dec_texture_one t device h1' hd]
      cases hi : t.imported
      · refine ⟨_, _, rfl, ?_, ?_, ?_⟩
        · simp [RGResource.base, h1']
        · intro _ _
          simp [RGResource.base, RGResource.pooled]
        · intro hpos
          simp [RGResource.base, h1'] at hpos
      · refine ⟨_, _, rfl, ?_, ?_, ?_⟩
        · simp [RGResource.base, h1']
        · intro _ hni
          simp [RGResource.base, hi] at hni
        · intro hpos
          simp [RGResource.base, h1'] at hpos
  · rw [dec_of_ne_one r device h1]
    refine ⟨_, _, rfl, ?_, ?_, ?_⟩
    · cases r <;> simp [RGResource.base, RGResource.setBase]
    · intro h; omega
    · intro _
      cases r <;> simp [RGResource.base, RGResource.setBase, RGResource.pooled]

/-- C5, witness: the last decrement of a live buffer hands its pooled object back. -/
theorem decRef_decrements_and_releases_witness :
    1 ≤ (RGResource.buffer sampleLiveBuffer).base.refCount ∧
    (0 < (RGResource.buffer sampleLiveBuffer).base.refCount →
      (RGResource.buffer sampleLiveBuffer).base.devirtualized = true) ∧
    ∃ r' device',
      (RGResource.buffer sampleLiveBuffer).DecRefAndUpdateResource samplePoolsOneBuffer =
        Outcome.ok (r', device') ∧
      r'.base.refCount = 0 ∧ r'.pooled = none ∧ r'.base.devirtualized = false ∧
      device'.bufferPool.pooledResources = [{ desc := sampleBufferDesc, holders := 0 }] := by
  refine ⟨by decide, fun _ => rfl, ?_⟩
  obtain ⟨r', device', he, hrc, hz, _⟩ :=
    decRef_decrements_and_releases (RGResource.buffer sampleLiveBuffer) samplePoolsOneBuffer
      (by decide) (fun _ => rfl)
  obtain ⟨hp, hd, hdev⟩ := hz (by decide) rfl
  refine ⟨r', device', he, hrc, hp, hd, ?_⟩
  simp only at hdev
  rw [hdev]
  rfl

/-! ## C6: imported resources -/

theorem imported_buffer_step (h : RHI.Buffer) (pools : Pools) (op : RefOp)
    (s : RGResource × Pools)
    (hs : s.2 = pools ∧ ∃ b, s.1 = RGResource.buffer b ∧ b.imported = true ∧
      b.pooledBuffer = none ∧ b.rhiHandle = some h ∧ (b.devirtualized = true ↔ 0 < b.refCount)) :
    ∃ s', RGResource.applyOp op s = Outcome.ok s' ∧
      (s'.2 = pools ∧ ∃ b, s'.1 = RGResource.buffer b ∧ b.imported = true ∧
        b.pooledBuffer = none ∧ b.rhiHandle = some h ∧
        (b.devirtualized = true ↔ 0 < b.refCount)) := by
  obtain ⟨r, device⟩ := s
  obtain ⟨hp, b, hb, hi, hpool, hrhi, hinv⟩ := hs
  simp only at hp hb
  subst hp hb
  cases op with
  | inc =>
    by_cases h0 : b.refCount = 0
    · have hd : b.devirtualized = false := by
        cases hdv : b.devirtualized
        · rfl
        · have := hinv.mp hdv
          omega
      refine ⟨_, inc_buffer_zero b device h0 hd, ?_⟩
      simp [hi, hpool, hrhi]
    · refine ⟨_, inc_of_pos (RGResource.buffer b) device h0, rfl, ?_⟩
      refine ⟨_, rfl, hi, hpool, hrhi, ?_⟩
      simp only [RGResource.base]
      rw [hinv]
      have : b.refCount ≠ 0 := h0
      omega
  | dec =>
    by_cases h1 : b.refCount = 1
    · have hd : b.devirtualized = true := hinv.mpr (by omega)
      refine ⟨_, dec_buffer_one b device h1 hd, ?_⟩
      simp [hi, hpool, hrhi]
    · refine ⟨_, dec_of_ne_one (RGResource.buffer b) device h1, rfl, ?_⟩
      refine ⟨_, rfl, hi, hpool, hrhi, ?_⟩
      simp only [RGResource.base]
      rw [hinv]
      have : b.refCount ≠ 1 := h1
      omega

theorem imported_texture_step (h : RHI.Texture) (pools : Pools) (op : RefOp)
    (s : RGResource × Pools)
    (hs : s.2 = pools ∧ ∃ t, s.1 = RGResource.texture t ∧ t.imported = true ∧
      t.pooledTexture = none ∧ t.rhiHandle = some h ∧ (t.devirtualized = true ↔ 0 < t.refCount)) :
    ∃ s', RGResource.applyOp op s = Outcome.ok s' ∧
      (s'.2 = pools ∧ ∃ t, s'.1 = RGResource.texture t ∧ t.imported = true ∧
        t.pooledTexture = none ∧ t.rhiHandle = some h ∧
        (t.devirtualized = true ↔ 0 < t.refCount)) := by
  obtain ⟨r, device⟩ := s
  obtain ⟨hp, t, ht, hi, hpool, hrhi, hinv⟩ := hs
  simp only at hp ht
  subst hp ht
  cases op with
  | inc =>
    by_cases h0 : t.refCount = 0
    · have hd : t.devirtualized = false := by
        cases hdv : t.devirtualized
        · rfl
        · have := hinv.mp hdv
          omega
      refine ⟨_, inc_texture_zero t device h0 hd, ?_⟩
      simp [hi, hpool, hrhi]
    · refine ⟨_, inc_of_pos (RGResource.texture t) device h0, rfl, ?_⟩
      refine ⟨_, rfl, hi, hpool, hrhi, ?_⟩
      simp only [RGResource.base]
      rw [hinv]
      have : t.refCount ≠ 0 := h0
      omega
  | dec =>
    by_cases h1 : t.refCount = 1
    · have hd : t.devirtualized = true := hinv.mpr (by omega)
      refine ⟨_, dec_texture_one t device h1 hd, ?_⟩
      simp [hi, hpool, hrhi]
    · refine ⟨_, dec_of_ne_one (RGResource.texture t) device h1, rfl, ?_⟩
      refine ⟨_, rfl, hi, hpool, hrhi, ?_⟩
      simp only [RGResource.base]
      rw [hinv]
      have : t.refCount ≠ 1 := h1
      omega

/-- C6. An imported resource is never pooled or released: for every imported buffer or texture
and every sequence of IncRefCountAndUpdateResource / DecRefAndUpdateResource calls, every call
returns, the pools are left exactly as they were (so `Allocate` is never called), the pooled
handle stays empty, and rhiHandle stays equal to the device object that was imported. -/
theorem imported_never_pooled (ops : List RefOp) (pools : Pools) :
    (∀ h : RHI.Buffer, ∃ b,
      RGResource.runOps ops (RGResource.buffer (RGBuffer.newImported h), pools) =
        Outcome.ok (RGResource.buffer b, pools) ∧
      b.pooledBuffer = none ∧ b.rhiHandle = some h) ∧
    (∀ h : RHI.Texture, ∃ t,
      RGResource.runOps ops (RGResource.texture (RGTexture.newImported h), pools) =
        Outcome.ok (RGResource.texture t, pools) ∧
      t.pooledTexture = none ∧ t.rhiHandle = some h) := by
  constructor
  · intro h
    obtain ⟨⟨r, p⟩, hrun, hp, b, hb, _, hpool, hrhi, _⟩ :=
      runOps_induct _ (imported_buffer_step h pools) ops
        (RGResource.buffer (RGBuffer.newImported h), pools)
        ⟨rfl, _, rfl, rfl, rfl, rfl, by simp [RGBuffer.newImported, RGResourceBase.new]⟩
    simp only at hp hb
    subst hp hb
    exact ⟨b, hrun, hpool, hrhi⟩
  · intro h
    obtain ⟨⟨r, p⟩, hrun, hp, t, ht, _, hpool, hrhi, _⟩ :=
      runOps_induct _ (imported_texture_step h pools) ops
        (RGResource.texture (RGTexture.newImported h), pools)
        ⟨rfl, _, rfl, rfl, rfl, rfl, by simp [RGTexture.newImported, RGResourceBase.new]⟩
    simp only at hp ht
    subst hp ht
    exact ⟨t, hrun, hpool, hrhi⟩

/-! ## C7: what GetRHI returns once a resource is devirtualized -/

/-- C7, the code at the failing input. After the first increment of a created (not imported)
buffer or texture the resource is devirtualized and holds the pooled allocation, but `GetRHI()`
returns nullptr: `Devirtualize` stores the allocation in the pooled handle and never assigns
`rhiHandle`, which the constructor set to nullptr. For an imported resource `GetRHI()` returns
the imported device object after the first increment. -/
theorem getRHI_after_first_increment (device : Pools) :
    (∀ desc : RGBufferDesc, ∃ b device',
      (RGResource.buffer (RGBuffer.new desc)).IncRefCountAndUpdateResource device =
        Outcome.ok (RGResource.buffer b, device') ∧
      b.refCount = 1 ∧ b.devirtualized = true ∧
      b.pooledBuffer = some (device.bufferPool.Allocate desc).1 ∧ b.GetRHI = some none) ∧
    (∀ desc : RGTextureDesc, ∃ t device',
      (RGResource.texture (RGTexture.new desc)).IncRefCountAndUpdateResource device =
        Outcome.ok (RGResource.texture t, device') ∧
      t.refCount = 1 ∧ t.devirtualized = true ∧
      t.pooledTexture = some (device.texturePool.Allocate desc).1 ∧ t.GetRHI = some none) ∧
    (∀ h : RHI.Buffer, ∃ b,
      (RGResource.buffer (RGBuffer.newImported h)).IncRefCountAndUpdateResource device =
        Outcome.ok (RGResource.buffer b, device) ∧ b.GetRHI = some (some h)) ∧
    (∀ h : RHI.Texture, ∃ t,
      (RGResource.texture (RGTexture.newImported h)).IncRefCountAndUpdateResource device =
        Outcome.ok (RGResource.texture t, device) ∧ t.GetRHI = some (some h)) := by
  refine ⟨fun desc => ?_, fun desc => ?_, fun h => ?_, fun h => ?_⟩
  · have h := inc_buffer_zero (RGBuffer.new desc) device rfl rfl
    simp only [RGBuffer.new, RGResourceBase.new, Bool.false_eq_true, if_false] at h
    exact ⟨_, _, h, rfl, rfl, rfl, by simp [RGBuffer.GetRHI, Assert]⟩
  · have h := inc_texture_zero (RGTexture.new desc) device rfl rfl
    simp only [RGTexture.new, RGResourceBase.new, Bool.false_eq_true, if_false] at h
    exact ⟨_, _, h, rfl, rfl, rfl, by simp [RGTexture.GetRHI, Assert]⟩
  · have h' := inc_buffer_zero (RGBuffer.newImported h) device rfl rfl
    simp only [RGBuffer.newImported, RGResourceBase.new, if_true] at h'
    exact ⟨_, h', by simp [RGBuffer.GetRHI, Assert]⟩
  · have h' := inc_texture_zero (RGTexture.newImported h) device rfl rfl
    simp only [RGTexture.newImported, RGResourceBase.new, if_true] at h'
    exact ⟨_, h', by simp [RGTexture.GetRHI, Assert]⟩

/-! ## C8, C9: state transitions -/

/-- C8. For every devirtualized buffer or texture with current state s and every target state t
(t = s included), `Transition(encoder, t)` returns, appends exactly one barrier command to the
encoder, which is the transition from s to t on the resource's device handle, and leaves the
resource with currentState = t and every other field as it was. -/
theorem transition_emits_one_barrier (b : RGBuffer) (t : RGTexture) (encoder : CommandEncoder)
    (toBuffer : BufferState) (toTexture : TextureState)
    (hb : b.devirtualized = true) (ht : t.devirtualized = true) :
    b.Transition encoder toBuffer =
      Outcome.ok ({ b with currentState := toBuffer },
        encoder ++ [Command.bufferBarrier b.rhiHandle b.currentState toBuffer]) ∧
    t.Transition encoder toTexture =
      Outcome.ok ({ t with currentState := toTexture },
        encoder ++ [Command.textureBarrier t.rhiHandle t.currentState toTexture]) := by
  simp [RGBuffer.Transition, RGBuffer.GetRHI, RGTexture.Transition, RGTexture.GetRHI, Assert, hb,
    ht]

/-- C8, witness: a live buffer taken to its own current state and a live texture taken to
renderTarget, on an encoder that already holds one command. -/
theorem transition_emits_one_barrier_witness :
    sampleLiveBuffer.devirtualized = true ∧ sampleLiveTexture.devirtualized = true ∧
    sampleLiveBuffer.Transition [Command.begin] sampleLiveBuffer.currentState =
      Outcome.ok ({ sampleLiveBuffer with currentState := sampleLiveBuffer.currentState },
        [Command.begin] ++ [Command.bufferBarrier sampleLiveBuffer.rhiHandle
          sampleLiveBuffer.currentState sampleLiveBuffer.currentState]) ∧
    sampleLiveTexture.Transition [Command.begin] TextureState.renderTarget =
      Outcome.ok ({ sampleLiveTexture with currentState := TextureState.renderTarget },
        [Command.begin] ++ [Command.textureBarrier sampleLiveTexture.rhiHandle
          sampleLiveTexture.currentState TextureState.renderTarget]) :=
  ⟨rfl, rfl,
    transition_emits_one_barrier sampleLiveBuffer sampleLiveTexture [Command.begin]
      sampleLiveBuffer.currentState TextureState.renderTarget rfl rfl⟩

/-- C9. `Transition` fails fatally if and only if the resource is not devirtualized, and a
failed call is the fatal outcome that carries the resource and the encoder exactly as they were
passed in: no barrier has been emitted and currentState is unchanged. -/
theorem transition_fatal_iff_not_devirtualized (b : RGBuffer) (t : RGTexture)
    (encoder : CommandEncoder) (toBuffer : BufferState) (toTexture : TextureState) :
    ((b.Transition encoder toBuffer).isFatal = true ↔ b.devirtualized = false) ∧
    (b.Transition encoder toBuffer = Outcome.fatal (b, encoder) ↔
      (b.Transition encoder toBuffer).isFatal = true) ∧
    ((t.Transition encoder toTexture).isFatal = true ↔ t.devirtualized = false) ∧
    (t.Transition encoder toTexture = Outcome.fatal (t, encoder) ↔
      (t.Transition encoder toTexture).isFatal = true) := by
  cases hb : b.devirtualized <;> cases ht : t.devirtualized <;>
    simp [RGBuffer.Transition, RGBuffer.GetRHI, RGTexture.Transition, RGTexture.GetRHI, Assert,
      Outcome.isFatal, hb, ht]

/-! ## C10: the resource a view references -/

/-- C10, the code at the failing input. A buffer view references the buffer it was created on:
`CreateBufferView(b, d)` returns a pointer to a buffer view whose `GetBuffer()` and
`GetResource()` are b. A texture view does not: the constructor of `RGTextureView` never
initializes the member `texture`, so `GetTexture()` and `GetResource()` of the view
`CreateTextureView(t, d)` returns are whatever the member's storage holds, for every t; with a
storage that holds nullptr and t the texture at position 0 they are not t. -/
theorem view_references (g : RGBuilder) :
    (∀ (b : RGBufferRef) (d : RGBufferViewDesc), ∃ v,
      (g.CreateBufferView b d).2.bufferView? (g.CreateBufferView b d).1 = some v ∧
      v.GetBuffer = b ∧ v.GetResource = b) ∧
    (∀ (indeterminate t : RGTextureRef) (d : RGTextureViewDesc), ∃ v,
      (g.CreateTextureView indeterminate t d).2.textureView?
        (g.CreateTextureView indeterminate t d).1 = some v ∧
      v.GetTexture = indeterminate ∧ v.GetResource = indeterminate) ∧
    (∀ d : RGTextureViewDesc, ∃ v,
      (g.CreateTextureView none (some 0) d).2.textureView?
        (g.CreateTextureView none (some 0) d).1 = some v ∧
      v.GetTexture ≠ some 0 ∧ v.GetResource ≠ some 0) := by
  refine ⟨fun b d => ⟨RGBufferView.new b d, ?_, rfl, rfl⟩,
    fun u t d => ⟨RGTextureView.new u t d, ?_, rfl, rfl⟩,
    fun d => ⟨RGTextureView.new none (some 0) d, ?_, ?_, ?_⟩⟩
  · simp [RGBuilder.CreateBufferView, RGBuilder.bufferView?]
  · simp [RGBuilder.CreateTextureView, RGBuilder.textureView?]
  · simp [RGBuilder.CreateTextureView, RGBuilder.textureView?]
  · simp [RGTextureView.new, RGTextureView.GetTexture]
  · simp [RGTextureView.new, RGTextureView.GetResource]

/-! ## Sequencing lemmas -/

section Sequencing

theorem andThen_eq_ok {σ : Type} (o : Outcome σ) (f : σ → Outcome σ) (s' : σ) :
    o.andThen f = Outcome.ok s' ↔ ∃ s, o = Outcome.ok s ∧ f s = Outcome.ok s' := by
  cases o <;> simp [Outcome.andThen]

theorem lift_eq_ok {σ τ : Type} (o : Outcome τ) (put : τ → σ) (s' : σ) :
    o.lift put = Outcome.ok s' ↔ ∃ t, o = Outcome.ok t ∧ put t = s' := by
  cases o <;> simp [Outcome.lift]

theorem forEach_append {α σ : Type} (f : α → σ → Outcome σ) (xs ys : List α) (s : σ) :
    forEach f (xs ++ ys) s = (forEach f xs s).andThen (forEach f ys) := by
  induction xs generalizing s with
  | nil => rfl
  | cons x xs ih =>
    simp only [List.cons_append, forEach]
    cases f x s <;> simp [Outcome.andThen, ih]

/-- A property every completed iteration keeps holds after a completed loop. -/
theorem forEach_ok_induct {α σ : Type} (P : σ → Prop) (f : α → σ → Outcome σ) (xs : List α)
    (hstep : ∀ x ∈ xs, ∀ s s', P s → f x s = Outcome.ok s' → P s') :
    ∀ s s', P s → forEach f xs s = Outcome.ok s' → P s' := by
  induction xs with
  | nil =>
    intro s s' hP h
    simp only [forEach, Outcome.ok.injEq] at h
    exact h ▸ hP
  | cons x xs ih =>
    intro s s' hP h
    simp only [forEach] at h
    obtain ⟨s1, h1, h2⟩ := (andThen_eq_ok _ _ _).mp h
    exact ih (fun y hy => hstep y (List.mem_cons_of_mem _ hy)) s1 s'
      (hstep x (List.mem_cons_self _ _) s s1 hP h1) h2

end Sequencing

/-! ## Counting calls in a log -/

section Counting

theorem calls_append (a b : List ResourceEvent) : calls (a ++ b) = calls a ++ calls b := by
  simp [calls]

theorem callCount_append (a b : List ResourceEvent) (call : ResourceCall) (r : Nat) :
    callCount (a ++ b) call r = callCount a call r + callCount b call r := by
  simp [callCount, calls_append]

theorem netCount_append (a b : List ResourceEvent) (r : Nat) :
    netCount (a ++ b) r = netCount a r + netCount b r := by
  simp only [netCount, callCount_append]
  push_cast
  ring

theorem netCount_nil (r : Nat) : netCount [] r = 0 := by
  simp [netCount, callCount, calls]

theorem netCount_single (e : ResourceEvent) (r : Nat) :
    netCount [e] r =
      if e.resource = r then
        (match e.call with
         | .incRef => 1
         | .decRef => -1
         | .transition => 0)
      else 0 := by
  obtain ⟨i, c, x⟩ := e
  by_cases h : i = r
  · subst h
    cases c <;> simp [netCount, callCount, calls, List.count_singleton]
  · have h' : ¬ (r = i) := fun hh => h hh.symm
    cases c <;> simp [netCount, callCount, calls, List.count_singleton, h, h']

theorem logConsistent_nil : LogConsistent [] := by
  intro P e S h
  simp at h

theorem logConsistent_concat (events : List ResourceEvent) (e : ResourceEvent)
    (hE : LogConsistent events)
    (h1 : e.after.base.refCount = netCount (events ++ [e]) e.resource)
    (h2 : e.after.base.devirtualized = true ↔ 0 < e.after.base.refCount)
    (h3 : e.call = ResourceCall.transition → e.after.base.devirtualized = true) :
    LogConsistent (events ++ [e]) := by
  intro P x S h
  rcases List.eq_nil_or_concat S with hS | ⟨S', z, hS⟩
  · subst hS
    have hh : events ++ [e] = P ++ [x] := h
    obtain ⟨hp, hx⟩ := List.append_inj' hh rfl
    simp only [List.cons.injEq, and_true] at hx
    subst hp hx
    exact ⟨h1, h2, h3⟩
  · subst hS
    have hh : events ++ [e] = (P ++ x :: S') ++ [z] := by
      rw [h]; simp [List.concat_eq_append]
    obtain ⟨hp, _⟩ := List.append_inj' hh rfl
    exact hE P x S' hp

end Counting

/-! ## What one call does to the builder -/

section Primitives

theorem inc_ok_base (x x' : RGResource) (p p' : Pools)
    (h : x.IncRefCountAndUpdateResource p = Outcome.ok (x', p')) :
    x'.base = { x.base with
                refCount := x.base.refCount + 1
                devirtualized := if x.base.refCount = 0 then true else x.base.devirtualized } := by
  by_cases hz : x.base.refCount = 0 → x.base.devirtualized = false
  · obtain ⟨r', d', he, hb⟩ := inc_base x p hz
    rw [he] at h
    simp only [Outcome.ok.injEq, Prod.mk.injEq] at h
    rw [← h.1]
    exact hb
  · exfalso
    simp only [Classical.not_imp, Bool.not_eq_false] at hz
    obtain ⟨h0, hd⟩ := hz
    cases x <;>
      simp_all [RGResource.IncRefCountAndUpdateResource, RGResource.Devirtualize,
        RGBuffer.Devirtualize, RGTexture.Devirtualize, Assert, Outcome.andThen, Outcome.lift,
        RGResource.base]

theorem dec_ok_base (x x' : RGResource) (p p' : Pools)
    (h : x.DecRefAndUpdateResource p = Outcome.ok (x', p')) :
    x'.base = { x.base with
                refCount := x.base.refCount - 1
                devirtualized := if x.base.refCount = 1 then false else x.base.devirtualized } := by
  by_cases hz : x.base.refCount = 1 → x.base.devirtualized = true
  · obtain ⟨r', d', he, hb⟩ := dec_base x p hz
    rw [he] at h
    simp only [Outcome.ok.injEq, Prod.mk.injEq] at h
    rw [← h.1]
    exact hb
  · exfalso
    simp only [Classical.not_imp, Bool.not_eq_true] at hz
    obtain ⟨h1, hd⟩ := hz
    cases x <;>
      simp_all [RGResource.DecRefAndUpdateResource, RGResource.UndoDevirtualize,
        RGBuffer.UndoDevirtualize, RGTexture.UndoDevirtualize, Assert, Outcome.andThen,
        Outcome.lift, RGResource.base, RGResource.setBase]

theorem map_set_same {α β : Type} (f : α → β) (l : List α) (i : Nat) (x x' : α)
    (hx : l[i]? = some x) (hf : f x' = f x) : (l.set i x').map f = l.map f := by
  induction l generalizing i with
  | nil => simp
  | cons a l ih =>
    cases i with
    | zero =>
      simp only [List.getElem?_cons_zero, Option.some.injEq] at hx
      simp [hx, hf]
    | succ i =>
      simp only [List.getElem?_cons_succ] at hx
      simp [ih i hx]

theorem run_refl (w : RGBuilder) : Run w w [] :=
  ⟨rfl, rfl, ⟨[], by simp, rfl⟩, id⟩

theorem run_trans {w w1 w2 : RGBuilder} {k1 k2 : List (Nat × ResourceCall)}
    (h1 : Run w w1 k1) (h2 : Run w1 w2 k2) : Run w w2 (k1 ++ k2) := by
  obtain ⟨hp1, hf1, ⟨e1, he1, hc1⟩, hk1⟩ := h1
  obtain ⟨hp2, hf2, ⟨e2, he2, hc2⟩, hk2⟩ := h2
  refine ⟨hp2.trans hp1, hf2.trans hf1, ⟨e1 ++ e2, ?_, ?_⟩, fun h => hk2 (hk1 h)⟩
  · rw [he2, he1, List.append_assoc]
  · rw [calls_append, hc1, hc2]

/-- A step that leaves passes, resources and log alone makes no call. -/
theorem run_of_same {w w' : RGBuilder} (hp : w'.passes = w.passes)
    (hr : w'.resources = w.resources) (he : w'.resourceEvents = w.resourceEvents) :
    Run w w' [] := by
  refine ⟨hp, by rw [hr], ⟨[], by simp [he], rfl⟩, ?_⟩
  intro hc
  unfold RGBuilder.Consistent at hc ⊢
  rw [hr, he]
  exact hc

/-- Entering one call on resource `i` that changes the refCount by `delta` keeps log and
resources in agreement. -/
theorem consistent_after_call (w w' : RGBuilder) (i : Nat) (x x' : RGResource)
    (call : ResourceCall)
    (hx : w.resources[i]? = some x) (hc : w.Consistent)
    (hres' : w'.resources = w.resources.set i x')
    (hev' : w'.resourceEvents =
      w.resourceEvents ++ [{ resource := i, call := call, after := x' }])
    (hrc : x'.base.refCount =
      x.base.refCount + netCount [{ resource := i, call := call, after := x' }] i)
    (hdv : x'.base.devirtualized = true ↔ 0 < x'.base.refCount)
    (htr : call = ResourceCall.transition → x'.base.devirtualized = true) :
    w'.Consistent := by
  obtain ⟨hlog, hres⟩ := hc
  have hxrc := (hres i x hx).1
  unfold RGBuilder.Consistent
  rw [hres', hev']
  constructor
  · apply logConsistent_concat _ _ hlog
    · show x'.base.refCount = netCount (w.resourceEvents ++ _) i
      rw [netCount_append, ← hxrc, hrc]
    · exact hdv
    · exact htr
  · intro r y hy
    by_cases hri : i = r
    · subst hri
      have hlt : i < w.resources.length := by
        rw [List.getElem?_eq_some_iff] at hx
        exact hx.1
      rw [List.getElem?_set_self hlt] at hy
      simp only [Option.some.injEq] at hy
      subst hy
      refine ⟨?_, hdv⟩
      rw [netCount_append, ← hxrc, hrc]
    · rw [List.getElem?_set_ne hri] at hy
      obtain ⟨h1, h2⟩ := hres r y hy
      refine ⟨?_, h2⟩
      rw [netCount_append, netCount_single, h1]
      simp [hri]

theorem incRefAt_run (i : Nat) (w w' : RGBuilder)
    (h : RGBuilder.incRefAt i w = Outcome.ok w') : Run w w' [(i, ResourceCall.incRef)] := by
  unfold RGBuilder.incRefAt at h
  split at h
  · simp at h
  · rename_i x hx
    split at h
    · rename_i x' pools hinc
      simp only [Outcome.ok.injEq] at h
      subst h
      have hb := inc_ok_base x x' _ _ hinc
      refine ⟨rfl, ?_, ⟨_, rfl, rfl⟩, ?_⟩
      · exact map_set_same _ _ _ x x' hx (by rw [hb])
      · intro hc
        have hinv := (hc.2 i x hx).2
        apply consistent_after_call w _ i x x' ResourceCall.incRef hx hc rfl rfl
        · rw [netCount_single, hb]; simp
        · rw [hb]
          simp only
          by_cases h0 : x.base.refCount = 0
          · simp [h0]
          · simp only [h0, if_false]
            rw [hinv]; omega
        · intro hh; cases hh
    · simp at h
    · simp at h

theorem decRefAt_run (i : Nat) (w w' : RGBuilder)
    (h : RGBuilder.decRefAt i w = Outcome.ok w') : Run w w' [(i, ResourceCall.decRef)] := by
  unfold RGBuilder.decRefAt at h
  split at h
  · simp at h
  · rename_i x hx
    split at h
    · rename_i x' pools hdec
      simp only [Outcome.ok.injEq] at h
      subst h
      have hb := dec_ok_base x x' _ _ hdec
      refine ⟨rfl, ?_, ⟨_, rfl, rfl⟩, ?_⟩
      · exact map_set_same _ _ _ x x' hx (by rw [hb])
      · intro hc
        have hinv := (hc.2 i x hx).2
        apply consistent_after_call w _ i x x' ResourceCall.decRef hx hc rfl rfl
        · rw [netCount_single, hb]; simp; ring
        · rw [hb]
          simp only
          by_cases h1 : x.base.refCount = 1
          · simp [h1]
          · simp only [h1, if_false]
            rw [hinv]; omega
        · intro hh; cases hh
    · simp at h
    · simp at h

end Primitives

section Composites

theorem record_run (cmdBuffer : Nat) (command : Command) (w w' : RGBuilder)
    (h : RGBuilder.record cmdBuffer command w = Outcome.ok w') : Run w w' [] := by
  unfold RGBuilder.record at h
  split at h
  · simp at h
  · simp only [Outcome.ok.injEq] at h
    subst h
    exact run_of_same rfl rfl rfl

theorem transitionBufferAt_run (cmdBuffer : Nat) (t : Nat × BufferState) (w w' : RGBuilder)
    (h : RGBuilder.transitionBufferAt cmdBuffer t w = Outcome.ok w') :
    Run w w' [(t.1, ResourceCall.transition)] := by
  unfold RGBuilder.transitionBufferAt at h
  split at h
  · rename_i b commandEncoder hx hcb
    cases hdv : b.devirtualized
    · simp [RGBuffer.Transition, RGBuffer.GetRHI, Assert, hdv] at h
    · simp only [RGBuffer.Transition, RGBuffer.GetRHI, Assert, hdv, if_true, Outcome.ok.injEq] at h
      subst h
      refine ⟨rfl, ?_, ⟨_, rfl, rfl⟩, ?_⟩
      · exact map_set_same _ _ _ (RGResource.buffer b) _ hx rfl
      · intro hc
        have hinv := (hc.2 t.1 _ hx).2
        exact consistent_after_call w _ t.1 (RGResource.buffer b) _ ResourceCall.transition hx hc
          rfl rfl
          (by rw [netCount_single]; simp [RGResource.base])
          (by simpa [RGResource.base] using hinv)
          (fun _ => by simpa [RGResource.base] using hdv)
  · simp at h

theorem transitionTextureAt_run (cmdBuffer : Nat) (t : Nat × TextureState) (w w' : RGBuilder)
    (h : RGBuilder.transitionTextureAt cmdBuffer t w = Outcome.ok w') :
    Run w w' [(t.1, ResourceCall.transition)] := by
  unfold RGBuilder.transitionTextureAt at h
  split at h
  · rename_i b commandEncoder hx hcb
    cases hdv : b.devirtualized
    · simp [RGTexture.Transition, RGTexture.GetRHI, Assert, hdv] at h
    · simp only [RGTexture.Transition, RGTexture.GetRHI, Assert, hdv, if_true, Outcome.ok.injEq] at h
      subst h
      refine ⟨rfl, ?_, ⟨_, rfl, rfl⟩, ?_⟩
      · exact map_set_same _ _ _ (RGResource.texture b) _ hx rfl
      · intro hc
        have hinv := (hc.2 t.1 _ hx).2
        exact consistent_after_call w _ t.1 (RGResource.texture b) _ ResourceCall.transition hx hc
          rfl rfl
          (by rw [netCount_single]; simp [RGResource.base])
          (by simpa [RGResource.base] using hinv)
          (fun _ => by simpa [RGResource.base] using hdv)
  · simp at h

/-- The calls of a completed loop are the calls of its iterations, in order. -/
theorem forEach_run {α : Type} (f : α → RGBuilder → Outcome RGBuilder)
    (K : α → List (Nat × ResourceCall)) (xs : List α)
    (hstep : ∀ x ∈ xs, ∀ w w', f x w = Outcome.ok w' → Run w w' (K x)) :
    ∀ w w', forEach f xs w = Outcome.ok w' → Run w w' (xs.flatMap K) := by
  induction xs with
  | nil =>
    intro w w' h
    simp only [forEach, Outcome.ok.injEq] at h
    subst h
    exact run_refl w
  | cons x xs ih =>
    intro w w' h
    simp only [forEach] at h
    obtain ⟨w1, h1, h2⟩ := (andThen_eq_ok _ _ _).mp h
    rw [List.flatMap_cons]
    exact run_trans (hstep x (List.mem_cons_self _ _) w w1 h1)
      (ih (fun y hy => hstep y (List.mem_cons_of_mem _ hy)) w1 w' h2)

theorem flatMap_single {α β : Type} (g : α → β) (xs : List α) :
    xs.flatMap (fun x => [g x]) = xs.map g := by
  induction xs with
  | nil => rfl
  | cons x xs ih => simp [List.flatMap_cons, ih]

theorem devirtualizeResources_run (p : RGPassBase) (w w' : RGBuilder)
    (h : p.DevirtualizeResources w = Outcome.ok w') : Run w w' p.incCalls := by
  have := forEach_run RGBuilder.incRefAt (fun r => [(r, ResourceCall.incRef)]) p.reads
    (fun x _ w w' hx => incRefAt_run x w w' hx) w w' h
  rwa [flatMap_single] at this

theorem finalizeResources_run (p : RGPassBase) (w w' : RGBuilder)
    (h : p.FinalizeResources w = Outcome.ok w') : Run w w' p.decCalls := by
  have := forEach_run RGBuilder.decRefAt (fun r => [(r, ResourceCall.decRef)]) p.reads
    (fun x _ w w' hx => decRefAt_run x w w' hx) w w' h
  rwa [flatMap_single] at this

theorem transitionResources_run (p : RGPassBase) (cmdBuffer : Nat) (w w' : RGBuilder)
    (h : p.TransitionResources cmdBuffer w = Outcome.ok w') : Run w w' p.transitionCalls := by
  unfold RGPassBase.TransitionResources at h
  obtain ⟨w1, h1, h2⟩ := (andThen_eq_ok _ _ _).mp h
  have r1 := forEach_run (RGBuilder.transitionBufferAt cmdBuffer)
    (fun t => [(t.1, ResourceCall.transition)]) _
    (fun x _ w w' hx => transitionBufferAt_run cmdBuffer x w w' hx) w w1 h1
  have r2 := forEach_run (RGBuilder.transitionTextureAt cmdBuffer)
    (fun t => [(t.1, ResourceCall.transition)]) _
    (fun x _ w w' hx => transitionTextureAt_run cmdBuffer x w w' hx) w1 w' h2
  rw [flatMap_single] at r1 r2
  exact run_trans r1 r2

theorem executeScope_run (p : RGPassBase) (cmdBuffer : Nat) (beginPass : Command) (func : Nat)
    (w w' : RGBuilder) (h : p.executeScope cmdBuffer beginPass func w = Outcome.ok w') :
    Run w w' p.transitionCalls := by
  unfold RGPassBase.executeScope at h
  obtain ⟨w1, h1, h⟩ := (andThen_eq_ok _ _ _).mp h
  obtain ⟨w2, h2, h⟩ := (andThen_eq_ok _ _ _).mp h
  obtain ⟨w3, h3, h⟩ := (andThen_eq_ok _ _ _).mp h
  obtain ⟨w4, h4, h⟩ := (andThen_eq_ok _ _ _).mp h
  obtain ⟨w5, h5, h6⟩ := (andThen_eq_ok _ _ _).mp h
  have r := run_trans (run_trans (run_trans (run_trans (run_trans
    (record_run _ _ _ _ h1) (record_run _ _ _ _ h2)) (transitionResources_run _ _ _ _ h3))
    (record_run _ _ _ _ h4)) (record_run _ _ _ _ h5)) (record_run _ _ _ _ h6)
  simpa using r

theorem pass_execute_run (pass : RGPass) (context : Internal.Context) (w w' : RGBuilder)
    (h : pass.Execute context w = Outcome.ok w') : Run w w' pass.base.transitionCalls := by
  cases pass with
  | copy p => exact executeScope_run _ _ _ _ _ _ h
  | compute p => exact executeScope_run _ _ _ _ _ _ h
  | raster p =>
    simp only [RGPass.Execute, RGRasterPass.Execute] at h
    split at h
    · exact executeScope_run _ _ _ _ _ _ h
    · simp at h

theorem executePass_run (context : Internal.Context) (pass : RGPass) (w w' : RGBuilder)
    (h : RGBuilder.executePass context pass w = Outcome.ok w') :
    Run w w' (pass.base.transitionCalls ++ pass.base.decCalls) := by
  unfold RGBuilder.executePass at h
  obtain ⟨w1, h1, h2⟩ := (andThen_eq_ok _ _ _).mp h
  exact run_trans (pass_execute_run _ _ _ _ h1) (finalizeResources_run _ _ _ h2)

/-- The calls of a completed `ExecuteInternal`: pass by pass, the transitions of the pass, then
the decrements of its reads. -/
theorem executeInternal_run (g g' : RGBuilder) (fencePack : RGFencePack)
    (h : g.ExecuteInternal fencePack = Outcome.ok g') :
    Run g g' (g.passes.flatMap fun pass => pass.base.transitionCalls ++ pass.base.decCalls) := by
  unfold RGBuilder.ExecuteInternal at h
  simp only at h
  obtain ⟨w1, h1, h2⟩ := (andThen_eq_ok _ _ _).mp h
  simp only [Outcome.ok.injEq] at h2
  subst h2
  have r0 : Run g { g with device :=
      (Internal.CommandBuffersGuard.new g.device g.asyncInfo fencePack).2.2 } [] :=
    run_of_same rfl rfl rfl
  have r1 := forEach_run _ (fun pass => pass.base.transitionCalls ++ pass.base.decCalls) _
    (fun x _ w w' hx => executePass_run _ x w w' hx) _ w1 h1
  have r2 : Run w1 { w1 with device :=
      (Internal.CommandBuffersGuard.new g.device g.asyncInfo fencePack).1.destroy w1.device } [] :=
    run_of_same rfl rfl rfl
  simpa using run_trans (run_trans r0 r1) r2

end Composites

/-! ## Compilation keeps `reads` a set and makes no call -/

section CompileFrame

theorem setEmplace_nodup (set : List Nat) (x : Nat) (h : set.Nodup) : (setEmplace set x).Nodup := by
  unfold setEmplace
  split
  · exact h
  · rename_i hx
    rw [List.nodup_append]
    refine ⟨h, List.nodup_singleton x, ?_⟩
    intro a ha hb
    simp only [List.mem_singleton] at hb
    subst hb
    exact hx ha

theorem saveBuffer_nodup (self self' : RGPassBase) (buffer : RGBufferRef) (state : BufferState)
    (hn : self.reads.Nodup) (h : self.SaveBufferTransitionInfo buffer state = Outcome.ok self') :
    self'.reads.Nodup := by
  unfold RGPassBase.SaveBufferTransitionInfo at h
  cases buffer with
  | none => simp [Assert] at h
  | some b =>
    simp only at h
    have key : ∀ s1 : RGPassBase, s1.reads.Nodup →
        (match s1.transitionInfos.buffer.lookup b with
          | none =>
            Outcome.ok { s1 with
                  transitionInfos :=
                    { s1.transitionInfos with
                      buffer := s1.transitionInfos.buffer ++ [(b, state)] } }
          | some recorded =>
            if Internal.IsBufferStateWrite state then QuickFail s1
            else if Internal.IsBufferStateRead state then
              Assert (Internal.IsBufferStateWrite recorded) s1
            else QuickFail s1) = Outcome.ok self' → self'.reads.Nodup := by
      intro s1 hs1 h1
      split at h1
      · simp only [Outcome.ok.injEq] at h1
        subst h1
        exact hs1
      · split at h1
        · simp [QuickFail] at h1
        · split at h1
          · unfold Assert at h1
            split at h1
            · simp only [Outcome.ok.injEq] at h1
              subst h1
              exact hs1
            · simp at h1
          · simp [QuickFail] at h1
    cases hr : Internal.IsBufferStateRead state
    · simp only [hr, Bool.false_eq_true, if_false] at h
      exact key self hn (by simpa [hr] using h)
    · simp only [hr, if_true] at h
      exact key { self with reads := setEmplace self.reads b } (setEmplace_nodup _ _ hn)
        (by simpa [hr] using h)

theorem saveTexture_nodup (self self' : RGPassBase) (texture : RGTextureRef)
    (state : TextureState) (hn : self.reads.Nodup)
    (h : self.SaveTextureTransitionInfo texture state = Outcome.ok self') :
    self'.reads.Nodup := by
  unfold RGPassBase.SaveTextureTransitionInfo at h
  cases texture with
  | none => simp [Assert] at h
  | some b =>
    simp only at h
    have key : ∀ s1 : RGPassBase, s1.reads.Nodup →
        (match s1.transitionInfos.texture.lookup b with
          | none =>
            Outcome.ok { s1 with
                  transitionInfos :=
                    { s1.transitionInfos with
                      texture := s1.transitionInfos.texture ++ [(b, state)] } }
          | some recorded =>
            if Internal.IsTextureStateWrite state then QuickFail s1
            else if Internal.IsTextureStateRead state then
              Assert (Internal.IsTextureStateWrite recorded) s1
            else QuickFail s1) = Outcome.ok self' → self'.reads.Nodup := by
      intro s1 hs1 h1
      split at h1
      · simp only [Outcome.ok.injEq] at h1
        subst h1
        exact hs1
      · split at h1
        · simp [QuickFail] at h1
        · split at h1
          · unfold Assert at h1
            split at h1
            · simp only [Outcome.ok.injEq] at h1
              subst h1
              exact hs1
            · simp at h1
          · simp [QuickFail] at h1
    cases hr : Internal.IsTextureStateRead state
    · simp only [hr, Bool.false_eq_true, if_false] at h
      exact key self hn (by simpa [hr] using h)
    · simp only [hr, if_true] at h
      exact key { self with reads := setEmplace self.reads b } (setEmplace_nodup _ _ hn)
        (by simpa [hr] using h)

theorem compileWriteItem_nodup (g : RGBuilder) (item : String × RGBindItemDesc)
    (self self' : RGPassBase) (hn : self.reads.Nodup)
    (h : RGPassBase.compileWriteItem g item self = Outcome.ok self') : self'.reads.Nodup := by
  unfold RGPassBase.compileWriteItem at h
  simp only at h
  split at h
  · split at h
    · simp at h
    · exact saveBuffer_nodup _ _ _ _ hn h
  · split at h
    · split at h
      · simp at h
      · exact saveTexture_nodup _ _ _ _ hn h
    · simp only [Outcome.ok.injEq] at h
      exact h ▸ hn

theorem compileReadItem_nodup (g : RGBuilder) (item : String × RGBindItemDesc)
    (self self' : RGPassBase) (hn : self.reads.Nodup)
    (h : RGPassBase.compileReadItem g item self = Outcome.ok self') : self'.reads.Nodup := by
  unfold RGPassBase.compileReadItem at h
  simp only at h
  split at h
  · split at h
    · simp at h
    · exact saveBuffer_nodup _ _ _ _ hn h
  · split at h
    · split at h
      · simp at h
      · exact saveTexture_nodup _ _ _ _ hn h
    · simp only [Outcome.ok.injEq] at h
      exact h ▸ hn

theorem compileForBindGroups_nodup (g : RGBuilder) (bindGroups : List RGBindGroupRef)
    (self self' : RGPassBase) (hn : self.reads.Nodup)
    (h : self.CompileForBindGroups g bindGroups = Outcome.ok self') : self'.reads.Nodup := by
  refine forEach_ok_induct (fun b => b.reads.Nodup) _ bindGroups ?_ self self' hn h
  intro bg _ s s' hs hbg
  unfold RGPassBase.compileBindGroup at hbg
  split at hbg
  · simp at hbg
  · simp only at hbg
    obtain ⟨s1, h1, h2⟩ := (andThen_eq_ok _ _ _).mp hbg
    have hs1 := forEach_ok_induct (fun b => b.reads.Nodup) _ _
      (fun x _ a a' ha hx => compileWriteItem_nodup g x a a' ha hx) s s1 hs h1
    exact forEach_ok_induct (fun b => b.reads.Nodup) _ _
      (fun x _ a a' ha hx => compileReadItem_nodup g x a a' ha hx) s1 s' hs1 h2

theorem compileCopyResource_nodup (g : RGBuilder) (bs : BufferState) (ts : TextureState)
    (resource : RGResourceRef) (self self' : RGPassBase) (hn : self.reads.Nodup)
    (h : RGPassBase.compileCopyResource g bs ts resource self = Outcome.ok self') :
    self'.reads.Nodup := by
  unfold RGPassBase.compileCopyResource at h
  split at h
  · simp at h
  · split at h
    · exact saveBuffer_nodup _ _ _ _ hn h
    · split at h
      · exact saveTexture_nodup _ _ _ _ hn h
      · simp [QuickFail] at h

theorem pass_compile_nodup (g : RGBuilder) (pass pass' : RGPass) (a a' : RGAsyncInfo)
    (hn : pass.base.reads.Nodup) (h : pass.Compile g a = Outcome.ok (pass', a')) :
    pass'.base.reads.Nodup := by
  cases pass with
  | copy p =>
    simp only [RGPass.Compile, RGCopyPass.Compile, RGCopyPass.CompileForCopyPassDesc] at h
    obtain ⟨⟨q, b⟩, h, hq⟩ := (lift_eq_ok _ _ _).mp h
    obtain ⟨⟨q1, b1⟩, h, hq1⟩ := (andThen_eq_ok _ _ _).mp h
    obtain ⟨q2, h, hq2⟩ := (lift_eq_ok _ _ _).mp h
    obtain ⟨base, h, hbase⟩ := (lift_eq_ok _ _ _).mp h
    obtain ⟨base1, h1, h2⟩ := (andThen_eq_ok _ _ _).mp h
    have n1 := forEach_ok_induct (fun b => b.reads.Nodup) _ _
      (fun x _ s s' hs hx => compileCopyResource_nodup g _ _ x s s' hs hx) _ base1 hn h1
    have n2 := forEach_ok_induct (fun b => b.reads.Nodup) _ _
      (fun x _ s s' hs hx => compileCopyResource_nodup g _ _ x s s' hs hx) _ base n1 h2
    simp only [Outcome.ok.injEq, Prod.mk.injEq] at hq1
    simp only [Prod.mk.injEq] at hq hq2
    obtain ⟨hq, _⟩ := hq
    obtain ⟨hq2, _⟩ := hq2
    obtain ⟨hq1, _⟩ := hq1
    subst hq hq1 hq2 hbase
    exact n2
  | compute p =>
    simp only [RGPass.Compile, RGComputePass.Compile] at h
    obtain ⟨⟨q, b⟩, h, hq⟩ := (lift_eq_ok _ _ _).mp h
    obtain ⟨⟨q1, b1⟩, h, hq1⟩ := (andThen_eq_ok _ _ _).mp h
    obtain ⟨base, h, hbase⟩ := (lift_eq_ok _ _ _).mp h
    have n1 := compileForBindGroups_nodup g _ _ _ hn h
    simp only [Outcome.ok.injEq, Prod.mk.injEq] at hq1
    simp only [Prod.mk.injEq] at hq hbase
    obtain ⟨hq, _⟩ := hq
    obtain ⟨hq1, _⟩ := hq1
    obtain ⟨hbase, _⟩ := hbase
    subst hq hq1 hbase
    exact n1
  | raster p =>
    simp only [RGPass.Compile, RGRasterPass.Compile, RGRasterPass.CompileForRasterPassDesc] at h
    obtain ⟨⟨q, b⟩, h, hq⟩ := (lift_eq_ok _ _ _).mp h
    obtain ⟨q1, h, hq1⟩ := (lift_eq_ok _ _ _).mp h
    obtain ⟨q2, h, h'⟩ := (andThen_eq_ok _ _ _).mp h
    obtain ⟨base, h, hbase⟩ := (lift_eq_ok _ _ _).mp h
    obtain ⟨base1, h1, h2⟩ := (andThen_eq_ok _ _ _).mp h
    obtain ⟨base3, h3, hbase3⟩ := (lift_eq_ok _ _ _).mp h'
    have n1 := forEach_ok_induct (fun b => b.reads.Nodup) _ _
      (fun x _ s s' hs hx => by
        unfold RGPassBase.compileColorAttachment at hx
        split at hx
        · simp at hx
        · exact saveTexture_nodup _ _ _ _ hs hx) _ base1 hn h1
    have n2 : base.reads.Nodup := by
      split at h2
      · split at h2
        · simp at h2
        · exact saveTexture_nodup _ _ _ _ n1 h2
      · simp only [Outcome.ok.injEq] at h2
        exact h2 ▸ n1
    subst hbase
    have n3 := compileForBindGroups_nodup g _ _ _ n2 h3
    simp only [Prod.mk.injEq] at hq hq1
    obtain ⟨hq, _⟩ := hq
    obtain ⟨hq1, _⟩ := hq1
    subst hq hq1 hbase3
    exact n3

/-- The first loop of `Compile` leaves resources and log alone and keeps every `reads` free of
repetition. -/
theorem compilePasses_frame (xs : List Nat) (w w' : RGBuilder)
    (hn : ∀ pass ∈ w.passes, pass.base.reads.Nodup)
    (h : forEach RGBuilder.compilePassAt xs w = Outcome.ok w') :
    w'.resources = w.resources ∧ w'.resourceEvents = w.resourceEvents ∧
      ∀ pass ∈ w'.passes, pass.base.reads.Nodup := by
  refine forEach_ok_induct
    (fun s => s.resources = w.resources ∧ s.resourceEvents = w.resourceEvents ∧
      ∀ pass ∈ s.passes, pass.base.reads.Nodup) _ xs ?_ w w' ⟨rfl, rfl, hn⟩ h
  intro i _ s s' ⟨hr, he, hs⟩ hi
  unfold RGBuilder.compilePassAt at hi
  split at hi
  · simp at hi
  · rename_i pass hpass
    obtain ⟨⟨pass', a'⟩, hc, hput⟩ := (lift_eq_ok _ _ _).mp hi
    subst hput
    refine ⟨hr, he, ?_⟩
    intro q hq
    simp only at hq
    rcases List.mem_or_eq_of_mem_set hq with hq | hq
    · exact hs q hq
    · subst hq
      exact pass_compile_nodup s pass _ _ _ (hs pass (List.getElem?_mem hpass)) hc

end CompileFrame

/-! ## The calls `Compile` makes -/

section CompileRun

theorem forceUsedAt_congr (w w' : RGBuilder)
    (h : w'.resources.map (fun x => x.base.forceUsed) = w.resources.map (fun x => x.base.forceUsed))
    (i : Nat) : w'.forceUsedAt i = w.forceUsedAt i := by
  have h1 : ∀ v : RGBuilder, v.forceUsedAt i =
      ((v.resources.map (fun x => x.base.forceUsed))[i]?).getD false := by
    intro v
    unfold RGBuilder.forceUsedAt
    rw [List.getElem?_map]
    cases v.resources[i]? <;> rfl
  rw [h1, h1, h]

theorem forceUsedLoop_run (xs : List Nat) :
    ∀ w w', forEach RGBuilder.devirtualizeIfForceUsed xs w = Outcome.ok w' →
      Run w w' ((xs.filter w.forceUsedAt).map fun i => (i, ResourceCall.incRef)) := by
  induction xs with
  | nil =>
    intro w w' h
    simp only [forEach, Outcome.ok.injEq] at h
    subst h
    exact run_refl w
  | cons i xs ih =>
    intro w w' h
    simp only [forEach] at h
    obtain ⟨w1, h1, h2⟩ := (andThen_eq_ok _ _ _).mp h
    have r2 := ih w1 w' h2
    unfold RGBuilder.devirtualizeIfForceUsed at h1
    split at h1
    · simp at h1
    · rename_i x hx
      by_cases hfu : x.IsForceUsed = true
      · simp only [hfu, if_true] at h1
        have r1 := incRefAt_run i w w1 h1
        have hcongr : w1.forceUsedAt = w.forceUsedAt := funext (forceUsedAt_congr w w1 r1.2.1)
        rw [hcongr] at r2
        have hi : w.forceUsedAt i = true := by
          simp [RGBuilder.forceUsedAt, hx, hfu]
        simpa [List.filter_cons, hi] using run_trans r1 r2
      · simp only [hfu, if_false, Outcome.ok.injEq, Bool.false_eq_true] at h1
        subst h1
        have hi : w.forceUsedAt i = false := by
          simp [RGBuilder.forceUsedAt, hx, hfu]
        simpa [List.filter_cons, hi] using r2

theorem fresh_consistent (g : RGBuilder) (hf : g.Fresh) : g.Consistent := by
  obtain ⟨_, he, hr, _⟩ := hf
  refine ⟨by rw [he]; exact logConsistent_nil, ?_⟩
  intro r x hx
  obtain ⟨h0, hd⟩ := hr x (List.getElem?_mem hx)
  rw [he, netCount_nil, h0, hd]
  simp

/-- The calls of a completed `Compile` on a fresh builder: pass by pass one increment of every
resource in the `reads` set, then one increment of every force-used resource. -/
theorem compile_run (g g1 : RGBuilder) (hf : g.Fresh) (h : g.Compile = Outcome.ok g1) :
    (∀ pass ∈ g1.passes, pass.base.reads.Nodup) ∧
    g1.Consistent ∧
    calls g1.resourceEvents =
      g1.passes.flatMap (fun pass => pass.base.incCalls) ++
        ((List.range g.resources.length).filter g.forceUsedAt).map
          (fun i => (i, ResourceCall.incRef)) ∧
    g1.resources.map (fun x => x.base.forceUsed) = g.resources.map (fun x => x.base.forceUsed) := by
  unfold RGBuilder.Compile at h
  obtain ⟨w1, h1, h⟩ := (andThen_eq_ok _ _ _).mp h
  obtain ⟨w2, h2, h3⟩ := (andThen_eq_ok _ _ _).mp h
  have hnd0 : ∀ pass ∈ g.passes, pass.base.reads.Nodup := by
    intro pass hp
    rw [(hf.2.2.2 pass hp).1]
    exact List.nodup_nil
  obtain ⟨hres1, hev1, hnd1⟩ := compilePasses_frame _ g w1 hnd0 h1
  have r2 := forEach_run (fun (pass : RGPass) w => pass.base.DevirtualizeResources w)
    (fun pass => pass.base.incCalls) w1.passes
    (fun x _ w w' hx => devirtualizeResources_run _ w w' hx) w1 w2 h2
  have r3 := forceUsedLoop_run _ w2 g1 h3
  have hc1 : w1.Consistent := by
    have := fresh_consistent g hf
    unfold RGBuilder.Consistent at this ⊢
    rw [hres1, hev1]
    exact this
  have hlen2 : w2.resources.length = g.resources.length := by
    have := congrArg List.length r2.2.1
    simpa [hres1] using this
  have hfu2 : w2.forceUsedAt = g.forceUsedAt := by
    funext i
    rw [forceUsedAt_congr w1 w2 r2.2.1 i]
    exact forceUsedAt_congr g w1 (by rw [hres1]) i
  rw [hlen2, hfu2] at r3
  have r := run_trans r2 r3
  obtain ⟨hp, hfm, ⟨evs, hevs, hcalls⟩, hcons⟩ := r
  refine ⟨?_, hcons hc1, ?_, ?_⟩
  · rw [hp]; exact hnd1
  · rw [hevs, hev1, hf.2.1, List.nil_append, hcalls, hp]
  · rw [hfm, hres1]

end CompileRun

/-! ## Counting the calls on one resource -/

section CallCounting

theorem count_map_pair (xs : List Nat) (r : Nat) (c c' : ResourceCall) :
    (xs.map fun i => (i, c)).count (r, c') = if c = c' then xs.count r else 0 := by
  induction xs with
  | nil => simp
  | cons x xs ih =>
    simp only [List.map_cons, List.count_cons, ih]
    by_cases hc : c = c'
    · subst hc
      by_cases hx : x = r <;> simp [hx]
    · simp [hc]

theorem count_incCalls (passes : List RGPass) (r : Nat)
    (hn : ∀ pass ∈ passes, pass.base.reads.Nodup) :
    (passes.flatMap fun pass => pass.base.incCalls).count (r, ResourceCall.incRef) =
      passes.countP fun pass => decide (r ∈ pass.base.reads) := by
  induction passes with
  | nil => simp
  | cons p ps ih =>
    rw [List.flatMap_cons, List.count_append, ih (fun q hq => hn q (List.mem_cons_of_mem _ hq)),
      List.countP_cons, RGPassBase.incCalls, count_map_pair]
    simp only [if_true]
    rw [List.count_eq_of_nodup (hn p (List.mem_cons_self _ _))]
    by_cases hr : r ∈ p.base.reads <;> simp [hr, Nat.add_comm]

theorem count_forceUsedCalls (n : Nat) (fu : Nat → Bool) (r : Nat) :
    (((List.range n).filter fu).map fun i => (i, ResourceCall.incRef)).count
        (r, ResourceCall.incRef) =
      if r < n ∧ fu r = true then 1 else 0 := by
  rw [count_map_pair]
  simp only [if_true]
  rw [List.count_eq_of_nodup ((List.nodup_range n).filter _)]
  simp [List.mem_filter, List.mem_range]

theorem count_executeCalls_dec (passes : List RGPass) (r : Nat)
    (hn : ∀ pass ∈ passes, pass.base.reads.Nodup) :
    (passes.flatMap fun pass => pass.base.transitionCalls ++ pass.base.decCalls).count
        (r, ResourceCall.decRef) =
      passes.countP fun pass => decide (r ∈ pass.base.reads) := by
  induction passes with
  | nil => simp
  | cons p ps ih =>
    rw [List.flatMap_cons, List.count_append, ih (fun q hq => hn q (List.mem_cons_of_mem _ hq)),
      List.countP_cons, List.count_append, RGPassBase.decCalls, RGPassBase.transitionCalls,
      List.count_append, count_map_pair]
    have h1 : ∀ (l : List (Nat × BufferState)),
        (l.map fun t => (t.1, ResourceCall.transition)).count (r, ResourceCall.decRef) = 0 := by
      intro l
      rw [List.count_eq_zero]
      simp
    have h2 : ∀ (l : List (Nat × TextureState)),
        (l.map fun t => (t.1, ResourceCall.transition)).count (r, ResourceCall.decRef) = 0 := by
      intro l
      rw [List.count_eq_zero]
      simp
    rw [h1, h2]
    simp only [if_true]
    rw [List.count_eq_of_nodup (hn p (List.mem_cons_self _ _))]
    by_cases hr : r ∈ p.base.reads <;> simp [hr, Nat.add_comm]

end CallCounting

/-! ## C1: increments and decrements balance -/

theorem count_incCalls_dec (passes : List RGPass) (r : Nat) :
    (passes.flatMap fun pass => pass.base.incCalls).count (r, ResourceCall.decRef) = 0 := by
  rw [List.count_eq_zero]
  simp [RGPassBase.incCalls]

theorem forceUsedAt_eq (g : RGBuilder) (r : Nat) (x : RGResource)
    (hx : g.resources[r]? = some x) : g.forceUsedAt r = x.IsForceUsed := by
  simp [RGBuilder.forceUsedAt, hx]

/-- In the log of a completed `Compile` on a fresh builder, resource r has as many increments as
passes read it, plus one if it is force-used, and no decrement. -/
theorem compile_callCounts (g g1 : RGBuilder) (r : Nat) (x : RGResource)
    (hf : g.Fresh) (hc : g.Compile = Outcome.ok g1) (hx : g.resources[r]? = some x) :
    callCount g1.resourceEvents ResourceCall.incRef r =
      g1.readerCount r + (if x.IsForceUsed then 1 else 0) ∧
    callCount g1.resourceEvents ResourceCall.decRef r = 0 := by
  obtain ⟨hnd, _, hcalls, _⟩ := compile_run g g1 hf hc
  have hlt : r < g.resources.length := by
    rw [List.getElem?_eq_some_iff] at hx
    exact hx.1
  constructor
  · unfold callCount
    rw [hcalls, List.count_append, count_incCalls _ _ hnd, count_forceUsedCalls,
      forceUsedAt_eq g r x hx]
    simp [RGBuilder.readerCount, hlt]
  · unfold callCount
    rw [hcalls, List.count_append, count_incCalls_dec, count_map_pair]
    simp

/-- A completed `ExecuteInternal` decrements resource r as many times as passes read it. -/
theorem executeInternal_decCount (g1 g2 : RGBuilder) (fencePack : RGFencePack) (r : Nat)
    (hnd : ∀ pass ∈ g1.passes, pass.base.reads.Nodup)
    (he : g1.ExecuteInternal fencePack = Outcome.ok g2) :
    ∃ evs, g2.resourceEvents = g1.resourceEvents ++ evs ∧
      callCount evs ResourceCall.decRef r = g1.readerCount r := by
  obtain ⟨_, _, ⟨evs, hevs, hk⟩, _⟩ := executeInternal_run g1 g2 fencePack he
  refine ⟨evs, hevs, ?_⟩
  unfold callCount
  rw [hk, count_executeCalls_dec _ _ hnd]
  rfl

/-- C1, counterexample. In the sample graph without the force-used mark, `Compile` returns and
two passes have buffer 0 in their `reads` set, but `ExecuteInternal` is stopped in the first pass
by the assertion of `GetRHI` on buffer 1 (written by the pass, read by none, hence never
devirtualized): `DecRefAndUpdateResource` has been called on buffer 0 zero times, not twice. -/
theorem executeInternal_stops_before_decrements :
    sampleGraphUnmarked.Fresh ∧
    sampleGraphUnmarked.Compile = Outcome.ok sampleCompiledUnmarked ∧
    sampleCompiledUnmarked.readerCount 0 = 2 ∧
    (sampleCompiledUnmarked.ExecuteInternal noFences).isFatal = true ∧
    callCount ((sampleCompiledUnmarked.ExecuteInternal noFences).stateD
      sampleCompiledUnmarked).resourceEvents ResourceCall.decRef 0 = 0 := by
  refine ⟨by decide, by rfl, by rfl, by rfl, by rfl⟩

/-- C1, amended. For every graph on which `RGBuilder::Compile` returns and every resource r: if
exactly N passes have r in their `reads` set, then Compile calls IncRefCountAndUpdateResource on
r exactly N times, plus one more time iff r is force-used, and r.refCount after Compile equals
N + (1 if force-used else 0); and if `ExecuteInternal` then runs to completion, it calls
DecRefAndUpdateResource on r exactly N times. -/
theorem refCount_balance (g g1 : RGBuilder) (r : Nat) (x : RGResource)
    (hf : g.Fresh) (hc : g.Compile = Outcome.ok g1) (hx : g.resources[r]? = some x) :
    callCount g1.resourceEvents ResourceCall.incRef r =
      g1.readerCount r + (if x.IsForceUsed then 1 else 0) ∧
    (∃ x1, g1.resources[r]? = some x1 ∧
      x1.base.refCount = ((g1.readerCount r + (if x.IsForceUsed then 1 else 0) : Nat) : Int)) ∧
    ∀ fencePack g2, g1.ExecuteInternal fencePack = Outcome.ok g2 →
      ∃ evs, g2.resourceEvents = g1.resourceEvents ++ evs ∧
        callCount evs ResourceCall.decRef r = g1.readerCount r := by
  obtain ⟨hnd, hcons, _, hfm⟩ := compile_run g g1 hf hc
  obtain ⟨hinc, hdec⟩ := compile_callCounts g g1 r x hf hc hx
  refine ⟨hinc, ?_, ?_⟩
  · have hlt : r < g.resources.length := by
      rw [List.getElem?_eq_some_iff] at hx
      exact hx.1
    have hlen : g1.resources.length = g.resources.length := by
      simpa using congrArg List.length hfm
    have hlt1 : r < g1.resources.length := by omega
    refine ⟨g1.resources[r], List.getElem?_eq_getElem hlt1, ?_⟩
    rw [(hcons.2 r _ (List.getElem?_eq_getElem hlt1)).1]
    unfold netCount
    rw [hinc, hdec]
    simp
  · intro fencePack g2 he
    exact executeInternal_decCount g1 g2 fencePack r hnd he

/-- C1, witness: in the sample graph buffer 0 is read by both passes and not force-used; it is
incremented twice by `Compile`, has refCount 2 afterwards, and is decremented twice by
`ExecuteInternal`, which runs to completion. -/
theorem refCount_balance_witness :
    sampleGraph.Fresh ∧ sampleGraph.Compile = Outcome.ok sampleCompiled ∧
    sampleGraph.resources[0]? = some (RGResource.buffer (RGBuffer.new sampleBufferDesc)) ∧
    (sampleCompiled.ExecuteInternal noFences).isOk = true ∧
    sampleCompiled.readerCount 0 = 2 ∧
    callCount sampleCompiled.resourceEvents ResourceCall.incRef 0 = 2 ∧
    (∃ x1, sampleCompiled.resources[0]? = some x1 ∧ x1.base.refCount = 2) ∧
    ∃ evs, ((sampleCompiled.ExecuteInternal noFences).stateD sampleCompiled).resourceEvents =
        sampleCompiled.resourceEvents ++ evs ∧
      callCount evs ResourceCall.decRef 0 = 2 := by
  have h := refCount_balance sampleGraph sampleCompiled 0
    (RGResource.buffer (RGBuffer.new sampleBufferDesc)) (by decide) (by rfl) (by rfl)
  have hn : sampleCompiled.readerCount 0 = 2 := by rfl
  obtain ⟨h1, ⟨x1, hx1, hrc⟩, h3⟩ := h
  refine ⟨by decide, by rfl, by rfl, by rfl, hn, ?_, ⟨x1, hx1, ?_⟩, ?_⟩
  · rw [h1, hn]; rfl
  · rw [hrc, hn]; rfl
  · have hok : sampleCompiled.ExecuteInternal noFences =
        Outcome.ok ((sampleCompiled.ExecuteInternal noFences).stateD sampleCompiled) := by rfl
    obtain ⟨evs, he, hcnt⟩ := h3 noFences _ hok
    exact ⟨evs, he, by rw [hcnt, hn]⟩

/-! ## C2: the span in which a resource is devirtualized -/

section Span

theorem exists_first {α : Type} (p : α → Prop) (l : List α) (h : ∃ x ∈ l, p x) :
    ∃ A x R, l = A ++ x :: R ∧ p x ∧ ∀ y ∈ A, ¬ p y := by
  induction l with
  | nil => simp at h
  | cons a l ih =>
    by_cases ha : p a
    · exact ⟨[], a, l, rfl, ha, by simp⟩
    · obtain ⟨x, hx, hpx⟩ := h
      have h' : ∃ x ∈ l, p x := by
        rcases List.mem_cons.mp hx with rfl | hx'
        · exact absurd hpx ha
        · exact ⟨x, hx', hpx⟩
      obtain ⟨A, y, R, hl, hy, hA⟩ := ih h'
      refine ⟨a :: A, y, R, by rw [hl]; rfl, hy, ?_⟩
      intro z hz
      rcases List.mem_cons.mp hz with rfl | hz'
      · exact ha
      · exact hA z hz'

theorem exists_last {α : Type} (p : α → Prop) (l : List α) (h : ∃ x ∈ l, p x) :
    ∃ A x R, l = A ++ x :: R ∧ p x ∧ ∀ y ∈ R, ¬ p y := by
  induction l with
  | nil => simp at h
  | cons a l ih =>
    by_cases hl : ∃ x ∈ l, p x
    · obtain ⟨A, y, R, hl', hy, hR⟩ := ih hl
      exact ⟨a :: A, y, R, by rw [hl']; rfl, hy, hR⟩
    · obtain ⟨x, hx, hpx⟩ := h
      have ha : p a := by
        rcases List.mem_cons.mp hx with rfl | hx'
        · exact hpx
        · exact absurd ⟨x, hx', hpx⟩ hl
      refine ⟨[], a, l, rfl, ha, ?_⟩
      intro y hy hpy
      exact hl ⟨y, hy, hpy⟩

theorem callCount_single (e : ResourceEvent) (c : ResourceCall) (r : Nat) :
    callCount [e] c r = if e.resource = r ∧ e.call = c then 1 else 0 := by
  simp only [callCount, calls, List.map_cons, List.map_nil, List.count_singleton]
  by_cases h : e.resource = r ∧ e.call = c
  · simp [h.1, h.2]
  · simp only [h, if_false]
    rw [if_neg]
    intro hh
    simp only [beq_iff_eq, Prod.mk.injEq] at hh
    exact h hh

theorem callCount_eq_zero (l : List ResourceEvent) (c : ResourceCall) (r : Nat)
    (h : ∀ e ∈ l, ¬ (e.resource = r ∧ e.call = c)) : callCount l c r = 0 := by
  unfold callCount calls
  rw [List.count_eq_zero]
  intro hm
  obtain ⟨e, he, heq⟩ := List.mem_map.mp hm
  simp only [Prod.mk.injEq] at heq
  exact h e he heq

theorem exists_of_callCount_pos (l : List ResourceEvent) (c : ResourceCall) (r : Nat)
    (h : 0 < callCount l c r) : ∃ e ∈ l, e.resource = r ∧ e.call = c := by
  by_contra hne
  have := callCount_eq_zero l c r (fun e he hp => hne ⟨e, he, hp⟩)
  omega

theorem call_of_mem_calls (l : List ResourceEvent) (e : ResourceEvent) (he : e ∈ l) :
    (e.resource, e.call) ∈ calls l :=
  List.mem_map.mpr ⟨e, he, rfl⟩

/-- The shape of a log that starts with N > 0 increments of r among increments only (`E1`) and
goes on with N decrements of r among decrements and transitions only (`E2`). -/
theorem span_of_log (E1 E2 : List ResourceEvent) (r N : Nat)
    (hlog : LogConsistent (E1 ++ E2))
    (allInc : ∀ e ∈ E1, e.call = ResourceCall.incRef)
    (noInc : ∀ e ∈ E2, e.call ≠ ResourceCall.incRef)
    (cntInc : callCount E1 ResourceCall.incRef r = N)
    (cntDec : callCount E2 ResourceCall.decRef r = N)
    (hN : 0 < N) :
    ∃ A first B1 B2 last C, E1 = A ++ first :: B1 ∧ E2 = B2 ++ last :: C ∧
      (∀ e ∈ A, e.resource ≠ r) ∧
      first.resource = r ∧ first.call = ResourceCall.incRef ∧
      first.after.base.devirtualized = true ∧
      (∀ e ∈ B1 ++ B2, e.resource = r → e.after.base.devirtualized = true) ∧
      last.resource = r ∧ last.call = ResourceCall.decRef ∧
      last.after.base.devirtualized = false ∧ last.after.base.refCount = 0 ∧
      (∀ e ∈ C, e.resource ≠ r) ∧
      netCount (E1 ++ E2) r = 0 := by
  -- the first event on r in E1 and the last decrement of r in E2
  obtain ⟨e0, he0, hr0, _⟩ :=
    exists_of_callCount_pos E1 ResourceCall.incRef r (by rw [cntInc]; exact hN)
  obtain ⟨A, first, B1, hE1, hfirst, hA⟩ := exists_first (fun e => e.resource = r) E1 ⟨e0, he0, hr0⟩
  obtain ⟨d0, hd0, hdr0⟩ :=
    exists_of_callCount_pos E2 ResourceCall.decRef r (by rw [cntDec]; exact hN)
  obtain ⟨B2, last, C, hE2, hlast, hC⟩ :=
    exists_last (fun e => e.resource = r ∧ e.call = ResourceCall.decRef) E2 ⟨d0, hd0, hdr0⟩
  -- counting facts
  have decE1 : ∀ l, (∀ e ∈ l, e ∈ E1) → callCount l ResourceCall.decRef r = 0 := by
    intro l hl
    apply callCount_eq_zero
    intro e he hp
    have := allInc e (hl e he)
    rw [this] at hp
    exact absurd hp.2 (by decide)
  have incE2 : ∀ l, (∀ e ∈ l, e ∈ E2) → callCount l ResourceCall.incRef r = 0 := by
    intro l hl
    apply callCount_eq_zero
    intro e he hp
    exact noInc e (hl e he) hp.2
  -- the refCount after a prefix of E2 is the number of decrements still to come
  have remaining : ∀ P S, E2 = P ++ S →
      netCount (E1 ++ P) r = (callCount S ResourceCall.decRef r : Int) := by
    intro P S hPS
    have h1 := decE1 E1 (fun _ h => h)
    have h2 := incE2 P (fun e he => by rw [hPS]; exact List.mem_append_left _ he)
    have h3 : callCount P ResourceCall.decRef r + callCount S ResourceCall.decRef r = N := by
      rw [← callCount_append, ← hPS, cntDec]
    simp only [netCount, callCount_append, h1, h2, cntInc]
    omega
  have hlastDec : callCount [last] ResourceCall.decRef r = 1 := by
    rw [callCount_single]; simp [hlast.1, hlast.2]
  have hCdec : ∀ l, (∀ e ∈ l, e ∈ C) → callCount l ResourceCall.decRef r = 0 := by
    intro l hl
    apply callCount_eq_zero
    intro e he hp
    exact hC e (hl e he) hp
  refine ⟨A, first, B1, B2, last, C, hE1, hE2, ?_, hfirst, ?_, ?_, ?_, hlast.1, hlast.2, ?_, ?_,
    ?_, ?_⟩
  · intro e he
    exact hA e he
  · exact allInc first (by rw [hE1]; simp)
  · -- first
    have hdec := hlog A first (B1 ++ E2) (by rw [hE1]; simp)
    rw [hfirst] at hdec
    have hA0 : netCount A r = 0 := by
      simp only [netCount]
      rw [callCount_eq_zero A _ r (fun e he hp => hA e he hp.1),
        callCount_eq_zero A _ r (fun e he hp => hA e he hp.1)]
      simp
    have hf1 : netCount [first] r = 1 := by
      rw [netCount_single, allInc first (by rw [hE1]; simp)]
      simp [hfirst]
    rw [netCount_append, hA0, hf1] at hdec
    exact hdec.2.1.mpr (by omega)
  · -- between
    intro e he her
    rcases List.mem_append.mp he with he1 | he2
    · obtain ⟨P, S, hPS⟩ := List.append_of_mem he1
      have hdec := hlog (A ++ first :: P) e (S ++ E2) (by rw [hE1, hPS]; simp)
      rw [her] at hdec
      have hsub : ∀ z ∈ (A ++ first :: P) ++ [e], z ∈ E1 := by
        intro z hz
        rw [hE1, hPS]
        simp only [List.mem_append, List.mem_cons, List.mem_singleton] at hz ⊢
        tauto
      have hd0 := decE1 _ hsub
      have hi1 : 0 < callCount ((A ++ first :: P) ++ [e]) ResourceCall.incRef r := by
        rw [callCount_append, callCount_single]
        simp [her, allInc e (by rw [hE1, hPS]; simp)]
      refine hdec.2.1.mpr ?_
      rw [hdec.1]
      simp only [netCount, hd0]
      omega
    · obtain ⟨P, S, hPS⟩ := List.append_of_mem he2
      have hdec := hlog (E1 ++ P) e (S ++ last :: C) (by rw [hE2, hPS]; simp)
      rw [her] at hdec
      have hrem := remaining (P ++ [e]) (S ++ last :: C) (by rw [hE2, hPS]; simp)
      have hpos : 0 < callCount (S ++ last :: C) ResourceCall.decRef r := by
        have : S ++ last :: C = S ++ ([last] ++ C) := by simp
        rw [this, callCount_append, callCount_append, hlastDec]
        omega
      refine hdec.2.1.mpr ?_
      rw [hdec.1, List.append_assoc, hrem]
      omega
  · -- last: not devirtualized
    have hdec := hlog (E1 ++ B2) last C (by rw [hE2]; simp)
    rw [hlast.1] at hdec
    have hrem := remaining (B2 ++ [last]) C (by rw [hE2]; simp)
    rw [hCdec C (fun _ h => h)] at hrem
    rw [List.append_assoc, hrem] at hdec
    cases hdv : last.after.base.devirtualized
    · rfl
    · have := hdec.2.1.mp hdv
      rw [hdec.1] at this
      simp at this
  · -- last: refCount 0
    have hdec := hlog (E1 ++ B2) last C (by rw [hE2]; simp)
    rw [hlast.1] at hdec
    have hrem := remaining (B2 ++ [last]) C (by rw [hE2]; simp)
    rw [hCdec C (fun _ h => h)] at hrem
    rw [List.append_assoc, hrem] at hdec
    simpa using hdec.1
  · -- nothing on r after the last decrement
    intro e he her
    obtain ⟨P, S, hPS⟩ := List.append_of_mem he
    have heE2 : e ∈ E2 := by rw [hE2, hPS]; simp
    have hcall : e.call = ResourceCall.transition := by
      have h1 := noInc e heE2
      have h2 : e.call ≠ ResourceCall.decRef := fun h => hC e he ⟨her, h⟩
      cases hc : e.call
      · exact absurd hc h1
      · exact absurd hc h2
      · rfl
    have hdec := hlog (E1 ++ (B2 ++ last :: P)) e S (by rw [hE2, hPS]; simp)
    rw [her] at hdec
    have hrem := remaining ((B2 ++ last :: P) ++ [e]) S (by rw [hE2, hPS]; simp)
    rw [hCdec S (fun z hz => by rw [hPS]; simp [hz])] at hrem
    have hdv := hdec.2.2 hcall
    have hpos := hdec.2.1.mp hdv
    rw [hdec.1, List.append_assoc, hrem] at hpos
    simp at hpos
  · have := remaining E2 [] (by simp)
    simpa [callCount, calls] using this

end Span

/-- C2. For every resource r that is not force-used and is read by at least one pass, over one
completed `RGBuilder::Execute` on a fresh builder: r is virtual (not devirtualized, refCount 0)
before; the log of the calls made on resources splits into the calls before the first increment
of r (none of them on r), that increment (made by Compile, leaving r devirtualized), calls that
all leave r devirtualized when they are on r, the last decrement of r (made by ExecuteInternal,
leaving r not devirtualized with refCount 0), and calls none of which is on r; and r is virtual
at the end of Execute. -/
theorem devirtualized_span (g g2 : RGBuilder) (fencePack : RGFencePack) (r : Nat)
    (x : RGResource) (hf : g.Fresh) (he : g.Execute fencePack = Outcome.ok g2)
    (hx : g.resources[r]? = some x) (hnf : x.IsForceUsed = false)
    (hread : ∃ pass ∈ g2.passes, r ∈ pass.base.reads) :
    x.base.devirtualized = false ∧ x.base.refCount = 0 ∧
    (∃ g1 A first B1 B2 last C,
      g.Compile = Outcome.ok g1 ∧ g1.resourceEvents = A ++ first :: B1 ∧
      g2.resourceEvents = g1.resourceEvents ++ (B2 ++ last :: C) ∧
      (∀ e ∈ A, e.resource ≠ r) ∧
      first.resource = r ∧ first.call = ResourceCall.incRef ∧
      first.after.base.devirtualized = true ∧
      (∀ e ∈ B1 ++ B2, e.resource = r → e.after.base.devirtualized = true) ∧
      last.resource = r ∧ last.call = ResourceCall.decRef ∧
      last.after.base.devirtualized = false ∧ last.after.base.refCount = 0 ∧
      (∀ e ∈ C, e.resource ≠ r)) ∧
    ∃ y, g2.resources[r]? = some y ∧ y.base.devirtualized = false ∧ y.base.refCount = 0 := by
  have hx0 := hf.2.2.1 x (List.getElem?_mem hx)
  refine ⟨hx0.2, hx0.1, ?_⟩
  -- the three steps of Execute
  unfold RGBuilder.Execute at he
  obtain ⟨g0, h0, he⟩ := (andThen_eq_ok _ _ _).mp he
  simp only [Assert, hf.1, Bool.not_false, if_true, Outcome.ok.injEq] at h0
  subst h0
  obtain ⟨g1, hc, he⟩ := (andThen_eq_ok _ _ _).mp he
  obtain ⟨gi, hi, he⟩ := (andThen_eq_ok _ _ _).mp he
  simp only [Outcome.ok.injEq] at he
  subst he
  obtain ⟨hnd, hcons1, hcalls, hfm1⟩ := compile_run g g1 hf hc
  obtain ⟨hinc, _⟩ := compile_callCounts g g1 r x hf hc hx
  obtain ⟨hp, hfm2, ⟨E2, hE2, hK2⟩, hcons2⟩ := executeInternal_run g1 gi fencePack hi
  obtain ⟨evs, hevs, hdec⟩ := executeInternal_decCount g1 gi fencePack r hnd hi
  have hevs' : evs = E2 := List.append_cancel_left (hevs.symm.trans hE2)
  subst hevs'
  simp only [hnf, Bool.false_eq_true, if_false, Nat.add_zero] at hinc
  have hN : 0 < g1.readerCount r := by
    obtain ⟨pass, hpass, hr⟩ := hread
    simp only at hpass
    rw [hp] at hpass
    unfold RGBuilder.readerCount
    rw [List.countP_pos_iff]
    exact ⟨pass, hpass, by simpa using hr⟩
  have allInc : ∀ e ∈ g1.resourceEvents, e.call = ResourceCall.incRef := by
    intro e hmem
    have := call_of_mem_calls _ e hmem
    rw [hcalls] at this
    simp only [List.mem_append, List.mem_flatMap, RGPassBase.incCalls, List.mem_map,
      Prod.mk.injEq] at this
    rcases this with ⟨_, _, _, _, _, h⟩ | ⟨_, _, _, h⟩
    · exact h.symm
    · exact h.symm
  have noInc : ∀ e ∈ evs, e.call ≠ ResourceCall.incRef := by
    intro e hmem hcall
    have := call_of_mem_calls _ e hmem
    rw [hK2, hcall] at this
    simp [RGPassBase.transitionCalls, RGPassBase.decCalls] at this
  have hlog : LogConsistent (g1.resourceEvents ++ evs) := by
    have := (hcons2 hcons1).1
    rwa [hE2] at this
  obtain ⟨A, first, B1, B2, last, C, hE1, hEv, hA, hf1, hf2, hf3, hB, hl1, hl2, hl3, hl4, hC,
    hnet⟩ := span_of_log g1.resourceEvents evs r (g1.readerCount r) hlog allInc noInc hinc hdec hN
  refine ⟨⟨g1, A, first, B1, B2, last, C, hc, hE1, ?_, hA, hf1, hf2, hf3, hB, hl1, hl2, hl3, hl4,
    hC⟩, ?_⟩
  · simp only
    rw [hE2, hEv]
  · have hlt : r < g.resources.length := by
      rw [List.getElem?_eq_some_iff] at hx
      exact hx.1
    have hlen : gi.resources.length = g.resources.length := by
      have h1 := congrArg List.length hfm1
      have h2 := congrArg List.length hfm2
      simp only [List.length_map] at h1 h2
      omega
    have hlt' : r < gi.resources.length := by omega
    refine ⟨gi.resources[r], List.getElem?_eq_getElem hlt', ?_⟩
    obtain ⟨hrc, hdv⟩ := (hcons2 hcons1).2 r _ (List.getElem?_eq_getElem hlt')
    rw [hE2, hnet] at hrc
    refine ⟨?_, hrc⟩
    cases hd : (gi.resources[r]).base.devirtualized
    · rfl
    · have := hdv.mp hd
      omega

/-- The sample graph after `Execute`. -/
theorem sampleGraph_execute_completes :
    sampleGraph.Execute noFences =
      Outcome.ok ((sampleGraph.Execute noFences).stateD sampleGraph) := by
  rfl

/-- C2, witness: buffer 0 of the sample graph, read by both passes and not force-used, over one
completed Execute. -/
theorem devirtualized_span_witness :
    sampleGraph.Fresh ∧
    sampleGraph.Execute noFences =
      Outcome.ok ((sampleGraph.Execute noFences).stateD sampleGraph) ∧
    sampleGraph.resources[0]? = some (RGResource.buffer (RGBuffer.new sampleBufferDesc)) ∧
    (RGResource.buffer (RGBuffer.new sampleBufferDesc)).IsForceUsed = false ∧
    (∃ pass ∈ ((sampleGraph.Execute noFences).stateD sampleGraph).passes,
      0 ∈ pass.base.reads) ∧
    (∃ g1 A first B1 B2 last C,
      sampleGraph.Compile = Outcome.ok g1 ∧ g1.resourceEvents = A ++ first :: B1 ∧
      ((sampleGraph.Execute noFences).stateD sampleGraph).resourceEvents =
        g1.resourceEvents ++ (B2 ++ last :: C) ∧
      (∀ e ∈ A, e.resource ≠ 0) ∧
      first.resource = 0 ∧ first.call = ResourceCall.incRef ∧
      first.after.base.devirtualized = true ∧
      (∀ e ∈ B1 ++ B2, e.resource = 0 → e.after.base.devirtualized = true) ∧
      last.resource = 0 ∧ last.call = ResourceCall.decRef ∧
      last.after.base.devirtualized = false ∧ last.after.base.refCount = 0 ∧
      (∀ e ∈ C, e.resource ≠ 0)) ∧
    ∃ y, ((sampleGraph.Execute noFences).stateD sampleGraph).resources[0]? = some y ∧
      y.base.devirtualized = false ∧ y.base.refCount = 0 := by
  have hread : ∃ pass ∈ ((sampleGraph.Execute noFences).stateD sampleGraph).passes,
      0 ∈ pass.base.reads := by decide
  have h := devirtualized_span sampleGraph _ noFences 0
    (RGResource.buffer (RGBuffer.new sampleBufferDesc)) (by decide)
    sampleGraph_execute_completes (by rfl) (by rfl) hread
  exact ⟨by decide, sampleGraph_execute_completes, by rfl, by rfl, hread, h.2.2.1, h.2.2.2⟩

/-- C2, counterexample. In the sample graph without the force-used mark, buffer 0 is not
force-used and both passes read it, but `Execute` is stopped in the first pass by the assertion
of `GetRHI` on buffer 1: when Execute ends buffer 0 is still devirtualized with refCount 2, and
no decrement of it has been made. -/
theorem execute_stops_with_resource_devirtualized :
    sampleGraphUnmarked.Fresh ∧
    sampleGraphUnmarked.resources[0]? = some (RGResource.buffer (RGBuffer.new sampleBufferDesc)) ∧
    (RGResource.buffer (RGBuffer.new sampleBufferDesc)).IsForceUsed = false ∧
    (sampleGraphUnmarked.Execute noFences).isFatal = true ∧
    ((sampleGraphUnmarked.Execute noFences).stateD sampleGraphUnmarked).readerCount 0 = 2 ∧
    (((sampleGraphUnmarked.Execute noFences).stateD sampleGraphUnmarked).resources[0]?).map
      (fun y => (y.base.devirtualized, y.base.refCount)) = some (true, 2) ∧
    callCount ((sampleGraphUnmarked.Execute noFences).stateD sampleGraphUnmarked).resourceEvents
      ResourceCall.decRef 0 = 0 := by
  refine ⟨by decide, by rfl, by rfl, by rfl, by rfl, by rfl, by rfl⟩

/-! ## C18: single execution -/

/-- C18. Calling Execute a second time on the same builder fails: for every builder on which one
Execute call has completed, any further Execute call fails fatally at its first step, the
assertion on `executed`, and the builder is exactly as the first call left it: no pass has been
compiled, no ref count changed and no command buffer created. -/
theorem second_execute_fails (g g2 : RGBuilder) (first second : RGFencePack)
    (h : g.Execute first = Outcome.ok g2) : g2.Execute second = Outcome.fatal g2 := by
  unfold RGBuilder.Execute at h
  obtain ⟨w0, _, h⟩ := (andThen_eq_ok _ _ _).mp h
  obtain ⟨w1, _, h⟩ := (andThen_eq_ok _ _ _).mp h
  obtain ⟨w2, _, h⟩ := (andThen_eq_ok _ _ _).mp h
  simp only [Outcome.ok.injEq] at h
  subst h
  simp [RGBuilder.Execute, Assert, Outcome.andThen]

/-- C18, witness: the sample graph, executed once, refuses a second Execute. -/
theorem second_execute_fails_witness :
    sampleGraph.Execute noFences =
      Outcome.ok ((sampleGraph.Execute noFences).stateD sampleGraph) ∧
    ((sampleGraph.Execute noFences).stateD sampleGraph).Execute noFences =
      Outcome.fatal ((sampleGraph.Execute noFences).stateD sampleGraph) :=
  ⟨sampleGraph_execute_completes,
    second_execute_fails sampleGraph _ noFences noFences sampleGraph_execute_completes⟩

/-! ## C20: construction of the command-buffer guard -/

/-- C20. On construction of the command-buffer guard: useAsyncCopy holds iff the graph requested
async copy and the device reports more than one transfer queue, useAsyncCompute holds iff the
graph requested async compute and the device reports more than one compute queue; the guard
creates exactly 1 + [useAsyncCopy] + [useAsyncCompute] command buffers, all empty, and changes
nothing else of the device; the main command buffer is the first one created; and in the context
handed to the action asyncCopyCmdBuffer (resp. asyncComputeCmdBuffer) is the buffer created for
it, distinct from mainCmdBuffer, when the corresponding flag holds and is mainCmdBuffer itself
otherwise. -/
theorem guard_construction (device : Device) (asyncInfo : RGAsyncInfo) (fencePack : RGFencePack) :
    ((Internal.CommandBuffersGuard.new device asyncInfo fencePack).1.useAsyncCopy = true ↔
      asyncInfo.hasAsyncCopy = true ∧ 1 < device.GetQueueNum QueueType.transfer) ∧
    ((Internal.CommandBuffersGuard.new device asyncInfo fencePack).1.useAsyncCompute = true ↔
      asyncInfo.hasAsyncCompute = true ∧ 1 < device.GetQueueNum QueueType.compute) ∧
    (Internal.CommandBuffersGuard.new device asyncInfo fencePack).2.2 =
      { device with
        commandBuffers := device.commandBuffers ++
          List.replicate
            (1 + (if (Internal.CommandBuffersGuard.new device asyncInfo fencePack).1.useAsyncCopy
                  then 1 else 0) +
              (if (Internal.CommandBuffersGuard.new device asyncInfo fencePack).1.useAsyncCompute
                  then 1 else 0)) [] } ∧
    (Internal.CommandBuffersGuard.new device asyncInfo fencePack).2.1.mainCmdBuffer =
      device.commandBuffers.length ∧
    (Internal.CommandBuffersGuard.new device asyncInfo fencePack).2.1.asyncCopyCmdBuffer =
      (if (Internal.CommandBuffersGuard.new device asyncInfo fencePack).1.useAsyncCopy
       then device.commandBuffers.length + 1 else device.commandBuffers.length) ∧
    (Internal.CommandBuffersGuard.new device asyncInfo fencePack).2.1.asyncComputeCmdBuffer =
      (if (Internal.CommandBuffersGuard.new device asyncInfo fencePack).1.useAsyncCompute
       then device.commandBuffers.length + 1 +
         (if (Internal.CommandBuffersGuard.new device asyncInfo fencePack).1.useAsyncCopy
          then 1 else 0)
       else device.commandBuffers.length) ∧
    ((Internal.CommandBuffersGuard.new device asyncInfo fencePack).2.1.asyncCopyCmdBuffer ≠
        (Internal.CommandBuffersGuard.new device asyncInfo fencePack).2.1.mainCmdBuffer ↔
      (Internal.CommandBuffersGuard.new device asyncInfo fencePack).1.useAsyncCopy = true) ∧
    ((Internal.CommandBuffersGuard.new device asyncInfo fencePack).2.1.asyncComputeCmdBuffer ≠
        (Internal.CommandBuffersGuard.new device asyncInfo fencePack).2.1.mainCmdBuffer ↔
      (Internal.CommandBuffersGuard.new device asyncInfo fencePack).1.useAsyncCompute = true) := by
  cases h1 : asyncInfo.hasAsyncCopy <;> cases h2 : asyncInfo.hasAsyncCompute <;>
    by_cases h3 : 1 < device.GetQueueNum QueueType.transfer <;>
    by_cases h4 : 1 < device.GetQueueNum QueueType.compute <;>
    simp [Internal.CommandBuffersGuard.new, Device.CreateCommandBuffer, h1, h2, h3, h4,
      List.replicate]

/-! ## Recording one state request -/

section SaveLemmas

theorem lookup_append_fresh {β : Type} (l : List (Nat × β)) (k : Nat) (v : β)
    (h : l.lookup k = none) : (l ++ [(k, v)]).lookup k = some v := by
  induction l with
  | nil => simp [List.lookup]
  | cons a l ih =>
    obtain ⟨k', v'⟩ := a
    rw [List.cons_append, List.lookup_cons]
    rw [List.lookup_cons] at h
    cases hk : k == k'
    · rw [hk] at h
      exact ih h
    · rw [hk] at h
      simp at h

theorem saveBuffer_fresh (self : RGPassBase) (b : Nat) (state : BufferState)
    (h : self.transitionInfos.buffer.lookup b = none) :
    self.SaveBufferTransitionInfo (some b) state =
      Outcome.ok
        { name := self.name, type := self.type
          reads := if Internal.IsBufferStateRead state then setEmplace self.reads b else self.reads
          transitionInfos :=
            { buffer := self.transitionInfos.buffer ++ [(b, state)]
              texture := self.transitionInfos.texture } } := by
  unfold RGPassBase.SaveBufferTransitionInfo
  cases hr : Internal.IsBufferStateRead state <;> simp [h]

theorem saveTexture_fresh (self : RGPassBase) (t : Nat) (state : TextureState)
    (h : self.transitionInfos.texture.lookup t = none) :
    self.SaveTextureTransitionInfo (some t) state =
      Outcome.ok
        { name := self.name, type := self.type
          reads := if Internal.IsTextureStateRead state then setEmplace self.reads t else self.reads
          transitionInfos :=
            { buffer := self.transitionInfos.buffer
              texture := self.transitionInfos.texture ++ [(t, state)] } } := by
  unfold RGPassBase.SaveTextureTransitionInfo
  cases hr : Internal.IsTextureStateRead state <;> simp [h]

theorem saveBuffer_recorded (self : RGPassBase) (b : Nat) (state recorded : BufferState)
    (h : self.transitionInfos.buffer.lookup b = some recorded) :
    self.SaveBufferTransitionInfo (some b) state =
      if Internal.IsBufferStateWrite state then
        Outcome.fatal
          { self with
            reads := if Internal.IsBufferStateRead state then setEmplace self.reads b
                     else self.reads }
      else if Internal.IsBufferStateRead state then
        Assert (Internal.IsBufferStateWrite recorded) { self with reads := setEmplace self.reads b }
      else Outcome.fatal self := by
  unfold RGPassBase.SaveBufferTransitionInfo
  cases hr : Internal.IsBufferStateRead state <;> cases hw : Internal.IsBufferStateWrite state <;>
    simp [h, hr, hw, QuickFail]

theorem saveTexture_recorded (self : RGPassBase) (t : Nat) (state recorded : TextureState)
    (h : self.transitionInfos.texture.lookup t = some recorded) :
    self.SaveTextureTransitionInfo (some t) state =
      if Internal.IsTextureStateWrite state then
        Outcome.fatal
          { self with
            reads := if Internal.IsTextureStateRead state then setEmplace self.reads t
                     else self.reads }
      else if Internal.IsTextureStateRead state then
        Assert (Internal.IsTextureStateWrite recorded) { self with reads := setEmplace self.reads t }
      else Outcome.fatal self := by
  unfold RGPassBase.SaveTextureTransitionInfo
  cases hr : Internal.IsTextureStateRead state <;> cases hw : Internal.IsTextureStateWrite state <;>
    simp [h, hr, hw, QuickFail]

theorem groupItems_some (g : RGBuilder) (bg : RGBindGroupRef)
    (items : List (String × RGBindItemDesc)) (h : g.groupItems? bg = some items) :
    ∃ group, g.bindGroup? bg = some group ∧ group.GetDesc.items = items := by
  unfold RGBuilder.groupItems? at h
  cases hg : g.bindGroup? bg with
  | none => simp [hg] at h
  | some group => exact ⟨group, rfl, by simpa [hg] using h⟩

theorem bindsBuffer_view (g : RGBuilder) (item : RGBindItemDesc) (type : BindingType) (b : Nat)
    (h : g.bindsBuffer item type b) :
    item.type = type ∧ ∃ v, g.bufferView? item.bufferView = some v ∧ v.GetBuffer = some b := by
  obtain ⟨h1, h2⟩ := h
  refine ⟨h1, ?_⟩
  cases hv : g.bufferView? item.bufferView with
  | none => simp [hv] at h2
  | some v => exact ⟨v, rfl, by simpa [hv] using h2⟩

theorem bindsTexture_view (g : RGBuilder) (item : RGBindItemDesc) (type : BindingType) (t : Nat)
    (h : g.bindsTexture item type t) :
    item.type = type ∧ ∃ v, g.textureView? item.textureView = some v ∧ v.GetTexture = some t := by
  obtain ⟨h1, h2⟩ := h
  refine ⟨h1, ?_⟩
  cases hv : g.textureView? item.textureView with
  | none => simp [hv] at h2
  | some v => exact ⟨v, rfl, by simpa [hv] using h2⟩

/-- What the two loops over one bind group do with a storage-buffer item. -/
theorem compileItem_storageBuffer (g : RGBuilder) (name : String) (item : RGBindItemDesc)
    (b : Nat) (self : RGPassBase) (h : g.bindsBuffer item BindingType.storageBuffer b) :
    RGPassBase.compileWriteItem g (name, item) self =
        self.SaveBufferTransitionInfo (some b) BufferState.storage ∧
      RGPassBase.compileReadItem g (name, item) self = Outcome.ok self := by
  obtain ⟨ht, v, hv, hb⟩ := bindsBuffer_view g item _ b h
  simp [RGPassBase.compileWriteItem, RGPassBase.compileReadItem, ht, hv, hb]

/-- What the two loops over one bind group do with a uniform-buffer item. -/
theorem compileItem_uniformBuffer (g : RGBuilder) (name : String) (item : RGBindItemDesc)
    (b : Nat) (self : RGPassBase) (h : g.bindsBuffer item BindingType.uniformBuffer b) :
    RGPassBase.compileWriteItem g (name, item) self = Outcome.ok self ∧
      RGPassBase.compileReadItem g (name, item) self =
        self.SaveBufferTransitionInfo (some b) BufferState.shaderReadOnly := by
  obtain ⟨ht, v, hv, hb⟩ := bindsBuffer_view g item _ b h
  simp [RGPassBase.compileWriteItem, RGPassBase.compileReadItem, ht, hv, hb]

/-- What the two loops over one bind group do with a storage-texture item. -/
theorem compileItem_storageTexture (g : RGBuilder) (name : String) (item : RGBindItemDesc)
    (t : Nat) (self : RGPassBase) (h : g.bindsTexture item BindingType.storageTexture t) :
    RGPassBase.compileWriteItem g (name, item) self =
        self.SaveTextureTransitionInfo (some t) TextureState.storage ∧
      RGPassBase.compileReadItem g (name, item) self = Outcome.ok self := by
  obtain ⟨ht, v, hv, hb⟩ := bindsTexture_view g item _ t h
  simp [RGPassBase.compileWriteItem, RGPassBase.compileReadItem, ht, hv, hb]

/-- What the two loops over one bind group do with a texture item. -/
theorem compileItem_texture (g : RGBuilder) (name : String) (item : RGBindItemDesc)
    (t : Nat) (self : RGPassBase) (h : g.bindsTexture item BindingType.texture t) :
    RGPassBase.compileWriteItem g (name, item) self = Outcome.ok self ∧
      RGPassBase.compileReadItem g (name, item) self =
        self.SaveTextureTransitionInfo (some t) TextureState.shaderReadOnly := by
  obtain ⟨ht, v, hv, hb⟩ := bindsTexture_view g item _ t h
  simp [RGPassBase.compileWriteItem, RGPassBase.compileReadItem, ht, hv, hb]

end SaveLemmas

/-! ## C11, C12, C13: writing and reading one resource in one pass -/

section WriteRead

theorem mem_setEmplace (set : List Nat) (x : Nat) : x ∈ setEmplace set x := by
  unfold setEmplace
  split
  · assumption
  · simp

end WriteRead

/-! ## C11: a storage-texture binding and a texture binding of one texture -/

section Fatal

theorem isFatal_andThen {σ : Type} (o : Outcome σ) (f : σ → Outcome σ)
    (h : o.isFatal = true) : (o.andThen f).isFatal = true := by
  cases o <;> simp_all [Outcome.andThen, Outcome.isFatal]

theorem isFatal_lift {σ τ : Type} (o : Outcome τ) (put : τ → σ) :
    (o.lift put).isFatal = o.isFatal := by
  cases o <;> rfl

theorem isFatal_lift_andThen_ok {σ τ : Type} (o : Outcome τ) (put : τ → σ) (f : σ → σ) :
    ((o.lift put).andThen fun s => Outcome.ok (f s)).isFatal = o.isFatal := by
  cases o <;> rfl

theorem computeCompile_isFatal (p : RGComputePass) (g : RGBuilder) (info : RGAsyncInfo) :
    (p.Compile g info).isFatal = (p.toRGPassBase.CompileForBindGroups g p.bindGroups).isFatal := by
  unfold RGComputePass.Compile
  cases p.toRGPassBase.CompileForBindGroups g p.bindGroups <;> rfl

end Fatal

/-- C11. A bind group that binds one texture once as StorageTexture and once as Texture does not
compile: for every pass, whatever it has recorded so far, and every bind group whose items are a
StorageTexture binding and a Texture binding of texture T (named anyhow, iterated in either
order), CompileForBindGroups stops at a fatal failure, and so does Compile of every compute pass
constructed with that single bind group. The read request is made with state shaderReadOnly,
which IsTextureStateWrite classifies as a write state, so it is treated as a second write. -/
theorem storage_texture_then_texture_fails (g : RGBuilder) (self : RGPassBase)
    (bg : RGBindGroupRef) (n1 n2 : String) (w r : RGBindItemDesc) (t : Nat)
    (hw : g.bindsTexture w BindingType.storageTexture t)
    (hr : g.bindsTexture r BindingType.texture t)
    (hitems : g.groupItems? bg = some [(n1, w), (n2, r)] ∨
      g.groupItems? bg = some [(n2, r), (n1, w)]) :
    (self.CompileForBindGroups g [bg]).isFatal = true ∧
      ∀ (name : String) (func : Nat) (asyncCompute : Bool) (info : RGAsyncInfo),
        ((RGComputePass.new name [bg] func asyncCompute).Compile g info).isFatal = true := by
  have key : ∀ self : RGPassBase, (self.CompileForBindGroups g [bg]).isFatal = true := by
    intro self
    cases hl : self.transitionInfos.texture.lookup t with
    | none =>
      have hrec : ({ name := self.name, type := self.type, reads := self.reads
                     transitionInfos :=
                       { buffer := self.transitionInfos.buffer
                         texture := self.transitionInfos.texture ++ [(t, TextureState.storage)] } } :
          RGPassBase).transitionInfos.texture.lookup t = some TextureState.storage :=
        lookup_append_fresh self.transitionInfos.texture t TextureState.storage hl
      rcases hitems with h | h <;>
        obtain ⟨group, hg, hi⟩ := groupItems_some g bg _ h <;>
        simp [RGPassBase.CompileForBindGroups, RGPassBase.compileBindGroup, hg, hi, forEach,
          Outcome.andThen, compileItem_storageTexture g _ w t _ hw,
          compileItem_texture g _ r t _ hr, saveTexture_fresh _ t _ hl,
          saveTexture_recorded _ t _ _ hrec, Internal.IsTextureStateRead,
          Internal.IsTextureStateWrite, Outcome.isFatal]
    | some recorded =>
      rcases hitems with h | h <;>
        obtain ⟨group, hg, hi⟩ := groupItems_some g bg _ h <;>
        simp [RGPassBase.CompileForBindGroups, RGPassBase.compileBindGroup, hg, hi, forEach,
          Outcome.andThen, compileItem_storageTexture g _ w t _ hw,
          compileItem_texture g _ r t _ hr, saveTexture_recorded _ t _ _ hl,
          Internal.IsTextureStateRead, Internal.IsTextureStateWrite, Outcome.isFatal]
  refine ⟨key self, ?_⟩
  intro name func asyncCompute info
  rw [computeCompile_isFatal]
  exact key _

/-- C11, witness: bind group 3 of the sample builder binds texture 1 as storage texture "image"
and as texture "sampled"; a new pass does not compile it. -/
theorem storage_texture_then_texture_fails_witness :
    sampleBindings.bindsTexture
      { type := BindingType.storageTexture, sampler := none, bufferView := none,
        textureView := some 1 } BindingType.storageTexture 1 ∧
    sampleBindings.bindsTexture
      { type := BindingType.texture, sampler := none, bufferView := none,
        textureView := some 1 } BindingType.texture 1 ∧
    sampleBindings.groupItems? (some 3) = some sampleTextureWriteReadBindings.items ∧
    ((RGPassBase.new "pass" RGPassType.compute).CompileForBindGroups sampleBindings
      [some 3]).isFatal = true ∧
    ((RGComputePass.new "pass" [some 3] 0 false).Compile sampleBindings
      RGAsyncInfo.new).isFatal = true := by
  have h := storage_texture_then_texture_fails sampleBindings
    (RGPassBase.new "pass" RGPassType.compute) (some 3) "image" "sampled"
    { type := BindingType.storageTexture, sampler := none, bufferView := none,
      textureView := some 1 }
    { type := BindingType.texture, sampler := none, bufferView := none,
      textureView := some 1 } 1 (by decide) (by decide) (Or.inl (by rfl))
  exact ⟨by decide, by decide, by rfl, h.1, h.2 "pass" 0 false RGAsyncInfo.new⟩

/-! ## C13: the storage-buffer binding and the uniform-buffer binding in different bind groups -/

section Frame

/-- A texture request that returns leaves the buffer map, the name and the type alone, and the
reads set too unless the state is a read state. -/
theorem saveTexture_ok_frame (self s' : RGPassBase) (texture : RGTextureRef)
    (state : TextureState) (h : self.SaveTextureTransitionInfo texture state = Outcome.ok s') :
    s'.transitionInfos.buffer = self.transitionInfos.buffer ∧ s'.name = self.name ∧
      s'.type = self.type ∧ (Internal.IsTextureStateRead state = false → s'.reads = self.reads) := by
  cases texture with
  | none => simp [RGPassBase.SaveTextureTransitionInfo, Assert] at h
  | some t =>
    cases hl : self.transitionInfos.texture.lookup t with
    | none =>
      rw [saveTexture_fresh self t state hl] at h
      simp only [Outcome.ok.injEq] at h
      subst h
      refine ⟨rfl, rfl, rfl, fun hr => by simp [hr]⟩
    | some recorded =>
      rw [saveTexture_recorded self t state recorded hl] at h
      cases hw : Internal.IsTextureStateWrite state
      · cases hr : Internal.IsTextureStateRead state
        · simp [hw, hr] at h
        · cases hrec : Internal.IsTextureStateWrite recorded
          · simp [hw, hr, hrec, Assert] at h
          · simp only [hw, hr, hrec, Assert, Bool.false_eq_true, if_false, if_true,
              Outcome.ok.injEq] at h
            subst h
            exact ⟨rfl, rfl, rfl, fun hr' => Bool.noConfusion hr'⟩
      · simp [hw] at h

/-- Registering the attachments of a raster pass leaves its buffer map, its reads set, its bind
groups and its description alone. -/
theorem compileForRasterPassDesc_frame (p q : RGRasterPass) (g : RGBuilder)
    (h : p.CompileForRasterPassDesc g = Outcome.ok q) :
    q.transitionInfos.buffer = p.transitionInfos.buffer ∧ q.reads = p.reads ∧
      q.bindGroups = p.bindGroups ∧ q.passDesc = p.passDesc ∧ q.func = p.func := by
  unfold RGRasterPass.CompileForRasterPassDesc at h
  obtain ⟨base, h1, h2⟩ := (lift_eq_ok _ _ _).mp h
  obtain ⟨mid, h3, h4⟩ := (andThen_eq_ok _ _ _).mp h1
  have hmid : mid.transitionInfos.buffer = p.transitionInfos.buffer ∧ mid.reads = p.reads := by
    refine forEach_ok_induct
      (fun s => s.transitionInfos.buffer = p.transitionInfos.buffer ∧ s.reads = p.reads)
      (RGPassBase.compileColorAttachment g) p.passDesc.colorAttachments ?_ p.toRGPassBase mid
      ⟨rfl, rfl⟩ h3
    intro x _ s s' hP hs
    unfold RGPassBase.compileColorAttachment at hs
    cases hv : g.textureView? x.view with
    | none => simp [hv] at hs
    | some view =>
      simp only [hv] at hs
      obtain ⟨f1, _, _, f2⟩ := saveTexture_ok_frame _ _ _ _ hs
      exact ⟨f1.trans hP.1, (f2 (by decide)).trans hP.2⟩
  have hbase : base.transitionInfos.buffer = p.transitionInfos.buffer ∧ base.reads = p.reads := by
    cases hd : p.passDesc.depthStencilAttachment with
    | none =>
      simp only [hd, Outcome.ok.injEq] at h4
      exact h4 ▸ hmid
    | some depth =>
      simp only [hd] at h4
      cases hv : g.textureView? depth.view with
      | none => simp [hv] at h4
      | some view =>
        simp only [hv] at h4
        obtain ⟨f1, _, _, f2⟩ := saveTexture_ok_frame _ _ _ _ h4
        exact ⟨f1.trans hmid.1, (f2 (by decide)).trans hmid.2⟩
  subst h2
  exact ⟨hbase.1, hbase.2, rfl, rfl, rfl⟩

end Frame

/-! ## The state requests of a pass and what `Compile` does with them -/

section Requests

theorem saveAll_append (a b : List StateRequest) (s : RGPassBase) :
    RGPassBase.saveAll (a ++ b) s = (RGPassBase.saveAll a s).andThen (RGPassBase.saveAll b) :=
  forEach_append _ a b s

theorem saveAll_singleton (r : StateRequest) (s : RGPassBase) :
    RGPassBase.saveAll [r] s = RGPassBase.save r s := by
  show (RGPassBase.save r s).andThen (forEach RGPassBase.save []) = _
  cases RGPassBase.save r s <;> rfl

/-- A loop whose body makes, for each element, the requests `f` lists for it makes the
collected requests. -/
theorem forEach_collect {α : Type} (f : α → Option (List StateRequest))
    (step : α → RGPassBase → Outcome RGPassBase) (xs : List α)
    (hstep : ∀ x ∈ xs, ∀ rs, f x = some rs → ∀ s, step x s = RGPassBase.saveAll rs s) :
    ∀ rs, collect f xs = some rs → ∀ s, forEach step xs s = RGPassBase.saveAll rs s := by
  induction xs with
  | nil =>
    intro rs h s
    simp only [collect, Option.some.injEq] at h
    subst h
    rfl
  | cons x xs ih =>
    intro rs h s
    cases hx : f x with
    | none => simp [collect, hx] at h
    | some a =>
      cases hc : collect f xs with
      | none => simp [collect, hx, hc] at h
      | some b =>
        simp only [collect, hx, hc, Option.some.injEq] at h
        subst h
        rw [saveAll_append]
        simp only [forEach]
        rw [hstep x (List.mem_cons_self _ _) a hx s]
        congr 1
        funext s1
        exact ih (fun y hy => hstep y (List.mem_cons_of_mem _ hy)) b hc s1

theorem compileWriteItem_requests (g : RGBuilder) (item : String × RGBindItemDesc)
    (rs : List StateRequest) (h : g.writeRequest? item = some rs) (s : RGPassBase) :
    RGPassBase.compileWriteItem g item s = RGPassBase.saveAll rs s := by
  unfold RGBuilder.writeRequest? at h
  unfold RGPassBase.compileWriteItem
  by_cases h1 : item.2.type = BindingType.storageBuffer
  · rw [if_pos h1] at h
    simp only [if_pos h1]
    cases hv : g.bufferView? item.2.bufferView with
    | none => simp [hv] at h
    | some view =>
      simp only [hv] at h ⊢
      cases hb : view.GetBuffer with
      | none => simp [hb] at h
      | some b =>
        simp only [hb, Option.map_some', Option.some.injEq] at h
        subst h
        rw [saveAll_singleton]
        rfl
  · rw [if_neg h1] at h
    simp only [if_neg h1]
    by_cases h2 : item.2.type = BindingType.storageTexture
    · rw [if_pos h2] at h
      simp only [if_pos h2]
      cases hv : g.textureView? item.2.textureView with
      | none => simp [hv] at h
      | some view =>
        simp only [hv] at h ⊢
        cases hb : view.GetTexture with
        | none => simp [hb] at h
        | some b =>
          simp only [hb, Option.map_some', Option.some.injEq] at h
          subst h
          rw [saveAll_singleton]
          rfl
    · rw [if_neg h2] at h
      simp only [if_neg h2]
      simp only [Option.some.injEq] at h
      subst h
      rfl

theorem compileReadItem_requests (g : RGBuilder) (item : String × RGBindItemDesc)
    (rs : List StateRequest) (h : g.readRequest? item = some rs) (s : RGPassBase) :
    RGPassBase.compileReadItem g item s = RGPassBase.saveAll rs s := by
  unfold RGBuilder.readRequest? at h
  unfold RGPassBase.compileReadItem
  by_cases h1 : item.2.type = BindingType.uniformBuffer
  · rw [if_pos h1] at h
    simp only [if_pos h1]
    cases hv : g.bufferView? item.2.bufferView with
    | none => simp [hv] at h
    | some view =>
      simp only [hv] at h ⊢
      cases hb : view.GetBuffer with
      | none => simp [hb] at h
      | some b =>
        simp only [hb, Option.map_some', Option.some.injEq] at h
        subst h
        rw [saveAll_singleton]
        rfl
  · rw [if_neg h1] at h
    simp only [if_neg h1]
    by_cases h2 : item.2.type = BindingType.texture
    · rw [if_pos h2] at h
      simp only [if_pos h2]
      cases hv : g.textureView? item.2.textureView with
      | none => simp [hv] at h
      | some view =>
        simp only [hv] at h ⊢
        cases hb : view.GetTexture with
        | none => simp [hb] at h
        | some b =>
          simp only [hb, Option.map_some', Option.some.injEq] at h
          subst h
          rw [saveAll_singleton]
          rfl
    · rw [if_neg h2] at h
      simp only [if_neg h2]
      simp only [Option.some.injEq] at h
      subst h
      rfl

theorem compileBindGroup_requests (g : RGBuilder) (bg : RGBindGroupRef)
    (rs : List StateRequest) (h : g.groupRequests? bg = some rs) (s : RGPassBase) :
    RGPassBase.compileBindGroup g bg s = RGPassBase.saveAll rs s := by
  unfold RGBuilder.groupRequests? at h
  unfold RGPassBase.compileBindGroup
  cases hg : g.bindGroup? bg with
  | none => simp [hg] at h
  | some group =>
    simp only [hg] at h ⊢
    cases hw : collect g.writeRequest? group.GetDesc.items with
    | none => simp [hw] at h
    | some ws =>
      cases hr : collect g.readRequest? group.GetDesc.items with
      | none => simp [hw, hr] at h
      | some rds =>
        simp only [hw, hr, Option.some.injEq] at h
        subst h
        rw [saveAll_append, forEach_collect g.writeRequest? _ _
          (fun x _ rs hx s => compileWriteItem_requests g x rs hx s) ws hw s]
        congr 1
        funext s1
        exact forEach_collect g.readRequest? _ _
          (fun x _ rs hx s => compileReadItem_requests g x rs hx s) rds hr s1

theorem compileForBindGroups_requests (g : RGBuilder) (bindGroups : List RGBindGroupRef)
    (rs : List StateRequest) (h : collect g.groupRequests? bindGroups = some rs)
    (s : RGPassBase) : s.CompileForBindGroups g bindGroups = RGPassBase.saveAll rs s :=
  forEach_collect g.groupRequests? _ _
    (fun x _ rs hx s => compileBindGroup_requests g x rs hx s) rs h s

theorem compileCopyResource_requests (g : RGBuilder) (bufferState : BufferState)
    (textureState : TextureState) (ref : RGResourceRef) (rs : List StateRequest)
    (h : g.copyRequest? bufferState textureState ref = some rs) (s : RGPassBase) :
    RGPassBase.compileCopyResource g bufferState textureState ref s =
      RGPassBase.saveAll rs s := by
  unfold RGBuilder.copyRequest? at h
  unfold RGPassBase.compileCopyResource
  cases ref with
  | none => simp at h
  | some i =>
    simp only [RGBuilder.resource?] at h ⊢
    cases hr : g.resources[i]? with
    | none => simp [hr] at h
    | some r =>
      simp only [hr] at h ⊢
      by_cases h1 : r.Type = RGResType.buffer
      · rw [if_pos h1] at h
        simp only [if_pos h1]
        simp only [Option.some.injEq] at h
        subst h
        rw [saveAll_singleton]
        rfl
      · rw [if_neg h1] at h
        simp only [if_neg h1]
        by_cases h2 : r.Type = RGResType.texture
        · rw [if_pos h2] at h
          simp only [if_pos h2]
          simp only [Option.some.injEq] at h
          subst h
          rw [saveAll_singleton]
          rfl
        · rw [if_neg h2] at h
          simp at h

theorem attachment_requests (g : RGBuilder) (state : TextureState) (ref : RGTextureViewRef)
    (rs : List StateRequest) (h : g.attachmentRequest? state ref = some rs) (s : RGPassBase) :
    (match g.textureView? ref with
      | none => Outcome.undefinedBehaviour
      | some view => s.SaveTextureTransitionInfo view.GetTexture state) =
      RGPassBase.saveAll rs s := by
  unfold RGBuilder.attachmentRequest? at h
  cases hv : g.textureView? ref with
  | none => simp [hv] at h
  | some view =>
    simp only [hv] at h ⊢
    cases hb : view.GetTexture with
    | none => simp [hb] at h
    | some b =>
      simp only [hb, Option.map_some', Option.some.injEq] at h
      subst h
      rw [saveAll_singleton]
      rfl

end Requests

/-! ## C14: two write requests for one resource -/

section RequestsOfPasses

theorem compileForRasterPassDesc_requests (g : RGBuilder) (p : RGRasterPass)
    (rs : List StateRequest) (h : g.attachmentRequests? p.passDesc = some rs) :
    p.CompileForRasterPassDesc g =
      (RGPassBase.saveAll rs p.toRGPassBase).lift fun base => { p with toRGPassBase := base } := by
  unfold RGBuilder.attachmentRequests? at h
  unfold RGRasterPass.CompileForRasterPassDesc
  cases hc : collect (fun (c : RGColorAttachment) =>
      g.attachmentRequest? TextureState.renderTarget c.view) p.passDesc.colorAttachments with
  | none => simp [hc] at h
  | some colors =>
    have hloop : ∀ s, forEach (RGPassBase.compileColorAttachment g)
        p.passDesc.colorAttachments s = RGPassBase.saveAll colors s :=
      forEach_collect _ _ _ (fun x _ rs hx s => attachment_requests g _ x.view rs hx s) colors hc
    rw [hloop]
    cases hd : p.passDesc.depthStencilAttachment with
    | none =>
      simp only [hc, hd, Option.some.injEq] at h
      subst h
      simp only [List.append_nil]
      cases RGPassBase.saveAll colors p.toRGPassBase <;> rfl
    | some depth =>
      simp only [hc, hd] at h
      cases hdr : g.attachmentRequest? TextureState.depthStencilWrite depth.view with
      | none => simp [hdr] at h
      | some ds =>
        simp only [hdr, Option.some.injEq] at h
        subst h
        rw [saveAll_append]
        congr 2
        funext base
        exact attachment_requests g _ depth.view ds hdr base

/-- The pass data `Compile` leaves, or fails with, is what making the pass's requests in order
leaves, or fails with. -/
theorem compile_requests (g : RGBuilder) (pass : RGPass) (info : RGAsyncInfo)
    (rs : List StateRequest) (h : g.requests? pass = some rs) :
    (pass.Compile g info).lift (fun x => x.1.base) = RGPassBase.saveAll rs pass.base := by
  cases pass with
  | copy p =>
    simp only [RGBuilder.requests?] at h
    cases hd : collect (g.copyRequest? BufferState.copyDst TextureState.copyDst)
        p.passDesc.copyDsts with
    | none => simp [hd] at h
    | some ds =>
      cases hs : collect (g.copyRequest? BufferState.copySrc TextureState.copySrc)
          p.passDesc.copySrcs with
      | none => simp [hd, hs] at h
      | some ss =>
        simp only [hd, hs, Option.some.injEq] at h
        subst h
        have h1 := forEach_collect _ _ _
          (fun x _ rs hx s => compileCopyResource_requests g _ _ x rs hx s) ds hd
        have h2 := forEach_collect _ _ _
          (fun x _ rs hx s => compileCopyResource_requests g _ _ x rs hx s) ss hs
        simp only [RGPass.Compile, RGCopyPass.Compile, RGCopyPass.CompileForCopyPassDesc,
          RGPass.base, h1, saveAll_append]
        cases RGPassBase.saveAll ds p.toRGPassBase with
        | ok s1 =>
          simp only [Outcome.andThen, h2]
          cases RGPassBase.saveAll ss s1 <;> rfl
        | fatal s1 => rfl
        | undefinedBehaviour => rfl
  | compute p =>
    simp only [RGBuilder.requests?] at h
    simp only [RGPass.Compile, RGComputePass.Compile, RGPass.base,
      compileForBindGroups_requests g _ rs h]
    cases RGPassBase.saveAll rs p.toRGPassBase <;> rfl
  | raster p =>
    simp only [RGBuilder.requests?] at h
    cases ha : g.attachmentRequests? p.passDesc with
    | none => simp [ha] at h
    | some as =>
      cases hb : collect g.groupRequests? p.bindGroups with
      | none => simp [ha, hb] at h
      | some bs =>
        simp only [ha, hb, Option.some.injEq] at h
        subst h
        simp only [RGPass.Compile, RGRasterPass.Compile, RGPass.base,
          compileForRasterPassDesc_requests g p as ha, saveAll_append]
        cases RGPassBase.saveAll as p.toRGPassBase with
        | ok s1 =>
          simp only [Outcome.andThen, Outcome.lift, compileForBindGroups_requests g _ bs hb]
          cases RGPassBase.saveAll bs s1 <;> rfl
        | fatal s1 => rfl
        | undefinedBehaviour => rfl

theorem save_ne_undefined (r : StateRequest) (s : RGPassBase) :
    RGPassBase.save r s ≠ Outcome.undefinedBehaviour := by
  cases r with
  | buffer b st =>
    cases hl : s.transitionInfos.buffer.lookup b with
    | none => simp [RGPassBase.save, saveBuffer_fresh s b st hl]
    | some recorded =>
      simp only [RGPassBase.save, saveBuffer_recorded s b st recorded hl, Assert]
      split_ifs <;> simp
  | texture t st =>
    cases hl : s.transitionInfos.texture.lookup t with
    | none => simp [RGPassBase.save, saveTexture_fresh s t st hl]
    | some recorded =>
      simp only [RGPassBase.save, saveTexture_recorded s t st recorded hl, Assert]
      split_ifs <;> simp

theorem saveAll_ne_undefined (rs : List StateRequest) :
    ∀ s, RGPassBase.saveAll rs s ≠ Outcome.undefinedBehaviour := by
  induction rs with
  | nil => intro s h; simp [RGPassBase.saveAll, forEach] at h
  | cons r rs ih =>
    intro s h
    simp only [RGPassBase.saveAll, forEach] at h
    cases hr : RGPassBase.save r s with
    | ok s1 =>
      rw [hr] at h
      exact ih s1 h
    | fatal s1 =>
      rw [hr] at h
      simp [Outcome.andThen] at h
    | undefinedBehaviour => exact save_ne_undefined r s hr

/-- A request that returns: if it asks for a write state the key had no entry; afterwards the key
has an entry; no entry is removed. -/
theorem save_ok_entries (r : StateRequest) (s s' : RGPassBase)
    (h : RGPassBase.save r s = Outcome.ok s') :
    (r.isWrite = true → s.hasEntry r.key = false) ∧ s'.hasEntry r.key = true ∧
      ∀ k, s.hasEntry k = true → s'.hasEntry k = true := by
  cases r with
  | buffer b st =>
    cases hl : s.transitionInfos.buffer.lookup b with
    | none =>
      simp only [RGPassBase.save, saveBuffer_fresh s b st hl, Outcome.ok.injEq] at h
      subst h
      refine ⟨fun _ => by simp [RGPassBase.hasEntry, StateRequest.key, hl], ?_, ?_⟩
      · simp [RGPassBase.hasEntry, StateRequest.key, lookup_append_fresh _ b st hl]
      · intro k hk
        cases k with
        | buffer k =>
          simp only [RGPassBase.hasEntry, List.lookup_append] at hk ⊢
          cases hk' : List.lookup k s.transitionInfos.buffer with
          | none => simp [hk'] at hk
          | some v => simp
        | texture k => exact hk
    | some recorded =>
      simp only [RGPassBase.save, saveBuffer_recorded s b st recorded hl, Assert] at h
      cases hw : Internal.IsBufferStateWrite st
      · refine ⟨fun hw' => by simp [StateRequest.isWrite, hw] at hw', ?_, ?_⟩
        · have : s'.transitionInfos = s.transitionInfos := by
            simp only [hw] at h
            split_ifs at h <;> simp at h <;> subst h <;> rfl
          simp [RGPassBase.hasEntry, StateRequest.key, this, hl]
        · intro k hk
          have : s'.transitionInfos = s.transitionInfos := by
            simp only [hw] at h
            split_ifs at h <;> simp at h <;> subst h <;> rfl
          cases k <;> simpa [RGPassBase.hasEntry, this] using hk
      · simp [hw] at h
  | texture t st =>
    cases hl : s.transitionInfos.texture.lookup t with
    | none =>
      simp only [RGPassBase.save, saveTexture_fresh s t st hl, Outcome.ok.injEq] at h
      subst h
      refine ⟨fun _ => by simp [RGPassBase.hasEntry, StateRequest.key, hl], ?_, ?_⟩
      · simp [RGPassBase.hasEntry, StateRequest.key, lookup_append_fresh _ t st hl]
      · intro k hk
        cases k with
        | buffer k => exact hk
        | texture k =>
          simp only [RGPassBase.hasEntry, List.lookup_append] at hk ⊢
          cases hk' : List.lookup k s.transitionInfos.texture with
          | none => simp [hk'] at hk
          | some v => simp
    | some recorded =>
      simp only [RGPassBase.save, saveTexture_recorded s t st recorded hl, Assert] at h
      cases hw : Internal.IsTextureStateWrite st
      · refine ⟨fun hw' => by simp [StateRequest.isWrite, hw] at hw', ?_, ?_⟩
        · have : s'.transitionInfos = s.transitionInfos := by
            simp only [hw] at h
            split_ifs at h <;> simp at h <;> subst h <;> rfl
          simp [RGPassBase.hasEntry, StateRequest.key, this, hl]
        · intro k hk
          have : s'.transitionInfos = s.transitionInfos := by
            simp only [hw] at h
            split_ifs at h <;> simp at h <;> subst h <;> rfl
          cases k <;> simpa [RGPassBase.hasEntry, this] using hk
      · simp [hw] at h

/-- Requests that all return: no key is asked to be written twice, the keys asked to be written
had no entry, and no entry is removed. -/
theorem saveAll_ok_writes (rs : List StateRequest) :
    ∀ s s', RGPassBase.saveAll rs s = Outcome.ok s' →
      (writeKeys rs).Nodup ∧ (∀ k ∈ writeKeys rs, s.hasEntry k = false) ∧
        ∀ k, s.hasEntry k = true → s'.hasEntry k = true := by
  induction rs with
  | nil =>
    intro s s' h
    simp only [RGPassBase.saveAll, forEach, Outcome.ok.injEq] at h
    subst h
    simp [writeKeys]
  | cons r rs ih =>
    intro s s' h
    simp only [RGPassBase.saveAll, forEach] at h
    obtain ⟨s1, h1, h2⟩ := (andThen_eq_ok _ _ _).mp h
    obtain ⟨e1, e2, e3⟩ := save_ok_entries r s s1 h1
    obtain ⟨i1, i2, i3⟩ := ih s1 s' h2
    have hrest : ∀ k ∈ writeKeys rs, s.hasEntry k = false := by
      intro k hk
      cases hs : s.hasEntry k with
      | false => rfl
      | true =>
        have := i2 k hk
        rw [e3 k hs] at this
        exact Bool.noConfusion this
    refine ⟨?_, ?_, fun k hk => i3 k (e3 k hk)⟩
    · cases hw : r.isWrite with
      | false => simpa [writeKeys, List.filter_cons, hw] using i1
      | true =>
        have hnot : r.key ∉ writeKeys rs := by
          intro hmem
          have := i2 _ hmem
          rw [e2] at this
          exact Bool.noConfusion this
        have : writeKeys (r :: rs) = r.key :: writeKeys rs := by
          simp [writeKeys, List.filter_cons, hw]
        rw [this]
        exact List.nodup_cons.mpr ⟨hnot, i1⟩
    · intro k hk
      cases hw : r.isWrite with
      | false =>
        have : writeKeys (r :: rs) = writeKeys rs := by
          simp [writeKeys, List.filter_cons, hw]
        rw [this] at hk
        exact hrest k hk
      | true =>
        have : writeKeys (r :: rs) = r.key :: writeKeys rs := by
          simp [writeKeys, List.filter_cons, hw]
        rw [this] at hk
        rcases List.mem_cons.mp hk with rfl | hk
        · exact e1 hw
        · exact hrest k hk

end RequestsOfPasses

/-- C14. A pass that asks twice for a write state of one resource does not compile: for every
copy, compute or raster pass whose pointers designate objects of the graph, if among the state
requests its Compile makes (storage for each StorageBuffer and StorageTexture binding of each
bind group, renderTarget for each color attachment, depthStencilWrite for the depth-stencil
attachment, copyDst for each copy destination, ...) two requests for a write state name the same
buffer or the same texture, then Compile stops at a fatal failure. -/
theorem repeated_write_fails (g : RGBuilder) (pass : RGPass) (info : RGAsyncInfo)
    (rs : List StateRequest) (hrs : g.requests? pass = some rs)
    (hdup : ¬ (writeKeys rs).Nodup) : (pass.Compile g info).isFatal = true := by
  have h := compile_requests g pass info rs hrs
  cases hc : RGPassBase.saveAll rs pass.base with
  | ok s' => exact absurd (saveAll_ok_writes rs _ _ hc).1 hdup
  | fatal s' =>
    rw [hc] at h
    rw [← isFatal_lift (pass.Compile g info) (fun x => x.1.base), h]
    rfl
  | undefinedBehaviour => exact absurd hc (saveAll_ne_undefined rs _)

/-- C14, witness: on the sample builder, a raster pass with the view of texture 1 as two color
attachments; a compute pass whose bind groups bind buffer 0 twice as storage buffer; a raster
pass with the view of texture 1 as color attachment and a bind group binding texture 1 as
storage texture. -/
theorem repeated_write_fails_witness :
    (sampleBindings.requests? (RGPass.raster (RGRasterPass.new "pass"
        { colorAttachments := [{ view := some 1 }, { view := some 1 }],
          depthStencilAttachment := none } [] 7)) =
      some [StateRequest.texture 1 TextureState.renderTarget,
        StateRequest.texture 1 TextureState.renderTarget] ∧
      ((RGPass.raster (RGRasterPass.new "pass"
        { colorAttachments := [{ view := some 1 }, { view := some 1 }],
          depthStencilAttachment := none } [] 7)).Compile sampleBindings
        RGAsyncInfo.new).isFatal = true) ∧
    (sampleBindings.requests? (RGPass.compute (RGComputePass.new "pass" [some 1, some 1] 7
        false)) =
      some [StateRequest.buffer 0 BufferState.storage,
        StateRequest.buffer 0 BufferState.storage] ∧
      ((RGPass.compute (RGComputePass.new "pass" [some 1, some 1] 7 false)).Compile
        sampleBindings RGAsyncInfo.new).isFatal = true) ∧
    (sampleBindings.requests? (RGPass.raster (RGRasterPass.new "pass"
        { colorAttachments := [{ view := some 1 }], depthStencilAttachment := none }
        [some 3] 7)) =
      some [StateRequest.texture 1 TextureState.renderTarget,
        StateRequest.texture 1 TextureState.storage,
        StateRequest.texture 1 TextureState.shaderReadOnly] ∧
      ((RGPass.raster (RGRasterPass.new "pass"
        { colorAttachments := [{ view := some 1 }], depthStencilAttachment := none }
        [some 3] 7)).Compile sampleBindings RGAsyncInfo.new).isFatal = true) :=
  ⟨⟨by rfl, repeated_write_fails sampleBindings _ RGAsyncInfo.new _ (by rfl) (by decide)⟩,
    ⟨by rfl, repeated_write_fails sampleBindings _ RGAsyncInfo.new _ (by rfl) (by decide)⟩,
    ⟨by rfl, repeated_write_fails sampleBindings _ RGAsyncInfo.new _ (by rfl) (by decide)⟩⟩

/-! ## C15: compiling a copy pass -/

section CopyPass

theorem lookup_append_other {β : Type} (l : List (Nat × β)) (j i : Nat) (v : β)
    (h : l.lookup j = none) (hne : j ≠ i) : (l ++ [(i, v)]).lookup j = none := by
  rw [List.lookup_append, h]
  have : (j == i) = false := by simpa using hne
  simp [List.lookup, this]

theorem setEmplace_fresh (set : List Nat) (x : Nat) (h : x ∉ set) :
    setEmplace set x = set ++ [x] := by
  simp [setEmplace, h]

/-- One loop of `CompileForCopyPassDesc` over pointers to distinct buffers and textures none of
which the pass has recorded. `rd` tells whether the two states are read states. -/
theorem copyLoop (g : RGBuilder) (bs : BufferState) (ts : TextureState) (rd : Bool)
    (hb : Internal.IsBufferStateRead bs = rd) (ht : Internal.IsTextureStateRead ts = rd)
    (refs : List RGResourceRef) :
    ∀ self : RGPassBase,
      (∀ ref ∈ refs, ∃ i r, ref = some i ∧ g.resources[i]? = some r ∧
        (r.Type = RGResType.buffer ∨ r.Type = RGResType.texture)) →
      refs.Nodup →
      (∀ i, some i ∈ refs → self.transitionInfos.buffer.lookup i = none ∧
        self.transitionInfos.texture.lookup i = none ∧ i ∉ self.reads) →
      forEach (RGPassBase.compileCopyResource g bs ts) refs self =
        Outcome.ok
          { name := self.name, type := self.type
            reads := if rd then self.reads ++ refs.filterMap id else self.reads
            transitionInfos :=
              { buffer := self.transitionInfos.buffer ++ (g.buffersAmong refs).map fun b => (b, bs)
                texture :=
                  self.transitionInfos.texture ++ (g.texturesAmong refs).map fun t => (t, ts) } } := by
  induction refs with
  | nil =>
    intro self _ _ _
    simp [forEach, RGBuilder.buffersAmong, RGBuilder.texturesAmong]
  | cons ref rest ih =>
    intro self hres hnodup hfresh
    obtain ⟨i, r, rfl, hr, hty⟩ := hres ref (List.mem_cons_self _ _)
    obtain ⟨hni, hnd⟩ := List.nodup_cons.mp hnodup
    obtain ⟨fb, ft, frd⟩ := hfresh i (List.mem_cons_self _ _)
    have hne : ∀ j, some j ∈ rest → j ≠ i := by
      intro j hj hji
      exact hni (hji ▸ hj)
    have hres' := fun ref h => hres ref (List.mem_cons_of_mem _ h)
    rcases hty with hty | hty
    · have hBA : g.buffersAmong (some i :: rest) = i :: g.buffersAmong rest := by
        simp [RGBuilder.buffersAmong, RGBuilder.resource?, hr, hty]
      have hTA : g.texturesAmong (some i :: rest) = g.texturesAmong rest := by
        simp [RGBuilder.texturesAmong, RGBuilder.resource?, hr, hty]
      have hstep : RGPassBase.compileCopyResource g bs ts (some i) self =
          self.SaveBufferTransitionInfo (some i) bs := by
        simp [RGPassBase.compileCopyResource, RGBuilder.resource?, hr, hty]
      simp only [forEach, hstep, saveBuffer_fresh self i bs fb, Outcome.andThen, hb]
      rw [ih _ hres' hnd]
      · cases rd <;> simp [hBA, hTA, setEmplace_fresh _ i frd]
      · intro j hj
        obtain ⟨jb, jt, jr⟩ := hfresh j (List.mem_cons_of_mem _ hj)
        refine ⟨lookup_append_other _ j i bs jb (hne j hj), jt, ?_⟩
        cases rd
        · simpa using jr
        · simp only [if_true, setEmplace_fresh _ i frd]
          simp [jr, hne j hj]
    · have hty' : r.Type ≠ RGResType.buffer := by
        rw [hty]
        decide
      have hBA : g.buffersAmong (some i :: rest) = g.buffersAmong rest := by
        simp [RGBuilder.buffersAmong, RGBuilder.resource?, hr, hty]
      have hTA : g.texturesAmong (some i :: rest) = i :: g.texturesAmong rest := by
        simp [RGBuilder.texturesAmong, RGBuilder.resource?, hr, hty]
      have hstep : RGPassBase.compileCopyResource g bs ts (some i) self =
          self.SaveTextureTransitionInfo (some i) ts := by
        simp [RGPassBase.compileCopyResource, RGBuilder.resource?, hr, hty]
      simp only [forEach, hstep, saveTexture_fresh self i ts ft, Outcome.andThen, ht]
      rw [ih _ hres' hnd]
      · cases rd <;> simp [hBA, hTA, setEmplace_fresh _ i frd]
      · intro j hj
        obtain ⟨jb, jt, jr⟩ := hfresh j (List.mem_cons_of_mem _ hj)
        refine ⟨jb, lookup_append_other _ j i ts jt (hne j hj), ?_⟩
        cases rd
        · simpa using jr
        · simp only [if_true, setEmplace_fresh _ i frd]
          simp [jr, hne j hj]

end CopyPass

section CopyPassCompile

theorem mem_buffersAmong (g : RGBuilder) (refs : List RGResourceRef) (i : Nat)
    (h : i ∈ g.buffersAmong refs) : some i ∈ refs := by
  unfold RGBuilder.buffersAmong at h
  obtain ⟨ref, hm, he⟩ := List.mem_filterMap.mp h
  cases hr : g.resource? ref with
  | none => simp [hr] at he
  | some r =>
    simp only [hr] at he
    split_ifs at he
    exact he ▸ hm

theorem mem_texturesAmong (g : RGBuilder) (refs : List RGResourceRef) (i : Nat)
    (h : i ∈ g.texturesAmong refs) : some i ∈ refs := by
  unfold RGBuilder.texturesAmong at h
  obtain ⟨ref, hm, he⟩ := List.mem_filterMap.mp h
  cases hr : g.resource? ref with
  | none => simp [hr] at he
  | some r =>
    simp only [hr] at he
    split_ifs at he
    exact he ▸ hm

theorem lookup_map_fresh {β : Type} (l : List Nat) (v : β) (j : Nat) (h : j ∉ l) :
    (l.map fun b => (b, v)).lookup j = none := by
  rw [List.lookup_eq_none_iff]
  intro p hp
  obtain ⟨b, hb, rfl⟩ := List.mem_map.mp hp
  simp only [bne_iff_ne, ne_eq]
  rintro rfl
  exact h hb

theorem designates_buffer_or_texture (g : RGBuilder) (ref : RGResourceRef)
    (h : (g.resource? ref).map RGResource.Type = some RGResType.buffer ∨
      (g.resource? ref).map RGResource.Type = some RGResType.texture) :
    ∃ i r, ref = some i ∧ g.resources[i]? = some r ∧
      (r.Type = RGResType.buffer ∨ r.Type = RGResType.texture) := by
  cases ref with
  | none => simp [RGBuilder.resource?] at h
  | some i =>
    cases hr : g.resources[i]? with
    | none => simp [RGBuilder.resource?, hr] at h
    | some r =>
      refine ⟨i, r, rfl, hr, ?_⟩
      simpa [RGBuilder.resource?, hr] using h

end CopyPassCompile

/-- C15. For every copy pass constructed with copyDsts and copySrcs that point only to buffers
and textures of the graph, with no pointer repeated in or across the two lists, Compile succeeds;
the buffer map it leaves is exactly the destination buffers ↦ copyDst followed by the source
buffers ↦ copySrc, the texture map exactly the destination textures ↦ copyDst followed by the
source textures ↦ copySrc, the reads set is exactly the sources, and the asynchronous-copy flag
of the pass is or-ed into the graph's. -/
theorem copy_pass_compile (g : RGBuilder) (name : String) (desc : RGCopyPassDesc) (func : Nat)
    (asyncCopy : Bool) (info : RGAsyncInfo)
    (hres : ∀ ref ∈ desc.copyDsts ++ desc.copySrcs,
      (g.resource? ref).map RGResource.Type = some RGResType.buffer ∨
        (g.resource? ref).map RGResource.Type = some RGResType.texture)
    (hnodup : (desc.copyDsts ++ desc.copySrcs).Nodup) :
    ∃ p, (RGCopyPass.new name desc func asyncCopy).Compile g info =
        Outcome.ok (p, { info with hasAsyncCopy := info.hasAsyncCopy || asyncCopy }) ∧
      p.transitionInfos.buffer =
        ((g.buffersAmong desc.copyDsts).map fun b => (b, BufferState.copyDst)) ++
          ((g.buffersAmong desc.copySrcs).map fun b => (b, BufferState.copySrc)) ∧
      p.transitionInfos.texture =
        ((g.texturesAmong desc.copyDsts).map fun t => (t, TextureState.copyDst)) ++
          ((g.texturesAmong desc.copySrcs).map fun t => (t, TextureState.copySrc)) ∧
      p.reads = desc.copySrcs.filterMap id := by
  have hres' : ∀ ref ∈ desc.copyDsts ++ desc.copySrcs, ∃ i r, ref = some i ∧
      g.resources[i]? = some r ∧ (r.Type = RGResType.buffer ∨ r.Type = RGResType.texture) :=
    fun ref h => designates_buffer_or_texture g ref (hres ref h)
  obtain ⟨hd, hs, hdisj⟩ := List.nodup_append.mp hnodup
  have loop1 := copyLoop g BufferState.copyDst TextureState.copyDst false rfl rfl desc.copyDsts
    (RGPassBase.new name RGPassType.copy)
    (fun ref h => hres' ref (List.mem_append_left _ h)) hd
    (fun i _ => ⟨rfl, rfl, by simp [RGPassBase.new]⟩)
  have loop2 := copyLoop g BufferState.copySrc TextureState.copySrc true rfl rfl desc.copySrcs
    { name := name, type := RGPassType.copy, reads := []
      transitionInfos :=
        { buffer := (g.buffersAmong desc.copyDsts).map fun b => (b, BufferState.copyDst)
          texture := (g.texturesAmong desc.copyDsts).map fun t => (t, TextureState.copyDst) } }
    (fun ref h => hres' ref (List.mem_append_right _ h)) hs
    (fun i hi =>
      ⟨lookup_map_fresh _ _ i fun hm => hdisj (mem_buffersAmong g _ i hm) hi,
        lookup_map_fresh _ _ i fun hm => hdisj (mem_texturesAmong g _ i hm) hi, by simp⟩)
  simp only [RGPassBase.new, Bool.false_eq_true, if_false, List.nil_append] at loop1
  simp only [if_true, List.nil_append] at loop2
  refine ⟨{ name := name, type := RGPassType.copy, reads := desc.copySrcs.filterMap id
            transitionInfos :=
              { buffer :=
                  ((g.buffersAmong desc.copyDsts).map fun b => (b, BufferState.copyDst)) ++
                    ((g.buffersAmong desc.copySrcs).map fun b => (b, BufferState.copySrc))
                texture :=
                  ((g.texturesAmong desc.copyDsts).map fun t => (t, TextureState.copyDst)) ++
                    ((g.texturesAmong desc.copySrcs).map fun t => (t, TextureState.copySrc)) }
            passDesc := desc, func := func, asyncCopy := asyncCopy }, ?_, rfl, rfl, rfl⟩
  simp only [RGCopyPass.Compile, RGCopyPass.CompileForCopyPassDesc, RGCopyPass.new,
    RGPassBase.new, loop1, Outcome.andThen, loop2, Outcome.lift]

/-- C15, witness: on the sample builder, a copy pass from buffer 0 to texture 1. -/
theorem copy_pass_compile_witness :
    ∃ p, (RGCopyPass.new "upload" { copySrcs := [some 0], copyDsts := [some 1] } 7 false).Compile
        sampleBindings RGAsyncInfo.new =
        Outcome.ok (p, { hasAsyncCopy := false, hasAsyncCompute := false }) ∧
      p.transitionInfos.buffer = [(0, BufferState.copySrc)] ∧
      p.transitionInfos.texture = [(1, TextureState.copyDst)] ∧
      p.reads = [0] :=
  copy_pass_compile sampleBindings "upload" { copySrcs := [some 0], copyDsts := [some 1] } 7
    false RGAsyncInfo.new (by decide) (by decide)

/-! ## C16: compiling the attachments of a raster pass -/

section RasterPass

theorem attachmentTexture_some (g : RGBuilder) (ref : RGTextureViewRef) (t : Nat)
    (h : g.attachmentTexture? ref = some t) (state : TextureState) (self : RGPassBase) :
    (match g.textureView? ref with
      | none => Outcome.undefinedBehaviour
      | some view => self.SaveTextureTransitionInfo view.GetTexture state) =
      self.SaveTextureTransitionInfo (some t) state := by
  unfold RGBuilder.attachmentTexture? at h
  cases hv : g.textureView? ref with
  | none => simp [hv] at h
  | some view =>
    simp only [hv, Option.some_bind] at h
    simp only [h]

/-- The loop of `CompileForRasterPassDesc` over color attachments of distinct textures none of
which the pass has recorded. -/
theorem colorLoop (g : RGBuilder) (atts : List RGColorAttachment) :
    ∀ (colors : List Nat) (self : RGPassBase),
      atts.map (fun c => g.attachmentTexture? c.view) = colors.map some →
      colors.Nodup →
      (∀ t ∈ colors, self.transitionInfos.texture.lookup t = none) →
      forEach (RGPassBase.compileColorAttachment g) atts self =
        Outcome.ok
          { name := self.name, type := self.type, reads := self.reads
            transitionInfos :=
              { buffer := self.transitionInfos.buffer
                texture := self.transitionInfos.texture ++
                  colors.map fun t => (t, TextureState.renderTarget) } } := by
  induction atts with
  | nil =>
    intro colors self hmap _ _
    cases colors with
    | nil => simp [forEach]
    | cons t ts => simp at hmap
  | cons c rest ih =>
    intro colors self hmap hnodup hfresh
    cases colors with
    | nil => simp at hmap
    | cons t ts =>
      simp only [List.map_cons, List.cons.injEq] at hmap
      obtain ⟨hni, hnd⟩ := List.nodup_cons.mp hnodup
      have hstep : RGPassBase.compileColorAttachment g c self =
          self.SaveTextureTransitionInfo (some t) TextureState.renderTarget :=
        attachmentTexture_some g c.view t hmap.1 _ self
      simp only [forEach, hstep, saveTexture_fresh self t _ (hfresh t (List.mem_cons_self _ _)),
        Outcome.andThen]
      rw [ih ts _ hmap.2 hnd]
      · simp [Internal.IsTextureStateRead]
      · intro j hj
        refine lookup_append_other _ j t _ (hfresh j (List.mem_cons_of_mem _ hj)) ?_
        rintro rfl
        exact hni hj

end RasterPass

/-- C16. For every raster pass constructed with attachments whose views give pairwise distinct
textures: registering the attachments leaves a texture map that is exactly the color
attachments' textures ↦ renderTarget followed, if a depth-stencil attachment is present, by its
texture ↦ depthStencilWrite, with no buffer entry and nothing read; Compile with no bind groups
succeeds with exactly that; and with any bind groups Compile is the bind-group compilation
started on the pass data that already holds these entries. -/
theorem raster_pass_compile (g : RGBuilder) (name : String) (desc : RGRasterPassDesc)
    (func : Nat) (info : RGAsyncInfo) (colors : List Nat) (depth : Option Nat)
    (hcolors : desc.colorAttachments.map (fun c => g.attachmentTexture? c.view) =
      colors.map some)
    (hdepth : desc.depthStencilAttachment.map (fun d => g.attachmentTexture? d.view) =
      depth.map some)
    (hnodup : (colors ++ depth.toList).Nodup) :
    ∃ attached : RGPassBase,
      attached.transitionInfos.texture =
        (colors.map fun t => (t, TextureState.renderTarget)) ++
          depth.toList.map (fun t => (t, TextureState.depthStencilWrite)) ∧
      attached.transitionInfos.buffer = [] ∧ attached.reads = [] ∧
      (RGRasterPass.new name desc [] func).Compile g info =
        Outcome.ok
          ({ toRGPassBase := attached, passDesc := desc, bindGroups := [], func := func },
            info) ∧
      ∀ bindGroups : List RGBindGroupRef,
        (RGRasterPass.new name desc bindGroups func).CompileForRasterPassDesc g =
          Outcome.ok
            { toRGPassBase := attached, passDesc := desc, bindGroups := bindGroups,
              func := func } ∧
        (RGRasterPass.new name desc bindGroups func).Compile g info =
          (attached.CompileForBindGroups g bindGroups).lift fun base =>
            ({ toRGPassBase := base, passDesc := desc, bindGroups := bindGroups, func := func },
              info) := by
  obtain ⟨hc, hd, hdisj⟩ := List.nodup_append.mp hnodup
  have loop := colorLoop g desc.colorAttachments colors (RGPassBase.new name RGPassType.raster)
    hcolors hc (fun _ _ => rfl)
  simp only [RGPassBase.new, List.nil_append] at loop
  have hdesc : ∀ bindGroups : List RGBindGroupRef,
      (RGRasterPass.new name desc bindGroups func).CompileForRasterPassDesc g =
        Outcome.ok
          { name := name, type := RGPassType.raster, reads := []
            transitionInfos :=
              { buffer := []
                texture := (colors.map fun t => (t, TextureState.renderTarget)) ++
                  depth.toList.map (fun t => (t, TextureState.depthStencilWrite)) }
            passDesc := desc, bindGroups := bindGroups, func := func } := by
    intro bindGroups
    cases hdd : desc.depthStencilAttachment with
    | none =>
      cases depth with
      | some t => simp [hdd] at hdepth
      | none =>
        simp [RGRasterPass.CompileForRasterPassDesc, RGRasterPass.new, RGPassBase.new, loop,
          Outcome.andThen, Outcome.lift, hdd]
    | some d =>
      cases depth with
      | none => simp [hdd] at hdepth
      | some t =>
        simp only [hdd, Option.map_some', Option.some.injEq] at hdepth
        have hfresh : ((colors.map fun t => (t, TextureState.renderTarget)).lookup t) = none :=
          lookup_map_fresh _ _ t fun hm => hdisj hm (by simp)
        have hsave := saveTexture_fresh
          { name := name, type := RGPassType.raster, reads := []
            transitionInfos :=
              { buffer := []
                texture := colors.map fun t => (t, TextureState.renderTarget) } }
          t TextureState.depthStencilWrite hfresh
        simp only [RGRasterPass.CompileForRasterPassDesc, RGRasterPass.new, RGPassBase.new,
          loop, Outcome.andThen, hdd,
          attachmentTexture_some g d.view t hdepth TextureState.depthStencilWrite, hsave,
          Outcome.lift]
        simp [Internal.IsTextureStateRead]
  refine ⟨{ name := name, type := RGPassType.raster, reads := []
            transitionInfos :=
              { buffer := []
                texture := (colors.map fun t => (t, TextureState.renderTarget)) ++
                  depth.toList.map (fun t => (t, TextureState.depthStencilWrite)) } },
    rfl, rfl, rfl, ?_, ?_⟩
  · simp only [RGRasterPass.Compile, hdesc [], Outcome.andThen, RGPassBase.CompileForBindGroups,
      forEach, Outcome.lift]
  · intro bindGroups
    refine ⟨hdesc bindGroups, ?_⟩
    simp only [RGRasterPass.Compile, hdesc bindGroups, Outcome.andThen]
    cases RGPassBase.CompileForBindGroups _ g bindGroups <;> rfl

/-- C16, witness: on the sample builder, a raster pass with the view of texture 1 as its only
color attachment and no depth-stencil attachment. -/
theorem raster_pass_compile_witness :
    ∃ attached : RGPassBase,
      attached.transitionInfos.texture = [(1, TextureState.renderTarget)] ∧
      attached.transitionInfos.buffer = [] ∧ attached.reads = [] ∧
      (RGRasterPass.new "draw"
        { colorAttachments := [{ view := some 1 }], depthStencilAttachment := none } []
        7).Compile sampleBindings RGAsyncInfo.new =
        Outcome.ok
          ({ toRGPassBase := attached
             passDesc :=
               { colorAttachments := [{ view := some 1 }], depthStencilAttachment := none }
             bindGroups := [], func := 7 }, RGAsyncInfo.new) := by
  obtain ⟨attached, h1, h2, h3, h4, _⟩ := raster_pass_compile sampleBindings "draw"
    { colorAttachments := [{ view := some 1 }], depthStencilAttachment := none } 7
    RGAsyncInfo.new [1] none (by rfl) (by rfl) (by decide)
  exact ⟨attached, h1, h2, h3, h4⟩

/-! ## The timeline and the command buffer of one pass -/

section Timeline

theorem does_refl (cb : Nat) (w : RGBuilder) : Does cb w w [] [] :=
  ⟨by simp, rfl, fun old h => by simpa using h⟩

theorem does_trans {cb : Nat} {w w1 w2 : RGBuilder} {s1 s2 : List Step} {c1 c2 : List Command}
    (h1 : Does cb w w1 s1 c1) (h2 : Does cb w1 w2 s2 c2) :
    Does cb w w2 (s1 ++ s2) (c1 ++ c2) := by
  obtain ⟨t1, p1, r1⟩ := h1
  obtain ⟨t2, p2, r2⟩ := h2
  refine ⟨by rw [t2, t1, List.append_assoc], p2.trans p1, fun old h => ?_⟩
  rw [r2 _ (r1 old h), List.append_assoc]

theorem record_does (cb : Nat) (c : Command) (w w' : RGBuilder)
    (h : RGBuilder.record cb c w = Outcome.ok w') :
    Does cb w w' [Step.command cb c] [c] ∧ ∃ old, w.device.commandBuffers[cb]? = some old := by
  unfold RGBuilder.record at h
  split at h
  · simp at h
  · rename_i commands hcb
    simp only [Outcome.ok.injEq] at h
    subst h
    refine ⟨⟨rfl, rfl, ?_⟩, commands, hcb⟩
    intro old hold
    rw [hcb] at hold
    simp only [Option.some.injEq] at hold
    subst hold
    obtain ⟨hlt, _⟩ := List.getElem?_eq_some_iff.mp hcb
    simp [RGBuilder.setCommands, List.getElem?_set_self hlt]

theorem transitionBufferAt_does (cb : Nat) (t : Nat × BufferState) (w w' : RGBuilder)
    (h : RGBuilder.transitionBufferAt cb t w = Outcome.ok w') :
    ∃ c, Does cb w w' [Step.barrier cb t.1] [c] ∧ c.isBufferBarrierTo t.2 = true := by
  unfold RGBuilder.transitionBufferAt at h
  split at h
  · rename_i b commandEncoder hx hcb
    cases hdv : b.devirtualized
    · simp [RGBuffer.Transition, RGBuffer.GetRHI, Assert, hdv] at h
    · simp only [RGBuffer.Transition, RGBuffer.GetRHI, Assert, hdv, if_true, Outcome.ok.injEq] at h
      subst h
      refine ⟨Command.bufferBarrier b.rhiHandle b.currentState t.2, ⟨rfl, rfl, ?_⟩,
        by simp [Command.isBufferBarrierTo]⟩
      intro old hold
      rw [hcb] at hold
      simp only [Option.some.injEq] at hold
      subst hold
      obtain ⟨hlt, _⟩ := List.getElem?_eq_some_iff.mp hcb
      simp [RGBuilder.setCommands, List.getElem?_set_self hlt]
  · simp at h

theorem transitionTextureAt_does (cb : Nat) (t : Nat × TextureState) (w w' : RGBuilder)
    (h : RGBuilder.transitionTextureAt cb t w = Outcome.ok w') :
    ∃ c, Does cb w w' [Step.barrier cb t.1] [c] ∧ c.isTextureBarrierTo t.2 = true := by
  unfold RGBuilder.transitionTextureAt at h
  split at h
  · rename_i b commandEncoder hx hcb
    cases hdv : b.devirtualized
    · simp [RGTexture.Transition, RGTexture.GetRHI, Assert, hdv] at h
    · simp only [RGTexture.Transition, RGTexture.GetRHI, Assert, hdv, if_true,
        Outcome.ok.injEq] at h
      subst h
      refine ⟨Command.textureBarrier b.rhiHandle b.currentState t.2, ⟨rfl, rfl, ?_⟩,
        by simp [Command.isTextureBarrierTo]⟩
      intro old hold
      rw [hcb] at hold
      simp only [Option.some.injEq] at hold
      subst hold
      obtain ⟨hlt, _⟩ := List.getElem?_eq_some_iff.mp hcb
      simp [RGBuilder.setCommands, List.getElem?_set_self hlt]
  · simp at h

/-- A completed loop of transitions records one barrier per entry, in the order of the
entries. -/
theorem transitions_does {α : Type} (cb : Nat) (f : α → RGBuilder → Outcome RGBuilder)
    (key : α → Nat) (R : α → Command → Prop) (entries : List α)
    (hstep : ∀ e ∈ entries, ∀ w w', f e w = Outcome.ok w' →
      ∃ c, Does cb w w' [Step.barrier cb (key e)] [c] ∧ R e c) :
    ∀ w w', forEach f entries w = Outcome.ok w' →
      ∃ cmds, Does cb w w' (entries.map fun e => Step.barrier cb (key e)) cmds ∧
        List.Forall₂ R entries cmds := by
  induction entries with
  | nil =>
    intro w w' h
    simp only [forEach, Outcome.ok.injEq] at h
    subst h
    exact ⟨[], does_refl cb w, List.Forall₂.nil⟩
  | cons e rest ih =>
    intro w w' h
    simp only [forEach] at h
    obtain ⟨w1, h1, h2⟩ := (andThen_eq_ok _ _ _).mp h
    obtain ⟨c, d1, hc⟩ := hstep e (List.mem_cons_self _ _) w w1 h1
    obtain ⟨cmds, d2, hcs⟩ := ih (fun y hy => hstep y (List.mem_cons_of_mem _ hy)) w1 w' h2
    exact ⟨c :: cmds, does_trans d1 d2, List.Forall₂.cons hc hcs⟩

/-- The scope of a completed `Execute`: what it adds to the timeline and to its command
buffer. -/
theorem executeScope_does (p : RGPassBase) (cb : Nat) (beginPass : Command) (func : Nat)
    (w w' : RGBuilder) (h : p.executeScope cb beginPass func w = Outcome.ok w') :
    ∃ old bufferBarriers textureBarriers,
      w.device.commandBuffers[cb]? = some old ∧
      Does cb w w'
        ([Step.command cb Command.begin, Step.command cb beginPass] ++
          (p.transitionInfos.buffer.map fun e => Step.barrier cb e.1) ++
          (p.transitionInfos.texture.map fun e => Step.barrier cb e.1) ++
          [Step.command cb (Command.callback func), Step.command cb Command.endPass,
            Step.command cb Command.endEncoding])
        ([Command.begin, beginPass] ++ bufferBarriers ++ textureBarriers ++
          [Command.callback func, Command.endPass, Command.endEncoding]) ∧
      List.Forall₂ (fun e c => c.isBufferBarrierTo e.2 = true) p.transitionInfos.buffer
        bufferBarriers ∧
      List.Forall₂ (fun e c => c.isTextureBarrierTo e.2 = true) p.transitionInfos.texture
        textureBarriers := by
  unfold RGPassBase.executeScope at h
  obtain ⟨w1, h1, h⟩ := (andThen_eq_ok _ _ _).mp h
  obtain ⟨w2, h2, h⟩ := (andThen_eq_ok _ _ _).mp h
  obtain ⟨w3, h3, h⟩ := (andThen_eq_ok _ _ _).mp h
  obtain ⟨w4, h4, h⟩ := (andThen_eq_ok _ _ _).mp h
  obtain ⟨w5, h5, h6⟩ := (andThen_eq_ok _ _ _).mp h
  unfold RGPassBase.TransitionResources at h3
  obtain ⟨w2', h3a, h3b⟩ := (andThen_eq_ok _ _ _).mp h3
  obtain ⟨d1, old, hold⟩ := record_does _ _ _ _ h1
  obtain ⟨d2, _⟩ := record_does _ _ _ _ h2
  obtain ⟨bs, d3, hbs⟩ := transitions_does cb (RGBuilder.transitionBufferAt cb) (fun e => e.1)
    (fun e c => c.isBufferBarrierTo e.2 = true) _
    (fun e _ w w' he => transitionBufferAt_does cb e w w' he) w2 w2' h3a
  obtain ⟨ts, d4, hts⟩ := transitions_does cb (RGBuilder.transitionTextureAt cb) (fun e => e.1)
    (fun e c => c.isTextureBarrierTo e.2 = true) _
    (fun e _ w w' he => transitionTextureAt_does cb e w w' he) w2' w3 h3b
  obtain ⟨d5, _⟩ := record_does _ _ _ _ h4
  obtain ⟨d6, _⟩ := record_does _ _ _ _ h5
  obtain ⟨d7, _⟩ := record_does _ _ _ _ h6
  refine ⟨old, bs, ts, hold, ?_, hbs, hts⟩
  have d := does_trans (does_trans (does_trans (does_trans (does_trans (does_trans d1 d2) d3) d4)
    d5) d6) d7
  simpa [List.append_assoc] using d

/-- A completed `Execute` of a pass: what it adds to the timeline and to its command buffer. -/
theorem pass_execute_does (pass : RGPass) (context : Internal.Context) (w w' : RGBuilder)
    (h : pass.Execute context w = Outcome.ok w') :
    ∃ old bufferBarriers textureBarriers,
      w.device.commandBuffers[pass.cmdBuffer context]? = some old ∧
      Does (pass.cmdBuffer context) w w' (pass.executeSteps context)
        ([Command.begin, pass.beginPass] ++ bufferBarriers ++ textureBarriers ++
          [Command.callback pass.func, Command.endPass, Command.endEncoding]) ∧
      List.Forall₂ (fun e c => c.isBufferBarrierTo e.2 = true) pass.base.transitionInfos.buffer
        bufferBarriers ∧
      List.Forall₂ (fun e c => c.isTextureBarrierTo e.2 = true)
        pass.base.transitionInfos.texture textureBarriers := by
  cases pass with
  | copy p => exact executeScope_does _ _ _ _ _ _ h
  | compute p => exact executeScope_does _ _ _ _ _ _ h
  | raster p =>
    simp only [RGPass.Execute, RGRasterPass.Execute] at h
    split at h
    · exact executeScope_does _ _ _ _ _ _ h
    · simp at h

end Timeline

/-! ## C17: the order in which `Execute` runs the passes -/

section InsertionOrder

theorem incRefAt_steps (i : Nat) (w w' : RGBuilder)
    (h : RGBuilder.incRefAt i w = Outcome.ok w') :
    w'.timeline = w.timeline ++ [Step.incRef i] ∧ w'.passes = w.passes := by
  unfold RGBuilder.incRefAt at h
  split at h
  · simp at h
  · split at h
    · simp only [Outcome.ok.injEq] at h
      subst h
      exact ⟨rfl, rfl⟩
    · simp at h
    · simp at h

theorem decRefAt_steps (i : Nat) (w w' : RGBuilder)
    (h : RGBuilder.decRefAt i w = Outcome.ok w') :
    w'.timeline = w.timeline ++ [Step.decRef i] ∧ w'.passes = w.passes := by
  unfold RGBuilder.decRefAt at h
  split at h
  · simp at h
  · split at h
    · simp only [Outcome.ok.injEq] at h
      subst h
      exact ⟨rfl, rfl⟩
    · simp at h
    · simp at h

/-- The timeline of a completed loop is the timelines of its iterations, in order. -/
theorem forEach_steps {α : Type} (f : α → RGBuilder → Outcome RGBuilder) (K : α → List Step)
    (xs : List α)
    (hstep : ∀ x ∈ xs, ∀ w w', f x w = Outcome.ok w' →
      w'.timeline = w.timeline ++ K x ∧ w'.passes = w.passes) :
    ∀ w w', forEach f xs w = Outcome.ok w' →
      w'.timeline = w.timeline ++ xs.flatMap K ∧ w'.passes = w.passes := by
  induction xs with
  | nil =>
    intro w w' h
    simp only [forEach, Outcome.ok.injEq] at h
    subst h
    simp
  | cons x xs ih =>
    intro w w' h
    simp only [forEach] at h
    obtain ⟨w1, h1, h2⟩ := (andThen_eq_ok _ _ _).mp h
    obtain ⟨t1, p1⟩ := hstep x (List.mem_cons_self _ _) w w1 h1
    obtain ⟨t2, p2⟩ := ih (fun y hy => hstep y (List.mem_cons_of_mem _ hy)) w1 w' h2
    refine ⟨?_, p2.trans p1⟩
    rw [t2, t1, List.flatMap_cons, List.append_assoc]

theorem devirtualizeResources_steps (p : RGPassBase) (w w' : RGBuilder)
    (h : p.DevirtualizeResources w = Outcome.ok w') :
    w'.timeline = w.timeline ++ p.reads.map Step.incRef ∧ w'.passes = w.passes := by
  have := forEach_steps RGBuilder.incRefAt (fun r => [Step.incRef r]) p.reads
    (fun x _ w w' hx => incRefAt_steps x w w' hx) w w' h
  rwa [flatMap_single] at this

theorem finalizeResources_steps (p : RGPassBase) (w w' : RGBuilder)
    (h : p.FinalizeResources w = Outcome.ok w') :
    w'.timeline = w.timeline ++ p.finalizeSteps ∧ w'.passes = w.passes := by
  have := forEach_steps RGBuilder.decRefAt (fun r => [Step.decRef r]) p.reads
    (fun x _ w w' hx => decRefAt_steps x w w' hx) w w' h
  rwa [flatMap_single] at this

theorem executePass_steps (context : Internal.Context) (pass : RGPass) (w w' : RGBuilder)
    (h : RGBuilder.executePass context pass w = Outcome.ok w') :
    w'.timeline = w.timeline ++ (pass.executeSteps context ++ pass.base.finalizeSteps) ∧
      w'.passes = w.passes := by
  unfold RGBuilder.executePass at h
  obtain ⟨w1, h1, h2⟩ := (andThen_eq_ok _ _ _).mp h
  obtain ⟨_, _, _, _, ⟨t1, p1, _⟩, _, _⟩ := pass_execute_does pass context w w1 h1
  obtain ⟨t2, p2⟩ := finalizeResources_steps _ w1 w' h2
  refine ⟨?_, p2.trans p1⟩
  rw [t2, t1, List.append_assoc]

/-- The timeline of a completed `ExecuteInternal`: pass by pass, in the order of `passes`, the
steps of the pass's `Execute`, then the decrements of its `FinalizeResources`. -/
theorem executeInternal_steps (g g' : RGBuilder) (fencePack : RGFencePack)
    (h : g.ExecuteInternal fencePack = Outcome.ok g') :
    g'.timeline = g.timeline ++
        g.passes.flatMap (fun pass =>
          pass.executeSteps (g.context fencePack) ++ pass.base.finalizeSteps) ∧
      g'.passes = g.passes := by
  unfold RGBuilder.ExecuteInternal at h
  simp only at h
  obtain ⟨w1, h1, h2⟩ := (andThen_eq_ok _ _ _).mp h
  simp only [Outcome.ok.injEq] at h2
  subst h2
  exact forEach_steps _
    (fun pass => pass.executeSteps (g.context fencePack) ++ pass.base.finalizeSteps) _
    (fun x _ w w' hx => executePass_steps _ x w w' hx) _ w1 h1

theorem pass_compile_func (g : RGBuilder) (pass pass' : RGPass) (a a' : RGAsyncInfo)
    (h : pass.Compile g a = Outcome.ok (pass', a')) : pass'.func = pass.func := by
  cases pass with
  | copy p =>
    simp only [RGPass.Compile, RGCopyPass.Compile, RGCopyPass.CompileForCopyPassDesc] at h
    obtain ⟨⟨q, b⟩, h, hq⟩ := (lift_eq_ok _ _ _).mp h
    obtain ⟨⟨q1, b1⟩, h, hq1⟩ := (andThen_eq_ok _ _ _).mp h
    obtain ⟨q2, h, hq2⟩ := (lift_eq_ok _ _ _).mp h
    obtain ⟨base, h, hbase⟩ := (lift_eq_ok _ _ _).mp h
    simp only [Outcome.ok.injEq, Prod.mk.injEq] at hq1
    simp only [Prod.mk.injEq] at hq hq2
    obtain ⟨hq, _⟩ := hq
    obtain ⟨hq2, _⟩ := hq2
    obtain ⟨hq1, _⟩ := hq1
    subst hq hq1 hq2 hbase
    rfl
  | compute p =>
    simp only [RGPass.Compile, RGComputePass.Compile] at h
    obtain ⟨⟨q, b⟩, h, hq⟩ := (lift_eq_ok _ _ _).mp h
    obtain ⟨⟨q1, b1⟩, h, hq1⟩ := (andThen_eq_ok _ _ _).mp h
    obtain ⟨base, h, hbase⟩ := (lift_eq_ok _ _ _).mp h
    simp only [Outcome.ok.injEq, Prod.mk.injEq] at hq1
    simp only [Prod.mk.injEq] at hq hbase
    obtain ⟨hq, _⟩ := hq
    obtain ⟨hq1, _⟩ := hq1
    obtain ⟨hbase, _⟩ := hbase
    subst hq hq1 hbase
    rfl
  | raster p =>
    simp only [RGPass.Compile, RGRasterPass.Compile, RGRasterPass.CompileForRasterPassDesc] at h
    obtain ⟨⟨q, b⟩, h, hq⟩ := (lift_eq_ok _ _ _).mp h
    obtain ⟨q1, h, hq1⟩ := (lift_eq_ok _ _ _).mp h
    obtain ⟨q2, h, h'⟩ := (andThen_eq_ok _ _ _).mp h
    obtain ⟨base, h, hbase⟩ := (lift_eq_ok _ _ _).mp h
    obtain ⟨base3, h3, hbase3⟩ := (lift_eq_ok _ _ _).mp h'
    subst hbase
    simp only [Prod.mk.injEq] at hq hq1
    obtain ⟨hq, _⟩ := hq
    obtain ⟨hq1, _⟩ := hq1
    subst hq hq1 hbase3
    rfl

/-- The timeline of a completed `Compile` grows by increments only, and the passes keep their
callbacks, position by position. -/
theorem compile_steps (g g1 : RGBuilder) (h : g.Compile = Outcome.ok g1) :
    ∃ incs, g1.timeline = g.timeline ++ incs ∧ incs.all Step.isIncRef = true ∧
      g1.passes.map RGPass.func = g.passes.map RGPass.func := by
  unfold RGBuilder.Compile at h
  obtain ⟨w1, h1, h⟩ := (andThen_eq_ok _ _ _).mp h
  obtain ⟨w2, h2, h3⟩ := (andThen_eq_ok _ _ _).mp h
  have f1 : w1.timeline = g.timeline ∧ w1.passes.map RGPass.func = g.passes.map RGPass.func := by
    refine forEach_ok_induct
      (fun s => s.timeline = g.timeline ∧ s.passes.map RGPass.func = g.passes.map RGPass.func)
      _ _ ?_ g w1 ⟨rfl, rfl⟩ h1
    intro i _ s s' ⟨ht, hp⟩ hi
    unfold RGBuilder.compilePassAt at hi
    split at hi
    · simp at hi
    · rename_i pass hpass
      obtain ⟨⟨pass', a'⟩, hc, hput⟩ := (lift_eq_ok _ _ _).mp hi
      subst hput
      refine ⟨ht, ?_⟩
      show (s.passes.set i pass').map RGPass.func = _
      rw [map_set_same RGPass.func s.passes i pass pass' hpass
        (pass_compile_func s pass pass' _ _ hc)]
      exact hp
  obtain ⟨t2, p2⟩ := forEach_steps (fun (pass : RGPass) w => pass.base.DevirtualizeResources w)
    (fun pass => pass.base.reads.map Step.incRef) w1.passes
    (fun x _ w w' hx => devirtualizeResources_steps _ w w' hx) w1 w2 h2
  have f3 : ∃ incs, g1.timeline = w2.timeline ++ incs ∧ incs.all Step.isIncRef = true ∧
      g1.passes = w2.passes := by
    refine forEach_ok_induct
      (fun s => ∃ incs, s.timeline = w2.timeline ++ incs ∧ incs.all Step.isIncRef = true ∧
        s.passes = w2.passes)
      _ _ ?_ w2 g1 ⟨[], by simp, rfl, rfl⟩ h3
    intro i _ s s' ⟨incs, ht, hall, hp⟩ hi
    unfold RGBuilder.devirtualizeIfForceUsed at hi
    split at hi
    · simp at hi
    · split at hi
      · obtain ⟨t, p⟩ := incRefAt_steps i s s' hi
        refine ⟨incs ++ [Step.incRef i], ?_, ?_, p.trans hp⟩
        · rw [t, ht, List.append_assoc]
        · simp [List.all_append, hall, Step.isIncRef]
      · simp only [Outcome.ok.injEq] at hi
        subst hi
        exact ⟨incs, ht, hall, hp⟩
  obtain ⟨incs3, t3, hall3, p3⟩ := f3
  refine ⟨w1.passes.flatMap (fun pass => pass.base.reads.map Step.incRef) ++ incs3, ?_, ?_, ?_⟩
  · rw [t3, t2, f1.1, List.append_assoc]
  · simp only [List.all_append, hall3, Bool.and_true]
    simp [List.all_eq_true, List.mem_flatMap, Step.isIncRef]
  · rw [p3, p2, f1.2]

theorem callbacks_of_pass (pass : RGPass) (context : Internal.Context) :
    (pass.executeSteps context ++ pass.base.finalizeSteps).filterMap Step.callback? =
      [pass.func] := by
  have hb : Step.callback? (Step.command (pass.cmdBuffer context) pass.beginPass) = none := by
    cases pass <;> rfl
  have hm : ∀ {β : Type} (l : List (Nat × β)),
      (l.map fun e => Step.barrier (pass.cmdBuffer context) e.1).filterMap Step.callback? =
        [] := by
    intro β l
    induction l with
    | nil => rfl
    | cons e l ih => simp [Step.callback?]
  have hd : (pass.base.reads.map Step.decRef).filterMap Step.callback? = [] := by
    induction pass.base.reads with
    | nil => rfl
    | cons e l ih => simp [Step.callback?]
  have e1 : Step.callback? (Step.command (pass.cmdBuffer context) Command.begin) = none := rfl
  have e2 : Step.callback? (Step.command (pass.cmdBuffer context) (Command.callback pass.func)) =
      some pass.func := rfl
  have e3 : Step.callback? (Step.command (pass.cmdBuffer context) Command.endPass) = none := rfl
  have e4 : Step.callback? (Step.command (pass.cmdBuffer context) Command.endEncoding) = none :=
    rfl
  simp only [RGPass.executeSteps, RGPassBase.finalizeSteps, List.filterMap_append, hm, hd,
    List.filterMap_cons, hb, List.filterMap_nil, e1, e2, e3, e4, List.append_nil,
    List.nil_append]

theorem callbacks_of_passes (passes : List RGPass) (context : Internal.Context) :
    (passes.flatMap fun pass =>
      pass.executeSteps context ++ pass.base.finalizeSteps).filterMap Step.callback? =
      passes.map RGPass.func := by
  induction passes with
  | nil => rfl
  | cons p ps ih =>
    rw [List.flatMap_cons, List.filterMap_append, ih, callbacks_of_pass]
    rfl

theorem callbacks_of_increments (incs : List Step) (h : incs.all Step.isIncRef = true) :
    incs.filterMap Step.callback? = [] := by
  induction incs with
  | nil => rfl
  | cons s rest ih =>
    simp only [List.all_cons, Bool.and_eq_true] at h
    cases s <;> simp_all [Step.isIncRef, Step.callback?]

end InsertionOrder

/-- C17. Pass execution order is insertion order. Each of AddCopyPass, AddComputePass and
AddRasterPass appends the new pass at the end of `passes`; and for every builder, a successful
Execute first compiles (which adds only increments to the timeline and keeps every pass's
callback in place) and then, pass by pass in the order of `passes`, runs the pass's Execute
steps (Begin, begin of the native pass, barriers, the callback once, EndPass, End) followed by
the decrements of its FinalizeResources, before the next pass's steps. The callbacks invoked are
therefore exactly those of the passes, once each, in the order the passes were added. -/
theorem execute_runs_passes_in_insertion_order (g g2 : RGBuilder) (fencePack : RGFencePack)
    (h : g.Execute fencePack = Outcome.ok g2) :
    (∃ g1 increments, g.Compile = Outcome.ok g1 ∧ increments.all Step.isIncRef = true ∧
      g1.passes.map RGPass.func = g.passes.map RGPass.func ∧
      g2.timeline = g.timeline ++ increments ++
        g1.passes.flatMap (fun pass =>
          pass.executeSteps (g1.context fencePack) ++ pass.base.finalizeSteps)) ∧
    g2.timeline.filterMap Step.callback? =
      g.timeline.filterMap Step.callback? ++ g.passes.map RGPass.func ∧
    (∀ name desc func asyncCopy, (g.AddCopyPass name desc func asyncCopy).passes =
      g.passes ++ [RGPass.copy (RGCopyPass.new name desc func asyncCopy)]) ∧
    (∀ name bindGroups func asyncCompute,
      (g.AddComputePass name bindGroups func asyncCompute).passes =
        g.passes ++ [RGPass.compute (RGComputePass.new name bindGroups func asyncCompute)]) ∧
    (∀ name desc bindGroups func, (g.AddRasterPass name desc bindGroups func).passes =
      g.passes ++ [RGPass.raster (RGRasterPass.new name desc bindGroups func)]) := by
  unfold RGBuilder.Execute at h
  obtain ⟨g0, h0, hrest⟩ := (andThen_eq_ok _ _ _).mp h
  have hg0 : g0 = g := by
    unfold Assert at h0
    split at h0
    · simp only [Outcome.ok.injEq] at h0
      exact h0.symm
    · simp at h0
  rw [hg0] at hrest
  obtain ⟨g1, hc, hrest1⟩ := (andThen_eq_ok _ _ _).mp hrest
  obtain ⟨g3, he, hlast⟩ := (andThen_eq_ok _ _ _).mp hrest1
  simp only [Outcome.ok.injEq] at hlast
  subst hlast
  obtain ⟨incs, t1, hall, hf⟩ := compile_steps g g1 hc
  obtain ⟨t2, _⟩ := executeInternal_steps g1 g3 fencePack he
  have ht : g3.timeline = g.timeline ++ incs ++
      g1.passes.flatMap (fun pass =>
        pass.executeSteps (g1.context fencePack) ++ pass.base.finalizeSteps) := by
    rw [t2, t1]
  refine ⟨⟨g1, incs, hc, hall, hf, ht⟩, ?_, fun _ _ _ _ => rfl, fun _ _ _ _ => rfl,
    fun _ _ _ _ => rfl⟩
  show g3.timeline.filterMap Step.callback? = _
  rw [ht, List.filterMap_append, List.filterMap_append, callbacks_of_increments incs hall,
    callbacks_of_passes, List.append_nil, hf]

/-- C17, witness: the sample graph, whose passes were added with callbacks 1 and 2 in that
order; its Execute succeeds and invokes callback 1, then callback 2, with the decrement of the
first pass's read between the first pass's End and the second pass's Begin. -/
theorem execute_runs_passes_in_insertion_order_witness :
    sampleGraph.Execute noFences =
      Outcome.ok ((sampleGraph.Execute noFences).stateD sampleGraph) ∧
    sampleGraph.passes.map RGPass.func = [1, 2] ∧
    ((sampleGraph.Execute noFences).stateD sampleGraph).timeline.filterMap Step.callback? =
      [] ++ [1, 2] ∧
    ((sampleGraph.Execute noFences).stateD sampleGraph).timeline =
      [Step.incRef 0, Step.incRef 0, Step.incRef 1,
        Step.command 0 Command.begin, Step.command 0 Command.beginComputePass,
        Step.barrier 0 1, Step.barrier 0 0, Step.command 0 (Command.callback 1),
        Step.command 0 Command.endPass, Step.command 0 Command.endEncoding, Step.decRef 0,
        Step.command 0 Command.begin, Step.command 0 Command.beginComputePass,
        Step.barrier 0 0, Step.command 0 (Command.callback 2),
        Step.command 0 Command.endPass, Step.command 0 Command.endEncoding, Step.decRef 0] :=
  ⟨by rfl, by rfl,
    (execute_runs_passes_in_insertion_order sampleGraph
      ((sampleGraph.Execute noFences).stateD sampleGraph) noFences (by rfl)).2.1,
    by rfl⟩

/-! ## C21: destruction of the command-buffer guard -/

section GuardDestruction

theorem resetFence_events (device : Device) (fence : Option Nat) :
    device.resetFence fence =
      { device with
        queueEvents := device.queueEvents ++ [fence].reduceOption.map QueueEvent.fenceReset } := by
  cases fence <;> simp [Device.resetFence, List.reduceOption]

/-- What the destructor of a guard adds to the device's queue events. -/
theorem destroy_events (guard : Internal.CommandBuffersGuard) (device : Device) :
    guard.destroy device =
      { device with
        queueEvents := device.queueEvents ++ guard.fencePack.resetEvents ++ guard.submitEvents } := by
  cases h1 : guard.fencePack.mainFence <;> cases h2 : guard.fencePack.asyncCopyFence <;>
    cases h3 : guard.fencePack.asyncComputeFence <;> cases h4 : guard.useAsyncCopy <;>
    cases h5 : guard.useAsyncCompute <;>
    simp [Internal.CommandBuffersGuard.destroy, Device.resetFence, Device.submit,
      RGFencePack.resetEvents, Internal.CommandBuffersGuard.submitEvents, List.reduceOption,
      h1, h2, h3, h4, h5]

end GuardDestruction

/-- C21. On destruction of the command-buffer guard, for every guard as its constructor leaves it
and every state of the device: the destructor appends to the device's queue events, in this
order, one reset per non-null fence of the fence pack (main, async copy, async compute), then the
submission of the main command buffer to graphics queue 0 with the main fence, then the
submission of the async-copy command buffer the guard created to transfer queue 1 with the
async-copy fence iff useAsyncCopy, then the submission of the async-compute command buffer the
guard created to compute queue 1 with the async-compute fence iff useAsyncCompute, and changes
nothing else; so every reset precedes every submission and the submissions are as many as the
command buffers the guard created. -/
theorem guard_destruction (created : Device) (asyncInfo : RGAsyncInfo) (fencePack : RGFencePack)
    (device : Device) :
    (Internal.CommandBuffersGuard.new created asyncInfo fencePack).1.destroy device =
      { device with
        queueEvents := device.queueEvents ++ fencePack.resetEvents ++
          ([QueueEvent.submit QueueType.graphics 0 created.commandBuffers.length
              fencePack.mainFence] ++
            (if (Internal.CommandBuffersGuard.new created asyncInfo fencePack).1.useAsyncCopy
             then [QueueEvent.submit QueueType.transfer 1 (created.commandBuffers.length + 1)
               fencePack.asyncCopyFence]
             else []) ++
            (if (Internal.CommandBuffersGuard.new created asyncInfo fencePack).1.useAsyncCompute
             then [QueueEvent.submit QueueType.compute 1
               (Internal.CommandBuffersGuard.new created asyncInfo
                 fencePack).2.1.asyncComputeCmdBuffer fencePack.asyncComputeFence]
             else [])) } ∧
    (fencePack.resetEvents.all fun e => !e.isSubmit) = true ∧
    (∀ fence, fencePack.resetEvents.count (QueueEvent.fenceReset fence) =
      [fencePack.mainFence, fencePack.asyncCopyFence, fencePack.asyncComputeFence].count
        (some fence)) ∧
    ((Internal.CommandBuffersGuard.new created asyncInfo fencePack).1.submitEvents.all
      QueueEvent.isSubmit) = true ∧
    (Internal.CommandBuffersGuard.new created asyncInfo fencePack).1.submitEvents.length +
        created.commandBuffers.length =
      (Internal.CommandBuffersGuard.new created asyncInfo
        fencePack).2.2.commandBuffers.length := by
  refine ⟨?_, ?_, ?_, ?_, ?_⟩
  · rw [destroy_events]
    cases h1 : asyncInfo.hasAsyncCopy <;> cases h2 : asyncInfo.hasAsyncCompute <;>
      by_cases h3 : 1 < created.GetQueueNum QueueType.transfer <;>
      by_cases h4 : 1 < created.GetQueueNum QueueType.compute <;>
      simp [Internal.CommandBuffersGuard.new, Internal.CommandBuffersGuard.submitEvents,
        Device.CreateCommandBuffer, h1, h2, h3, h4]
  · cases h1 : fencePack.mainFence <;> cases h2 : fencePack.asyncCopyFence <;>
      cases h3 : fencePack.asyncComputeFence <;>
      simp [RGFencePack.resetEvents, List.reduceOption, QueueEvent.isSubmit, h1, h2, h3]
  · intro fence
    cases h1 : fencePack.mainFence <;> cases h2 : fencePack.asyncCopyFence <;>
      cases h3 : fencePack.asyncComputeFence <;>
      simp [RGFencePack.resetEvents, List.reduceOption, List.count_cons, h1, h2, h3]
  · cases h1 : asyncInfo.hasAsyncCopy <;> cases h2 : asyncInfo.hasAsyncCompute <;>
      by_cases h3 : 1 < created.GetQueueNum QueueType.transfer <;>
      by_cases h4 : 1 < created.GetQueueNum QueueType.compute <;>
      simp [Internal.CommandBuffersGuard.new, Internal.CommandBuffersGuard.submitEvents,
        Device.CreateCommandBuffer, QueueEvent.isSubmit, h1, h2, h3, h4]
  · cases h1 : asyncInfo.hasAsyncCopy <;> cases h2 : asyncInfo.hasAsyncCompute <;>
      by_cases h3 : 1 < created.GetQueueNum QueueType.transfer <;>
      by_cases h4 : 1 < created.GetQueueNum QueueType.compute <;>
      simp [Internal.CommandBuffersGuard.new, Internal.CommandBuffersGuard.submitEvents,
        Device.CreateCommandBuffer, h1, h2, h3, h4] <;> omega

/-! ## C29: binding names of a bind group descriptor -/

/-- C29. Binding names are unique within a bind group descriptor: for every descriptor and each
of Sampler, UniformBuffer, StorageBuffer, Texture and StorageTexture, the call fails fatally iff
the given name is already the name of an item of the descriptor; otherwise it returns the
descriptor with exactly one more item, under that name, whose type tag is the binding type of
the method called and whose payload is the given sampler or view, every existing item and the
layout being as they were. -/
theorem bind_item_names_unique (self : RGBindGroupDesc) (inName : String)
    (inSampler : Option Nat) (bufferView : RGBufferViewRef) (textureView : RGTextureViewRef) :
    (self.contains inName = true ↔ ∃ item, (inName, item) ∈ self.items) ∧
    ((self.Sampler inName inSampler).isFatal = true ↔ self.contains inName = true) ∧
    ((self.UniformBuffer inName bufferView).isFatal = true ↔ self.contains inName = true) ∧
    ((self.StorageBuffer inName bufferView).isFatal = true ↔ self.contains inName = true) ∧
    ((self.Texture inName textureView).isFatal = true ↔ self.contains inName = true) ∧
    ((self.StorageTexture inName textureView).isFatal = true ↔ self.contains inName = true) ∧
    (self.contains inName = false →
      self.Sampler inName inSampler =
        Outcome.ok
          { layout := self.layout
            items := self.items ++
              [(inName, { type := BindingType.sampler, sampler := inSampler, bufferView := none,
                          textureView := none })] } ∧
      self.UniformBuffer inName bufferView =
        Outcome.ok
          { layout := self.layout
            items := self.items ++
              [(inName, { type := BindingType.uniformBuffer, sampler := none,
                          bufferView := bufferView, textureView := none })] } ∧
      self.StorageBuffer inName bufferView =
        Outcome.ok
          { layout := self.layout
            items := self.items ++
              [(inName, { type := BindingType.storageBuffer, sampler := none,
                          bufferView := bufferView, textureView := none })] } ∧
      self.Texture inName textureView =
        Outcome.ok
          { layout := self.layout
            items := self.items ++
              [(inName, { type := BindingType.texture, sampler := none, bufferView := none,
                          textureView := textureView })] } ∧
      self.StorageTexture inName textureView =
        Outcome.ok
          { layout := self.layout
            items := self.items ++
              [(inName, { type := BindingType.storageTexture, sampler := none,
                          bufferView := none, textureView := textureView })] }) := by
  refine ⟨?_, ?_, ?_, ?_, ?_, ?_, ?_⟩
  · simp only [RGBindGroupDesc.contains, List.any_eq_true, beq_iff_eq]
    constructor
    · rintro ⟨⟨n, item⟩, hm, rfl⟩
      exact ⟨item, hm⟩
    · rintro ⟨item, hm⟩
      exact ⟨(inName, item), hm, rfl⟩
  · cases h : self.contains inName <;>
      simp [RGBindGroupDesc.Sampler, Assert, Outcome.andThen, Outcome.isFatal, h]
  · cases h : self.contains inName <;>
      simp [RGBindGroupDesc.UniformBuffer, Assert, Outcome.andThen, Outcome.isFatal, h]
  · cases h : self.contains inName <;>
      simp [RGBindGroupDesc.StorageBuffer, Assert, Outcome.andThen, Outcome.isFatal, h]
  · cases h : self.contains inName <;>
      simp [RGBindGroupDesc.Texture, Assert, Outcome.andThen, Outcome.isFatal, h]
  · cases h : self.contains inName <;>
      simp [RGBindGroupDesc.StorageTexture, Assert, Outcome.andThen, Outcome.isFatal, h]
  · intro h
    simp [RGBindGroupDesc.Sampler, RGBindGroupDesc.UniformBuffer, RGBindGroupDesc.StorageBuffer,
      RGBindGroupDesc.Texture, RGBindGroupDesc.StorageTexture, Assert, Outcome.andThen, h]

/-! ## C28: reuse of a released pooled object -/

section PoolReuse

theorem updateAt_updateAt_cancel {α : Type} (f g : α → α) (hgf : ∀ x, g (f x) = x) (l : List α) :
    ∀ i, updateAt g (updateAt f l i) i = l := by
  induction l with
  | nil => intro i; rfl
  | cons x xs ih =>
    intro i
    cases i with
    | zero => simp [updateAt, hgf]
    | succ i => simp [updateAt, ih i]

theorem updateAt_append_length {α : Type} (f : α → α) (l : List α) (x : α) :
    updateAt f (l ++ [x]) l.length = l ++ [f x] := by
  induction l with
  | nil => rfl
  | cons y ys ih => simp [updateAt, ih]

/-- Allocating, dropping the handle and allocating again with the same descriptor hands out the
same pooled object. -/
theorem allocate_release_allocate {Desc : Type} [DecidableEq Desc] (pool : ResourcePool Desc)
    (desc : Desc) :
    (((pool.Allocate desc).2.Release (pool.Allocate desc).1).Allocate desc).1 =
      (pool.Allocate desc).1 := by
  cases hf : pool.pooledResources.findIdx?
      (fun p => p.holders == 0 && decide (p.desc = desc)) with
  | some i =>
    have h1 : pool.Allocate desc =
        (i, { pooledResources :=
                updateAt (fun p => { p with holders := p.holders + 1 }) pool.pooledResources i,
              allocateCalls := pool.allocateCalls ++ [desc] }) := by
      simp [ResourcePool.Allocate, hf]
    rw [h1]
    simp only [ResourcePool.Release]
    rw [updateAt_updateAt_cancel _ _ (fun x => by simp)]
    simp [ResourcePool.Allocate, hf]
  | none =>
    have h1 : pool.Allocate desc =
        (pool.pooledResources.length,
          { pooledResources := pool.pooledResources ++ [{ desc := desc, holders := 1 }],
            allocateCalls := pool.allocateCalls ++ [desc] }) := by
      simp [ResourcePool.Allocate, hf]
    rw [h1]
    simp only [ResourcePool.Release]
    rw [updateAt_append_length]
    simp [ResourcePool.Allocate, List.findIdx?_append, hf]

end PoolReuse

/-- C28. Pool reuse: for every texture pool and descriptor D, allocating with D, dropping that
handle (the object's last reference) and allocating again with D, nothing else having been done
to the pool in between, hands out the identical pooled object; so a texture of the graph that is
devirtualized, has its devirtualization undone and is devirtualized again (or is followed by
another new texture with an equal descriptor) holds the same pooled object both times; and the
sequence of ResourcePoolTest.BasicTest gives t1 ≠ t3 and t4 = t1. -/
theorem pool_reuse (pool : ResourcePool RGTextureDesc) (desc : RGTextureDesc) (pools : Pools) :
    (((pool.Allocate desc).2.Release (pool.Allocate desc).1).Allocate desc).1 =
      (pool.Allocate desc).1 ∧
    (∃ a p1 p2 p3,
      (RGTexture.new desc).Devirtualize pools =
        Outcome.ok
          ({ RGTexture.new desc with devirtualized := true, pooledTexture := some a }, p1) ∧
      RGTexture.UndoDevirtualize
          { RGTexture.new desc with devirtualized := true, pooledTexture := some a } p1 =
        Outcome.ok (RGTexture.new desc, p2) ∧
      (RGTexture.new desc).Devirtualize p2 =
        Outcome.ok
          ({ RGTexture.new desc with devirtualized := true, pooledTexture := some a }, p3)) ∧
    (∀ other : RGTextureDesc, other ≠ desc →
      (((({ pooledResources := [], allocateCalls := [] } :
          ResourcePool RGTextureDesc).Allocate desc).2.Allocate other).2.Allocate desc).1 ≠
        (({ pooledResources := [], allocateCalls := [] } :
          ResourcePool RGTextureDesc).Allocate desc).1 ∧
      ((((((({ pooledResources := [], allocateCalls := [] } :
          ResourcePool RGTextureDesc).Allocate desc).2.Allocate other).2.Allocate desc).2.Release
            (({ pooledResources := [], allocateCalls := [] } :
              ResourcePool RGTextureDesc).Allocate desc).1).Allocate desc).1) =
        (({ pooledResources := [], allocateCalls := [] } :
          ResourcePool RGTextureDesc).Allocate desc).1) := by
  refine ⟨allocate_release_allocate pool desc, ?_, ?_⟩
  · have h := allocate_release_allocate pools.texturePool desc
    refine ⟨(pools.texturePool.Allocate desc).1,
      { pools with texturePool := (pools.texturePool.Allocate desc).2 },
      { pools with
        texturePool :=
          (pools.texturePool.Allocate desc).2.Release (pools.texturePool.Allocate desc).1 },
      { pools with
        texturePool :=
          (((pools.texturePool.Allocate desc).2.Release
            (pools.texturePool.Allocate desc).1).Allocate desc).2 }, ?_, ?_, ?_⟩
    · simp [RGTexture.Devirtualize, RGTexture.new, RGResourceBase.new, Assert, Outcome.andThen,
        ResourcePool.drop]
    · simp [RGTexture.UndoDevirtualize, RGTexture.new, RGResourceBase.new, Assert,
        Outcome.andThen, ResourcePool.drop]
    · simp [RGTexture.Devirtualize, RGTexture.new, RGResourceBase.new, Assert, Outcome.andThen,
        ResourcePool.drop, h]
  · intro other hne
    have hne' : ¬ desc = other := fun h => hne h.symm
    simp [ResourcePool.Allocate, ResourcePool.Release, updateAt, List.findIdx?_cons, hne, hne']

/-! ## C25, C26, C27: the pipeline, layout and sampler caches -/

section Caches

open Render

theorem lookup_mem {β : Type} (l : List (Nat × β)) (k : Nat) (v : β)
    (h : l.lookup k = some v) : (k, v) ∈ l := by
  induction l with
  | nil => simp at h
  | cons a l ih =>
    obtain ⟨k', v'⟩ := a
    rw [List.lookup_cons] at h
    cases hk : k == k'
    · rw [hk] at h
      exact List.mem_cons_of_mem _ (ih h)
    · rw [hk] at h
      simp only [Option.some.injEq] at h
      have hkk : k = k' := by simpa using hk
      rw [hkk, h]
      exact List.mem_cons_self _ _

theorem lookup_append_of_some {β : Type} (l : List (Nat × β)) (k : Nat) (v : β)
    (e : Nat × β) (h : l.lookup k = some v) : (l ++ [e]).lookup k = some v := by
  rw [List.lookup_append, h]
  rfl

/-- Two entries of a map found under different keys are different objects when the objects of
the map have identities of their own. -/
theorem lookup_addresses_ne {β : Type} (address : β → Nat) (l : List (Nat × β)) (k1 k2 : Nat)
    (o1 o2 : β) (hnd : (l.map fun e => address e.2).Nodup) (h1 : l.lookup k1 = some o1)
    (h2 : l.lookup k2 = some o2) (hne : k1 ≠ k2) : address o1 ≠ address o2 := by
  intro heq
  have := List.inj_on_of_nodup_map hnd (lookup_mem l k1 o1 h1) (lookup_mem l k2 o2 h2) heq
  simp only [Prod.mk.injEq] at this
  exact hne this.1

theorem getLayout_hit (hasher : List Nat → Nat) (cache : PipelineLayoutCache)
    (desc : PipelineLayoutDesc) (layout : PipelineLayout)
    (h : cache.pipelineLayouts.lookup (desc.Hash hasher) = some layout) :
    cache.GetLayout hasher desc = (layout, cache) := by
  simp [PipelineLayoutCache.GetLayout, h]

theorem getLayout_miss (hasher : List Nat → Nat) (cache : PipelineLayoutCache)
    (desc : PipelineLayoutDesc)
    (h : cache.pipelineLayouts.lookup (desc.Hash hasher) = none) :
    cache.GetLayout hasher desc =
      (PipelineLayout.new cache.constructed desc (desc.Hash hasher),
        { pipelineLayouts := cache.pipelineLayouts ++
            [(desc.Hash hasher, PipelineLayout.new cache.constructed desc (desc.Hash hasher))]
          constructed := cache.constructed + 1 }) := by
  simp [PipelineLayoutCache.GetLayout, h]

theorem findOrCreateSampler_hit (hasher : List Nat → Nat) (cache : SamplerCache)
    (desc : SamplerDesc) (sampler : Sampler)
    (h : cache.samplers.lookup (CityHash hasher desc.bytes) = some sampler) :
    cache.FindOrCreateSampler hasher desc = (sampler, cache) := by
  simp [SamplerCache.FindOrCreateSampler, h]

theorem findOrCreateSampler_miss (hasher : List Nat → Nat) (cache : SamplerCache)
    (desc : SamplerDesc) (h : cache.samplers.lookup (CityHash hasher desc.bytes) = none) :
    cache.FindOrCreateSampler hasher desc =
      (Sampler.new cache.constructed desc,
        { samplers := cache.samplers ++
            [(CityHash hasher desc.bytes, Sampler.new cache.constructed desc)]
          constructed := cache.constructed + 1 }) := by
  simp [SamplerCache.FindOrCreateSampler, h]

/-- A call of `GetLayout` leaves the object it returns in the cache, under the hash of the
descriptor. -/
theorem getLayout_cached (hasher : List Nat → Nat) (cache : PipelineLayoutCache)
    (desc : PipelineLayoutDesc) :
    (cache.GetLayout hasher desc).2.pipelineLayouts.lookup (desc.Hash hasher) =
      some (cache.GetLayout hasher desc).1 := by
  cases h : cache.pipelineLayouts.lookup (desc.Hash hasher) with
  | none =>
    rw [getLayout_miss hasher cache desc h]
    exact lookup_append_fresh _ _ _ h
  | some layout =>
    rw [getLayout_hit hasher cache desc layout h]
    exact h

theorem findOrCreateSampler_cached (hasher : List Nat → Nat) (cache : SamplerCache)
    (desc : SamplerDesc) :
    (cache.FindOrCreateSampler hasher desc).2.samplers.lookup (CityHash hasher desc.bytes) =
      some (cache.FindOrCreateSampler hasher desc).1 := by
  cases h : cache.samplers.lookup (CityHash hasher desc.bytes) with
  | none =>
    rw [findOrCreateSampler_miss hasher cache desc h]
    exact lookup_append_fresh _ _ _ h
  | some sampler =>
    rw [findOrCreateSampler_hit hasher cache desc sampler h]
    exact h

/-- A miss of `GetPipeline` never returns: the constructor of the pipeline state follows the
null pointer `GetLayout(shaders)` returns. -/
theorem getPipeline_miss (hasher : List Nat → Nat) (layouts : PipelineLayoutCache)
    (cache : PipelineCache) (desc : ComputePipelineStateDesc)
    (h : cache.computePipelines.lookup (desc.Hash hasher) = none) :
    cache.GetPipeline hasher layouts desc = Outcome.undefinedBehaviour := by
  simp [PipelineCache.GetPipeline, h, ComputePipelineState.new,
    PipelineLayoutCache.GetLayoutOfComputeShaders, Outcome.lift]

theorem getRasterPipeline_miss (hasher : List Nat → Nat) (layouts : PipelineLayoutCache)
    (cache : PipelineCache) (desc : RasterPipelineStateDesc)
    (h : cache.rasterPipelines.lookup (desc.Hash hasher) = none) :
    cache.GetRasterPipeline hasher layouts desc = Outcome.undefinedBehaviour := by
  simp [PipelineCache.GetRasterPipeline, h, RasterPipelineState.new,
    PipelineLayoutCache.GetLayoutOfRasterShaders, Outcome.lift]

/-- A call of `GetPipeline` that returns is a hit and leaves the cache as it was. -/
theorem getPipeline_ok (hasher : List Nat → Nat) (layouts : PipelineLayoutCache)
    (cache cache' : PipelineCache) (desc : ComputePipelineStateDesc)
    (pipeline : ComputePipelineState)
    (h : cache.GetPipeline hasher layouts desc = Outcome.ok (pipeline, cache')) :
    cache' = cache ∧ cache.computePipelines.lookup (desc.Hash hasher) = some pipeline := by
  cases hl : cache.computePipelines.lookup (desc.Hash hasher) with
  | none =>
    rw [getPipeline_miss hasher layouts cache desc hl] at h
    exact Outcome.noConfusion h
  | some found =>
    simp only [PipelineCache.GetPipeline, hl, Outcome.ok.injEq, Prod.mk.injEq] at h
    exact ⟨h.2.symm, by rw [h.1]⟩

theorem getRasterPipeline_ok (hasher : List Nat → Nat) (layouts : PipelineLayoutCache)
    (cache cache' : PipelineCache) (desc : RasterPipelineStateDesc)
    (pipeline : RasterPipelineState)
    (h : cache.GetRasterPipeline hasher layouts desc = Outcome.ok (pipeline, cache')) :
    cache' = cache ∧ cache.rasterPipelines.lookup (desc.Hash hasher) = some pipeline := by
  cases hl : cache.rasterPipelines.lookup (desc.Hash hasher) with
  | none =>
    rw [getRasterPipeline_miss hasher layouts cache desc hl] at h
    exact Outcome.noConfusion h
  | some found =>
    simp only [PipelineCache.GetRasterPipeline, hl, Outcome.ok.injEq, Prod.mk.injEq] at h
    exact ⟨h.2.symm, by rw [h.1]⟩

end Caches

section ReachableCaches

open Render

/-- A pipeline cache the code can reach holds no entry: a `GetPipeline` call that misses does
not return, and one that returns inserts nothing. -/
theorem reachable_empty (hasher : List Nat → Nat) (layouts : PipelineLayoutCache)
    (cache : PipelineCache) (h : cache.Reachable hasher layouts) :
    cache.computePipelines = [] ∧ cache.rasterPipelines = [] := by
  obtain ⟨calls, hc⟩ := h
  refine forEach_ok_induct
    (fun (c : PipelineCache) => c.computePipelines = [] ∧ c.rasterPipelines = [])
    (PipelineCache.call hasher layouts) calls ?_ PipelineCache.new cache ⟨rfl, rfl⟩ hc
  intro call _ s s' ⟨h1, h2⟩ hs
  cases call with
  | getCompute desc =>
    simp only [PipelineCache.call] at hs
    rw [getPipeline_miss hasher layouts s desc (by rw [h1]; rfl)] at hs
    simp [Outcome.lift] at hs
  | getRaster desc =>
    simp only [PipelineCache.call] at hs
    rw [getRasterPipeline_miss hasher layouts s desc (by rw [h2]; rfl)] at hs
    simp [Outcome.lift] at hs
  | invalidate =>
    simp only [PipelineCache.call, Outcome.ok.injEq] at hs
    subst hs
    exact ⟨rfl, rfl⟩

/-- On a pipeline cache the code can reach no `GetPipeline` call returns. -/
theorem reachable_getPipeline (hasher : List Nat → Nat) (layouts : PipelineLayoutCache)
    (cache : PipelineCache) (h : cache.Reachable hasher layouts) :
    (∀ desc, cache.GetPipeline hasher layouts desc = Outcome.undefinedBehaviour) ∧
    ∀ desc, cache.GetRasterPipeline hasher layouts desc = Outcome.undefinedBehaviour := by
  obtain ⟨h1, h2⟩ := reachable_empty hasher layouts cache h
  exact ⟨fun desc => getPipeline_miss hasher layouts cache desc (by rw [h1]; rfl),
    fun desc => getRasterPipeline_miss hasher layouts cache desc (by rw [h2]; rfl)⟩

theorem reachable_new (hasher : List Nat → Nat) (layouts : PipelineLayoutCache) :
    PipelineCache.new.Reachable hasher layouts := ⟨[], rfl⟩

theorem reachable_invalidate (hasher : List Nat → Nat) (layouts : PipelineLayoutCache)
    (cache : PipelineCache) (h : cache.Reachable hasher layouts) :
    cache.Invalidate.Reachable hasher layouts := by
  obtain ⟨calls, hc⟩ := h
  refine ⟨calls ++ [PipelineCacheCall.invalidate], ?_⟩
  rw [forEach_append, hc]
  rfl

end ReachableCaches

/-- C25. Cache lookups are idempotent for the layout cache and the sampler cache: on one cache,
with no Invalidate in between, a GetLayout (resp. FindOrCreateSampler) call followed by a call
with a descriptor of the same hash, as every structurally equal descriptor is, returns the
identical object and leaves the cache exactly as the first call left it: no object is
constructed and no entry added. For the pipeline cache there is no cached object to return: on
a new cache, and on every cache reached from it by calls that returned (which include every
cache after Invalidate), the map is empty and `GetPipeline`, with a compute or a raster
descriptor, does not return, the first call of a pair no more than the second. -/
theorem cache_lookup_idempotent (hasher : List Nat → Nat)
    (layoutCache : Render.PipelineLayoutCache) (samplerCache : Render.SamplerCache) :
    (∀ d1 d2 : Render.PipelineLayoutDesc, d1.Hash hasher = d2.Hash hasher →
      (layoutCache.GetLayout hasher d1).2.GetLayout hasher d2 =
        ((layoutCache.GetLayout hasher d1).1, (layoutCache.GetLayout hasher d1).2)) ∧
    (∀ d1 d2 : Render.SamplerDesc,
      Render.CityHash hasher d1.bytes = Render.CityHash hasher d2.bytes →
      (samplerCache.FindOrCreateSampler hasher d1).2.FindOrCreateSampler hasher d2 =
        ((samplerCache.FindOrCreateSampler hasher d1).1,
          (samplerCache.FindOrCreateSampler hasher d1).2)) ∧
    Render.PipelineCache.new.Reachable hasher layoutCache ∧
    (∀ pipelineCache : Render.PipelineCache, pipelineCache.Reachable hasher layoutCache →
      pipelineCache.Invalidate.Reachable hasher layoutCache ∧
      pipelineCache.computePipelines = [] ∧ pipelineCache.rasterPipelines = [] ∧
      (∀ desc, pipelineCache.GetPipeline hasher layoutCache desc =
        Outcome.undefinedBehaviour) ∧
      ∀ desc, pipelineCache.GetRasterPipeline hasher layoutCache desc =
        Outcome.undefinedBehaviour) := by
  refine ⟨?_, ?_, reachable_new hasher layoutCache, ?_⟩
  · intro d1 d2 hh
    have hc := getLayout_cached hasher layoutCache d1
    rw [hh] at hc
    exact getLayout_hit hasher _ d2 _ hc
  · intro d1 d2 hh
    have hc := findOrCreateSampler_cached hasher samplerCache d1
    rw [hh] at hc
    exact findOrCreateSampler_hit hasher _ d2 _ hc
  · intro pipelineCache hr
    obtain ⟨e1, e2⟩ := reachable_empty hasher layoutCache pipelineCache hr
    obtain ⟨u1, u2⟩ := reachable_getPipeline hasher layoutCache pipelineCache hr
    exact ⟨reachable_invalidate hasher layoutCache pipelineCache hr, e1, e2, u1, u2⟩

/-- C27. Invalidate empties the cache. For the layout cache the next GetLayout(d) constructs a
new object, whose identity differs from that of every object the cache held before, and inserts
exactly one entry, keyed by the hash of d, whether or not d was cached before. For the pipeline
cache the next GetPipeline(d) does not return: the cache is empty, so the call is a miss, and
the constructor of the pipeline state follows the null pointer that GetLayout(shaders) returns;
no object is constructed and no entry inserted. -/
theorem invalidate_then_repeat (hasher : List Nat → Nat)
    (layoutCache layouts : Render.PipelineLayoutCache) (pipelineCache : Render.PipelineCache)
    (layoutDesc : Render.PipelineLayoutDesc) (computeDesc : Render.ComputePipelineStateDesc)
    (rasterDesc : Render.RasterPipelineStateDesc) :
    layoutCache.Invalidate.pipelineLayouts = [] ∧
    layoutCache.Invalidate.GetLayout hasher layoutDesc =
      (Render.PipelineLayout.new layoutCache.constructed layoutDesc (layoutDesc.Hash hasher),
        { pipelineLayouts :=
            [(layoutDesc.Hash hasher,
              Render.PipelineLayout.new layoutCache.constructed layoutDesc
                (layoutDesc.Hash hasher))]
          constructed := layoutCache.constructed + 1 }) ∧
    (layoutCache.WellFormed → ∀ e ∈ layoutCache.pipelineLayouts,
      e.2.address ≠ (layoutCache.Invalidate.GetLayout hasher layoutDesc).1.address) ∧
    pipelineCache.Invalidate.computePipelines = [] ∧
    pipelineCache.Invalidate.rasterPipelines = [] ∧
    pipelineCache.Invalidate.GetPipeline hasher layouts computeDesc =
      Outcome.undefinedBehaviour ∧
    pipelineCache.Invalidate.GetRasterPipeline hasher layouts rasterDesc =
      Outcome.undefinedBehaviour := by
  refine ⟨rfl, ?_, ?_, rfl, rfl, ?_, ?_⟩
  · simp [Render.PipelineLayoutCache.GetLayout, Render.PipelineLayoutCache.Invalidate]
  · intro hwf e he
    have hlt := hwf.2 e he
    simp only [Render.PipelineLayoutCache.GetLayout, Render.PipelineLayoutCache.Invalidate,
      List.lookup_nil, Render.PipelineLayout.new]
    omega
  · exact getPipeline_miss hasher layouts _ computeDesc rfl
  · exact getRasterPipeline_miss hasher layouts _ rasterDesc rfl

section Collisions

open Render

theorem sampler_hash_collision (hasher : List Nat → Nat) :
    ∃ d1 d2 : SamplerDesc, d1 ≠ d2 ∧ d1.inRange ∧ d2.inRange ∧
      CityHash hasher d1.bytes = CityHash hasher d2.bytes := by
  let f : Fin (2 ^ 32) × Fin (2 ^ 32) × Fin (2 ^ 8) → Fin (2 ^ 64) := fun x =>
    ⟨CityHash hasher (SamplerDesc.ofClamps x.1.val x.2.1.val x.2.2.val).bytes,
      Nat.mod_lt _ (by norm_num)⟩
  have hcard : Fintype.card (Fin (2 ^ 64)) <
      Fintype.card (Fin (2 ^ 32) × Fin (2 ^ 32) × Fin (2 ^ 8)) := by
    simp only [Fintype.card_prod, Fintype.card_fin]
    norm_num
  obtain ⟨x, y, hxy, hf⟩ := Fintype.exists_ne_map_eq_of_card_lt f hcard
  refine ⟨SamplerDesc.ofClamps x.1.val x.2.1.val x.2.2.val,
    SamplerDesc.ofClamps y.1.val y.2.1.val y.2.2.val, ?_, ?_, ?_, ?_⟩
  · intro heq
    apply hxy
    simp only [SamplerDesc.ofClamps, SamplerDesc.mk.injEq, true_and] at heq
    obtain ⟨h1, h2, h3⟩ := heq
    exact Prod.ext (Fin.ext h1) (Prod.ext (Fin.ext h2) (Fin.ext h3))
  · exact ⟨x.1.isLt, x.2.1.isLt, x.2.2.isLt⟩
  · exact ⟨y.1.isLt, y.2.1.isLt, y.2.2.isLt⟩
  · exact congrArg Fin.val hf

end Collisions

/-- Whatever the hash function is, there are two different sampler descriptors (differing in
a level-of-detail clamp or in the anisotropy) with the same 64-bit hash, and on every sampler
cache FindOrCreateSampler returns for the second the object it returned for the first,
constructing nothing. -/
theorem sampler_collision_shares_object (hasher : List Nat → Nat)
    (cache : Render.SamplerCache) :
    ∃ d1 d2 : Render.SamplerDesc, d1 ≠ d2 ∧ d1.inRange ∧ d2.inRange ∧
      (cache.FindOrCreateSampler hasher d1).2.FindOrCreateSampler hasher d2 =
        ((cache.FindOrCreateSampler hasher d1).1, (cache.FindOrCreateSampler hasher d1).2) := by
  obtain ⟨d1, d2, hne, h1, h2, hh⟩ := sampler_hash_collision hasher
  refine ⟨d1, d2, hne, h1, h2, ?_⟩
  have hc := findOrCreateSampler_cached hasher cache d1
  rw [hh] at hc
  exact findOrCreateSampler_hit hasher _ d2 _ hc

/-- C26, counterexample. With the sum of the stored values as hash function, the sampler
descriptors with the level-of-detail clamps (1, 0) and (0, 1) differ and have the same hash, and
on a new sampler cache FindOrCreateSampler returns for the second the object it constructed for
the first. This hash function is no special case: whatever the hash function is, there are two
different sampler descriptors with the same 64-bit hash, and on every sampler cache the second
is given the object of the first. And on a new pipeline cache `GetPipeline` returns no object at
all, whatever the descriptor. -/
theorem colliding_descriptors_share_an_object :
    (Render.SamplerDesc.ofClamps 1 0 0 ≠ Render.SamplerDesc.ofClamps 0 1 0 ∧
      (Render.SamplerCache.new.FindOrCreateSampler List.sum
          (Render.SamplerDesc.ofClamps 1 0 0)).2.FindOrCreateSampler List.sum
          (Render.SamplerDesc.ofClamps 0 1 0) =
        ((Render.SamplerCache.new.FindOrCreateSampler List.sum
            (Render.SamplerDesc.ofClamps 1 0 0)).1,
          (Render.SamplerCache.new.FindOrCreateSampler List.sum
            (Render.SamplerDesc.ofClamps 1 0 0)).2)) ∧
    (∀ (hasher : List Nat → Nat) (cache : Render.SamplerCache),
      ∃ d1 d2 : Render.SamplerDesc, d1 ≠ d2 ∧ d1.inRange ∧ d2.inRange ∧
        (cache.FindOrCreateSampler hasher d1).2.FindOrCreateSampler hasher d2 =
          ((cache.FindOrCreateSampler hasher d1).1,
            (cache.FindOrCreateSampler hasher d1).2)) ∧
    ∀ (hasher : List Nat → Nat) (layouts : Render.PipelineLayoutCache)
      (computeDesc : Render.ComputePipelineStateDesc)
      (rasterDesc : Render.RasterPipelineStateDesc),
      Render.PipelineCache.new.GetPipeline hasher layouts computeDesc =
        Outcome.undefinedBehaviour ∧
      Render.PipelineCache.new.GetRasterPipeline hasher layouts rasterDesc =
        Outcome.undefinedBehaviour :=
  ⟨⟨by decide, by decide⟩, fun hasher cache => sampler_collision_shares_object hasher cache,
    fun hasher layouts computeDesc rasterDesc =>
      ⟨getPipeline_miss hasher layouts _ computeDesc rfl,
        getRasterPipeline_miss hasher layouts _ rasterDesc rfl⟩⟩

section DifferentHashes

open Render

theorem lookup_append_ne_key {β : Type} (l : List (Nat × β)) (k k' : Nat) (v : β)
    (hne : k ≠ k') : (l ++ [(k', v)]).lookup k = l.lookup k := by
  rw [List.lookup_append]
  have : (k == k') = false := by simpa using hne
  cases l.lookup k <;> simp [List.lookup, this]

theorem getLayout_addresses_ne (hasher : List Nat → Nat) (cache : PipelineLayoutCache)
    (hwf : cache.WellFormed) (d1 d2 : PipelineLayoutDesc)
    (hne : d1.Hash hasher ≠ d2.Hash hasher) :
    (cache.GetLayout hasher d1).1.address ≠
      ((cache.GetLayout hasher d1).2.GetLayout hasher d2).1.address := by
  cases h1 : cache.pipelineLayouts.lookup (d1.Hash hasher) with
  | none =>
    rw [getLayout_miss hasher cache d1 h1]
    cases h2 : cache.pipelineLayouts.lookup (d2.Hash hasher) with
    | none =>
      rw [getLayout_miss hasher _ d2 (by rw [lookup_append_ne_key _ _ _ _ (Ne.symm hne)]; exact h2)]
      simp [PipelineLayout.new]
    | some o2 =>
      rw [getLayout_hit hasher _ d2 o2
        (by rw [lookup_append_ne_key _ _ _ _ (Ne.symm hne)]; exact h2)]
      have := hwf.2 _ (lookup_mem _ _ _ h2)
      simp only [PipelineLayout.new] at this ⊢
      omega
  | some o1 =>
    rw [getLayout_hit hasher cache d1 o1 h1]
    cases h2 : cache.pipelineLayouts.lookup (d2.Hash hasher) with
    | none =>
      rw [getLayout_miss hasher _ d2 h2]
      have := hwf.2 _ (lookup_mem _ _ _ h1)
      simp only [PipelineLayout.new] at this ⊢
      omega
    | some o2 =>
      rw [getLayout_hit hasher _ d2 o2 h2]
      exact lookup_addresses_ne PipelineLayout.address _ _ _ o1 o2 hwf.1 h1 h2 hne

theorem findOrCreateSampler_addresses_ne (hasher : List Nat → Nat) (cache : SamplerCache)
    (hwf : cache.WellFormed) (d1 d2 : SamplerDesc)
    (hne : CityHash hasher d1.bytes ≠ CityHash hasher d2.bytes) :
    (cache.FindOrCreateSampler hasher d1).1.address ≠
      ((cache.FindOrCreateSampler hasher d1).2.FindOrCreateSampler hasher d2).1.address := by
  cases h1 : cache.samplers.lookup (CityHash hasher d1.bytes) with
  | none =>
    rw [findOrCreateSampler_miss hasher cache d1 h1]
    cases h2 : cache.samplers.lookup (CityHash hasher d2.bytes) with
    | none =>
      rw [findOrCreateSampler_miss hasher _ d2
        (by rw [lookup_append_ne_key _ _ _ _ (Ne.symm hne)]; exact h2)]
      simp [Sampler.new]
    | some o2 =>
      rw [findOrCreateSampler_hit hasher _ d2 o2
        (by rw [lookup_append_ne_key _ _ _ _ (Ne.symm hne)]; exact h2)]
      have := hwf.2 _ (lookup_mem _ _ _ h2)
      simp only [Sampler.new] at this ⊢
      omega
  | some o1 =>
    rw [findOrCreateSampler_hit hasher cache d1 o1 h1]
    cases h2 : cache.samplers.lookup (CityHash hasher d2.bytes) with
    | none =>
      rw [findOrCreateSampler_miss hasher _ d2 h2]
      have := hwf.2 _ (lookup_mem _ _ _ h1)
      simp only [Sampler.new] at this ⊢
      omega
    | some o2 =>
      rw [findOrCreateSampler_hit hasher _ d2 o2 h2]
      exact lookup_addresses_ne Sampler.address _ _ _ o1 o2 hwf.1 h1 h2 hne

theorem nodup_concat_of_lt (l : List Nat) (n : Nat) (hnd : l.Nodup) (hlt : ∀ x ∈ l, x < n) :
    (l ++ [n]).Nodup := by
  rw [List.nodup_append]
  refine ⟨hnd, List.nodup_singleton n, ?_⟩
  intro x hx hx'
  simp only [List.mem_singleton] at hx'
  have := hlt x hx
  omega

theorem getLayout_wellFormed (hasher : List Nat → Nat) (cache : PipelineLayoutCache)
    (hwf : cache.WellFormed) (desc : PipelineLayoutDesc) :
    (cache.GetLayout hasher desc).2.WellFormed := by
  cases h : cache.pipelineLayouts.lookup (desc.Hash hasher) with
  | none =>
    rw [getLayout_miss hasher cache desc h]
    constructor
    · simp only [List.map_append, List.map_cons, List.map_nil, PipelineLayout.new]
      apply nodup_concat_of_lt _ _ hwf.1
      intro x hx
      obtain ⟨e, he, rfl⟩ := List.mem_map.mp hx
      exact hwf.2 e he
    · intro e he
      rcases List.mem_append.mp he with he | he
      · exact Nat.lt_succ_of_lt (hwf.2 e he)
      · simp only [List.mem_singleton] at he
        subst he
        exact Nat.lt_succ_self _
  | some layout =>
    rw [getLayout_hit hasher cache desc layout h]
    exact hwf

theorem findOrCreateSampler_wellFormed (hasher : List Nat → Nat) (cache : SamplerCache)
    (hwf : cache.WellFormed) (desc : SamplerDesc) :
    (cache.FindOrCreateSampler hasher desc).2.WellFormed := by
  cases h : cache.samplers.lookup (CityHash hasher desc.bytes) with
  | none =>
    rw [findOrCreateSampler_miss hasher cache desc h]
    constructor
    · simp only [List.map_append, List.map_cons, List.map_nil, Sampler.new]
      apply nodup_concat_of_lt _ _ hwf.1
      intro x hx
      obtain ⟨e, he, rfl⟩ := List.mem_map.mp hx
      exact hwf.2 e he
    · intro e he
      rcases List.mem_append.mp he with he | he
      · exact Nat.lt_succ_of_lt (hwf.2 e he)
      · simp only [List.mem_singleton] at he
        subst he
        exact Nat.lt_succ_self _
  | some sampler =>
    rw [findOrCreateSampler_hit hasher cache desc sampler h]
    exact hwf

end DifferentHashes

/-- C26, amended. On one layout or sampler cache in which every object has its own identity (as
in every cache reached from a new one by GetLayout, FindOrCreateSampler and Invalidate calls),
two consecutive GetLayout (resp. FindOrCreateSampler) calls with descriptors of different
hashes return different objects; the caches they leave keep the property, and new and
invalidated caches have it. Descriptors that differ but have the same hash share one object.
`GetPipeline` returns no object to compare: on every pipeline cache the code can reach the call
does not return. -/
theorem different_hashes_different_objects (hasher : List Nat → Nat)
    (layoutCache : Render.PipelineLayoutCache) (samplerCache : Render.SamplerCache)
    (hl : layoutCache.WellFormed) (hs : samplerCache.WellFormed) :
    (∀ d1 d2 : Render.PipelineLayoutDesc, d1.Hash hasher ≠ d2.Hash hasher →
      (layoutCache.GetLayout hasher d1).1.address ≠
        ((layoutCache.GetLayout hasher d1).2.GetLayout hasher d2).1.address) ∧
    (∀ d1 d2 : Render.SamplerDesc,
      Render.CityHash hasher d1.bytes ≠ Render.CityHash hasher d2.bytes →
      (samplerCache.FindOrCreateSampler hasher d1).1.address ≠
        ((samplerCache.FindOrCreateSampler hasher d1).2.FindOrCreateSampler hasher
          d2).1.address) ∧
    (∀ d1 d2 : Render.PipelineLayoutDesc, d1.Hash hasher = d2.Hash hasher →
      (layoutCache.GetLayout hasher d1).2.GetLayout hasher d2 =
        ((layoutCache.GetLayout hasher d1).1, (layoutCache.GetLayout hasher d1).2)) ∧
    (∀ d1 d2 : Render.SamplerDesc,
      Render.CityHash hasher d1.bytes = Render.CityHash hasher d2.bytes →
      (samplerCache.FindOrCreateSampler hasher d1).2.FindOrCreateSampler hasher d2 =
        ((samplerCache.FindOrCreateSampler hasher d1).1,
          (samplerCache.FindOrCreateSampler hasher d1).2)) ∧
    (∀ d : Render.PipelineLayoutDesc, (layoutCache.GetLayout hasher d).2.WellFormed) ∧
    (∀ d : Render.SamplerDesc, (samplerCache.FindOrCreateSampler hasher d).2.WellFormed) ∧
    layoutCache.Invalidate.WellFormed ∧
    Render.PipelineLayoutCache.new.WellFormed ∧ Render.SamplerCache.new.WellFormed ∧
    (∀ pipelineCache : Render.PipelineCache, pipelineCache.Reachable hasher layoutCache →
      (∀ desc, pipelineCache.GetPipeline hasher layoutCache desc =
        Outcome.undefinedBehaviour) ∧
      ∀ desc, pipelineCache.GetRasterPipeline hasher layoutCache desc =
        Outcome.undefinedBehaviour) := by
  refine ⟨fun d1 d2 h => getLayout_addresses_ne hasher layoutCache hl d1 d2 h,
    fun d1 d2 h => findOrCreateSampler_addresses_ne hasher samplerCache hs d1 d2 h, ?_, ?_,
    fun d => getLayout_wellFormed hasher layoutCache hl d,
    fun d => findOrCreateSampler_wellFormed hasher samplerCache hs d, ?_, ?_, ?_,
    fun pipelineCache hr => reachable_getPipeline hasher layoutCache pipelineCache hr⟩
  · intro d1 d2 hh
    have hc := getLayout_cached hasher layoutCache d1
    rw [hh] at hc
    exact getLayout_hit hasher _ d2 _ hc
  · intro d1 d2 hh
    have hc := findOrCreateSampler_cached hasher samplerCache d1
    rw [hh] at hc
    exact findOrCreateSampler_hit hasher _ d2 _ hc
  · simp [Render.PipelineLayoutCache.WellFormed, Render.PipelineLayoutCache.Invalidate]
  · simp [Render.PipelineLayoutCache.WellFormed, Render.PipelineLayoutCache.new]
  · simp [Render.SamplerCache.WellFormed, Render.SamplerCache.new]

/-- C26, witness: new caches, the sum of the values as hash function, and two sampler
descriptors whose hashes are 1 and 2: the first call constructs object 0, the second object
1. -/
theorem different_hashes_different_objects_witness :
    Render.PipelineLayoutCache.new.WellFormed ∧ Render.SamplerCache.new.WellFormed ∧
    Render.CityHash List.sum (Render.SamplerDesc.ofClamps 0 0 1).bytes ≠
      Render.CityHash List.sum (Render.SamplerDesc.ofClamps 0 0 2).bytes ∧
    (Render.SamplerCache.new.FindOrCreateSampler List.sum
      (Render.SamplerDesc.ofClamps 0 0 1)).1.address ≠
      ((Render.SamplerCache.new.FindOrCreateSampler List.sum
        (Render.SamplerDesc.ofClamps 0 0 1)).2.FindOrCreateSampler List.sum
        (Render.SamplerDesc.ofClamps 0 0 2)).1.address := by
  have hl : Render.PipelineLayoutCache.new.WellFormed := by
    simp [Render.PipelineLayoutCache.WellFormed, Render.PipelineLayoutCache.new]
  have hs : Render.SamplerCache.new.WellFormed := by
    simp [Render.SamplerCache.WellFormed, Render.SamplerCache.new]
  have hne : Render.CityHash List.sum (Render.SamplerDesc.ofClamps 0 0 1).bytes ≠
      Render.CityHash List.sum (Render.SamplerDesc.ofClamps 0 0 2).bytes := by decide
  exact ⟨hl, hs, hne,
    (different_hashes_different_objects List.sum Render.PipelineLayoutCache.new
      Render.SamplerCache.new hl hs).2.1 _ _ hne⟩

/-! ## C22, C23: the end-to-end scenario -/

theorem recordedTextureStates_eq (g : RGBuilder) (t : Nat) :
    g.recordedTextureStates t =
      (g.passes.map fun pass => (pass.base.name, pass.base.transitionInfos)).filterMap
        fun x => x.2.texture.lookup t := by
  simp [RGBuilder.recordedTextureStates, List.filterMap_map, Function.comp_def]

/-- C22. End-to-end scenario, compile part. The constructor of the color attachment's view does
not set its member `texture` (C10), so what `Compile` records for the raster pass depends on
the value that member holds and not on T. If the member is null, `Compile` is stopped by the
assertion of `SaveTextureTransitionInfo`. If it holds a pointer `k`, `Compile` returns: the
states recorded for B over the passes in declaration order are [storage, shaderReadOnly], the
compute pass holds B ↦ storage alone and only the raster pass reads B, but the raster pass holds
renderTarget under `k`, and unless `k` is the pointer to T (resource 1) no state is recorded
for T. The descriptors of B and T (4096 bytes, 1920×1080 in the scenario) play no part. -/
theorem scenario_compile (bufferDesc : RGBufferDesc) (textureDesc : RGTextureDesc) (k : Nat) :
    (scenarioGraph none bufferDesc textureDesc).resources =
      [RGResource.buffer (RGBuffer.new bufferDesc),
       RGResource.texture (RGTexture.new textureDesc)] ∧
    (scenarioGraph none bufferDesc textureDesc).Compile.isFatal = true ∧
    ∃ g1, (scenarioGraph (some k) bufferDesc textureDesc).Compile = Outcome.ok g1 ∧
      g1.recordedBufferStates 0 = [BufferState.storage, BufferState.shaderReadOnly] ∧
      g1.recordedTextureStates k = [TextureState.renderTarget] ∧
      (k ≠ 1 → g1.recordedTextureStates 1 = []) ∧
      g1.passes.map (fun pass => (pass.base.name, pass.base.transitionInfos)) =
        [("compute", { buffer := [(0, BufferState.storage)], texture := [] }),
         ("raster", { buffer := [(0, BufferState.shaderReadOnly)],
                      texture := [(k, TextureState.renderTarget)] })] ∧
      g1.passes.map (fun pass => pass.base.reads) = [[], [0]] := by
  have hp : (((scenarioGraph (some k) bufferDesc textureDesc).Compile.stateD
      (RGBuilder.new sampleDevice)).passes.map
        fun pass => (pass.base.name, pass.base.transitionInfos)) =
      [("compute", { buffer := [(0, BufferState.storage)], texture := [] }),
       ("raster", { buffer := [(0, BufferState.shaderReadOnly)],
                    texture := [(k, TextureState.renderTarget)] })] := rfl
  refine ⟨rfl, rfl, (scenarioGraph (some k) bufferDesc textureDesc).Compile.stateD
    (RGBuilder.new sampleDevice), rfl, rfl, ?_, ?_, hp, rfl⟩
  · rw [recordedTextureStates_eq, hp]
    simp [List.lookup]
  · intro hk
    rw [recordedTextureStates_eq, hp]
    have : (1 == k) = false := by simpa using Ne.symm hk
    simp [List.lookup, this]

theorem ok_andThen {σ : Type} (s : σ) (f : σ → Outcome σ) :
    (Outcome.ok s).andThen f = f s := rfl

theorem execute_of_not_executed (g : RGBuilder) (fencePack : RGFencePack)
    (h : g.executed = false) :
    g.Execute fencePack =
      g.Compile.andThen fun self =>
        (self.ExecuteInternal fencePack).andThen fun self =>
          Outcome.ok { self with executed := true } := by
  unfold RGBuilder.Execute Assert
  simp [h, Outcome.andThen]

/-- The scenario graph after `Compile` when the member `texture` of the view holds the pointer
`k`: the graph compiled with the pointer to T in its place, but for the key of the raster
pass's texture entry and the view itself. -/
theorem scenario_compile_some (k : Nat) :
    (scenarioGraph (some k) sampleBufferDesc sampleTextureDesc).Compile =
      Outcome.ok
        { (scenarioGraph (some 1) sampleBufferDesc sampleTextureDesc).Compile.stateD
            (RGBuilder.new sampleDevice) with
          passes :=
            [RGPass.compute
              { name := "compute", type := RGPassType.compute, reads := []
                transitionInfos := { buffer := [(0, BufferState.storage)], texture := [] }
                asyncCompute := false, bindGroups := [some 0], func := 1 },
             RGPass.raster
              { name := "raster", type := RGPassType.raster, reads := [0]
                transitionInfos := { buffer := [(0, BufferState.shaderReadOnly)],
                                     texture := [(k, TextureState.renderTarget)] }
                passDesc := { colorAttachments := [{ view := some 1 }],
                              depthStencilAttachment := none }
                bindGroups := [some 1], func := 2 }]
          views := (scenarioGraph (some k) sampleBufferDesc sampleTextureDesc).views } :=
  rfl

theorem scenario_executeInternal_undefined (n : Nat) (fencePack : RGFencePack) :
    ({ (scenarioGraph (some 1) sampleBufferDesc sampleTextureDesc).Compile.stateD
            (RGBuilder.new sampleDevice) with
          passes :=
            [RGPass.compute
              { name := "compute", type := RGPassType.compute, reads := []
                transitionInfos := { buffer := [(0, BufferState.storage)], texture := [] }
                asyncCompute := false, bindGroups := [some 0], func := 1 },
             RGPass.raster
              { name := "raster", type := RGPassType.raster, reads := [0]
                transitionInfos := { buffer := [(0, BufferState.shaderReadOnly)],
                                     texture := [(n + 2, TextureState.renderTarget)] }
                passDesc := { colorAttachments := [{ view := some 1 }],
                              depthStencilAttachment := none }
                bindGroups := [some 1], func := 2 }]
          views := (scenarioGraph (some (n + 2)) sampleBufferDesc sampleTextureDesc).views } :
      RGBuilder).ExecuteInternal fencePack = Outcome.undefinedBehaviour := by
  obtain ⟨m, c, a⟩ := fencePack
  cases m <;> cases c <;> cases a <;> rfl

/-- What `Execute` of the scenario graph does, for each value the member `texture` of the
view can hold. -/
theorem scenario_outcomes (indeterminate : RGTextureRef) (fencePack : RGFencePack) :
    ((scenarioGraph indeterminate sampleBufferDesc sampleTextureDesc).Execute
      fencePack).isOk = false ∧
    (∃ s, (scenarioGraph none sampleBufferDesc sampleTextureDesc).Execute fencePack =
        Outcome.fatal s ∧ s.resourceEvents = [] ∧ s.timeline = [] ∧
        s.device.queueEvents = []) ∧
    (∀ k, k ≠ 1 →
      (scenarioGraph (some k) sampleBufferDesc sampleTextureDesc).Execute fencePack =
        Outcome.undefinedBehaviour) ∧
    (∃ s, (scenarioGraph (some 1) sampleBufferDesc sampleTextureDesc).Execute fencePack =
        Outcome.fatal s ∧
      refCounts s.resourceEvents 0 = [1, 1, 1] ∧
      s.device.pools.bufferPool.allocateCalls = [sampleBufferDesc] ∧
      s.resources[1]?.map (fun x => x.base.devirtualized) = some false ∧
      s.timeline.getLast? = some (Step.barrier 0 0) ∧
      s.device.queueEvents = []) := by
  obtain ⟨m, c, a⟩ := fencePack
  have hund : ∀ k, k ≠ 1 →
      (scenarioGraph (some k) sampleBufferDesc sampleTextureDesc).Execute ⟨m, c, a⟩ =
        Outcome.undefinedBehaviour := by
    intro k hk
    match k, hk with
    | 0, _ => cases m <;> cases c <;> cases a <;> rfl
    | 1, h => exact absurd rfl h
    | n + 2, _ =>
      rw [execute_of_not_executed _ _ rfl, scenario_compile_some, ok_andThen,
        scenario_executeInternal_undefined]
      rfl
  have hnone : ∃ s, (scenarioGraph none sampleBufferDesc sampleTextureDesc).Execute ⟨m, c, a⟩ =
        Outcome.fatal s ∧ s.resourceEvents = [] ∧ s.timeline = [] ∧
        s.device.queueEvents = [] := by
    cases m <;> cases c <;> cases a <;> exact ⟨_, rfl, rfl, rfl, rfl⟩
  have hone : ∃ s, (scenarioGraph (some 1) sampleBufferDesc sampleTextureDesc).Execute
        ⟨m, c, a⟩ = Outcome.fatal s ∧
      refCounts s.resourceEvents 0 = [1, 1, 1] ∧
      s.device.pools.bufferPool.allocateCalls = [sampleBufferDesc] ∧
      s.resources[1]?.map (fun x => x.base.devirtualized) = some false ∧
      s.timeline.getLast? = some (Step.barrier 0 0) ∧
      s.device.queueEvents = [] := by
    cases m <;> cases c <;> cases a <;> exact ⟨_, rfl, rfl, rfl, rfl, rfl, rfl⟩
  refine ⟨?_, hnone, hund, hone⟩
  match indeterminate with
  | none =>
    obtain ⟨s, hs, _⟩ := hnone
    rw [hs]; rfl
  | some 1 =>
    obtain ⟨s, hs, _⟩ := hone
    rw [hs]; rfl
  | some 0 => rw [hund 0 (by decide)]; rfl
  | some (n + 2) => rw [hund (n + 2) (by omega)]; rfl

/-- C23. End-to-end scenario, execute part: `Execute` of the scenario graph does not run to
completion, whatever the member `texture` of the color attachment's view holds and whatever the
fences are. If the member is null, `Compile` is stopped by the assertion of
`SaveTextureTransitionInfo` before any call is made on a resource. If it holds a pointer other
than the one to T, the raster pass records renderTarget under that pointer and follows it in
`TransitionResources`. If it happens to hold the pointer to T, the raster pass is stopped by the
assertion of `GetRHI` at T's barrier, because no pass reads T; up to there B was devirtualized
once (one allocation from the buffer pool) and its refCount was 1 after each call made on it,
never 2. In no case is anything submitted. -/
theorem scenario_execute (indeterminate : RGTextureRef) (fencePack : RGFencePack) :
    ((scenarioGraph indeterminate sampleBufferDesc sampleTextureDesc).Execute
      fencePack).isOk = false ∧
    (∃ s, (scenarioGraph none sampleBufferDesc sampleTextureDesc).Execute fencePack =
        Outcome.fatal s ∧ s.resourceEvents = [] ∧ s.timeline = [] ∧
        s.device.queueEvents = []) ∧
    (∀ k, k ≠ 1 →
      (scenarioGraph (some k) sampleBufferDesc sampleTextureDesc).Execute fencePack =
        Outcome.undefinedBehaviour) ∧
    (∃ s, (scenarioGraph (some 1) sampleBufferDesc sampleTextureDesc).Execute fencePack =
        Outcome.fatal s ∧
      refCounts s.resourceEvents 0 = [1, 1, 1] ∧
      s.device.pools.bufferPool.allocateCalls = [sampleBufferDesc] ∧
      s.resources[1]?.map (fun x => x.base.devirtualized) = some false ∧
      s.timeline.getLast? = some (Step.barrier 0 0) ∧
      s.device.queueEvents = []) :=
  scenario_outcomes indeterminate fencePack

/-! ## C24: the submissions of one `Execute` -/

section Submissions

theorem incRefAt_device (i : Nat) (w w' : RGBuilder)
    (h : RGBuilder.incRefAt i w = Outcome.ok w') :
    w'.device.queueEvents = w.device.queueEvents ∧
      w'.device.commandBuffers = w.device.commandBuffers ∧
      w'.device.transferQueueNum = w.device.transferQueueNum ∧
      w'.device.computeQueueNum = w.device.computeQueueNum ∧
      w'.asyncInfo = w.asyncInfo ∧ w'.executed = w.executed := by
  unfold RGBuilder.incRefAt at h
  split at h
  · simp at h
  · split at h
    · simp only [Outcome.ok.injEq] at h
      subst h
      exact ⟨rfl, rfl, rfl, rfl, rfl, rfl⟩
    · simp at h
    · simp at h

theorem decRefAt_queue (i : Nat) (w w' : RGBuilder)
    (h : RGBuilder.decRefAt i w = Outcome.ok w') :
    w'.device.queueEvents = w.device.queueEvents := by
  unfold RGBuilder.decRefAt at h
  split at h
  · simp at h
  · split at h
    · simp only [Outcome.ok.injEq] at h
      subst h
      rfl
    · simp at h
    · simp at h

theorem record_queue (cb : Nat) (c : Command) (w w' : RGBuilder)
    (h : w.record cb c = Outcome.ok w') :
    w'.device.queueEvents = w.device.queueEvents := by
  unfold RGBuilder.record at h
  split at h
  · simp at h
  · simp only [Outcome.ok.injEq] at h
    subst h
    rfl

theorem transitionBufferAt_queue (cb : Nat) (t : Nat × BufferState) (w w' : RGBuilder)
    (h : RGBuilder.transitionBufferAt cb t w = Outcome.ok w') :
    w'.device.queueEvents = w.device.queueEvents := by
  unfold RGBuilder.transitionBufferAt at h
  split at h
  · split at h
    · simp only [Outcome.ok.injEq] at h
      subst h
      rfl
    · simp at h
    · simp at h
  · simp at h

theorem transitionTextureAt_queue (cb : Nat) (t : Nat × TextureState) (w w' : RGBuilder)
    (h : RGBuilder.transitionTextureAt cb t w = Outcome.ok w') :
    w'.device.queueEvents = w.device.queueEvents := by
  unfold RGBuilder.transitionTextureAt at h
  split at h
  · split at h
    · simp only [Outcome.ok.injEq] at h
      subst h
      rfl
    · simp at h
    · simp at h
  · simp at h

/-- A loop whose completed iterations leave the queue events alone leaves them alone. -/
theorem forEach_queue {α : Type} (f : α → RGBuilder → Outcome RGBuilder) (xs : List α)
    (hstep : ∀ x ∈ xs, ∀ w w', f x w = Outcome.ok w' →
      w'.device.queueEvents = w.device.queueEvents)
    (w w' : RGBuilder) (h : forEach f xs w = Outcome.ok w') :
    w'.device.queueEvents = w.device.queueEvents :=
  forEach_ok_induct (fun s => s.device.queueEvents = w.device.queueEvents) f xs
    (fun x hx s s' hs hf => (hstep x hx s s' hf).trans hs) w w' rfl h

theorem executeScope_queue (p : RGPassBase) (cb : Nat) (beginPass : Command) (func : Nat)
    (w w' : RGBuilder) (h : p.executeScope cb beginPass func w = Outcome.ok w') :
    w'.device.queueEvents = w.device.queueEvents := by
  unfold RGPassBase.executeScope at h
  obtain ⟨w1, h1, h⟩ := (andThen_eq_ok _ _ _).mp h
  obtain ⟨w2, h2, h⟩ := (andThen_eq_ok _ _ _).mp h
  obtain ⟨w3, h3, h⟩ := (andThen_eq_ok _ _ _).mp h
  obtain ⟨w4, h4, h⟩ := (andThen_eq_ok _ _ _).mp h
  obtain ⟨w5, h5, h6⟩ := (andThen_eq_ok _ _ _).mp h
  unfold RGPassBase.TransitionResources at h3
  obtain ⟨v, hb, ht⟩ := (andThen_eq_ok _ _ _).mp h3
  rw [record_queue _ _ _ _ h6, record_queue _ _ _ _ h5, record_queue _ _ _ _ h4,
    forEach_queue _ _ (fun x _ s s' hs => transitionTextureAt_queue cb x s s' hs) v w3 ht,
    forEach_queue _ _ (fun x _ s s' hs => transitionBufferAt_queue cb x s s' hs) w2 v hb,
    record_queue _ _ _ _ h2, record_queue _ _ _ _ h1]

theorem executePass_queue (context : Internal.Context) (pass : RGPass) (w w' : RGBuilder)
    (h : RGBuilder.executePass context pass w = Outcome.ok w') :
    w'.device.queueEvents = w.device.queueEvents := by
  unfold RGBuilder.executePass at h
  obtain ⟨w1, h1, h2⟩ := (andThen_eq_ok _ _ _).mp h
  have e2 : w'.device.queueEvents = w1.device.queueEvents :=
    forEach_queue _ _ (fun x _ s s' hs => decRefAt_queue x s s' hs) w1 w' h2
  rw [e2]
  cases pass with
  | copy p => exact executeScope_queue _ _ _ _ _ _ h1
  | compute p => exact executeScope_queue _ _ _ _ _ _ h1
  | raster p =>
    simp only [RGPass.Execute, RGRasterPass.Execute] at h1
    split at h1
    · exact executeScope_queue _ _ _ _ _ _ h1
    · simp at h1

/-- Compiling a pass that is not asynchronous leaves the asynchrony record alone, and the pass
stays one that is not asynchronous. -/
theorem pass_compile_async (g : RGBuilder) (pass pass' : RGPass) (a a' : RGAsyncInfo)
    (hp : pass.isAsync = false) (h : pass.Compile g a = Outcome.ok (pass', a')) :
    pass'.isAsync = false ∧ a' = a := by
  cases pass with
  | copy p =>
    simp only [RGPass.Compile, RGCopyPass.Compile, RGCopyPass.CompileForCopyPassDesc] at h
    obtain ⟨⟨q, b⟩, h, hq⟩ := (lift_eq_ok _ _ _).mp h
    obtain ⟨⟨q1, b1⟩, h, hq1⟩ := (andThen_eq_ok _ _ _).mp h
    obtain ⟨q2, h, hq2⟩ := (lift_eq_ok _ _ _).mp h
    obtain ⟨base, h, hbase⟩ := (lift_eq_ok _ _ _).mp h
    simp only [Outcome.ok.injEq, Prod.mk.injEq] at hq1
    simp only [Prod.mk.injEq] at hq hq2
    obtain ⟨hq, ha⟩ := hq
    obtain ⟨hq2, ha2⟩ := hq2
    obtain ⟨hq1, ha1⟩ := hq1
    subst hq hq1 hq2 hbase ha ha1 ha2
    simp only [RGPass.isAsync] at hp ⊢
    simp [hp]
  | compute p =>
    simp only [RGPass.Compile, RGComputePass.Compile] at h
    obtain ⟨⟨q, b⟩, h, hq⟩ := (lift_eq_ok _ _ _).mp h
    obtain ⟨⟨q1, b1⟩, h, hq1⟩ := (andThen_eq_ok _ _ _).mp h
    obtain ⟨base, h, hbase⟩ := (lift_eq_ok _ _ _).mp h
    simp only [Outcome.ok.injEq, Prod.mk.injEq] at hq1
    simp only [Prod.mk.injEq] at hq hbase
    obtain ⟨hq, ha⟩ := hq
    obtain ⟨hq1, ha1⟩ := hq1
    obtain ⟨hbase, hb⟩ := hbase
    subst hq hq1 hbase ha ha1 hb
    simp only [RGPass.isAsync] at hp ⊢
    simp [hp]
  | raster p =>
    simp only [RGPass.Compile, RGRasterPass.Compile, RGRasterPass.CompileForRasterPassDesc] at h
    obtain ⟨⟨q, b⟩, h, hq⟩ := (lift_eq_ok _ _ _).mp h
    obtain ⟨q1, h, hq1⟩ := (lift_eq_ok _ _ _).mp h
    simp only [Prod.mk.injEq] at hq hq1
    obtain ⟨hq, ha⟩ := hq
    obtain ⟨hq1, ha1⟩ := hq1
    subst hq ha ha1
    exact ⟨rfl, rfl⟩


/-- On a builder whose passes are not asynchronous, a completed `Compile` leaves the queue
events and the command buffers of the device alone, and records no asynchrony. -/
theorem compile_device (g g1 : RGBuilder) (ha : g.asyncInfo = RGAsyncInfo.new)
    (hp : ∀ pass ∈ g.passes, pass.isAsync = false) (h : g.Compile = Outcome.ok g1) :
    g1.device.queueEvents = g.device.queueEvents ∧
      g1.device.commandBuffers = g.device.commandBuffers ∧
      g1.device.transferQueueNum = g.device.transferQueueNum ∧
      g1.device.computeQueueNum = g.device.computeQueueNum ∧
      g1.asyncInfo = RGAsyncInfo.new ∧ g1.executed = g.executed := by
  unfold RGBuilder.Compile at h
  obtain ⟨w1, h1, h⟩ := (andThen_eq_ok _ _ _).mp h
  obtain ⟨w2, h2, h3⟩ := (andThen_eq_ok _ _ _).mp h
  have f1 : w1.device = g.device ∧ w1.asyncInfo = RGAsyncInfo.new ∧ w1.executed = g.executed ∧
      ∀ pass ∈ w1.passes, pass.isAsync = false := by
    refine forEach_ok_induct
      (fun s => s.device = g.device ∧ s.asyncInfo = RGAsyncInfo.new ∧ s.executed = g.executed ∧
        ∀ pass ∈ s.passes, pass.isAsync = false)
      _ _ ?_ g w1 ⟨rfl, ha, rfl, hp⟩ h1
    intro i _ s s' ⟨hd, hs, he, hps⟩ hi
    unfold RGBuilder.compilePassAt at hi
    split at hi
    · simp at hi
    · rename_i pass hpass
      obtain ⟨⟨pass', a'⟩, hc, hput⟩ := (lift_eq_ok _ _ _).mp hi
      subst hput
      obtain ⟨hq, hae⟩ := pass_compile_async s pass pass' _ _
        (hps pass (List.getElem?_mem hpass)) hc
      refine ⟨hd, hae.trans hs, he, ?_⟩
      intro q hq'
      simp only at hq'
      rcases List.mem_or_eq_of_mem_set hq' with hq' | hq'
      · exact hps q hq'
      · subst hq'
        exact hq
  have inc : ∀ (xs : List Nat) (s s' : RGBuilder), forEach RGBuilder.incRefAt xs s = Outcome.ok s' →
      s'.device.queueEvents = s.device.queueEvents ∧
      s'.device.commandBuffers = s.device.commandBuffers ∧
      s'.device.transferQueueNum = s.device.transferQueueNum ∧
      s'.device.computeQueueNum = s.device.computeQueueNum ∧
      s'.asyncInfo = s.asyncInfo ∧ s'.executed = s.executed := by
    intro xs s s' hs
    refine forEach_ok_induct
      (fun t => t.device.queueEvents = s.device.queueEvents ∧
        t.device.commandBuffers = s.device.commandBuffers ∧
        t.device.transferQueueNum = s.device.transferQueueNum ∧
        t.device.computeQueueNum = s.device.computeQueueNum ∧
        t.asyncInfo = s.asyncInfo ∧ t.executed = s.executed)
      _ xs ?_ s s' ⟨rfl, rfl, rfl, rfl, rfl, rfl⟩ hs
    intro i _ t t' ⟨a1, a2, a3, a4, a5, a6⟩ hi
    obtain ⟨b1, b2, b3, b4, b5, b6⟩ := incRefAt_device i t t' hi
    exact ⟨b1.trans a1, b2.trans a2, b3.trans a3, b4.trans a4, b5.trans a5, b6.trans a6⟩
  have f2 : w2.device.queueEvents = w1.device.queueEvents ∧
      w2.device.commandBuffers = w1.device.commandBuffers ∧
      w2.device.transferQueueNum = w1.device.transferQueueNum ∧
      w2.device.computeQueueNum = w1.device.computeQueueNum ∧
      w2.asyncInfo = w1.asyncInfo ∧ w2.executed = w1.executed := by
    refine forEach_ok_induct
      (fun t => t.device.queueEvents = w1.device.queueEvents ∧
        t.device.commandBuffers = w1.device.commandBuffers ∧
        t.device.transferQueueNum = w1.device.transferQueueNum ∧
        t.device.computeQueueNum = w1.device.computeQueueNum ∧
        t.asyncInfo = w1.asyncInfo ∧ t.executed = w1.executed)
      _ _ ?_ w1 w2 ⟨rfl, rfl, rfl, rfl, rfl, rfl⟩ h2
    intro pass _ t t' ⟨a1, a2, a3, a4, a5, a6⟩ hi
    obtain ⟨b1, b2, b3, b4, b5, b6⟩ := inc _ t t' hi
    exact ⟨b1.trans a1, b2.trans a2, b3.trans a3, b4.trans a4, b5.trans a5, b6.trans a6⟩
  have f3 : g1.device.queueEvents = w2.device.queueEvents ∧
      g1.device.commandBuffers = w2.device.commandBuffers ∧
      g1.device.transferQueueNum = w2.device.transferQueueNum ∧
      g1.device.computeQueueNum = w2.device.computeQueueNum ∧
      g1.asyncInfo = w2.asyncInfo ∧ g1.executed = w2.executed := by
    refine forEach_ok_induct
      (fun t => t.device.queueEvents = w2.device.queueEvents ∧
        t.device.commandBuffers = w2.device.commandBuffers ∧
        t.device.transferQueueNum = w2.device.transferQueueNum ∧
        t.device.computeQueueNum = w2.device.computeQueueNum ∧
        t.asyncInfo = w2.asyncInfo ∧ t.executed = w2.executed)
      _ _ ?_ w2 g1 ⟨rfl, rfl, rfl, rfl, rfl, rfl⟩ h3
    intro i _ t t' ⟨a1, a2, a3, a4, a5, a6⟩ hi
    unfold RGBuilder.devirtualizeIfForceUsed at hi
    split at hi
    · simp at hi
    · split at hi
      · obtain ⟨b1, b2, b3, b4, b5, b6⟩ := incRefAt_device i t t' hi
        exact ⟨b1.trans a1, b2.trans a2, b3.trans a3, b4.trans a4, b5.trans a5, b6.trans a6⟩
      · simp only [Outcome.ok.injEq] at hi
        subst hi
        exact ⟨a1, a2, a3, a4, a5, a6⟩
  obtain ⟨hd, hs, he, _⟩ := f1
  obtain ⟨a1, a2, a3, a4, a5, a6⟩ := f2
  obtain ⟨b1, b2, b3, b4, b5, b6⟩ := f3
  refine ⟨?_, ?_, ?_, ?_, ?_, ?_⟩
  · rw [b1, a1, hd]
  · rw [b2, a2, hd]
  · rw [b3, a3, hd]
  · rw [b4, a4, hd]
  · rw [b5, a5, hs]
  · rw [b6, a6, he]

/-- A guard made without asynchrony submits its main command buffer and nothing else. -/
theorem submitEvents_of_no_async (device : Device) (fencePack : RGFencePack) :
    (Internal.CommandBuffersGuard.new device RGAsyncInfo.new fencePack).1.submitEvents =
      [QueueEvent.submit QueueType.graphics 0 device.commandBuffers.length fencePack.mainFence] ∧
    (Internal.CommandBuffersGuard.new device RGAsyncInfo.new fencePack).2.2.queueEvents =
      device.queueEvents := by
  constructor <;> rfl

theorem resetEvents_no_submit (fencePack : RGFencePack) :
    fencePack.resetEvents.filter QueueEvent.isSubmit = [] := by
  obtain ⟨m, c, a⟩ := fencePack
  cases m <;> cases c <;> cases a <;> rfl

/-- C24, amended. One `Execute` that returns, on a builder none of whose passes is
asynchronous, performs exactly one command-buffer submission: after the fence resets, the one
main command buffer the guard created, into which every pass recorded, is submitted to graphics
queue 0 with the main fence. Nothing is submitted to a transfer or compute queue. -/
theorem execute_submits_once (g g2 : RGBuilder) (fencePack : RGFencePack)
    (ha : g.asyncInfo = RGAsyncInfo.new) (hp : ∀ pass ∈ g.passes, pass.isAsync = false)
    (h : g.Execute fencePack = Outcome.ok g2) :
    g2.device.queueEvents =
      g.device.queueEvents ++ fencePack.resetEvents ++
        [QueueEvent.submit QueueType.graphics 0 g.device.commandBuffers.length
          fencePack.mainFence] ∧
    (g2.device.queueEvents.filter QueueEvent.isSubmit).length =
      (g.device.queueEvents.filter QueueEvent.isSubmit).length + 1 := by
  unfold RGBuilder.Execute at h
  obtain ⟨g0, h0, h⟩ := (andThen_eq_ok _ _ _).mp h
  obtain ⟨g1, hc, h⟩ := (andThen_eq_ok _ _ _).mp h
  obtain ⟨g3, he, hlast⟩ := (andThen_eq_ok _ _ _).mp h
  have hg0 : g0 = g := by
    unfold Assert at h0
    split at h0
    · simp only [Outcome.ok.injEq] at h0
      exact h0.symm
    · simp at h0
  subst hg0
  simp only [Outcome.ok.injEq] at hlast
  have hg2 : g2.device = g3.device := by rw [← hlast]
  obtain ⟨q1, c1, _, _, a1, _⟩ := compile_device g0 g1 ha hp hc
  unfold RGBuilder.ExecuteInternal at he
  simp only at he
  obtain ⟨w, hw, hd⟩ := (andThen_eq_ok _ _ _).mp he
  simp only [Outcome.ok.injEq] at hd
  have hg3 : g3.device =
      (Internal.CommandBuffersGuard.new g1.device g1.asyncInfo fencePack).1.destroy w.device := by
    rw [← hd]
  have hq : w.device.queueEvents = g1.device.queueEvents := by
    have := forEach_queue _ _ (fun x _ s s' hs => executePass_queue _ x s s' hs) _ w hw
    rw [this, a1]
    exact (submitEvents_of_no_async g1.device fencePack).2
  have hev : g2.device.queueEvents = g0.device.queueEvents ++ fencePack.resetEvents ++
      [QueueEvent.submit QueueType.graphics 0 g0.device.commandBuffers.length
        fencePack.mainFence] := by
    rw [hg2, hg3, destroy_events, a1]
    simp only
    rw [(submitEvents_of_no_async g1.device fencePack).1, hq, q1, c1]
    rfl
  refine ⟨hev, ?_⟩
  rw [hev, List.filter_append, List.filter_append, resetEvents_no_submit]
  simp [QueueEvent.isSubmit]

/-- C24, witness: the graph whose first pass writes the buffer and whose second pass reads it,
executed without fences. -/
theorem execute_submits_once_witness :
    writeThenReadGraph.asyncInfo = RGAsyncInfo.new ∧
    (∀ pass ∈ writeThenReadGraph.passes, pass.isAsync = false) ∧
    ((writeThenReadGraph.Execute noFences).stateD writeThenReadGraph).device.queueEvents =
      writeThenReadGraph.device.queueEvents ++ noFences.resetEvents ++
        [QueueEvent.submit QueueType.graphics 0
          writeThenReadGraph.device.commandBuffers.length noFences.mainFence] :=
  ⟨by rfl, by decide,
    (execute_submits_once writeThenReadGraph
      ((writeThenReadGraph.Execute noFences).stateD writeThenReadGraph) noFences
      (by rfl) (by decide) (by rfl)).1⟩

/-- C24, counterexample. The graph of one buffer whose first compute pass writes the buffer as
storage buffer and whose second compute pass reads it as uniform buffer, no pass of which is
asynchronous, executed on a device that has submitted nothing: `Execute` returns and the device
has seen one submission, of command buffer 0 to graphics queue 0, not two. The scenario graph
itself submits nothing: whatever the member `texture` of its view holds, `Execute` does not
return, and when a fatal assertion stops it no submission has been made. -/
theorem two_pass_graph_submits_once :
    (∃ g2, writeThenReadGraph.Execute noFences = Outcome.ok g2 ∧
      g2.device.queueEvents.filter QueueEvent.isSubmit =
        [QueueEvent.submit QueueType.graphics 0 0 none] ∧
      g2.device.commandBuffers.length = 1) ∧
    writeThenReadGraph.passes.map RGPass.isAsync = [false, false] ∧
    ∀ (indeterminate : RGTextureRef) (fencePack : RGFencePack),
      (scenarioGraph indeterminate sampleBufferDesc sampleTextureDesc).passes.map
        RGPass.isAsync = [false, false] ∧
      ((scenarioGraph indeterminate sampleBufferDesc sampleTextureDesc).Execute
        fencePack).isOk = false ∧
      ∀ s, (scenarioGraph indeterminate sampleBufferDesc sampleTextureDesc).Execute
          fencePack = Outcome.fatal s →
        s.device.queueEvents.filter QueueEvent.isSubmit = [] := by
  refine ⟨⟨_, rfl, rfl, rfl⟩, rfl, ?_⟩
  intro indeterminate fencePack
  obtain ⟨hnot, ⟨s0, h0, _, _, q0⟩, hund, ⟨s1, h1, _, _, _, _, q1⟩⟩ :=
    scenario_outcomes indeterminate fencePack
  refine ⟨rfl, hnot, ?_⟩
  intro s hs
  match indeterminate with
  | none =>
    rw [h0] at hs
    simp only [Outcome.fatal.injEq] at hs
    rw [← hs, q0]
    rfl
  | some 1 =>
    rw [h1] at hs
    simp only [Outcome.fatal.injEq] at hs
    rw [← hs, q1]
    rfl
  | some 0 =>
    rw [hund 0 (by decide)] at hs
    simp at hs
  | some (n + 2) =>
    rw [hund (n + 2) (by omega)] at hs
    simp at hs

end Submissions


/-! ## C30: which resources are devirtualized when a pass transitions them -/

section DevirtualizedAtPass

theorem transitionCalls_eq (p : RGPassBase) :
    p.transitionCalls = p.transitioned.map fun r => (r, ResourceCall.transition) := by
  simp [RGPassBase.transitionCalls, RGPassBase.transitioned, List.map_append, List.map_map,
    Function.comp_def]

theorem count_executeCalls_inc (passes : List RGPass) (r : Nat) :
    (passes.flatMap fun pass => pass.base.transitionCalls ++ pass.base.decCalls).count
        (r, ResourceCall.incRef) = 0 := by
  rw [List.count_eq_zero]
  simp [RGPassBase.transitionCalls, RGPassBase.decCalls]

theorem forceUsedAt_of_map_eq (w w' : RGBuilder) (r : Nat)
    (h : w'.resources.map (fun x => x.base.forceUsed) =
      w.resources.map (fun x => x.base.forceUsed)) :
    w'.forceUsedAt r = w.forceUsedAt r := by
  have hr : (w'.resources.map (fun x => x.base.forceUsed))[r]? =
      (w.resources.map (fun x => x.base.forceUsed))[r]? := by rw [h]
  simp only [List.getElem?_map] at hr
  unfold RGBuilder.forceUsedAt
  cases h1 : w'.resources[r]? <;> cases h2 : w.resources[r]? <;>
    simp_all [RGResource.IsForceUsed]

/-- The refCount of a resource when the passes `pre` of a compiled graph have been executed:
the number of remaining passes that read it, plus one if it is force-used. -/
theorem refCount_before_pass (g g1 w : RGBuilder) (fencePack : RGFencePack)
    (pre rest : List RGPass) (r : Nat) (x : RGResource)
    (hf : g.Fresh) (hc : g.Compile = Outcome.ok g1) (hp : g1.passes = pre ++ rest)
    (hw : forEach (RGBuilder.executePass (g1.context fencePack)) pre (g1.guarded fencePack) =
      Outcome.ok w)
    (hx : w.resources[r]? = some x) :
    w.Consistent ∧
    x.base.refCount =
      ((rest.countP fun pass => decide (r ∈ pass.base.reads)) : Int) +
        (if g.forceUsedAt r then 1 else 0) := by
  obtain ⟨hnd, hcons1, _, hfu⟩ := compile_run g g1 hf hc
  have r0 : Run g1 (g1.guarded fencePack) [] := run_of_same rfl rfl rfl
  have r1 := forEach_run _ (fun pass => pass.base.transitionCalls ++ pass.base.decCalls) pre
    (fun x _ w w' hx => executePass_run _ x w w' hx) _ w hw
  obtain ⟨_, hfw, ⟨evs, hevs, hk⟩, hcw⟩ := run_trans r0 r1
  have hconsw := hcw hcons1
  refine ⟨hconsw, ?_⟩
  obtain ⟨hrc, _⟩ := hconsw.2 r x hx
  have hlen : r < g.resources.length := by
    have h1 : r < w.resources.length := (List.getElem?_eq_some_iff.mp hx).1
    have h2 : w.resources.length = g.resources.length := by
      have := congrArg List.length (hfw.trans hfu)
      simpa using this
    omega
  obtain ⟨y, hy⟩ : ∃ y, g.resources[r]? = some y :=
    ⟨g.resources[r], List.getElem?_eq_getElem hlen⟩
  obtain ⟨hinc, hdec⟩ := compile_callCounts g g1 r y hf hc hy
  have hndpre : ∀ pass ∈ pre, pass.base.reads.Nodup := by
    intro q hq
    apply hnd
    rw [hp]
    exact List.mem_append_left _ hq
  have e1 : callCount evs ResourceCall.incRef r = 0 := by
    unfold callCount
    rw [hk, List.nil_append, count_executeCalls_inc]
  have e2 : callCount evs ResourceCall.decRef r =
      pre.countP fun pass => decide (r ∈ pass.base.reads) := by
    unfold callCount
    rw [hk, List.nil_append, count_executeCalls_dec _ _ hndpre]
  have e3 : g1.readerCount r =
      (pre.countP fun pass => decide (r ∈ pass.base.reads)) +
        (rest.countP fun pass => decide (r ∈ pass.base.reads)) := by
    unfold RGBuilder.readerCount
    rw [hp, List.countP_append]
  rw [hrc]
  rw [hevs, netCount_append]
  unfold netCount
  rw [hinc, hdec, e1, e2, e3, forceUsedAt_eq g r y hy]
  push_cast
  split <;> omega

/-- C30, amended. In a graph whose `Compile` succeeded, when the passes before `pass` have
been executed, a resource is devirtualized exactly if it is marked force-used or read by `pass`
or by a later pass. A resource that `pass` transitions and that is neither, for example one
that passes only write or one whose last reader is an earlier pass, is not devirtualized at
that moment, and `Execute` of the pass does not return: a completed `Execute` of the pass
shows that each resource it transitions was devirtualized. -/
theorem devirtualized_when_transitioned (g g1 w : RGBuilder) (fencePack : RGFencePack)
    (pre post : List RGPass) (pass : RGPass) (r : Nat) (x : RGResource)
    (hf : g.Fresh) (hc : g.Compile = Outcome.ok g1) (hp : g1.passes = pre ++ pass :: post)
    (hw : forEach (RGBuilder.executePass (g1.context fencePack)) pre (g1.guarded fencePack) =
      Outcome.ok w)
    (hx : w.resources[r]? = some x) :
    (x.base.devirtualized = true ↔
      (g.forceUsedAt r = true ∨ ∃ q ∈ pass :: post, r ∈ q.base.reads)) ∧
    (∀ w', pass.Execute (g1.context fencePack) w = Outcome.ok w' →
      r ∈ pass.base.transitioned → x.base.devirtualized = true) := by
  obtain ⟨hconsw, hcount⟩ :=
    refCount_before_pass g g1 w fencePack pre (pass :: post) r x hf hc hp hw hx
  obtain ⟨hrc, hdev⟩ := hconsw.2 r x hx
  constructor
  · rw [hdev, hcount]
    constructor
    · intro hpos
      by_cases hfu : g.forceUsedAt r = true
      · exact Or.inl hfu
      · right
        simp only [hfu, if_false, add_zero] at hpos
        have hpos' : 0 < (pass :: post).countP fun q => decide (r ∈ q.base.reads) := by
          exact_mod_cast hpos
        obtain ⟨q, hq, hr⟩ := List.countP_pos_iff.mp hpos'
        exact ⟨q, hq, by simpa using hr⟩
    · rintro (hfu | ⟨q, hq, hr⟩)
      · simp only [hfu, if_true]
        have : (0 : Int) ≤ ((pass :: post).countP fun q => decide (r ∈ q.base.reads) : Nat) :=
          Int.natCast_nonneg _
        omega
      · have hpos : 0 < (pass :: post).countP fun q => decide (r ∈ q.base.reads) :=
          List.countP_pos_iff.mpr ⟨q, hq, by simpa using hr⟩
        have hpos' : (0 : Int) <
            ((pass :: post).countP fun q => decide (r ∈ q.base.reads) : Nat) := by
          exact_mod_cast hpos
        split <;> omega
  · intro w' he hr
    obtain ⟨_, _, ⟨evs, hevs, hk⟩, hcw⟩ := pass_execute_run pass _ w w' he
    have hlog := (hcw hconsw).1
    have hall : ∀ e ∈ evs, e.call = ResourceCall.transition := by
      intro e hmem
      have := call_of_mem_calls evs e hmem
      rw [hk, transitionCalls_eq] at this
      obtain ⟨_, _, heq⟩ := List.mem_map.mp this
      simp only [Prod.mk.injEq] at heq
      exact heq.2.symm
    have hmem : (r, ResourceCall.transition) ∈ calls evs := by
      rw [hk, transitionCalls_eq]
      exact List.mem_map.mpr ⟨r, hr, rfl⟩
    obtain ⟨e, hemem, heq⟩ := List.mem_map.mp hmem
    simp only [Prod.mk.injEq] at heq
    obtain ⟨A, B, hsplit⟩ := List.append_of_mem hemem
    obtain ⟨hcnt, hiff, htr⟩ := hlog (w.resourceEvents ++ A) e B
      (by rw [hevs, hsplit, List.append_assoc])
    have hd := htr heq.2
    have hpos := hiff.mp hd
    rw [hcnt, heq.1, List.append_assoc, netCount_append] at hpos
    have hzero : netCount (A ++ [e]) r = 0 := by
      have hsub : ∀ e' ∈ A ++ [e], e' ∈ evs := by
        intro e' hm
        rw [hsplit]
        rcases List.mem_append.mp hm with hm | hm
        · exact List.mem_append_left _ hm
        · rw [List.mem_singleton] at hm
          subst hm
          exact List.mem_append_right _ (List.mem_cons_self _ _)
      unfold netCount
      rw [callCount_eq_zero _ _ _ (fun e' hm hh => by
          have := hall e' (hsub e' hm)
          rw [this] at hh
          exact absurd hh.2 (by decide)),
        callCount_eq_zero _ _ _ (fun e' hm hh => by
          have := hall e' (hsub e' hm)
          rw [this] at hh
          exact absurd hh.2 (by decide))]
      simp
    rw [hzero, add_zero, ← hrc] at hpos
    exact hdev.mpr hpos


/-- C30, witness: the graph whose first pass writes the buffer and whose second pass reads it,
when the first pass has been executed and the second comes next. The buffer (resource 0), which
the second pass transitions, is devirtualized because that pass reads it. -/
theorem devirtualized_when_transitioned_witness :
    writeThenReadGraph.Fresh ∧
    writeThenReadGraph.Compile = Outcome.ok writeThenReadCompiled ∧
    writeThenReadCompiled.passes = [sampleWriterPass] ++ sampleReaderPass :: [] ∧
    forEach (RGBuilder.executePass (writeThenReadCompiled.context noFences)) [sampleWriterPass]
      (writeThenReadCompiled.guarded noFences) =
      Outcome.ok ((forEach (RGBuilder.executePass (writeThenReadCompiled.context noFences))
        [sampleWriterPass] (writeThenReadCompiled.guarded noFences)).stateD
          writeThenReadCompiled) ∧
    ((forEach (RGBuilder.executePass (writeThenReadCompiled.context noFences))
        [sampleWriterPass] (writeThenReadCompiled.guarded noFences)).stateD
          writeThenReadCompiled).resources[0]? =
      some (RGResource.buffer { sampleLiveBuffer with currentState := BufferState.storage }) ∧
    ((RGResource.buffer
        { sampleLiveBuffer with currentState := BufferState.storage }).base.devirtualized =
        true ↔
      (writeThenReadGraph.forceUsedAt 0 = true ∨
        ∃ q ∈ sampleReaderPass :: [], 0 ∈ q.base.reads)) ∧
    (∀ w', sampleReaderPass.Execute (writeThenReadCompiled.context noFences)
        ((forEach (RGBuilder.executePass (writeThenReadCompiled.context noFences))
          [sampleWriterPass] (writeThenReadCompiled.guarded noFences)).stateD
            writeThenReadCompiled) = Outcome.ok w' →
      0 ∈ sampleReaderPass.base.transitioned →
      (RGResource.buffer
        { sampleLiveBuffer with currentState := BufferState.storage }).base.devirtualized =
        true) :=
  ⟨by decide, by rfl, by rfl, by rfl, by rfl,
    devirtualized_when_transitioned writeThenReadGraph writeThenReadCompiled
      ((forEach (RGBuilder.executePass (writeThenReadCompiled.context noFences))
        [sampleWriterPass] (writeThenReadCompiled.guarded noFences)).stateD
          writeThenReadCompiled) noFences [sampleWriterPass] [] sampleReaderPass 0
      (RGResource.buffer { sampleLiveBuffer with currentState := BufferState.storage })
      (by decide) (by rfl) (by rfl) (by rfl) (by rfl)⟩

/-- C30, counterexample. Two graphs whose `Compile` succeeds and whose `Execute` is stopped by
the devirtualized assertion. In the graph whose only pass writes the buffer (resource 0) as
storage buffer, no pass reads the buffer: it is not devirtualized when the pass is to transition
it. In the graph whose first pass reads the buffer (resource 0) and whose second pass writes it,
the buffer's last reader is the first pass: the buffer is released when that pass ends and is
not devirtualized when the second pass is to transition it. -/
theorem unread_resources_stop_execute :
    writeOnlyGraph.Compile.isOk = true ∧
    (∃ s, writeOnlyGraph.Execute noFences = Outcome.fatal s ∧
      s.passes.map (fun pass => (pass.base.reads, pass.base.transitioned)) = [([], [0])] ∧
      s.resources.map (fun x => (x.base.forceUsed, x.base.devirtualized)) = [(false, false)] ∧
      s.timeline.getLast? = some (Step.command 0 Command.beginComputePass)) ∧
    readThenWriteGraph.Compile.isOk = true ∧
    (∃ s, readThenWriteGraph.Execute noFences = Outcome.fatal s ∧
      s.passes.map (fun pass => (pass.base.reads, pass.base.transitioned)) =
        [([0], [0]), ([], [0])] ∧
      s.resources.map (fun x => (x.base.forceUsed, x.base.devirtualized)) = [(false, false)] ∧
      s.timeline.getLast? = some (Step.command 0 Command.beginComputePass)) :=
  ⟨rfl, ⟨_, rfl, rfl, rfl, rfl⟩, rfl, ⟨_, rfl, rfl, rfl, rfl⟩⟩

end DevirtualizedAtPass


/-! ## C36: the read and write state classes -/

/-- C36. The buffer classes are disjoint: no buffer state is both a read state and a write
state. The texture classes are not: `IsTextureStateRead` and `IsTextureStateWrite` both hold of
shaderReadOnly, and of no other texture state. -/
theorem state_classes_overlap (bufferState : BufferState) (textureState : TextureState) :
    ¬ (Internal.IsBufferStateRead bufferState = true ∧
        Internal.IsBufferStateWrite bufferState = true) ∧
    (Internal.IsTextureStateRead TextureState.shaderReadOnly = true ∧
      Internal.IsTextureStateWrite TextureState.shaderReadOnly = true) ∧
    ((Internal.IsTextureStateRead textureState = true ∧
        Internal.IsTextureStateWrite textureState = true) ↔
      textureState = TextureState.shaderReadOnly) := by
  refine ⟨?_, ⟨rfl, rfl⟩, ?_⟩
  · cases bufferState <;> simp [Internal.IsBufferStateRead, Internal.IsBufferStateWrite]
  · cases textureState <;> simp [Internal.IsTextureStateRead, Internal.IsTextureStateWrite]

/-! ## C31: recording a buffer state in a pass -/

/-- C31. Recording a buffer state in a pass, for a pointer `b` to a buffer:
`SaveBufferTransitionInfo(b, s)` succeeds iff the pass has no entry for `b` yet, or `s` is a
read state and the state recorded for `b` is a write state. On success with no prior entry the
buffer map gains exactly `b ↦ s` at its end; on success with a prior entry both maps are
unchanged; in both cases `reads` gains `b` iff `s` is a read state, and nothing else changes.
Every other combination (a write over an entry, a read over a recorded state that is not a write
state, a state that is neither over an entry) fails fatally, and so does a null pointer. -/
theorem save_buffer_transition_info (self : RGPassBase) (b : Nat) (s : BufferState) :
    ((self.SaveBufferTransitionInfo (some b) s).isOk = true ↔
      (self.transitionInfos.buffer.lookup b = none ∨
        (Internal.IsBufferStateRead s = true ∧
          ∃ recorded, self.transitionInfos.buffer.lookup b = some recorded ∧
            Internal.IsBufferStateWrite recorded = true))) ∧
    (self.transitionInfos.buffer.lookup b = none →
      self.SaveBufferTransitionInfo (some b) s =
        Outcome.ok
          { name := self.name, type := self.type
            reads := if Internal.IsBufferStateRead s then setEmplace self.reads b else self.reads
            transitionInfos :=
              { buffer := self.transitionInfos.buffer ++ [(b, s)]
                texture := self.transitionInfos.texture } }) ∧
    (∀ recorded, self.transitionInfos.buffer.lookup b = some recorded →
      Internal.IsBufferStateRead s = true → Internal.IsBufferStateWrite recorded = true →
      self.SaveBufferTransitionInfo (some b) s =
        Outcome.ok { self with reads := setEmplace self.reads b }) ∧
    ((self.SaveBufferTransitionInfo (some b) s).isOk = false →
      (self.SaveBufferTransitionInfo (some b) s).isFatal = true) ∧
    (self.SaveBufferTransitionInfo none s).isFatal = true := by
  refine ⟨?_, ?_, ?_, ?_, rfl⟩
  · cases hl : self.transitionInfos.buffer.lookup b with
    | none => simp [saveBuffer_fresh self b s hl, Outcome.isOk]
    | some recorded =>
      rw [saveBuffer_recorded self b s recorded hl]
      have hdis : ¬ (Internal.IsBufferStateRead s = true ∧
          Internal.IsBufferStateWrite s = true) := by
        cases s <;> simp [Internal.IsBufferStateRead, Internal.IsBufferStateWrite]
      cases hsw : Internal.IsBufferStateWrite s <;> cases hsr : Internal.IsBufferStateRead s <;>
        cases hw : Internal.IsBufferStateWrite recorded <;>
        simp_all [Outcome.isOk, Assert]
  · intro hl
    exact saveBuffer_fresh self b s hl
  · intro recorded hl hr hw
    rw [saveBuffer_recorded self b s recorded hl]
    have hnw : Internal.IsBufferStateWrite s = false := by
      cases s <;> simp_all [Internal.IsBufferStateRead, Internal.IsBufferStateWrite]
    simp [hnw, hr, hw, Assert]
  · intro hnot
    cases hl : self.transitionInfos.buffer.lookup b with
    | none => simp [saveBuffer_fresh self b s hl, Outcome.isOk] at hnot
    | some recorded =>
      rw [saveBuffer_recorded self b s recorded hl] at hnot ⊢
      cases hw : Internal.IsBufferStateWrite s <;> cases hr : Internal.IsBufferStateRead s <;>
        cases hrec : Internal.IsBufferStateWrite recorded <;>
        simp_all [Assert, Outcome.isOk, Outcome.isFatal]


/-! ## C37: a second read of one buffer in a pass -/

section RepeatedRead

theorem save_ok_lookup_other (r : StateRequest) (s s' : RGPassBase) (b : Nat)
    (h : RGPassBase.save r s = Outcome.ok s') (hk : r.key ≠ MapKey.buffer b) :
    s'.transitionInfos.buffer.lookup b = s.transitionInfos.buffer.lookup b := by
  cases r with
  | buffer b' st =>
    have hne : b ≠ b' := by
      intro hb
      exact hk (by simp [StateRequest.key, hb])
    cases hl : s.transitionInfos.buffer.lookup b' with
    | none =>
      simp only [RGPassBase.save, saveBuffer_fresh s b' st hl, Outcome.ok.injEq] at h
      subst h
      exact lookup_append_ne_key _ b b' st hne
    | some recorded =>
      simp only [RGPassBase.save, saveBuffer_recorded s b' st recorded hl, Assert] at h
      split_ifs at h
      simp only [Outcome.ok.injEq] at h
      subst h
      rfl
  | texture t st =>
    cases hl : s.transitionInfos.texture.lookup t with
    | none =>
      simp only [RGPassBase.save, saveTexture_fresh s t st hl, Outcome.ok.injEq] at h
      subst h
      rfl
    | some recorded =>
      simp only [RGPassBase.save, saveTexture_recorded s t st recorded hl, Assert] at h
      split_ifs at h
      simp only [Outcome.ok.injEq] at h
      subst h
      rfl

/-- Over an entry whose state is not a write state every request for the same buffer fails. -/
theorem save_over_nonwrite (s : RGPassBase) (b : Nat) (st recorded : BufferState)
    (hl : s.transitionInfos.buffer.lookup b = some recorded)
    (hrec : Internal.IsBufferStateWrite recorded = false) (s' : RGPassBase) :
    RGPassBase.save (StateRequest.buffer b st) s ≠ Outcome.ok s' := by
  simp only [RGPassBase.save, saveBuffer_recorded s b st recorded hl]
  cases Internal.IsBufferStateWrite st <;> cases Internal.IsBufferStateRead st <;>
    simp [Assert, hrec]

/-- When the requests of a list are all made, a buffer none of whose requests is for a write
state, and for which a recorded state could only be a state that is not a write state, has at
most one request, and none if it has an entry already. -/
theorem saveAll_ok_nonwrite (b : Nat) (rs : List StateRequest) :
    ∀ s s', RGPassBase.saveAll rs s = Outcome.ok s' →
      (∀ r ∈ rs, r.key = MapKey.buffer b → r.isWrite = false) →
      (∀ recorded, s.transitionInfos.buffer.lookup b = some recorded →
        Internal.IsBufferStateWrite recorded = false) →
      (rs.filter fun r => decide (r.key = MapKey.buffer b)).length ≤
        if (s.transitionInfos.buffer.lookup b).isSome then 0 else 1 := by
  induction rs with
  | nil => intro s s' _ _ _; split <;> simp
  | cons r rs ih =>
    intro s s' h hnw hrec
    simp only [RGPassBase.saveAll, forEach] at h
    obtain ⟨s1, h1, h2⟩ := (andThen_eq_ok _ _ _).mp h
    have hnw' : ∀ r' ∈ rs, r'.key = MapKey.buffer b → r'.isWrite = false :=
      fun r' hr' => hnw r' (List.mem_cons_of_mem _ hr')
    by_cases hk : r.key = MapKey.buffer b
    · cases r with
      | texture t st => simp [StateRequest.key] at hk
      | buffer b' st =>
        have hb : b' = b := by simpa [StateRequest.key] using hk
        subst hb
        have hst : Internal.IsBufferStateWrite st = false :=
          hnw _ (List.mem_cons_self _ _) hk
        cases hl : s.transitionInfos.buffer.lookup b' with
        | some recorded => exact absurd h1 (save_over_nonwrite s b' st recorded hl (hrec _ hl) s1)
        | none =>
          have hl1 : s1.transitionInfos.buffer.lookup b' = some st := by
            simp only [RGPassBase.save, saveBuffer_fresh s b' st hl, Outcome.ok.injEq] at h1
            subst h1
            exact lookup_append_fresh _ b' st hl
          have := ih s1 s' h2 hnw' (fun recorded hr => by
            rw [hl1] at hr
            simp only [Option.some.injEq] at hr
            subst hr
            exact hst)
          simp only [hl1, Option.isSome_some, if_true, Nat.le_zero] at this
          simp [List.filter_cons, hk, this]
    · have hsame := save_ok_lookup_other r s s1 b h1 hk
      have := ih s1 s' h2 hnw' (fun recorded hr => hrec recorded (by rw [← hsame]; exact hr))
      rw [hsame] at this
      simpa [List.filter_cons, hk] using this

end RepeatedRead

/-- C37. Reading the same buffer twice in one pass is rejected: for every pass whose pointers
designate objects of the graph, that has no entry for buffer B yet, and whose `Compile` makes at
least two requests for B in state shaderReadOnly (B is bound as UniformBuffer by two bindings, in
one bind group or in two) and no request for B in a write state (B is not bound as a storage
buffer), `Compile` fails fatally: the first request for B records a read state, and every later
request for B finds a recorded state that is not a write state. -/
theorem repeated_read_fails (g : RGBuilder) (pass : RGPass) (info : RGAsyncInfo)
    (rs : List StateRequest) (B : Nat) (hrs : g.requests? pass = some rs)
    (hfresh : pass.base.transitionInfos.buffer.lookup B = none)
    (htwice : 2 ≤ rs.count (StateRequest.buffer B BufferState.shaderReadOnly))
    (hnw : ∀ st, Internal.IsBufferStateWrite st = true → StateRequest.buffer B st ∉ rs) :
    (pass.Compile g info).isFatal = true := by
  have h := compile_requests g pass info rs hrs
  cases hc : RGPassBase.saveAll rs pass.base with
  | ok s' =>
    have hle := saveAll_ok_nonwrite B rs pass.base s' hc
      (fun r hr hk => by
        cases r with
        | texture t st => simp [StateRequest.key] at hk
        | buffer b st =>
          have hb : b = B := by simpa [StateRequest.key] using hk
          subst hb
          cases hw : Internal.IsBufferStateWrite st
          · exact hw
          · exact absurd hr (hnw st hw))
      (fun recorded hr => by rw [hfresh] at hr; exact absurd hr (by simp))
    simp only [hfresh, Option.isSome_none, Bool.false_eq_true, if_false] at hle
    have hcount : rs.count (StateRequest.buffer B BufferState.shaderReadOnly) ≤
        (rs.filter fun r => decide (r.key = MapKey.buffer B)).length := by
      rw [List.count_eq_countP, List.countP_eq_length_filter]
      apply List.Sublist.length_le
      apply List.monotone_filter_right
      intro r hr
      have : r = StateRequest.buffer B BufferState.shaderReadOnly := by simpa using hr
      subst this
      simp [StateRequest.key]
    omega
  | fatal s' =>
    rw [hc] at h
    rw [← isFatal_lift (pass.Compile g info) (fun x => x.1.base), h]
    rfl
  | undefinedBehaviour => exact absurd hc (saveAll_ne_undefined rs _)

/-- C37, witness: on a builder whose bind group 0 binds buffer 0 as uniform buffer under two
names and whose bind group 1 binds it as uniform buffer once, a compute pass constructed with
bind group 0, and one constructed with bind groups 1 and 1. -/
theorem repeated_read_fails_witness :
    (sampleReadTwice.requests? (RGPass.compute (RGComputePass.new "pass" [some 0] 7 false)) =
        some [StateRequest.buffer 0 BufferState.shaderReadOnly,
          StateRequest.buffer 0 BufferState.shaderReadOnly] ∧
      ((RGPass.compute (RGComputePass.new "pass" [some 0] 7 false)).Compile sampleReadTwice
        RGAsyncInfo.new).isFatal = true) ∧
    (sampleReadTwice.requests? (RGPass.compute (RGComputePass.new "pass" [some 1, some 1] 7 false)) =
        some [StateRequest.buffer 0 BufferState.shaderReadOnly,
          StateRequest.buffer 0 BufferState.shaderReadOnly] ∧
      ((RGPass.compute (RGComputePass.new "pass" [some 1, some 1] 7 false)).Compile
        sampleReadTwice RGAsyncInfo.new).isFatal = true) :=
  ⟨⟨by rfl, repeated_read_fails sampleReadTwice _ RGAsyncInfo.new _ 0 (by rfl) (by rfl)
      (by decide) (by intro st hw; cases st <;> simp_all [Internal.IsBufferStateWrite])⟩,
    ⟨by rfl, repeated_read_fails sampleReadTwice _ RGAsyncInfo.new _ 0 (by rfl) (by rfl)
      (by decide) (by intro st hw; cases st <;> simp_all [Internal.IsBufferStateWrite])⟩⟩


/-! ## C34: the lifetime invariant with the pooled handle -/

section Lifetime

theorem live_of_constructed (r : RGResource) (hc : r.Constructed) :
    r.Live ∧ r.base.refCount = 0 := by
  rcases hc with ⟨d, rfl⟩ | ⟨d, rfl⟩ | ⟨h, rfl⟩ | ⟨h, rfl⟩ <;>
    simp [RGResource.Live, RGResource.base, RGResource.pooled, RGBuffer.new, RGTexture.new,
      RGBuffer.newImported, RGTexture.newImported, RGResourceBase.new]

/-- An increment keeps the lifetime invariant, and returns. -/
theorem inc_keeps_live (r : RGResource) (device : Pools) (h : r.Live) :
    ∃ r' device', r.IncRefCountAndUpdateResource device = Outcome.ok (r', device') ∧ r'.Live ∧
      r'.base.refCount = r.base.refCount + 1 ∧ r'.base.imported = r.base.imported ∧
      r'.base.forceUsed = r.base.forceUsed := by
  obtain ⟨hd, hp⟩ := h
  by_cases h0 : r.base.refCount = 0
  · have hdv : r.base.devirtualized = false := by
      cases hdv : r.base.devirtualized
      · rfl
      · have := hd.mp hdv
        omega
    cases r with
    | buffer b =>
      have h0' : b.refCount = 0 := h0
      have hdv' : b.devirtualized = false := hdv
      rw [inc_buffer_zero b device h0' hdv']
      cases hi : b.imported <;>
        simp [RGResource.Live, RGResource.base, RGResource.pooled, h0', hi]
    | texture t =>
      have h0' : t.refCount = 0 := h0
      have hdv' : t.devirtualized = false := hdv
      rw [inc_texture_zero t device h0' hdv']
      cases hi : t.imported <;>
        simp [RGResource.Live, RGResource.base, RGResource.pooled, h0', hi]
  · rw [inc_of_pos r device h0]
    refine ⟨_, _, rfl, ⟨?_, ?_⟩, ?_, ?_, ?_⟩
    · have : (r.setBase { r.base with refCount := r.base.refCount + 1 }).base.devirtualized =
          r.base.devirtualized := by cases r <;> rfl
      have hr : (r.setBase { r.base with refCount := r.base.refCount + 1 }).base.refCount =
          r.base.refCount + 1 := by cases r <;> rfl
      rw [this, hr, hd]
      omega
    · intro hi
      have hi' : r.base.imported = false := by
        cases r <;> exact hi
      have : (r.setBase { r.base with refCount := r.base.refCount + 1 }).pooled = r.pooled := by
        cases r <;> rfl
      have hr : (r.setBase { r.base with refCount := r.base.refCount + 1 }).base.refCount =
          r.base.refCount + 1 := by cases r <;> rfl
      rw [this, hr, hp hi']
      omega
    · cases r <;> rfl
    · cases r <;> rfl
    · cases r <;> rfl

/-- A decrement keeps the lifetime invariant, and returns. -/
theorem dec_keeps_live (r : RGResource) (device : Pools) (h : r.Live) :
    ∃ r' device', r.DecRefAndUpdateResource device = Outcome.ok (r', device') ∧ r'.Live ∧
      r'.base.refCount = r.base.refCount - 1 ∧ r'.base.imported = r.base.imported ∧
      r'.base.forceUsed = r.base.forceUsed := by
  obtain ⟨hd, hp⟩ := h
  by_cases h1 : r.base.refCount = 1
  · have hdv : r.base.devirtualized = true := hd.mpr (by omega)
    cases r with
    | buffer b =>
      have h1' : b.refCount = 1 := h1
      have hdv' : b.devirtualized = true := hdv
      rw [dec_buffer_one b device h1' hdv']
      cases hi : b.imported <;>
        simp [RGResource.Live, RGResource.base, RGResource.pooled, h1', hi]
    | texture t =>
      have h1' : t.refCount = 1 := h1
      have hdv' : t.devirtualized = true := hdv
      rw [dec_texture_one t device h1' hdv']
      cases hi : t.imported <;>
        simp [RGResource.Live, RGResource.base, RGResource.pooled, h1', hi]
  · rw [dec_of_ne_one r device h1]
    refine ⟨_, _, rfl, ⟨?_, ?_⟩, ?_, ?_, ?_⟩
    · have : (r.setBase { r.base with refCount := r.base.refCount - 1 }).base.devirtualized =
          r.base.devirtualized := by cases r <;> rfl
      have hr : (r.setBase { r.base with refCount := r.base.refCount - 1 }).base.refCount =
          r.base.refCount - 1 := by cases r <;> rfl
      rw [this, hr, hd]
      omega
    · intro hi
      have hi' : r.base.imported = false := by
        cases r <;> exact hi
      have : (r.setBase { r.base with refCount := r.base.refCount - 1 }).pooled = r.pooled := by
        cases r <;> rfl
      have hr : (r.setBase { r.base with refCount := r.base.refCount - 1 }).base.refCount =
          r.base.refCount - 1 := by cases r <;> rfl
      rw [this, hr, hp hi']
      omega
    · cases r <;> rfl
    · cases r <;> rfl
    · cases r <;> rfl

/-- Along a sequence of lifetime calls that applies no decrement at refCount 0, every call
returns, the lifetime invariant is kept and the refCount stays non-negative. -/
theorem runOps_keeps_live (ops : List RefOp) :
    ∀ s : RGResource × Pools, s.1.Live → 0 ≤ s.1.base.refCount →
      RGResource.noDecrementAtZero ops s = true →
      ∃ s', RGResource.runOps ops s = Outcome.ok s' ∧ s'.1.Live ∧ 0 ≤ s'.1.base.refCount ∧
        s'.1.base.imported = s.1.base.imported := by
  induction ops with
  | nil => intro s hl h0 _; exact ⟨s, rfl, hl, h0, rfl⟩
  | cons op ops ih =>
    intro s hl h0 hz
    obtain ⟨r, device⟩ := s
    have h0' : 0 ≤ r.base.refCount := h0
    simp only [RGResource.noDecrementAtZero, Bool.and_eq_true, Bool.not_eq_true',
      Bool.and_eq_false_iff, decide_eq_false_iff_not] at hz
    obtain ⟨hnz, hrest⟩ := hz
    cases op with
    | inc =>
      obtain ⟨r', device', he, hl', hr', hi', _⟩ := inc_keeps_live r device hl
      have he' : RGResource.applyOp RefOp.inc (r, device) = Outcome.ok (r', device') := he
      rw [he'] at hrest
      obtain ⟨s2, h2, hl2, h02, hi2⟩ := ih (r', device') hl' (by simp only [hr']; omega) hrest
      refine ⟨s2, ?_, hl2, h02, hi2.trans hi'⟩
      simp only [RGResource.runOps, forEach, he', Outcome.andThen] at h2 ⊢
      exact h2
    | dec =>
      obtain ⟨r', device', he, hl', hr', hi', _⟩ := dec_keeps_live r device hl
      have he' : RGResource.applyOp RefOp.dec (r, device) = Outcome.ok (r', device') := he
      rw [he'] at hrest
      have hne : r.base.refCount ≠ 0 := by
        rcases hnz with hnz | hnz
        · exact absurd rfl hnz
        · exact hnz
      obtain ⟨s2, h2, hl2, h02, hi2⟩ := ih (r', device') hl' (by simp only [hr']; omega) hrest
      refine ⟨s2, ?_, hl2, h02, hi2.trans hi'⟩
      simp only [RGResource.runOps, forEach, he', Outcome.andThen] at h2 ⊢
      exact h2

end Lifetime

/-- C34. For every resource as one of its constructors leaves it (created or imported) and
every sequence of IncRefCountAndUpdateResource / DecRefAndUpdateResource calls that applies no
decrement at refCount 0: every call returns, the refCount is never negative, and in the state
reached the resource is devirtualized iff its refCount is positive, whether it is imported or
not, and, if it is not imported, its pooled handle is non-empty iff its refCount is positive. -/
theorem lifetime_invariant (r0 : RGResource) (pools : Pools) (ops : List RefOp)
    (hc : r0.Constructed) (hz : RGResource.noDecrementAtZero ops (r0, pools) = true) :
    ∃ r pools', RGResource.runOps ops (r0, pools) = Outcome.ok (r, pools') ∧
      0 ≤ r.base.refCount ∧
      (r.base.devirtualized = true ↔ 0 < r.base.refCount) ∧
      (r.base.imported = false → (r.pooled.isSome = true ↔ 0 < r.base.refCount)) ∧
      r.base.imported = r0.base.imported := by
  obtain ⟨hl, h0⟩ := live_of_constructed r0 hc
  obtain ⟨⟨r, pools'⟩, hrun, hlive, hnn, himp⟩ :=
    runOps_keeps_live ops (r0, pools) hl (by simp only [h0]; exact le_refl _) hz
  exact ⟨r, pools', hrun, hnn, hlive.1, hlive.2, himp⟩

/-- C34, witness: a created texture and an imported buffer, each taken through inc, inc, dec,
dec, inc. -/
theorem lifetime_invariant_witness :
    (RGResource.Constructed (RGResource.texture (RGTexture.new sampleTextureDesc)) ∧
      RGResource.noDecrementAtZero [RefOp.inc, RefOp.inc, RefOp.dec, RefOp.dec, RefOp.inc]
        (RGResource.texture (RGTexture.new sampleTextureDesc), emptyPools) = true ∧
      ∃ r pools', RGResource.runOps [RefOp.inc, RefOp.inc, RefOp.dec, RefOp.dec, RefOp.inc]
          (RGResource.texture (RGTexture.new sampleTextureDesc), emptyPools) =
            Outcome.ok (r, pools') ∧
        0 ≤ r.base.refCount ∧
        (r.base.devirtualized = true ↔ 0 < r.base.refCount) ∧
        (r.base.imported = false → (r.pooled.isSome = true ↔ 0 < r.base.refCount)) ∧
        r.base.imported = false) ∧
    (RGResource.Constructed (RGResource.buffer (RGBuffer.newImported sampleDeviceBuffer)) ∧
      RGResource.noDecrementAtZero [RefOp.inc, RefOp.inc, RefOp.dec, RefOp.dec, RefOp.inc]
        (RGResource.buffer (RGBuffer.newImported sampleDeviceBuffer), emptyPools) = true ∧
      ∃ r pools', RGResource.runOps [RefOp.inc, RefOp.inc, RefOp.dec, RefOp.dec, RefOp.inc]
          (RGResource.buffer (RGBuffer.newImported sampleDeviceBuffer), emptyPools) =
            Outcome.ok (r, pools') ∧
        0 ≤ r.base.refCount ∧
        (r.base.devirtualized = true ↔ 0 < r.base.refCount) ∧
        (r.base.imported = false → (r.pooled.isSome = true ↔ 0 < r.base.refCount)) ∧
        r.base.imported = true) :=
  ⟨⟨Or.inr (Or.inl ⟨sampleTextureDesc, rfl⟩), by decide,
      lifetime_invariant _ _ _ (Or.inr (Or.inl ⟨sampleTextureDesc, rfl⟩)) (by decide)⟩,
    ⟨Or.inr (Or.inr (Or.inl ⟨sampleDeviceBuffer, rfl⟩)), by decide,
      lifetime_invariant _ _ _ (Or.inr (Or.inr (Or.inl ⟨sampleDeviceBuffer, rfl⟩)))
        (by decide)⟩⟩


/-! ## C38: the layout of a shader set -/

/-- C38. `PipelineLayoutCache::GetLayout` called with a compute or a raster shader set returns
null, whatever the cache and the shader set are (its body touches no member of the cache, so
the embedding gives it no cache to return). Consequently the constructor of every
ComputePipelineState and RasterPipelineState receives the null pointer and follows it in
`pipelineLayout->GetRHI()`; every `GetPipeline` call that misses runs that constructor and does
not return, and a `GetPipeline` call that returns found its object in the map and left the cache
as it was. -/
theorem shader_set_layout_is_null (hasher : List Nat → Nat)
    (layouts : Render.PipelineLayoutCache) (cache : Render.PipelineCache)
    (computeDesc : Render.ComputePipelineStateDesc) (rasterDesc : Render.RasterPipelineStateDesc)
    (address hash : Nat) :
    layouts.GetLayoutOfComputeShaders computeDesc.shaders = none ∧
    layouts.GetLayoutOfRasterShaders rasterDesc.shaders = none ∧
    Render.ComputePipelineState.new layouts address computeDesc hash =
      Outcome.undefinedBehaviour ∧
    Render.RasterPipelineState.new layouts address rasterDesc hash =
      Outcome.undefinedBehaviour ∧
    (cache.computePipelines.lookup (computeDesc.Hash hasher) = none →
      cache.GetPipeline hasher layouts computeDesc = Outcome.undefinedBehaviour) ∧
    (cache.rasterPipelines.lookup (rasterDesc.Hash hasher) = none →
      cache.GetRasterPipeline hasher layouts rasterDesc = Outcome.undefinedBehaviour) ∧
    (∀ pipeline cache', cache.GetPipeline hasher layouts computeDesc =
        Outcome.ok (pipeline, cache') →
      cache' = cache ∧ cache.computePipelines.lookup (computeDesc.Hash hasher) = some pipeline) ∧
    (∀ pipeline cache', cache.GetRasterPipeline hasher layouts rasterDesc =
        Outcome.ok (pipeline, cache') →
      cache' = cache ∧ cache.rasterPipelines.lookup (rasterDesc.Hash hasher) = some pipeline) :=
  ⟨rfl, rfl, rfl, rfl, getPipeline_miss hasher layouts cache computeDesc,
    getRasterPipeline_miss hasher layouts cache rasterDesc,
    fun pipeline cache' h => getPipeline_ok hasher layouts cache cache' computeDesc pipeline h,
    fun pipeline cache' h =>
      getRasterPipeline_ok hasher layouts cache cache' rasterDesc pipeline h⟩


/-! ## C39, C40: conversion between half and float -/

section Half

open Common

theorem or_implicit_one (m : Nat) (hm : m < 2 ^ 23) : m ||| 0x800000 = m + 8388608 := by
  have h := Nat.mul_add_lt_is_or hm 1
  rw [Nat.or_comm]
  simp only [Nat.reducePow, Nat.mul_one] at h
  rw [← h]
  omega

/-- The round-up test of `Set` fails for every 10-bit mantissa: the shift is by 13 or more. -/
theorem roundsUp_false (mantissa : Nat) (newExp : Int) (hm : mantissa < 2 ^ 10)
    (he : newExp ≤ 0) : HalfFloat.roundsUp mantissa newExp = false := by
  have hs : 13 ≤ (13 - newExp).toNat := by omega
  have hlt : mantissa < 2 ^ (13 - newExp).toNat :=
    lt_of_lt_of_le hm (Nat.pow_le_pow_right (by decide) (by omega))
  simp [HalfFloat.roundsUp, Nat.shiftRight_eq_div_pow, Nat.div_eq_of_lt hlt]

theorem set_of_small (self : HalfFloat) (full : FullFloat) (h : full.exponent ≤ 101) :
    self.Set full = { mantissa := 0, exponent := 0, sign := full.sign % 2 } := by
  have h1 : full.exponent ≤ 112 := by omega
  have h2 : ¬ (14 - ((full.exponent : Int) - 127 + 15) ≤ 24) := by omega
  simp [HalfFloat.Set, h1, h2]

theorem set_of_subnormal (self : HalfFloat) (full : FullFloat) (hm : full.mantissa < 2 ^ 23)
    (h1 : 102 ≤ full.exponent) (h2 : full.exponent ≤ 112) :
    self.Set full =
      { mantissa := (full.mantissa + 2 ^ 23) / 2 ^ (126 - full.exponent), exponent := 0,
        sign := full.sign % 2 } := by
  have hc : 14 - ((full.exponent : Int) - 127 + 15) ≤ 24 := by omega
  have hs : (14 - ((full.exponent : Int) - 127 + 15)).toNat = 126 - full.exponent := by omega
  have hlt : (full.mantissa + 8388608) / 2 ^ (126 - full.exponent) < 2 ^ 10 := by
    rw [Nat.div_lt_iff_lt_mul (Nat.pos_pow_of_pos _ (by decide))]
    calc full.mantissa + 8388608 < 2 ^ 10 * 2 ^ 14 := by
          have : full.mantissa < 8388608 := hm
          norm_num
          omega
      _ ≤ 2 ^ 10 * 2 ^ (126 - full.exponent) :=
          Nat.mul_le_mul_left _ (Nat.pow_le_pow_right (by decide) (by omega))
  have hmod : (full.mantissa + 8388608) % 4294967296 = full.mantissa + 8388608 := by
    have : full.mantissa < 8388608 := hm
    omega
  have hru := roundsUp_false ((full.mantissa + 8388608) / 2 ^ (126 - full.exponent))
    ((full.exponent : Int) - 127 + 15) hlt (by omega)
  have hm16 : (full.mantissa + 8388608) / 2 ^ (126 - full.exponent) % 65536 % 1024 =
      (full.mantissa + 8388608) / 2 ^ (126 - full.exponent) := by
    rw [Nat.mod_eq_of_lt (lt_trans hlt (by decide))]
    exact Nat.mod_eq_of_lt hlt
  simp only [HalfFloat.Set, h2, if_true, hc, or_implicit_one _ hm, hs, Nat.reducePow, hmod,
    Nat.shiftRight_eq_div_pow, hm16, hru, Bool.false_eq_true, if_false]

theorem set_of_normal (self : HalfFloat) (full : FullFloat) (hm : full.mantissa < 2 ^ 23)
    (h1 : 113 ≤ full.exponent) (h2 : full.exponent ≤ 142) :
    self.Set full =
      { mantissa := full.mantissa / 2 ^ 13, exponent := full.exponent - 112,
        sign := full.sign % 2 } := by
  have hn1 : ¬ full.exponent ≤ 112 := by omega
  have hn2 : ¬ full.exponent ≥ 143 := by omega
  have he : ((((full.exponent : Int) - 127 + 15) % 2 ^ 16).toNat) % 2 ^ 5 =
      full.exponent - 112 := by omega
  have hmm : full.mantissa / 2 ^ 13 % 2 ^ 16 % 2 ^ 10 = full.mantissa / 2 ^ 13 := by
    have : full.mantissa < 8388608 := hm
    omega
  simp only [HalfFloat.Set, hn1, hn2, if_false, he, Nat.shiftRight_eq_div_pow, hmm]

theorem set_of_large (self : HalfFloat) (full : FullFloat) (h : 143 ≤ full.exponent) :
    self.Set full = { mantissa := 1023, exponent := 30, sign := full.sign % 2 } := by
  have hn1 : ¬ full.exponent ≤ 112 := by omega
  simp [HalfFloat.Set, hn1, h]

theorem asFloat_of_zero (h : HalfFloat) (he : h.exponent = 0) (hm : h.mantissa = 0) :
    h.AsFloat = { mantissa := 0, exponent := 0, sign := h.sign % 2 } := by
  simp [HalfFloat.AsFloat, he, hm]

theorem asFloat_of_subnormal (h : HalfFloat) (he : h.exponent = 0) (hm : h.mantissa ≠ 0)
    (hr : h.mantissa < 2 ^ 10) :
    h.AsFloat =
      { mantissa := h.mantissa * 2 ^ (23 - Nat.log2 h.mantissa) - 2 ^ 23
        exponent := 103 + Nat.log2 h.mantissa, sign := h.sign % 2 } := by
  obtain ⟨m, e, s⟩ := h
  simp only at he hm hr
  have hk : Nat.log2 m < 10 := (Nat.log2_lt hm).mpr hr
  have hlo : 2 ^ Nat.log2 m ≤ m := Nat.log2_self_le hm
  have hhi : m < 2 ^ (Nat.log2 m + 1) := Nat.lt_log2_self
  simp only [HalfFloat.AsFloat, he, if_true, hm, if_false, Nat.shiftLeft_eq]
  generalize Nat.log2 m = k at hk hlo hhi ⊢
  interval_cases k <;> simp only [Nat.reducePow] at hlo hhi ⊢ <;> norm_num <;> omega

theorem asFloat_of_normal (h : HalfFloat) (h1 : 1 ≤ h.exponent) (h2 : h.exponent ≤ 30)
    (hr : h.mantissa < 2 ^ 10) :
    h.AsFloat =
      { mantissa := h.mantissa * 2 ^ 13, exponent := h.exponent + 112, sign := h.sign % 2 } := by
  have hn1 : ¬ h.exponent = 0 := by omega
  have hn2 : ¬ h.exponent = 31 := by omega
  have he : ((h.exponent : Int) - 15 + 127).toNat % 2 ^ 8 = h.exponent + 112 := by omega
  have hmm : h.mantissa * 2 ^ 13 % 2 ^ 32 % 2 ^ 23 = h.mantissa * 2 ^ 13 := by
    have : h.mantissa < 1024 := hr
    omega
  simp only [HalfFloat.AsFloat, hn1, hn2, if_false, he, Nat.shiftLeft_eq, hmm]

end Half

/-- C39. Half-float round trip at the bit level: for every half whose fields fit their widths and
whose exponent field is not 31 (zeros, subnormals and normals of either sign), whatever the half
object `Set` is called on held before, converting the half to float with `AsFloat` and back with
`Set` yields exactly its sign, exponent and mantissa fields; the float in between has fields
that fit their widths. The binary logarithm of the subnormal mantissa is the integer floor
logarithm. -/
theorem half_round_trip (self h : Common.HalfFloat) (hr : h.InRange)
    (he : h.exponent ≠ 31) : self.Set h.AsFloat = h ∧ h.AsFloat.InRange := by
  obtain ⟨m, e, s⟩ := h
  obtain ⟨hm, hexp, hs⟩ := hr
  simp only at hm hexp hs he
  have hs2 : s % 2 = s := Nat.mod_eq_of_lt hs
  by_cases he0 : e = 0
  · subst he0
    by_cases hm0 : m = 0
    · subst hm0
      rw [asFloat_of_zero _ rfl rfl, set_of_small _ _ (Nat.zero_le _)]
      simp only [hs2, Nat.mod_mod, true_and]
      exact ⟨by norm_num, by norm_num, hs⟩
    · have hk : Nat.log2 m < 10 := (Nat.log2_lt hm0).mpr hm
      have hlo : 2 ^ Nat.log2 m ≤ m := Nat.log2_self_le hm0
      have hhi : m < 2 ^ (Nat.log2 m + 1) := Nat.lt_log2_self
      rw [asFloat_of_subnormal _ rfl hm0 hm]
      generalize Nat.log2 m = k at hk hlo hhi ⊢
      have hM : m * 2 ^ (23 - k) - 2 ^ 23 < 2 ^ 23 := by
        interval_cases k <;> simp only [Nat.reducePow] at hlo hhi ⊢ <;> omega
      rw [set_of_subnormal _ _ (by simp only; exact hM) (by simp only; omega)
        (by simp only; omega)]
      simp only [hs2, Nat.mod_mod]
      refine ⟨?_, by simp only; exact hM, by simp only [Nat.reducePow]; omega,
        hs⟩
      congr 1
      interval_cases k <;> simp only [Nat.reducePow] at hlo hhi ⊢ <;> omega
  · have h1 : 1 ≤ e := by omega
    have h30 : e ≤ 30 := by
      have : e < 32 := hexp
      omega
    rw [asFloat_of_normal _ h1 h30 hm]
    have hM : m * 2 ^ 13 < 2 ^ 23 := by
      have : m < 1024 := hm
      simp only [Nat.reducePow]
      omega
    rw [set_of_normal _ _ (by simp only; exact hM) (by simp only; omega)
      (by simp only; omega)]
    simp only [hs2, Nat.mod_mod]
    refine ⟨?_, by simp only; exact hM, by simp only [Nat.reducePow]; omega,
      hs⟩
    congr 1
    simp only [Nat.reducePow]
    omega

/-- C39, witness: the smallest negative subnormal half, mantissa 1; as a float it has exponent
field 103 and mantissa field 0. -/
theorem half_round_trip_witness :
    Common.HalfFloat.InRange { mantissa := 1, exponent := 0, sign := 1 } ∧
    (1 : Nat) ≠ 31 ∧
    Common.HalfFloat.AsFloat { mantissa := 1, exponent := 0, sign := 1 } =
      { mantissa := 0, exponent := 103, sign := 1 } ∧
    Common.HalfFloat.Set { mantissa := 1023, exponent := 31, sign := 0 }
      (Common.HalfFloat.AsFloat { mantissa := 1, exponent := 0, sign := 1 }) =
      { mantissa := 1, exponent := 0, sign := 1 } :=
  ⟨by decide, by decide, by simp [Common.HalfFloat.AsFloat, Nat.log2],
    (half_round_trip { mantissa := 1023, exponent := 31, sign := 0 }
      { mantissa := 1, exponent := 0, sign := 1 } (by decide) (by decide)).1⟩

/-- C40. `HalfFloat::Set` saturates and never produces an infinity or NaN encoding: for every
float bit pattern, whatever the half object held before, the resulting half has the float's sign
bit, an exponent field in 0..30 and a mantissa field of 10 bits; a float with exponent field 143
or more (infinities and NaNs included) gives exponent 30 with mantissa 1023; a float with
exponent field 101 or less gives a zero; a float with exponent field e in 102..112 gives
exponent 0 with the mantissa (2^23 + m) / 2^(126 - e), rounded down, and one with e in 113..142
gives exponent e - 112 with the mantissa m / 2^13, rounded down; and the round-up test of the
subnormal branch fails for every 10-bit mantissa, so `value++` is never executed. -/
theorem set_saturates (self : Common.HalfFloat) (bits : Nat) :
    (self.Set (Common.FullFloat.ofBits bits)).sign = (Common.FullFloat.ofBits bits).sign ∧
    (self.Set (Common.FullFloat.ofBits bits)).exponent ≤ 30 ∧
    (self.Set (Common.FullFloat.ofBits bits)).mantissa < 2 ^ 10 ∧
    (143 ≤ (Common.FullFloat.ofBits bits).exponent →
      (self.Set (Common.FullFloat.ofBits bits)).exponent = 30 ∧
      (self.Set (Common.FullFloat.ofBits bits)).mantissa = 1023) ∧
    ((Common.FullFloat.ofBits bits).exponent ≤ 101 →
      (self.Set (Common.FullFloat.ofBits bits)).exponent = 0 ∧
      (self.Set (Common.FullFloat.ofBits bits)).mantissa = 0) ∧
    (102 ≤ (Common.FullFloat.ofBits bits).exponent →
      (Common.FullFloat.ofBits bits).exponent ≤ 112 →
      (self.Set (Common.FullFloat.ofBits bits)).exponent = 0 ∧
      (self.Set (Common.FullFloat.ofBits bits)).mantissa =
        ((Common.FullFloat.ofBits bits).mantissa + 2 ^ 23) /
          2 ^ (126 - (Common.FullFloat.ofBits bits).exponent)) ∧
    (113 ≤ (Common.FullFloat.ofBits bits).exponent →
      (Common.FullFloat.ofBits bits).exponent ≤ 142 →
      (self.Set (Common.FullFloat.ofBits bits)).exponent =
        (Common.FullFloat.ofBits bits).exponent - 112 ∧
      (self.Set (Common.FullFloat.ofBits bits)).mantissa =
        (Common.FullFloat.ofBits bits).mantissa / 2 ^ 13) ∧
    (∀ (mantissa : Nat) (newExp : Int), mantissa < 2 ^ 10 → newExp ≤ 0 →
      Common.HalfFloat.roundsUp mantissa newExp = false) := by
  have hm : (Common.FullFloat.ofBits bits).mantissa < 2 ^ 23 := Nat.mod_lt _ (by norm_num)
  have hs : (Common.FullFloat.ofBits bits).sign % 2 = (Common.FullFloat.ofBits bits).sign := by
    simp [Common.FullFloat.ofBits]
  generalize Common.FullFloat.ofBits bits = full at hm hs
  have c1 := set_of_small self full
  have c2 := set_of_subnormal self full hm
  have c3 := set_of_normal self full hm
  have c4 := set_of_large self full
  refine ⟨?_, ?_, ?_, ?_, ?_, ?_, ?_, roundsUp_false⟩
  · rcases Nat.lt_or_ge full.exponent 102 with h | h
    · rw [c1 (by omega)]; exact hs
    · rcases Nat.lt_or_ge full.exponent 113 with h' | h'
      · rw [c2 h (by omega)]; exact hs
      · rcases Nat.lt_or_ge full.exponent 143 with h'' | h''
        · rw [c3 h' (by omega)]; exact hs
        · rw [c4 h'']; exact hs
  · rcases Nat.lt_or_ge full.exponent 102 with h | h
    · rw [c1 (by omega)]; exact Nat.zero_le _
    · rcases Nat.lt_or_ge full.exponent 113 with h' | h'
      · rw [c2 h (by omega)]; exact Nat.zero_le _
      · rcases Nat.lt_or_ge full.exponent 143 with h'' | h''
        · rw [c3 h' (by omega)]; show full.exponent - 112 ≤ 30; omega
        · rw [c4 h'']
  · rcases Nat.lt_or_ge full.exponent 102 with h | h
    · rw [c1 (by omega)]; norm_num
    · rcases Nat.lt_or_ge full.exponent 113 with h' | h'
      · rw [c2 h (by omega)]
        show (full.mantissa + 2 ^ 23) / 2 ^ (126 - full.exponent) < 2 ^ 10
        rw [Nat.div_lt_iff_lt_mul (Nat.pos_pow_of_pos _ (by decide))]
        calc full.mantissa + 2 ^ 23 < 2 ^ 10 * 2 ^ 14 := by
              have : full.mantissa < 8388608 := hm
              norm_num
              omega
          _ ≤ 2 ^ 10 * 2 ^ (126 - full.exponent) :=
              Nat.mul_le_mul_left _ (Nat.pow_le_pow_right (by decide) (by omega))
      · rcases Nat.lt_or_ge full.exponent 143 with h'' | h''
        · rw [c3 h' (by omega)]
          show full.mantissa / 2 ^ 13 < 2 ^ 10
          have : full.mantissa < 8388608 := hm
          simp only [Nat.reducePow]
          omega
        · rw [c4 h'']; norm_num
  · intro h
    rw [c4 h]
    exact ⟨rfl, rfl⟩
  · intro h
    rw [c1 h]
    exact ⟨rfl, rfl⟩
  · intro h h'
    rw [c2 h h']
    exact ⟨rfl, rfl⟩
  · intro h h'
    rw [c3 h h']
    exact ⟨rfl, rfl⟩


/-! ## C33: the hash of a pipeline layout descriptor -/

section LayoutHash

open Render

theorem map_eq_of_forall₂ {α β γ : Type} (f : α → γ) (g : β → γ) (R : α → β → Prop)
    (hR : ∀ a b, R a b → f a = g b) :
    ∀ (xs : List α) (ys : List β), List.Forall₂ R xs ys → xs.map f = ys.map g := by
  intro xs ys h
  induction h with
  | nil => rfl
  | cons hab _ ih => simp [hR _ _ hab, ih]

/-- The hash of a descriptor in memory is the hash of its content. -/
theorem hash_of_content (hasher : List Nat → Nat) (memory : Memory)
    (entrySize constantSize : Nat) (d : PipelineLayoutDescData)
    (hlen : d.bindGroupLayoutNum ≤ d.bindGroupLayoutDescs.length)
    (hint : d.bindGroupLayoutNum < 2 ^ 31) :
    d.Hash hasher memory entrySize constantSize =
      some ((d.content memory entrySize constantSize).Hash hasher) := by
  have hint' : d.bindGroupLayoutNum < 2147483648 := hint
  simp [PipelineLayoutDescData.Hash, PipelineLayoutDescData.content, PipelineLayoutDesc.Hash,
    hlen, hint', List.map_map, Function.comp_def]

end LayoutHash

/-- C33. The structural hash of a pipeline-layout descriptor is a function of content only:
two descriptors, each in its own memory, with the same bindGroupLayoutNum, pairwise equal
layoutIndex, entryNum and entry bytes in the same order, and the same pipeline-constant bytes,
have equal `Hash()`, wherever the arrays are stored; and the hash is the hash of the
per-bind-group hashes in array order followed by the hash of the constants, each per-bind-group
hash being the hash of the pair (hash of layoutIndex, hash of the entry bytes). -/
theorem layout_hash_is_structural (hasher : List Nat → Nat) (memory1 memory2 : Render.Memory)
    (entrySize constantSize : Nat) (d1 d2 : Render.PipelineLayoutDescData)
    (hlen : d1.bindGroupLayoutNum ≤ d1.bindGroupLayoutDescs.length)
    (hint : d1.bindGroupLayoutNum < 2 ^ 31)
    (hnum : d1.bindGroupLayoutNum = d2.bindGroupLayoutNum)
    (hgroups : List.Forall₂ (Render.BindGroupLayoutDescData.SameContent memory1 memory2 entrySize)
      (d1.bindGroupLayoutDescs.take d1.bindGroupLayoutNum)
      (d2.bindGroupLayoutDescs.take d2.bindGroupLayoutNum))
    (hconst : memory1.range d1.pipelineConstantLayoutDescs
        (d1.pipelineConstantNum * constantSize % 2 ^ 64) =
      memory2.range d2.pipelineConstantLayoutDescs
        (d2.pipelineConstantNum * constantSize % 2 ^ 64)) :
    d1.Hash hasher memory1 entrySize constantSize =
      d2.Hash hasher memory2 entrySize constantSize ∧
    d1.Hash hasher memory1 entrySize constantSize =
      some (Render.CityHash hasher
        (((d1.bindGroupLayoutDescs.take d1.bindGroupLayoutNum).map fun desc =>
            Render.CityHash hasher
              [Render.CityHash hasher [desc.layoutIndex],
               Render.CityHash hasher
                 (memory1.range desc.entries (desc.entryNum * entrySize % 2 ^ 64))]) ++
          [Render.CityHash hasher
            (memory1.range d1.pipelineConstantLayoutDescs
              (d1.pipelineConstantNum * constantSize % 2 ^ 64))])) ∧
    d1.content memory1 entrySize constantSize = d2.content memory2 entrySize constantSize ∧
    d1.Hash hasher memory1 entrySize constantSize =
      some ((d1.content memory1 entrySize constantSize).Hash hasher) := by
  have hlen2 : d2.bindGroupLayoutNum ≤ d2.bindGroupLayoutDescs.length := by
    have h := hgroups.length_eq
    simp only [List.length_take] at h
    omega
  have hint2 : d2.bindGroupLayoutNum < 2 ^ 31 := hnum ▸ hint
  have hcontent : d1.content memory1 entrySize constantSize =
      d2.content memory2 entrySize constantSize := by
    simp only [Render.PipelineLayoutDescData.content, hconst, Render.PipelineLayoutDesc.mk.injEq,
      and_true]
    apply map_eq_of_forall₂ _ _ _ _ _ _ hgroups
    intro a b ⟨h1, h2, h3⟩
    simp only [h1, h3]
  refine ⟨?_, ?_, hcontent, hash_of_content hasher memory1 entrySize constantSize d1 hlen hint⟩
  · rw [hash_of_content hasher memory1 entrySize constantSize d1 hlen hint,
      hash_of_content hasher memory2 entrySize constantSize d2 hlen2 hint2, hcontent]
  · have hint' : d1.bindGroupLayoutNum < 2147483648 := hint
    simp [Render.PipelineLayoutDescData.Hash, hlen, hint']

/-- C33, witness: two descriptors with the same content whose arrays are stored at different
addresses of a memory that repeats every eight bytes, four-byte entries, eight-byte constants,
and the sum of the values as hash function. -/
theorem layout_hash_is_structural_witness :
    Render.sampleLayoutData ≠ Render.sampleLayoutDataMoved ∧
    Render.sampleLayoutData.Hash List.sum Render.sampleMemory 4 8 =
      Render.sampleLayoutDataMoved.Hash List.sum Render.sampleMemory 4 8 ∧
    Render.sampleLayoutData.Hash List.sum Render.sampleMemory 4 8 = some 91 :=
  ⟨by decide,
    (layout_hash_is_structural List.sum Render.sampleMemory Render.sampleMemory 4 8
      Render.sampleLayoutData Render.sampleLayoutDataMoved (by decide) (by decide) (by rfl)
      (List.Forall₂.cons ⟨rfl, rfl, by decide⟩
        (List.Forall₂.cons ⟨rfl, rfl, by decide⟩ List.Forall₂.nil))
      (by decide)).1,
    by decide⟩


/-! ## C35: a force-used resource after `Execute` -/

section ForceUsed

theorem allLive_set (w : RGBuilder) (i : Nat) (x : RGResource) (h : w.AllLive) (hx : x.Live) :
    ∀ y ∈ w.resources.set i x, y.Live := by
  intro y hy
  rcases List.mem_or_eq_of_mem_set hy with hy | hy
  · exact h y hy
  · exact hy ▸ hx

theorem incRefAt_live (i : Nat) (w w' : RGBuilder)
    (h : RGBuilder.incRefAt i w = Outcome.ok w') (hl : w.AllLive) : w'.AllLive := by
  unfold RGBuilder.incRefAt at h
  split at h
  · simp at h
  · rename_i x hx
    split at h
    · rename_i x' pools hinc
      simp only [Outcome.ok.injEq] at h
      subst h
      obtain ⟨r', d', he, hl', _⟩ := inc_keeps_live x w.device.pools (hl x (List.getElem?_mem hx))
      rw [he] at hinc
      simp only [Outcome.ok.injEq, Prod.mk.injEq] at hinc
      obtain ⟨rfl, _⟩ := hinc
      exact allLive_set w i r' hl hl'
    · simp at h
    · simp at h

theorem decRefAt_live (i : Nat) (w w' : RGBuilder)
    (h : RGBuilder.decRefAt i w = Outcome.ok w') (hl : w.AllLive) : w'.AllLive := by
  unfold RGBuilder.decRefAt at h
  split at h
  · simp at h
  · rename_i x hx
    split at h
    · rename_i x' pools hdec
      simp only [Outcome.ok.injEq] at h
      subst h
      obtain ⟨r', d', he, hl', _⟩ := dec_keeps_live x w.device.pools (hl x (List.getElem?_mem hx))
      rw [he] at hdec
      simp only [Outcome.ok.injEq, Prod.mk.injEq] at hdec
      obtain ⟨rfl, _⟩ := hdec
      exact allLive_set w i r' hl hl'
    · simp at h
    · simp at h

theorem record_resources (cb : Nat) (c : Command) (w w' : RGBuilder)
    (h : w.record cb c = Outcome.ok w') : w'.resources = w.resources := by
  unfold RGBuilder.record at h
  split at h
  · simp at h
  · simp only [Outcome.ok.injEq] at h
    subst h
    rfl

theorem transitionBufferAt_live (cb : Nat) (t : Nat × BufferState) (w w' : RGBuilder)
    (h : RGBuilder.transitionBufferAt cb t w = Outcome.ok w') (hl : w.AllLive) :
    w'.AllLive := by
  unfold RGBuilder.transitionBufferAt at h
  split at h
  · rename_i b commandEncoder hx hcb
    cases hdv : b.devirtualized
    · simp [RGBuffer.Transition, RGBuffer.GetRHI, Assert, hdv] at h
    · simp only [RGBuffer.Transition, RGBuffer.GetRHI, Assert, hdv, if_true, Outcome.ok.injEq] at h
      subst h
      have hb := hl _ (List.getElem?_mem hx)
      exact allLive_set w t.1 _ hl hb
  · simp at h

theorem transitionTextureAt_live (cb : Nat) (t : Nat × TextureState) (w w' : RGBuilder)
    (h : RGBuilder.transitionTextureAt cb t w = Outcome.ok w') (hl : w.AllLive) :
    w'.AllLive := by
  unfold RGBuilder.transitionTextureAt at h
  split at h
  · rename_i b commandEncoder hx hcb
    cases hdv : b.devirtualized
    · simp [RGTexture.Transition, RGTexture.GetRHI, Assert, hdv] at h
    · simp only [RGTexture.Transition, RGTexture.GetRHI, Assert, hdv, if_true,
        Outcome.ok.injEq] at h
      subst h
      have hb := hl _ (List.getElem?_mem hx)
      exact allLive_set w t.1 _ hl hb
  · simp at h

theorem executeScope_live (p : RGPassBase) (cb : Nat) (beginPass : Command) (func : Nat)
    (w w' : RGBuilder) (h : p.executeScope cb beginPass func w = Outcome.ok w')
    (hl : w.AllLive) : w'.AllLive := by
  unfold RGPassBase.executeScope at h
  obtain ⟨w1, h1, h⟩ := (andThen_eq_ok _ _ _).mp h
  obtain ⟨w2, h2, h⟩ := (andThen_eq_ok _ _ _).mp h
  obtain ⟨w3, h3, h⟩ := (andThen_eq_ok _ _ _).mp h
  obtain ⟨w4, h4, h⟩ := (andThen_eq_ok _ _ _).mp h
  obtain ⟨w5, h5, h6⟩ := (andThen_eq_ok _ _ _).mp h
  unfold RGPassBase.TransitionResources at h3
  obtain ⟨v, hb, ht⟩ := (andThen_eq_ok _ _ _).mp h3
  have l1 : w1.AllLive := by
    unfold RGBuilder.AllLive
    rw [record_resources _ _ _ _ h1]
    exact hl
  have l2 : w2.AllLive := by
    unfold RGBuilder.AllLive
    rw [record_resources _ _ _ _ h2]
    exact l1
  have lv : v.AllLive :=
    forEach_ok_induct RGBuilder.AllLive _ _
      (fun x _ s s' hs hf => transitionBufferAt_live cb x s s' hf hs) w2 v l2 hb
  have l3 : w3.AllLive :=
    forEach_ok_induct RGBuilder.AllLive _ _
      (fun x _ s s' hs hf => transitionTextureAt_live cb x s s' hf hs) v w3 lv ht
  unfold RGBuilder.AllLive
  rw [record_resources _ _ _ _ h6, record_resources _ _ _ _ h5, record_resources _ _ _ _ h4]
  exact l3

theorem executePass_live (context : Internal.Context) (pass : RGPass) (w w' : RGBuilder)
    (h : RGBuilder.executePass context pass w = Outcome.ok w') (hl : w.AllLive) :
    w'.AllLive := by
  unfold RGBuilder.executePass at h
  obtain ⟨w1, h1, h2⟩ := (andThen_eq_ok _ _ _).mp h
  have l1 : w1.AllLive := by
    cases pass with
    | copy p => exact executeScope_live _ _ _ _ _ _ h1 hl
    | compute p => exact executeScope_live _ _ _ _ _ _ h1 hl
    | raster p =>
      simp only [RGPass.Execute, RGRasterPass.Execute] at h1
      split at h1
      · exact executeScope_live _ _ _ _ _ _ h1 hl
      · simp at h1
  exact forEach_ok_induct RGBuilder.AllLive _ _
    (fun x _ s s' hs hf => decRefAt_live x s s' hf hs) w1 w' l1 h2

/-- A completed `Compile` of a fresh builder keeps the lifetime invariant of its resources. -/
theorem compile_live (g g1 : RGBuilder) (hf : g.Fresh) (h : g.Compile = Outcome.ok g1)
    (hl : g.AllLive) : g1.AllLive := by
  unfold RGBuilder.Compile at h
  obtain ⟨w1, h1, h⟩ := (andThen_eq_ok _ _ _).mp h
  obtain ⟨w2, h2, h3⟩ := (andThen_eq_ok _ _ _).mp h
  have hnd0 : ∀ pass ∈ g.passes, pass.base.reads.Nodup := by
    intro pass hp
    rw [(hf.2.2.2 pass hp).1]
    exact List.nodup_nil
  obtain ⟨hres1, _, _⟩ := compilePasses_frame _ g w1 hnd0 h1
  have l1 : w1.AllLive := by
    unfold RGBuilder.AllLive
    rw [hres1]
    exact hl
  have l2 : w2.AllLive :=
    forEach_ok_induct RGBuilder.AllLive _ _
      (fun (pass : RGPass) _ s s' hs hf =>
        forEach_ok_induct RGBuilder.AllLive _ _
          (fun x _ t t' ht hft => incRefAt_live x t t' hft ht) s s' hs hf) w1 w2 l1 h2
  refine forEach_ok_induct RGBuilder.AllLive _ _ ?_ w2 g1 l2 h3
  intro i _ s s' hs hi
  unfold RGBuilder.devirtualizeIfForceUsed at hi
  split at hi
  · simp at hi
  · split at hi
    · exact incRefAt_live i s s' hi hs
    · simp only [Outcome.ok.injEq] at hi
      exact hi ▸ hs

theorem executeInternal_live (g g' : RGBuilder) (fencePack : RGFencePack)
    (h : g.ExecuteInternal fencePack = Outcome.ok g') (hl : g.AllLive) : g'.AllLive := by
  unfold RGBuilder.ExecuteInternal at h
  simp only at h
  obtain ⟨w1, h1, h2⟩ := (andThen_eq_ok _ _ _).mp h
  simp only [Outcome.ok.injEq] at h2
  have l1 : w1.AllLive :=
    forEach_ok_induct RGBuilder.AllLive
      (RGBuilder.executePass (g.context fencePack)) g.passes
      (fun x _ s s' hs hf => executePass_live _ x s s' hf hs) (g.guarded fencePack) w1 hl h1
  rw [← h2]
  exact l1

end ForceUsed

/-- C35. A force-used resource is never released by `Execute`: on a builder on which `Execute`
has not been called and whose resources hold no pooled object yet, for every resource on which
`MaskAsUsed` was called, after an `Execute` that returns the refCount of the resource is exactly
1 (`Compile` incremented it once for the mark and once per pass that reads it, and
`ExecuteInternal` decremented it once per pass that reads it), the resource is devirtualized,
and, if it is not imported, its pooled handle is not empty. The mark itself is still set. -/
theorem force_used_survives_execute (g g2 : RGBuilder) (fencePack : RGFencePack) (r : Nat)
    (x : RGResource) (hf : g.Fresh) (hpool : ∀ y ∈ g.resources, y.pooled = none)
    (hfu : g.forceUsedAt r = true) (he : g.Execute fencePack = Outcome.ok g2)
    (hx : g2.resources[r]? = some x) :
    x.base.refCount = 1 ∧ x.base.devirtualized = true ∧
      (x.base.imported = false → x.pooled.isSome = true) ∧ x.base.forceUsed = true := by
  unfold RGBuilder.Execute at he
  obtain ⟨g0, h0, hrest⟩ := (andThen_eq_ok _ _ _).mp he
  obtain ⟨g1, hc, hrest1⟩ := (andThen_eq_ok _ _ _).mp hrest
  obtain ⟨g3, hi, hlast⟩ := (andThen_eq_ok _ _ _).mp hrest1
  have hg0 : g0 = g := by
    unfold Assert at h0
    split at h0
    · simp only [Outcome.ok.injEq] at h0
      exact h0.symm
    · simp at h0
  subst hg0
  simp only [Outcome.ok.injEq] at hlast
  have hres : g2.resources = g3.resources := by rw [← hlast]
  rw [hres] at hx
  have hl0 : g0.AllLive := by
    intro y hy
    obtain ⟨hrc, hdv⟩ := hf.2.2.1 y hy
    refine ⟨?_, ?_⟩
    · rw [hrc, hdv]; simp
    · intro _
      rw [hrc, hpool y hy]; simp
  have hl3 : g3.AllLive :=
    executeInternal_live g1 g3 fencePack hi (compile_live g0 g1 hf hc hl0)
  obtain ⟨hnd, hcons, _, hfm⟩ := compile_run g0 g1 hf hc
  obtain ⟨_, hfm3, ⟨evs, hevs, hk⟩, hcw⟩ := executeInternal_run g1 g3 fencePack hi
  obtain ⟨y, hy, hyf⟩ : ∃ y, g0.resources[r]? = some y ∧ y.IsForceUsed = true := by
    unfold RGBuilder.forceUsedAt at hfu
    cases hy : g0.resources[r]? with
    | none => simp [hy] at hfu
    | some y => exact ⟨y, rfl, by simpa [hy] using hfu⟩
  obtain ⟨hinc, hdec⟩ := compile_callCounts g0 g1 r y hf hc hy
  have e1 : callCount evs ResourceCall.incRef r = 0 := by
    unfold callCount
    rw [hk, count_executeCalls_inc]
  have e2 : callCount evs ResourceCall.decRef r = g1.readerCount r := by
    unfold callCount
    rw [hk, count_executeCalls_dec _ _ hnd]
    rfl
  have hrc : x.base.refCount = 1 := by
    rw [((hcw hcons).2 r x hx).1, hevs, netCount_append]
    unfold netCount
    rw [hinc, hdec, e1, e2, hyf]
    push_cast
    simp
  have hlive := hl3 x (List.getElem?_mem hx)
  refine ⟨hrc, hlive.1.mpr (by omega), fun hni => (hlive.2 hni).mpr (by omega), ?_⟩
  have h1 : g3.forceUsedAt r = g0.forceUsedAt r :=
    forceUsedAt_of_map_eq g0 g3 r (hfm3.trans hfm)
  rw [hfu] at h1
  simpa [RGBuilder.forceUsedAt, hx, RGResource.IsForceUsed] using h1

/-- C35, witness: the sample graph, in which buffer 1 is marked as used, written by the first
pass and read by none, executed without fences; afterwards buffer 1 has refCount 1, is
devirtualized and holds the pooled buffer 1. -/
theorem force_used_survives_execute_witness :
    sampleGraph.Fresh ∧
    (∀ y ∈ sampleGraph.resources, y.pooled = none) ∧
    sampleGraph.forceUsedAt 1 = true ∧
    ((sampleGraph.Execute noFences).stateD sampleGraph).resources[1]? =
      some (RGResource.buffer
        { sampleLiveBuffer with
          forceUsed := true, currentState := BufferState.storage, pooledBuffer := some 1 }) ∧
    (RGResource.buffer
        { sampleLiveBuffer with
          forceUsed := true, currentState := BufferState.storage,
          pooledBuffer := some 1 }).base.refCount = 1 ∧
    (RGResource.buffer
        { sampleLiveBuffer with
          forceUsed := true, currentState := BufferState.storage,
          pooledBuffer := some 1 }).pooled = some 1 :=
  ⟨by decide, by decide, by rfl, by rfl,
    (force_used_survives_execute sampleGraph
      ((sampleGraph.Execute noFences).stateD sampleGraph) noFences 1
      (RGResource.buffer
        { sampleLiveBuffer with
          forceUsed := true, currentState := BufferState.storage, pooledBuffer := some 1 })
      (by decide) (by decide) (by rfl) (by rfl) (by rfl)).1,
    by rfl⟩

/-! ## C32: the barrier of a pass starts from the last known state -/

section LastKnownState

theorem inc_state (x x' : RGResource) (p p' : Pools)
    (h : x.IncRefCountAndUpdateResource p = Outcome.ok (x', p')) : x'.state = x.state := by
  by_cases h0 : x.base.refCount = 0
  · cases x with
    | buffer b =>
      have h0' : b.refCount = 0 := h0
      cases hd : b.devirtualized
      · rw [inc_buffer_zero b p h0' hd] at h
        simp only [Outcome.ok.injEq] at h
        split at h <;> simp only [Prod.mk.injEq] at h <;> rw [← h.1] <;> rfl
      · simp [RGResource.IncRefCountAndUpdateResource, RGResource.Devirtualize,
          RGBuffer.Devirtualize, Assert, Outcome.andThen, Outcome.lift, RGResource.base, h0',
          hd] at h
    | texture t =>
      have h0' : t.refCount = 0 := h0
      cases hd : t.devirtualized
      · rw [inc_texture_zero t p h0' hd] at h
        simp only [Outcome.ok.injEq] at h
        split at h <;> simp only [Prod.mk.injEq] at h <;> rw [← h.1] <;> rfl
      · simp [RGResource.IncRefCountAndUpdateResource, RGResource.Devirtualize,
          RGTexture.Devirtualize, Assert, Outcome.andThen, Outcome.lift, RGResource.base, h0',
          hd] at h
  · rw [inc_of_pos x p h0] at h
    simp only [Outcome.ok.injEq, Prod.mk.injEq] at h
    rw [← h.1]
    cases x <;> rfl

theorem dec_state (x x' : RGResource) (p p' : Pools)
    (h : x.DecRefAndUpdateResource p = Outcome.ok (x', p')) : x'.state = x.state := by
  by_cases h1 : x.base.refCount = 1
  · cases x with
    | buffer b =>
      have h1' : b.refCount = 1 := h1
      cases hd : b.devirtualized
      · simp [RGResource.DecRefAndUpdateResource, RGResource.UndoDevirtualize,
          RGBuffer.UndoDevirtualize, Assert, Outcome.andThen, Outcome.lift, RGResource.base,
          RGResource.setBase, h1', hd] at h
      · rw [dec_buffer_one b p h1' hd] at h
        simp only [Outcome.ok.injEq] at h
        split at h <;> simp only [Prod.mk.injEq] at h <;> rw [← h.1] <;> rfl
    | texture t =>
      have h1' : t.refCount = 1 := h1
      cases hd : t.devirtualized
      · simp [RGResource.DecRefAndUpdateResource, RGResource.UndoDevirtualize,
          RGTexture.UndoDevirtualize, Assert, Outcome.andThen, Outcome.lift, RGResource.base,
          RGResource.setBase, h1', hd] at h
      · rw [dec_texture_one t p h1' hd] at h
        simp only [Outcome.ok.injEq] at h
        split at h <;> simp only [Prod.mk.injEq] at h <;> rw [← h.1] <;> rfl
  · rw [dec_of_ne_one x p h1] at h
    simp only [Outcome.ok.injEq, Prod.mk.injEq] at h
    rw [← h.1]
    cases x <;> rfl

theorem stateAt_set_same (w : RGBuilder) (i : Nat) (x x' : RGResource)
    (hx : w.resources[i]? = some x) (hs : x'.state = x.state) (r : Nat) :
    ((w.resources.set i x')[r]?).map RGResource.state = w.stateAt r := by
  unfold RGBuilder.stateAt
  by_cases hri : i = r
  · subst hri
    have hlt : i < w.resources.length := (List.getElem?_eq_some_iff.mp hx).1
    rw [List.getElem?_set_self hlt, hx]
    simp [hs]
  · rw [List.getElem?_set_ne hri]

theorem incRefAt_states (i : Nat) (w w' : RGBuilder)
    (h : RGBuilder.incRefAt i w = Outcome.ok w') (r : Nat) : w'.stateAt r = w.stateAt r := by
  unfold RGBuilder.incRefAt at h
  split at h
  · simp at h
  · rename_i x hx
    split at h
    · rename_i x' pools hinc
      simp only [Outcome.ok.injEq] at h
      subst h
      exact stateAt_set_same w i x x' hx (inc_state x x' _ _ hinc) r
    · simp at h
    · simp at h

theorem decRefAt_states (i : Nat) (w w' : RGBuilder)
    (h : RGBuilder.decRefAt i w = Outcome.ok w') (r : Nat) : w'.stateAt r = w.stateAt r := by
  unfold RGBuilder.decRefAt at h
  split at h
  · simp at h
  · rename_i x hx
    split at h
    · rename_i x' pools hdec
      simp only [Outcome.ok.injEq] at h
      subst h
      exact stateAt_set_same w i x x' hx (dec_state x x' _ _ hdec) r
    · simp at h
    · simp at h

/-- A loop whose completed iterations leave the states on record alone leaves them alone. -/
theorem forEach_states {α : Type} (f : α → RGBuilder → Outcome RGBuilder) (xs : List α)
    (hstep : ∀ x ∈ xs, ∀ w w', f x w = Outcome.ok w' → ∀ r, w'.stateAt r = w.stateAt r)
    (w w' : RGBuilder) (h : forEach f xs w = Outcome.ok w') (r : Nat) :
    w'.stateAt r = w.stateAt r :=
  forEach_ok_induct (fun s => s.stateAt r = w.stateAt r) f xs
    (fun x hx s s' hs hf => (hstep x hx s s' hf r).trans hs) w w' rfl h

theorem transitionBufferAt_spec (cb : Nat) (t : Nat × BufferState) (w w' : RGBuilder)
    (h : RGBuilder.transitionBufferAt cb t w = Outcome.ok w') :
    ∃ b, w.resources[t.1]? = some (RGResource.buffer b) ∧
      w'.resources = w.resources.set t.1 (RGResource.buffer { b with currentState := t.2 }) ∧
      Does cb w w' [Step.barrier cb t.1]
        [Command.bufferBarrier b.rhiHandle b.currentState t.2] := by
  unfold RGBuilder.transitionBufferAt at h
  split at h
  · rename_i b commandEncoder hx hcb
    cases hdv : b.devirtualized
    · simp [RGBuffer.Transition, RGBuffer.GetRHI, Assert, hdv] at h
    · simp only [RGBuffer.Transition, RGBuffer.GetRHI, Assert, hdv, if_true, Outcome.ok.injEq] at h
      subst h
      refine ⟨b, hx, rfl, rfl, rfl, ?_⟩
      intro old hold
      rw [hcb] at hold
      simp only [Option.some.injEq] at hold
      subst hold
      obtain ⟨hlt, _⟩ := List.getElem?_eq_some_iff.mp hcb
      simp [RGBuilder.setCommands, List.getElem?_set_self hlt]
  · simp at h

theorem transitionTextureAt_spec (cb : Nat) (t : Nat × TextureState) (w w' : RGBuilder)
    (h : RGBuilder.transitionTextureAt cb t w = Outcome.ok w') :
    ∃ b, w.resources[t.1]? = some (RGResource.texture b) ∧
      w'.resources = w.resources.set t.1 (RGResource.texture { b with currentState := t.2 }) ∧
      Does cb w w' [Step.barrier cb t.1]
        [Command.textureBarrier b.rhiHandle b.currentState t.2] := by
  unfold RGBuilder.transitionTextureAt at h
  split at h
  · rename_i b commandEncoder hx hcb
    cases hdv : b.devirtualized
    · simp [RGTexture.Transition, RGTexture.GetRHI, Assert, hdv] at h
    · simp only [RGTexture.Transition, RGTexture.GetRHI, Assert, hdv, if_true,
        Outcome.ok.injEq] at h
      subst h
      refine ⟨b, hx, rfl, rfl, rfl, ?_⟩
      intro old hold
      rw [hcb] at hold
      simp only [Option.some.injEq] at hold
      subst hold
      obtain ⟨hlt, _⟩ := List.getElem?_eq_some_iff.mp hcb
      simp [RGBuilder.setCommands, List.getElem?_set_self hlt]
  · simp at h

/-- A completed loop of transitions over entries with distinct keys: every barrier is made from
the resource as it was before the loop, the resources under the keys are updated, the others are
untouched. `w0` is a builder that agrees with the start of the loop on the keys. -/
theorem transitions_track {α : Type} (cb : Nat) (f : α → RGBuilder → Outcome RGBuilder)
    (key : α → Nat) (upd : α → RGResource → RGResource) (cmd : α → RGResource → Command)
    (K : RGResource → Prop)
    (hstep : ∀ e w w', f e w = Outcome.ok w' →
      ∃ x, w.resources[key e]? = some x ∧ K x ∧
        w'.resources = w.resources.set (key e) (upd e x) ∧
        Does cb w w' [Step.barrier cb (key e)] [cmd e x]) :
    ∀ (entries : List α), (entries.map key).Nodup → ∀ (w0 w w' : RGBuilder),
      (∀ e ∈ entries, w.resources[key e]? = w0.resources[key e]?) →
      forEach f entries w = Outcome.ok w' →
      ∃ cmds, Does cb w w' (entries.map fun e => Step.barrier cb (key e)) cmds ∧
        List.Forall₂ (fun e c => ∃ x, w0.resources[key e]? = some x ∧ K x ∧ c = cmd e x)
          entries cmds ∧
        (∀ r, r ∉ entries.map key → w'.resources[r]? = w.resources[r]?) ∧
        (∀ e ∈ entries, ∃ x, w0.resources[key e]? = some x ∧ K x ∧
          w'.resources[key e]? = some (upd e x)) := by
  intro entries
  induction entries with
  | nil =>
    intro _ w0 w w' _ h
    simp only [forEach, Outcome.ok.injEq] at h
    subst h
    exact ⟨[], does_refl cb w, List.Forall₂.nil, fun _ _ => rfl, fun e he => by simp at he⟩
  | cons e rest ih =>
    intro hnd w0 w w' hagree h
    simp only [forEach] at h
    obtain ⟨w1, h1, h2⟩ := (andThen_eq_ok _ _ _).mp h
    simp only [List.map_cons, List.nodup_cons] at hnd
    obtain ⟨hnot, hnd'⟩ := hnd
    obtain ⟨x, hx, hK, hres, hdoes⟩ := hstep e w w1 h1
    have hx0 : w0.resources[key e]? = some x := by
      rw [← hagree e (List.mem_cons_self _ _)]
      exact hx
    have hne : ∀ e' ∈ rest, key e ≠ key e' := by
      intro e' he' heq
      exact hnot (List.mem_map.mpr ⟨e', he', heq.symm⟩)
    have hagree1 : ∀ e' ∈ rest, w1.resources[key e']? = w0.resources[key e']? := by
      intro e' he'
      rw [hres, List.getElem?_set_ne (hne e' he')]
      exact hagree e' (List.mem_cons_of_mem _ he')
    obtain ⟨cmds, hd2, hall, hout, hin⟩ := ih hnd' w0 w1 w' hagree1 h2
    have hlt : key e < w.resources.length := (List.getElem?_eq_some_iff.mp hx).1
    refine ⟨cmd e x :: cmds, does_trans hdoes hd2, List.Forall₂.cons ⟨x, hx0, hK, rfl⟩ hall,
      ?_, ?_⟩
    · intro r hr
      simp only [List.map_cons, List.mem_cons, not_or] at hr
      rw [hout r hr.2, hres, List.getElem?_set_ne (fun hh => hr.1 hh.symm)]
    · intro e' he'
      rcases List.mem_cons.mp he' with rfl | he'
      · refine ⟨x, hx0, hK, ?_⟩
        rw [hout _ hnot, hres, List.getElem?_set_self hlt]
      · exact hin e' he'

theorem lookup_of_mem_nodup {β : Type} (l : List (Nat × β)) (k : Nat) (v : β)
    (hn : (l.map Prod.fst).Nodup) (hm : (k, v) ∈ l) : l.lookup k = some v := by
  induction l with
  | nil => simp at hm
  | cons a l ih =>
    obtain ⟨k', v'⟩ := a
    simp only [List.map_cons, List.nodup_cons] at hn
    rcases List.mem_cons.mp hm with heq | hm'
    · simp only [Prod.mk.injEq] at heq
      obtain ⟨rfl, rfl⟩ := heq
      simp [List.lookup]
    · have hne : k ≠ k' := by
        rintro rfl
        exact hn.1 (List.mem_map.mpr ⟨(k, v), hm', rfl⟩)
      have : (k == k') = false := by simpa using hne
      simp only [List.lookup, this]
      exact ih hn.2 hm'

theorem lookup_none_of_not_mem {β : Type} (l : List (Nat × β)) (k : Nat)
    (h : k ∉ l.map Prod.fst) : l.lookup k = none := by
  rw [List.lookup_eq_none_iff]
  intro p hp
  simp only [bne_iff_ne, ne_eq]
  intro heq
  exact h (List.mem_map.mpr ⟨p, hp, heq.symm⟩)

/-- The scope of a completed `Execute` of a pass whose maps have distinct keys: each barrier
goes from the state the resource had on record before the pass to the state the pass recorded,
and afterwards the state on record is the one the pass recorded. -/
theorem executeScope_tracks (p : RGPassBase) (cb : Nat) (beginPass : Command) (func : Nat)
    (w w' : RGBuilder) (hk : p.KeysNodup)
    (h : p.executeScope cb beginPass func w = Outcome.ok w') :
    ∃ old bufferBarriers textureBarriers,
      w.device.commandBuffers[cb]? = some old ∧
      w'.device.commandBuffers[cb]? =
        some (old ++ ([Command.begin, beginPass] ++ bufferBarriers ++ textureBarriers ++
          [Command.callback func, Command.endPass, Command.endEncoding])) ∧
      List.Forall₂ (fun e c => ∃ b, w.resources[e.1]? = some (RGResource.buffer b) ∧
          c = Command.bufferBarrier b.rhiHandle b.currentState e.2)
        p.transitionInfos.buffer bufferBarriers ∧
      List.Forall₂ (fun e c => ∃ t, w.resources[e.1]? = some (RGResource.texture t) ∧
          c = Command.textureBarrier t.rhiHandle t.currentState e.2)
        p.transitionInfos.texture textureBarriers ∧
      ∀ r, w'.stateAt r = (w.stateAt r).map (p.nextState r) := by
  unfold RGPassBase.executeScope at h
  obtain ⟨w1, h1, h⟩ := (andThen_eq_ok _ _ _).mp h
  obtain ⟨w2, h2, h⟩ := (andThen_eq_ok _ _ _).mp h
  obtain ⟨w3, h3, h⟩ := (andThen_eq_ok _ _ _).mp h
  obtain ⟨w4, h4, h⟩ := (andThen_eq_ok _ _ _).mp h
  obtain ⟨w5, h5, h6⟩ := (andThen_eq_ok _ _ _).mp h
  unfold RGPassBase.TransitionResources at h3
  obtain ⟨v, hb, ht⟩ := (andThen_eq_ok _ _ _).mp h3
  obtain ⟨d1, old, hold⟩ := record_does _ _ _ _ h1
  obtain ⟨d2, _⟩ := record_does _ _ _ _ h2
  obtain ⟨d5, _⟩ := record_does _ _ _ _ h4
  obtain ⟨d6, _⟩ := record_does _ _ _ _ h5
  obtain ⟨d7, _⟩ := record_does _ _ _ _ h6
  have r2 : w2.resources = w.resources := by
    rw [record_resources _ _ _ _ h2, record_resources _ _ _ _ h1]
  have r7 : w'.resources = w3.resources := by
    rw [record_resources _ _ _ _ h6, record_resources _ _ _ _ h5, record_resources _ _ _ _ h4]
  obtain ⟨bs, d3, hbs, hbout, hbin⟩ := transitions_track cb (RGBuilder.transitionBufferAt cb)
    (fun e => e.1)
    (fun e x => match x with
      | .buffer b => RGResource.buffer { b with currentState := e.2 }
      | .texture t => RGResource.texture t)
    (fun e x => match x with
      | .buffer b => Command.bufferBarrier b.rhiHandle b.currentState e.2
      | .texture _ => Command.begin)
    (fun x => ∃ b, x = RGResource.buffer b)
    (fun e s s' hs => by
      obtain ⟨b, hx, hres, hd⟩ := transitionBufferAt_spec cb e s s' hs
      exact ⟨RGResource.buffer b, hx, ⟨b, rfl⟩, hres, hd⟩)
    p.transitionInfos.buffer hk.1 w2 w2 v (fun _ _ => rfl) hb
  obtain ⟨ts, d4, hts, htout, htin⟩ := transitions_track cb (RGBuilder.transitionTextureAt cb)
    (fun e => e.1)
    (fun e x => match x with
      | .buffer b => RGResource.buffer b
      | .texture t => RGResource.texture { t with currentState := e.2 })
    (fun e x => match x with
      | .buffer _ => Command.begin
      | .texture t => Command.textureBarrier t.rhiHandle t.currentState e.2)
    (fun x => ∃ t, x = RGResource.texture t)
    (fun e s s' hs => by
      obtain ⟨t, hx, hres, hd⟩ := transitionTextureAt_spec cb e s s' hs
      exact ⟨RGResource.texture t, hx, ⟨t, rfl⟩, hres, hd⟩)
    p.transitionInfos.texture hk.2 v v w3 (fun _ _ => rfl) ht
  -- a position that holds a texture after the buffer loop was not touched by it
  have hkeep : ∀ (r : Nat) (t : RGTexture), v.resources[r]? = some (RGResource.texture t) →
      w.resources[r]? = some (RGResource.texture t) := by
    intro r t hv
    by_cases hr : r ∈ p.transitionInfos.buffer.map (fun e => e.1)
    · obtain ⟨e0, he0, hkey⟩ := List.mem_map.mp hr
      obtain ⟨x0, _, ⟨b0, rfl⟩, hv0⟩ := hbin e0 he0
      have hkey' : e0.1 = r := hkey
      have hv0' : v.resources[e0.1]? =
          some (RGResource.buffer { b0 with currentState := e0.2 }) := hv0
      rw [hkey', hv] at hv0'
      simp at hv0'
    · rw [← r2, ← hbout r hr]
      exact hv
  have hd := does_trans (does_trans (does_trans (does_trans (does_trans (does_trans d1 d2) d3)
    d4) d5) d6) d7
  refine ⟨old, bs, ts, hold, ?_, ?_, ?_, ?_⟩
  · have := hd.2.2 old hold
    simpa [List.append_assoc] using this
  · refine hbs.imp ?_
    rintro e c ⟨x, hx, ⟨b, rfl⟩, hc⟩
    exact ⟨b, by rw [← r2]; exact hx, hc⟩
  · refine hts.imp ?_
    rintro e c ⟨x, hx, ⟨t, rfl⟩, hc⟩
    exact ⟨t, hkeep _ _ hx, hc⟩
  · intro r
    have hA : v.stateAt r = (w.stateAt r).map fun s =>
        match s with
        | .inl s0 => Sum.inl ((p.transitionInfos.buffer.lookup r).getD s0)
        | .inr t => Sum.inr t := by
      unfold RGBuilder.stateAt
      by_cases hr : r ∈ p.transitionInfos.buffer.map (fun e => e.1)
      · obtain ⟨e0, he0, hkey⟩ := List.mem_map.mp hr
        obtain ⟨x0, hx0, ⟨b0, rfl⟩, hv0⟩ := hbin e0 he0
        have hkey' : e0.1 = r := hkey
        have hv0' : v.resources[e0.1]? =
            some (RGResource.buffer { b0 with currentState := e0.2 }) := hv0
        have hx0' : w2.resources[e0.1]? = some (RGResource.buffer b0) := hx0
        subst hkey'
        rw [hv0', ← r2, hx0']
        have hl := lookup_of_mem_nodup p.transitionInfos.buffer e0.1 e0.2 hk.1 he0
        simp [RGResource.state, hl]
      · rw [hbout r hr, r2, lookup_none_of_not_mem _ r hr]
        cases w.resources[r]? with
        | none => rfl
        | some x => cases x <;> rfl
    have hB : w3.stateAt r = (v.stateAt r).map fun s =>
        match s with
        | .inl s0 => Sum.inl s0
        | .inr t => Sum.inr ((p.transitionInfos.texture.lookup r).getD t) := by
      unfold RGBuilder.stateAt
      by_cases hr : r ∈ p.transitionInfos.texture.map (fun e => e.1)
      · obtain ⟨e0, he0, hkey⟩ := List.mem_map.mp hr
        obtain ⟨x0, hx0, ⟨t0, rfl⟩, hv0⟩ := htin e0 he0
        have hkey' : e0.1 = r := hkey
        have hv0' : w3.resources[e0.1]? =
            some (RGResource.texture { t0 with currentState := e0.2 }) := hv0
        have hx0' : v.resources[e0.1]? = some (RGResource.texture t0) := hx0
        subst hkey'
        rw [hv0', hx0']
        have hl := lookup_of_mem_nodup p.transitionInfos.texture e0.1 e0.2 hk.2 he0
        simp [RGResource.state, hl]
      · rw [htout r hr, lookup_none_of_not_mem _ r hr]
        cases v.resources[r]? with
        | none => rfl
        | some x => cases x <;> rfl
    have h7 : w'.stateAt r = w3.stateAt r := by
      unfold RGBuilder.stateAt
      rw [r7]
    rw [h7, hB, hA, Option.map_map]
    congr 1
    funext s
    cases s <;> rfl

theorem pass_execute_tracks (pass : RGPass) (context : Internal.Context) (w w' : RGBuilder)
    (hk : pass.base.KeysNodup) (h : pass.Execute context w = Outcome.ok w') :
    ∃ old bufferBarriers textureBarriers,
      w.device.commandBuffers[pass.cmdBuffer context]? = some old ∧
      w'.device.commandBuffers[pass.cmdBuffer context]? =
        some (old ++ ([Command.begin, pass.beginPass] ++ bufferBarriers ++ textureBarriers ++
          [Command.callback pass.func, Command.endPass, Command.endEncoding])) ∧
      List.Forall₂ (fun e c => ∃ b, w.resources[e.1]? = some (RGResource.buffer b) ∧
          c = Command.bufferBarrier b.rhiHandle b.currentState e.2)
        pass.base.transitionInfos.buffer bufferBarriers ∧
      List.Forall₂ (fun e c => ∃ t, w.resources[e.1]? = some (RGResource.texture t) ∧
          c = Command.textureBarrier t.rhiHandle t.currentState e.2)
        pass.base.transitionInfos.texture textureBarriers ∧
      ∀ r, w'.stateAt r = (w.stateAt r).map (pass.base.nextState r) := by
  cases pass with
  | copy p => exact executeScope_tracks _ _ _ _ _ _ hk h
  | compute p => exact executeScope_tracks _ _ _ _ _ _ hk h
  | raster p =>
    simp only [RGPass.Execute, RGRasterPass.Execute] at h
    split at h
    · exact executeScope_tracks _ _ _ _ _ _ hk h
    · simp at h

theorem executePass_states (context : Internal.Context) (pass : RGPass) (w w' : RGBuilder)
    (hk : pass.base.KeysNodup) (h : RGBuilder.executePass context pass w = Outcome.ok w')
    (r : Nat) : w'.stateAt r = (w.stateAt r).map (pass.base.nextState r) := by
  unfold RGBuilder.executePass at h
  obtain ⟨w1, h1, h2⟩ := (andThen_eq_ok _ _ _).mp h
  obtain ⟨_, _, _, _, _, _, _, hs⟩ := pass_execute_tracks pass context w w1 hk h1
  rw [← hs r]
  exact forEach_states _ _ (fun x _ s s' hx => decRefAt_states x s s' hx) w1 w' h2 r

/-- The states on record when the passes `pre` have been executed. -/
theorem executePasses_states (context : Internal.Context) (r : Nat) (pre : List RGPass) :
    ∀ (w w' : RGBuilder), (∀ pass ∈ pre, pass.base.KeysNodup) →
      forEach (RGBuilder.executePass context) pre w = Outcome.ok w' →
      w'.stateAt r = (w.stateAt r).map fun s => pre.foldl (fun s pass => pass.base.nextState r s) s := by
  induction pre with
  | nil =>
    intro w w' _ h
    simp only [forEach, Outcome.ok.injEq] at h
    subst h
    simp
  | cons p ps ih =>
    intro w w' hk h
    simp only [forEach] at h
    obtain ⟨w1, h1, h2⟩ := (andThen_eq_ok _ _ _).mp h
    rw [ih w1 w' (fun q hq => hk q (List.mem_cons_of_mem _ hq)) h2,
      executePass_states context p w w1 (hk p (List.mem_cons_self _ _)) h1 r, Option.map_map]
    rfl

theorem lastKnownBufferState_cons (p : RGPass) (ps : List RGPass) (r : Nat)
    (initial : BufferState) :
    lastKnownBufferState (p :: ps) r initial =
      lastKnownBufferState ps r ((p.base.transitionInfos.buffer.lookup r).getD initial) := by
  unfold lastKnownBufferState
  cases hl : p.base.transitionInfos.buffer.lookup r with
  | none => simp [List.filterMap_cons, hl]
  | some s =>
    simp only [List.filterMap_cons, hl, Option.getD_some]
    cases hrest : ps.filterMap fun pass => pass.base.transitionInfos.buffer.lookup r with
    | nil => simp
    | cons a l => simp [List.getLast?_cons_cons, List.getLast?_eq_getLast _ (List.cons_ne_nil a l)]

theorem lastKnownTextureState_cons (p : RGPass) (ps : List RGPass) (r : Nat)
    (initial : TextureState) :
    lastKnownTextureState (p :: ps) r initial =
      lastKnownTextureState ps r ((p.base.transitionInfos.texture.lookup r).getD initial) := by
  unfold lastKnownTextureState
  cases hl : p.base.transitionInfos.texture.lookup r with
  | none => simp [List.filterMap_cons, hl]
  | some s =>
    simp only [List.filterMap_cons, hl, Option.getD_some]
    cases hrest : ps.filterMap fun pass => pass.base.transitionInfos.texture.lookup r with
    | nil => simp
    | cons a l => simp [List.getLast?_cons_cons, List.getLast?_eq_getLast _ (List.cons_ne_nil a l)]

/-- Folding the passes' transitions over a buffer state gives the last known state of the
specification. -/
theorem foldl_nextState_buffer (r : Nat) (pre : List RGPass) :
    ∀ initial : BufferState,
      pre.foldl (fun s pass => pass.base.nextState r s) (Sum.inl initial) =
        Sum.inl (lastKnownBufferState pre r initial) := by
  induction pre with
  | nil => intro initial; rfl
  | cons p ps ih =>
    intro initial
    rw [List.foldl_cons, lastKnownBufferState_cons]
    exact ih _

theorem foldl_nextState_texture (r : Nat) (pre : List RGPass) :
    ∀ initial : TextureState,
      pre.foldl (fun s pass => pass.base.nextState r s) (Sum.inr initial) =
        Sum.inr (lastKnownTextureState pre r initial) := by
  induction pre with
  | nil => intro initial; rfl
  | cons p ps ih =>
    intro initial
    rw [List.foldl_cons, lastKnownTextureState_cons]
    exact ih _

theorem saveBuffer_keys (self self' : RGPassBase) (buffer : RGBufferRef) (state : BufferState)
    (hn : self.KeysNodup) (h : self.SaveBufferTransitionInfo buffer state = Outcome.ok self') :
    self'.KeysNodup := by
  cases buffer with
  | none => simp [RGPassBase.SaveBufferTransitionInfo, Assert] at h
  | some b =>
    cases hl : self.transitionInfos.buffer.lookup b with
    | none =>
      rw [saveBuffer_fresh self b state hl] at h
      simp only [Outcome.ok.injEq] at h
      subst h
      refine ⟨?_, hn.2⟩
      simp only [List.map_append, List.map_cons, List.map_nil]
      rw [List.nodup_append]
      refine ⟨hn.1, List.nodup_singleton _, ?_⟩
      intro a ha hb
      rw [List.mem_singleton] at hb
      subst hb
      obtain ⟨e, he, hkey⟩ := List.mem_map.mp ha
      rw [List.lookup_eq_none_iff] at hl
      have := hl e he
      simp [hkey] at this
    | some recorded =>
      rw [saveBuffer_recorded self b state recorded hl] at h
      unfold Assert at h
      split_ifs at h
      simp only [Outcome.ok.injEq] at h
      subst h
      exact hn

theorem saveTexture_keys (self self' : RGPassBase) (texture : RGTextureRef)
    (state : TextureState) (hn : self.KeysNodup)
    (h : self.SaveTextureTransitionInfo texture state = Outcome.ok self') :
    self'.KeysNodup := by
  cases texture with
  | none => simp [RGPassBase.SaveTextureTransitionInfo, Assert] at h
  | some b =>
    cases hl : self.transitionInfos.texture.lookup b with
    | none =>
      rw [saveTexture_fresh self b state hl] at h
      simp only [Outcome.ok.injEq] at h
      subst h
      refine ⟨hn.1, ?_⟩
      simp only [List.map_append, List.map_cons, List.map_nil]
      rw [List.nodup_append]
      refine ⟨hn.2, List.nodup_singleton _, ?_⟩
      intro a ha hb
      rw [List.mem_singleton] at hb
      subst hb
      obtain ⟨e, he, hkey⟩ := List.mem_map.mp ha
      rw [List.lookup_eq_none_iff] at hl
      have := hl e he
      simp [hkey] at this
    | some recorded =>
      rw [saveTexture_recorded self b state recorded hl] at h
      unfold Assert at h
      split_ifs at h
      simp only [Outcome.ok.injEq] at h
      subst h
      exact hn

/-- A property of the pass data that every completed `SaveBufferTransitionInfo` and
`SaveTextureTransitionInfo` keeps holds after a completed `Compile` of the pass. -/
theorem pass_compile_induct (P : RGPassBase → Prop)
    (hb : ∀ (s s' : RGPassBase) (buffer : RGBufferRef) (state : BufferState), P s →
      s.SaveBufferTransitionInfo buffer state = Outcome.ok s' → P s')
    (ht : ∀ (s s' : RGPassBase) (texture : RGTextureRef) (state : TextureState), P s →
      s.SaveTextureTransitionInfo texture state = Outcome.ok s' → P s')
    (g : RGBuilder) (pass pass' : RGPass) (a a' : RGAsyncInfo)
    (hn : P pass.base) (h : pass.Compile g a = Outcome.ok (pass', a')) : P pass'.base := by
  have hw : ∀ (item : String × RGBindItemDesc) (s s' : RGPassBase), P s →
      RGPassBase.compileWriteItem g item s = Outcome.ok s' → P s' := by
    intro item s s' hs hx
    unfold RGPassBase.compileWriteItem at hx
    simp only at hx
    split at hx
    · split at hx
      · simp at hx
      · exact hb _ _ _ _ hs hx
    · split at hx
      · split at hx
        · simp at hx
        · exact ht _ _ _ _ hs hx
      · simp only [Outcome.ok.injEq] at hx
        exact hx ▸ hs
  have hr : ∀ (item : String × RGBindItemDesc) (s s' : RGPassBase), P s →
      RGPassBase.compileReadItem g item s = Outcome.ok s' → P s' := by
    intro item s s' hs hx
    unfold RGPassBase.compileReadItem at hx
    simp only at hx
    split at hx
    · split at hx
      · simp at hx
      · exact hb _ _ _ _ hs hx
    · split at hx
      · split at hx
        · simp at hx
        · exact ht _ _ _ _ hs hx
      · simp only [Outcome.ok.injEq] at hx
        exact hx ▸ hs
  have hg : ∀ (bindGroups : List RGBindGroupRef) (s s' : RGPassBase), P s →
      s.CompileForBindGroups g bindGroups = Outcome.ok s' → P s' := by
    intro bindGroups s s' hs hx
    refine forEach_ok_induct P _ bindGroups ?_ s s' hs hx
    intro bg _ t t' htP hbg
    unfold RGPassBase.compileBindGroup at hbg
    split at hbg
    · simp at hbg
    · simp only at hbg
      obtain ⟨s1, h1, h2⟩ := (andThen_eq_ok _ _ _).mp hbg
      have hs1 := forEach_ok_induct P _ _ (fun x _ u u' hu hx => hw x u u' hu hx) t s1 htP h1
      exact forEach_ok_induct P _ _ (fun x _ u u' hu hx => hr x u u' hu hx) s1 t' hs1 h2
  have hcp : ∀ (bs : BufferState) (ts : TextureState) (resource : RGResourceRef)
      (s s' : RGPassBase), P s →
      RGPassBase.compileCopyResource g bs ts resource s = Outcome.ok s' → P s' := by
    intro bs ts resource s s' hs hx
    unfold RGPassBase.compileCopyResource at hx
    split at hx
    · simp at hx
    · split at hx
      · exact hb _ _ _ _ hs hx
      · split at hx
        · exact ht _ _ _ _ hs hx
        · simp [QuickFail] at hx
  cases pass with
  | copy p =>
    simp only [RGPass.Compile, RGCopyPass.Compile, RGCopyPass.CompileForCopyPassDesc] at h
    obtain ⟨⟨q, b⟩, h, hq⟩ := (lift_eq_ok _ _ _).mp h
    obtain ⟨⟨q1, b1⟩, h, hq1⟩ := (andThen_eq_ok _ _ _).mp h
    obtain ⟨q2, h, hq2⟩ := (lift_eq_ok _ _ _).mp h
    obtain ⟨base, h, hbase⟩ := (lift_eq_ok _ _ _).mp h
    obtain ⟨base1, h1, h2⟩ := (andThen_eq_ok _ _ _).mp h
    have n1 := forEach_ok_induct P _ _
      (fun x _ s s' hs hx => hcp _ _ x s s' hs hx) _ base1 hn h1
    have n2 := forEach_ok_induct P _ _
      (fun x _ s s' hs hx => hcp _ _ x s s' hs hx) _ base n1 h2
    simp only [Outcome.ok.injEq, Prod.mk.injEq] at hq1
    simp only [Prod.mk.injEq] at hq hq2
    obtain ⟨hq, _⟩ := hq
    obtain ⟨hq2, _⟩ := hq2
    obtain ⟨hq1, _⟩ := hq1
    subst hq hq1 hq2 hbase
    exact n2
  | compute p =>
    simp only [RGPass.Compile, RGComputePass.Compile] at h
    obtain ⟨⟨q, b⟩, h, hq⟩ := (lift_eq_ok _ _ _).mp h
    obtain ⟨⟨q1, b1⟩, h, hq1⟩ := (andThen_eq_ok _ _ _).mp h
    obtain ⟨base, h, hbase⟩ := (lift_eq_ok _ _ _).mp h
    have n1 := hg _ _ _ hn h
    simp only [Outcome.ok.injEq, Prod.mk.injEq] at hq1
    simp only [Prod.mk.injEq] at hq hbase
    obtain ⟨hq, _⟩ := hq
    obtain ⟨hq1, _⟩ := hq1
    obtain ⟨hbase, _⟩ := hbase
    subst hq hq1 hbase
    exact n1
  | raster p =>
    simp only [RGPass.Compile, RGRasterPass.Compile, RGRasterPass.CompileForRasterPassDesc] at h
    obtain ⟨⟨q, b⟩, h, hq⟩ := (lift_eq_ok _ _ _).mp h
    obtain ⟨q1, h, hq1⟩ := (lift_eq_ok _ _ _).mp h
    obtain ⟨q2, h, h'⟩ := (andThen_eq_ok _ _ _).mp h
    obtain ⟨base, h, hbase⟩ := (lift_eq_ok _ _ _).mp h
    obtain ⟨base1, h1, h2⟩ := (andThen_eq_ok _ _ _).mp h
    obtain ⟨base3, h3, hbase3⟩ := (lift_eq_ok _ _ _).mp h'
    have n1 := forEach_ok_induct P _ _
      (fun x _ s s' hs hx => by
        unfold RGPassBase.compileColorAttachment at hx
        split at hx
        · simp at hx
        · exact ht _ _ _ _ hs hx) _ base1 hn h1
    have n2 : P base := by
      split at h2
      · split at h2
        · simp at h2
        · exact ht _ _ _ _ n1 h2
      · simp only [Outcome.ok.injEq] at h2
        exact h2 ▸ n1
    subst hbase
    have n3 := hg _ _ _ n2 h3
    simp only [Prod.mk.injEq] at hq hq1
    obtain ⟨hq, _⟩ := hq
    obtain ⟨hq1, _⟩ := hq1
    subst hq hq1 hbase3
    exact n3

/-- A completed `Compile` of a fresh builder leaves maps without repeated keys in its passes, and
the states on record for the resources as they were. -/
theorem compile_tracks (g g1 : RGBuilder) (hf : g.Fresh) (h : g.Compile = Outcome.ok g1) :
    (∀ pass ∈ g1.passes, pass.base.KeysNodup) ∧ ∀ r, g1.stateAt r = g.stateAt r := by
  unfold RGBuilder.Compile at h
  obtain ⟨w1, h1, h⟩ := (andThen_eq_ok _ _ _).mp h
  obtain ⟨w2, h2, h3⟩ := (andThen_eq_ok _ _ _).mp h
  have hnd0 : ∀ pass ∈ g.passes, pass.base.reads.Nodup := by
    intro pass hp
    rw [(hf.2.2.2 pass hp).1]
    exact List.nodup_nil
  have hk0 : ∀ pass ∈ g.passes, pass.base.KeysNodup := by
    intro pass hp
    unfold RGPassBase.KeysNodup
    rw [(hf.2.2.2 pass hp).2]
    exact ⟨List.nodup_nil, List.nodup_nil⟩
  obtain ⟨hres1, _, _⟩ := compilePasses_frame _ g w1 hnd0 h1
  have k1 : ∀ pass ∈ w1.passes, pass.base.KeysNodup := by
    refine forEach_ok_induct (fun (s : RGBuilder) => ∀ pass ∈ s.passes, pass.base.KeysNodup)
      RGBuilder.compilePassAt _ ?_ g w1 hk0 h1
    intro i _ s s' hs hi
    unfold RGBuilder.compilePassAt at hi
    split at hi
    · simp at hi
    · rename_i pass hpass
      obtain ⟨⟨pass', a'⟩, hc, hq⟩ := (lift_eq_ok _ _ _).mp hi
      subst hq
      intro q hq
      rcases List.mem_or_eq_of_mem_set hq with hq | hq
      · exact hs q hq
      · subst hq
        exact pass_compile_induct RGPassBase.KeysNodup saveBuffer_keys saveTexture_keys
          s pass _ _ a' (hs pass (List.getElem?_mem hpass)) hc
  obtain ⟨_, p2⟩ := forEach_steps (fun (pass : RGPass) w => pass.base.DevirtualizeResources w)
    (fun pass => pass.base.reads.map Step.incRef) w1.passes
    (fun x _ w w' hx => devirtualizeResources_steps _ w w' hx) w1 w2 h2
  have s2 : ∀ r, w2.stateAt r = w1.stateAt r :=
    forEach_states _ _
      (fun (pass : RGPass) _ s s' hx =>
        forEach_states _ _ (fun x _ t t' ht => incRefAt_states x t t' ht) s s' hx) w1 w2 h2
  have f3 : g1.passes = w2.passes ∧ ∀ r, g1.stateAt r = w2.stateAt r := by
    refine forEach_ok_induct
      (fun (s : RGBuilder) => s.passes = w2.passes ∧ ∀ r, s.stateAt r = w2.stateAt r)
      _ _ ?_ w2 g1 ⟨rfl, fun _ => rfl⟩ h3
    intro i _ s s' ⟨hp, hs⟩ hi
    unfold RGBuilder.devirtualizeIfForceUsed at hi
    split at hi
    · simp at hi
    · split at hi
      · exact ⟨(incRefAt_steps i s s' hi).2.trans hp,
          fun r => (incRefAt_states i s s' hi r).trans (hs r)⟩
      · simp only [Outcome.ok.injEq] at hi
        subst hi
        exact ⟨hp, hs⟩
  constructor
  · rw [f3.1, p2]
    exact k1
  · intro r
    rw [f3.2 r, s2 r]
    unfold RGBuilder.stateAt
    rw [hres1]

end LastKnownState

/-- C32. In an `Execute` that returns, on a builder on which `Execute` has not been called and
whose resources have the state their constructor gave them: `Compile` returns a graph, and for
every pass of it, with `pre` the passes before it, the passes `pre` execute, the pass executes,
and its command buffer receives, between the begin of the pass and the callback, exactly one
barrier per entry of the pass's buffer map followed by one per entry of its texture map, in map
order. The barrier of the entry `(R, s)` goes from the state recorded for `R` in the latest
pass of `pre` whose map contains `R`, or from the `initialState` of the descriptor of `R` if no
pass of `pre` has `R` in its map, to `s`. No entry is skipped, so a barrier is recorded also
when the two states are equal. -/
theorem barriers_from_last_known_state (g g2 : RGBuilder) (fencePack : RGFencePack)
    (hf : g.Fresh) (hinit : g.AtInitialStates) (he : g.Execute fencePack = Outcome.ok g2) :
    ∃ g1, g.Compile = Outcome.ok g1 ∧
      ∀ pre pass post, g1.passes = pre ++ pass :: post →
        ∃ w w' old bufferBarriers textureBarriers,
          forEach (RGBuilder.executePass (g1.context fencePack)) pre (g1.guarded fencePack) =
            Outcome.ok w ∧
          pass.Execute (g1.context fencePack) w = Outcome.ok w' ∧
          w.device.commandBuffers[pass.cmdBuffer (g1.context fencePack)]? = some old ∧
          w'.device.commandBuffers[pass.cmdBuffer (g1.context fencePack)]? =
            some (old ++ ([Command.begin, pass.beginPass] ++ bufferBarriers ++ textureBarriers ++
              [Command.callback pass.func, Command.endPass, Command.endEncoding])) ∧
          List.Forall₂ (fun e c => ∃ b0 b, g.resources[e.1]? = some (RGResource.buffer b0) ∧
              w.resources[e.1]? = some (RGResource.buffer b) ∧
              c = Command.bufferBarrier b.rhiHandle
                (lastKnownBufferState pre e.1 b0.desc.initialState) e.2)
            pass.base.transitionInfos.buffer bufferBarriers ∧
          List.Forall₂ (fun e c => ∃ t0 t, g.resources[e.1]? = some (RGResource.texture t0) ∧
              w.resources[e.1]? = some (RGResource.texture t) ∧
              c = Command.textureBarrier t.rhiHandle
                (lastKnownTextureState pre e.1 t0.desc.initialState) e.2)
            pass.base.transitionInfos.texture textureBarriers := by
  unfold RGBuilder.Execute at he
  obtain ⟨g0, h0, hrest⟩ := (andThen_eq_ok _ _ _).mp he
  obtain ⟨g1, hc, hrest1⟩ := (andThen_eq_ok _ _ _).mp hrest
  obtain ⟨g3, hi, _⟩ := (andThen_eq_ok _ _ _).mp hrest1
  have hg0 : g0 = g := by
    unfold Assert at h0
    split at h0
    · simp only [Outcome.ok.injEq] at h0
      exact h0.symm
    · simp at h0
  subst hg0
  refine ⟨g1, hc, ?_⟩
  intro pre pass post hp
  obtain ⟨hkeys, hstates⟩ := compile_tracks g0 g1 hf hc
  unfold RGBuilder.ExecuteInternal at hi
  simp only at hi
  obtain ⟨wl, hloop, _⟩ := (andThen_eq_ok _ _ _).mp hi
  have hloop' : forEach (RGBuilder.executePass (g1.context fencePack)) (pre ++ pass :: post)
      (g1.guarded fencePack) = Outcome.ok wl := by
    rw [← hp]
    exact hloop
  rw [forEach_append] at hloop'
  obtain ⟨w, hw, hrestloop⟩ := (andThen_eq_ok _ _ _).mp hloop'
  simp only [forEach] at hrestloop
  obtain ⟨wa, hpass, _⟩ := (andThen_eq_ok _ _ _).mp hrestloop
  unfold RGBuilder.executePass at hpass
  obtain ⟨w', hexec, _⟩ := (andThen_eq_ok _ _ _).mp hpass
  have hkpass : pass.base.KeysNodup := hkeys pass (by rw [hp]; simp)
  have hkpre : ∀ q ∈ pre, q.base.KeysNodup := fun q hq => hkeys q (by rw [hp]; simp [hq])
  obtain ⟨old, bufferBarriers, textureBarriers, hold, hnew, hbuf, htex, _⟩ :=
    pass_execute_tracks pass _ w w' hkpass hexec
  have hst : ∀ r, w.stateAt r =
      (g0.stateAt r).map fun s => pre.foldl (fun s q => q.base.nextState r s) s := by
    intro r
    rw [executePasses_states _ r pre _ w hkpre hw]
    have : (g1.guarded fencePack).stateAt r = g1.stateAt r := rfl
    rw [this, hstates r]
  refine ⟨w, w', old, bufferBarriers, textureBarriers, hw, hexec, hold, hnew, ?_, ?_⟩
  · refine hbuf.imp ?_
    rintro e c ⟨b, hb, hcmd⟩
    have h1 := hst e.1
    unfold RGBuilder.stateAt at h1
    rw [hb] at h1
    cases hx0 : g0.resources[e.1]? with
    | none => simp [hx0] at h1
    | some x0 =>
      have hi0 := hinit x0 (List.getElem?_mem hx0)
      rw [hx0] at h1
      simp only [Option.map_some', Option.some.injEq] at h1
      rw [hi0] at h1
      cases x0 with
      | buffer b0 =>
        simp only [RGResource.state, RGResource.initialState, foldl_nextState_buffer,
          Sum.inl.injEq] at h1
        exact ⟨b0, b, rfl, hb, by rw [hcmd, h1]⟩
      | texture t0 =>
        simp [RGResource.state, RGResource.initialState, foldl_nextState_texture] at h1
  · refine htex.imp ?_
    rintro e c ⟨t, ht, hcmd⟩
    have h1 := hst e.1
    unfold RGBuilder.stateAt at h1
    rw [ht] at h1
    cases hx0 : g0.resources[e.1]? with
    | none => simp [hx0] at h1
    | some x0 =>
      have hi0 := hinit x0 (List.getElem?_mem hx0)
      rw [hx0] at h1
      simp only [Option.map_some', Option.some.injEq] at h1
      rw [hi0] at h1
      cases x0 with
      | buffer b0 =>
        simp [RGResource.state, RGResource.initialState, foldl_nextState_buffer] at h1
      | texture t0 =>
        simp only [RGResource.state, RGResource.initialState, foldl_nextState_texture,
          Sum.inr.injEq] at h1
        exact ⟨t0, t, rfl, ht, by rw [hcmd, h1]⟩

/-- C32, witness: the sample graph, executed without fences. Its second pass reads buffer 0,
which its first pass has read as well: the last known state of buffer 0 before the second pass
is the state the second pass records for it, and the barrier is recorded all the same. -/
theorem barriers_from_last_known_state_witness :
    sampleGraph.Fresh ∧ sampleGraph.AtInitialStates ∧
    sampleGraph.Execute noFences =
      Outcome.ok ((sampleGraph.Execute noFences).stateD sampleGraph) ∧
    (sampleCompiled.passes.map fun pass => pass.base.transitionInfos.buffer) =
      [[(1, BufferState.storage), (0, BufferState.shaderReadOnly)],
       [(0, BufferState.shaderReadOnly)]] ∧
    lastKnownBufferState (sampleCompiled.passes.take 1) 0 sampleBufferDesc.initialState =
      BufferState.shaderReadOnly ∧
    ∃ g1, sampleGraph.Compile = Outcome.ok g1 ∧
      ∀ pre pass post, g1.passes = pre ++ pass :: post →
        ∃ w w' old bufferBarriers textureBarriers,
          forEach (RGBuilder.executePass (g1.context noFences)) pre (g1.guarded noFences) =
            Outcome.ok w ∧
          pass.Execute (g1.context noFences) w = Outcome.ok w' ∧
          w.device.commandBuffers[pass.cmdBuffer (g1.context noFences)]? = some old ∧
          w'.device.commandBuffers[pass.cmdBuffer (g1.context noFences)]? =
            some (old ++ ([Command.begin, pass.beginPass] ++ bufferBarriers ++ textureBarriers ++
              [Command.callback pass.func, Command.endPass, Command.endEncoding])) ∧
          List.Forall₂ (fun e c => ∃ b0 b,
              sampleGraph.resources[e.1]? = some (RGResource.buffer b0) ∧
              w.resources[e.1]? = some (RGResource.buffer b) ∧
              c = Command.bufferBarrier b.rhiHandle
                (lastKnownBufferState pre e.1 b0.desc.initialState) e.2)
            pass.base.transitionInfos.buffer bufferBarriers ∧
          List.Forall₂ (fun e c => ∃ t0 t,
              sampleGraph.resources[e.1]? = some (RGResource.texture t0) ∧
              w.resources[e.1]? = some (RGResource.texture t) ∧
              c = Command.textureBarrier t.rhiHandle
                (lastKnownTextureState pre e.1 t0.desc.initialState) e.2)
            pass.base.transitionInfos.texture textureBarriers :=
  ⟨by decide, by decide, by rfl, by rfl, by rfl,
    barriers_from_last_known_state sampleGraph _ noFences (by decide) (by decide) (by rfl)⟩


/-! ## C19: what `Execute` of a pass records, and where it stops -/

section PassStops

theorem andThen_eq_fatal {σ : Type} (o : Outcome σ) (f : σ → Outcome σ) (s : σ) :
    o.andThen f = Outcome.fatal s ↔
      o = Outcome.fatal s ∨ ∃ s1, o = Outcome.ok s1 ∧ f s1 = Outcome.fatal s := by
  cases o <;> simp [Outcome.andThen]

/-- A loop stopped by a fatal assertion completed the iterations before the one that stopped. -/
theorem forEach_eq_fatal {α σ : Type} (f : α → σ → Outcome σ) (xs : List α) :
    ∀ (w s : σ), forEach f xs w = Outcome.fatal s →
      ∃ done e rest w1, xs = done ++ e :: rest ∧ forEach f done w = Outcome.ok w1 ∧
        f e w1 = Outcome.fatal s := by
  induction xs with
  | nil =>
    intro w s h
    simp [forEach] at h
  | cons x xs ih =>
    intro w s h
    simp only [forEach] at h
    rcases (andThen_eq_fatal _ _ _).mp h with h1 | ⟨w1, h1, h2⟩
    · exact ⟨[], x, xs, w, rfl, rfl, h1⟩
    · obtain ⟨done, e, rest, w2, hx, hd, he⟩ := ih w1 s h2
      refine ⟨x :: done, e, rest, w2, by rw [hx]; rfl, ?_, he⟩
      simp only [forEach, h1, Outcome.andThen]
      exact hd

theorem record_ne_fatal (cb : Nat) (c : Command) (w s : RGBuilder) :
    w.record cb c ≠ Outcome.fatal s := by
  unfold RGBuilder.record
  split <;> simp

theorem record_devirtualizedAt (cb : Nat) (c : Command) (w w' : RGBuilder)
    (h : w.record cb c = Outcome.ok w') (r : Nat) :
    w'.devirtualizedAt r = w.devirtualizedAt r := by
  unfold RGBuilder.devirtualizedAt
  rw [record_resources cb c w w' h]

theorem devirtualizedAt_set (w : RGBuilder) (resources : List RGResource) (i : Nat)
    (x y : RGResource) (hx : w.resources[i]? = some x)
    (hy : y.base.devirtualized = x.base.devirtualized)
    (hres : resources = w.resources.set i y) (r : Nat) :
    (resources[r]?).map (fun x => x.base.devirtualized) = w.devirtualizedAt r := by
  unfold RGBuilder.devirtualizedAt
  subst hres
  by_cases hr : i = r
  · subst hr
    obtain ⟨hlt, _⟩ := List.getElem?_eq_some_iff.mp hx
    rw [List.getElem?_set_self hlt, hx]
    simp [hy]
  · rw [List.getElem?_set_ne hr]

/-- A transition that returns was made on a devirtualized buffer and changes no devirtualized
flag. -/
theorem transitionBufferAt_progress (cb : Nat) (t : Nat × BufferState) (w w' : RGBuilder)
    (h : RGBuilder.transitionBufferAt cb t w = Outcome.ok w') :
    w.devirtualizedAt t.1 = some true ∧ ∀ r, w'.devirtualizedAt r = w.devirtualizedAt r := by
  obtain ⟨b, hb, hres, _⟩ := transitionBufferAt_spec cb t w w' h
  have hdv : b.devirtualized = true := by
    unfold RGBuilder.transitionBufferAt at h
    rw [hb] at h
    cases hc : w.device.commandBuffers[cb]? with
    | none => simp [hc] at h
    | some enc =>
      cases hdv : b.devirtualized
      · simp [hc, RGBuffer.Transition, RGBuffer.GetRHI, Assert, hdv] at h
      · rfl
  refine ⟨by simp [RGBuilder.devirtualizedAt, hb, RGResource.base, hdv], ?_⟩
  intro r
  exact devirtualizedAt_set w w'.resources t.1 _ (RGResource.buffer { b with currentState := t.2 }) hb rfl hres r

theorem transitionTextureAt_progress (cb : Nat) (t : Nat × TextureState) (w w' : RGBuilder)
    (h : RGBuilder.transitionTextureAt cb t w = Outcome.ok w') :
    w.devirtualizedAt t.1 = some true ∧ ∀ r, w'.devirtualizedAt r = w.devirtualizedAt r := by
  obtain ⟨b, hb, hres, _⟩ := transitionTextureAt_spec cb t w w' h
  have hdv : b.devirtualized = true := by
    unfold RGBuilder.transitionTextureAt at h
    rw [hb] at h
    cases hc : w.device.commandBuffers[cb]? with
    | none => simp [hc] at h
    | some enc =>
      cases hdv : b.devirtualized
      · simp [hc, RGTexture.Transition, RGTexture.GetRHI, Assert, hdv] at h
      · rfl
  refine ⟨by simp [RGBuilder.devirtualizedAt, hb, RGResource.base, hdv], ?_⟩
  intro r
  exact devirtualizedAt_set w w'.resources t.1 _ (RGResource.texture { b with currentState := t.2 }) hb rfl hres r

/-- A transition stopped by the assertion of `GetRHI` was to be made on a resource that is not
devirtualized, and nothing was recorded. -/
theorem transitionBufferAt_fatal (cb : Nat) (t : Nat × BufferState) (w s : RGBuilder)
    (h : RGBuilder.transitionBufferAt cb t w = Outcome.fatal s) :
    w.devirtualizedAt t.1 = some false ∧ s.timeline = w.timeline ∧
      s.device.commandBuffers[cb]? = w.device.commandBuffers[cb]? := by
  unfold RGBuilder.transitionBufferAt at h
  split at h
  · rename_i b commandEncoder hx hcb
    cases hdv : b.devirtualized
    · simp only [RGBuffer.Transition, RGBuffer.GetRHI, Assert, hdv, Bool.false_eq_true,
        if_false, Outcome.fatal.injEq] at h
      subst h
      refine ⟨by simp [RGBuilder.devirtualizedAt, hx, RGResource.base, hdv], rfl, ?_⟩
      obtain ⟨hlt, _⟩ := List.getElem?_eq_some_iff.mp hcb
      simp [RGBuilder.setCommands, List.getElem?_set_self hlt, hcb]
    · simp [RGBuffer.Transition, RGBuffer.GetRHI, Assert, hdv] at h
  · simp at h

theorem transitionTextureAt_fatal (cb : Nat) (t : Nat × TextureState) (w s : RGBuilder)
    (h : RGBuilder.transitionTextureAt cb t w = Outcome.fatal s) :
    w.devirtualizedAt t.1 = some false ∧ s.timeline = w.timeline ∧
      s.device.commandBuffers[cb]? = w.device.commandBuffers[cb]? := by
  unfold RGBuilder.transitionTextureAt at h
  split at h
  · rename_i b commandEncoder hx hcb
    cases hdv : b.devirtualized
    · simp only [RGTexture.Transition, RGTexture.GetRHI, Assert, hdv, Bool.false_eq_true,
        if_false, Outcome.fatal.injEq] at h
      subst h
      refine ⟨by simp [RGBuilder.devirtualizedAt, hx, RGResource.base, hdv], rfl, ?_⟩
      obtain ⟨hlt, _⟩ := List.getElem?_eq_some_iff.mp hcb
      simp [RGBuilder.setCommands, List.getElem?_set_self hlt, hcb]
    · simp [RGTexture.Transition, RGTexture.GetRHI, Assert, hdv] at h
  · simp at h

/-- A completed loop of transitions: every resource it transitioned was devirtualized when the
loop began, no devirtualized flag has changed, and one barrier per entry was recorded. -/
theorem transitions_progress {α : Type} (cb : Nat) (f : α → RGBuilder → Outcome RGBuilder)
    (key : α → Nat) (entries : List α)
    (hstep : ∀ e ∈ entries, ∀ w w', f e w = Outcome.ok w' →
      (w.devirtualizedAt (key e) = some true ∧
        ∀ r, w'.devirtualizedAt r = w.devirtualizedAt r) ∧
      ∃ c, Does cb w w' [Step.barrier cb (key e)] [c] ∧ c.isBarrier = true) :
    ∀ w w', forEach f entries w = Outcome.ok w' →
      (∀ e ∈ entries, w.devirtualizedAt (key e) = some true) ∧
      (∀ r, w'.devirtualizedAt r = w.devirtualizedAt r) ∧
      ∃ cmds, Does cb w w' (entries.map fun e => Step.barrier cb (key e)) cmds ∧
        cmds.length = entries.length ∧ ∀ c ∈ cmds, c.isBarrier = true := by
  induction entries with
  | nil =>
    intro w w' h
    simp only [forEach, Outcome.ok.injEq] at h
    subst h
    exact ⟨by simp, fun _ => rfl, [], does_refl cb w, rfl, by simp⟩
  | cons e entries ih =>
    intro w w' h
    simp only [forEach] at h
    obtain ⟨w1, h1, h2⟩ := (andThen_eq_ok _ _ _).mp h
    obtain ⟨⟨hd, hf⟩, c, d1, hc⟩ := hstep e (List.mem_cons_self _ _) w w1 h1
    obtain ⟨hds, hfs, cmds, d2, hl, hcs⟩ :=
      ih (fun y hy => hstep y (List.mem_cons_of_mem _ hy)) w1 w' h2
    refine ⟨?_, fun r => (hfs r).trans (hf r), c :: cmds, does_trans d1 d2, by simp [hl], ?_⟩
    · intro x hx
      rcases List.mem_cons.mp hx with hx | hx
      · subst hx
        exact hd
      · rw [← hf]
        exact hds x hx
    · intro x hx
      rcases List.mem_cons.mp hx with hx | hx
      · subst hx
        exact hc
      · exact hcs x hx

theorem bufferStep (cb : Nat) (e : Nat × BufferState) (w w' : RGBuilder)
    (h : RGBuilder.transitionBufferAt cb e w = Outcome.ok w') :
    (w.devirtualizedAt e.1 = some true ∧ ∀ r, w'.devirtualizedAt r = w.devirtualizedAt r) ∧
      ∃ c, Does cb w w' [Step.barrier cb e.1] [c] ∧ c.isBarrier = true := by
  refine ⟨transitionBufferAt_progress cb e w w' h, ?_⟩
  obtain ⟨b, _, _, hd⟩ := transitionBufferAt_spec cb e w w' h
  exact ⟨_, hd, rfl⟩

theorem textureStep (cb : Nat) (e : Nat × TextureState) (w w' : RGBuilder)
    (h : RGBuilder.transitionTextureAt cb e w = Outcome.ok w') :
    (w.devirtualizedAt e.1 = some true ∧ ∀ r, w'.devirtualizedAt r = w.devirtualizedAt r) ∧
      ∃ c, Does cb w w' [Step.barrier cb e.1] [c] ∧ c.isBarrier = true := by
  refine ⟨transitionTextureAt_progress cb e w w' h, ?_⟩
  obtain ⟨b, _, _, hd⟩ := transitionTextureAt_spec cb e w w' h
  exact ⟨_, hd, rfl⟩

/-- A completed scope transitioned devirtualized resources only. -/
theorem executeScope_ok_devirtualized (p : RGPassBase) (cb : Nat) (beginPass : Command)
    (func : Nat) (w w' : RGBuilder) (h : p.executeScope cb beginPass func w = Outcome.ok w') :
    ∀ r ∈ p.transitioned, w.devirtualizedAt r = some true := by
  unfold RGPassBase.executeScope at h
  obtain ⟨w1, h1, h⟩ := (andThen_eq_ok _ _ _).mp h
  obtain ⟨w2, h2, h⟩ := (andThen_eq_ok _ _ _).mp h
  obtain ⟨w3, h3, _⟩ := (andThen_eq_ok _ _ _).mp h
  unfold RGPassBase.TransitionResources at h3
  obtain ⟨w2', h3a, h3b⟩ := (andThen_eq_ok _ _ _).mp h3
  have f1 := record_devirtualizedAt _ _ _ _ h1
  have f2 := record_devirtualizedAt _ _ _ _ h2
  obtain ⟨hb, fb, _⟩ := transitions_progress cb (RGBuilder.transitionBufferAt cb)
    (fun e => e.1) _ (fun e _ w w' he => bufferStep cb e w w' he) w2 w2' h3a
  obtain ⟨ht, _, _⟩ := transitions_progress cb (RGBuilder.transitionTextureAt cb)
    (fun e => e.1) _ (fun e _ w w' he => textureStep cb e w w' he) w2' w3 h3b
  intro r hr
  unfold RGPassBase.transitioned at hr
  rcases List.mem_append.mp hr with hr | hr
  · obtain ⟨e, he, rfl⟩ := List.mem_map.mp hr
    rw [← f1, ← f2]
    exact hb e he
  · obtain ⟨e, he, rfl⟩ := List.mem_map.mp hr
    rw [← f1, ← f2, ← fb]
    exact ht e he

/-- A scope stopped by a fatal assertion stopped at the barrier of the first resource, in the
order of the transitions, that is not devirtualized: Begin, the begin of the pass and the
barriers of the resources before it have been recorded, and nothing else. -/
theorem executeScope_fatal (p : RGPassBase) (cb : Nat) (beginPass : Command)
    (func : Nat) (w s : RGBuilder) (h : p.executeScope cb beginPass func w = Outcome.fatal s) :
    ∃ old done r rest barriers,
      p.transitioned = done ++ r :: rest ∧
      w.devirtualizedAt r = some false ∧
      (∀ q ∈ done, w.devirtualizedAt q = some true) ∧
      w.device.commandBuffers[cb]? = some old ∧
      s.device.commandBuffers[cb]? = some (old ++ ([Command.begin, beginPass] ++ barriers)) ∧
      barriers.length = done.length ∧ (∀ c ∈ barriers, c.isBarrier = true) ∧
      s.timeline = w.timeline ++
        ([Step.command cb Command.begin, Step.command cb beginPass] ++
          done.map (Step.barrier cb)) := by
  unfold RGPassBase.executeScope at h
  rcases (andThen_eq_fatal _ _ _).mp h with h | ⟨w1, h1, h⟩
  · exact absurd h (record_ne_fatal _ _ _ _)
  rcases (andThen_eq_fatal _ _ _).mp h with h | ⟨w2, h2, h⟩
  · exact absurd h (record_ne_fatal _ _ _ _)
  have f1 := record_devirtualizedAt _ _ _ _ h1
  have f2 := record_devirtualizedAt _ _ _ _ h2
  obtain ⟨d1, old, hold⟩ := record_does _ _ _ _ h1
  obtain ⟨d2, _⟩ := record_does _ _ _ _ h2
  have d12 := does_trans d1 d2
  rcases (andThen_eq_fatal _ _ _).mp h with h3 | ⟨w3, _, h⟩
  · unfold RGPassBase.TransitionResources at h3
    rcases (andThen_eq_fatal _ _ _).mp h3 with hb | ⟨w2', hb, ht⟩
    · obtain ⟨done, e, rest, w3, hsplit, hdone, hstop⟩ := forEach_eq_fatal _ _ _ _ hb
      obtain ⟨hdv, fdone, cmds, dd, hlen, hbar⟩ :=
        transitions_progress cb (RGBuilder.transitionBufferAt cb) (fun e => e.1) done
          (fun e _ w w' he => bufferStep cb e w w' he) w2 w3 hdone
      obtain ⟨hnot, htl, hcmd⟩ := transitionBufferAt_fatal cb e w3 s hstop
      obtain ⟨tl, _, hrec⟩ := does_trans d12 dd
      refine ⟨old, done.map (fun e => e.1), e.1,
        rest.map (fun e => e.1) ++ p.transitionInfos.texture.map (fun e => e.1), cmds,
        ?_, ?_, ?_, hold, ?_, by simp [hlen], hbar, ?_⟩
      · unfold RGPassBase.transitioned
        rw [hsplit]
        simp
      · rw [← f1, ← f2, ← fdone]
        exact hnot
      · intro q hq
        obtain ⟨x, hx, rfl⟩ := List.mem_map.mp hq
        rw [← f1, ← f2]
        exact hdv x hx
      · rw [hcmd, hrec old hold]
        simp [List.append_assoc]
      · rw [htl, tl]
        simp [List.map_map, Function.comp_def, List.append_assoc]
    · obtain ⟨done, e, rest, w3, hsplit, hdone, hstop⟩ := forEach_eq_fatal _ _ _ _ ht
      obtain ⟨hdvb, fb, cmdsb, db, hlenb, hbarb⟩ :=
        transitions_progress cb (RGBuilder.transitionBufferAt cb) (fun e => e.1) _
          (fun e _ w w' he => bufferStep cb e w w' he) w2 w2' hb
      obtain ⟨hdv, fdone, cmds, dd, hlen, hbar⟩ :=
        transitions_progress cb (RGBuilder.transitionTextureAt cb) (fun e => e.1) done
          (fun e _ w w' he => textureStep cb e w w' he) w2' w3 hdone
      obtain ⟨hnot, htl, hcmd⟩ := transitionTextureAt_fatal cb e w3 s hstop
      obtain ⟨tl, _, hrec⟩ := does_trans (does_trans d12 db) dd
      refine ⟨old, p.transitionInfos.buffer.map (fun e => e.1) ++ done.map (fun e => e.1), e.1,
        rest.map (fun e => e.1), cmdsb ++ cmds,
        ?_, ?_, ?_, hold, ?_, by simp [hlen, hlenb], ?_, ?_⟩
      · unfold RGPassBase.transitioned
        rw [hsplit]
        simp
      · rw [← f1, ← f2, ← fb, ← fdone]
        exact hnot
      · intro q hq
        rcases List.mem_append.mp hq with hq | hq
        · obtain ⟨x, hx, rfl⟩ := List.mem_map.mp hq
          rw [← f1, ← f2]
          exact hdvb x hx
        · obtain ⟨x, hx, rfl⟩ := List.mem_map.mp hq
          rw [← f1, ← f2, ← fb]
          exact hdv x hx
      · rw [hcmd, hrec old hold]
        simp [List.append_assoc]
      · intro c hc
        rcases List.mem_append.mp hc with hc | hc
        · exact hbarb c hc
        · exact hbar c hc
      · rw [htl, tl]
        simp [List.map_map, Function.comp_def, List.append_assoc]
  · rcases (andThen_eq_fatal _ _ _).mp h with h | ⟨w4, _, h⟩
    · exact absurd h (record_ne_fatal _ _ _ _)
    rcases (andThen_eq_fatal _ _ _).mp h with h | ⟨w5, _, h⟩
    · exact absurd h (record_ne_fatal _ _ _ _)
    exact absurd h (record_ne_fatal _ _ _ _)

end PassStops

/-- C19, amended. For every copy, compute or raster pass: when Execute runs to completion it
has appended to its command buffer, in this order, Begin, the begin of the matching native pass
scope, one barrier per buffer entry of the pass's transition map (in the order in which the map
is walked, each to the entry's state), one barrier per texture entry likewise, the user
callback once, EndPass, End, and nothing else, so the barriers are as many as the entries of
the transition map and all precede the callback; and every resource of the transition map was
devirtualized. When a resource of the transition map is not devirtualized, Execute does not run
to completion. When Execute is stopped by a fatal assertion, it stopped at the barrier of the
first resource, in the order in which the maps are walked, that is not devirtualized: the
command buffer has received Begin, the begin of the pass scope and one barrier for each
resource before that one, and neither the callback nor EndPass nor End. -/
theorem pass_execute_records (pass : RGPass) (context : Internal.Context) (w : RGBuilder) :
    (∀ w', pass.Execute context w = Outcome.ok w' →
      ∃ old bufferBarriers textureBarriers,
        w.device.commandBuffers[pass.cmdBuffer context]? = some old ∧
        w'.device.commandBuffers[pass.cmdBuffer context]? =
          some (old ++ ([Command.begin, pass.beginPass] ++ bufferBarriers ++ textureBarriers ++
            [Command.callback pass.func, Command.endPass, Command.endEncoding])) ∧
        List.Forall₂ (fun e c => c.isBufferBarrierTo e.2 = true)
          pass.base.transitionInfos.buffer bufferBarriers ∧
        List.Forall₂ (fun e c => c.isTextureBarrierTo e.2 = true)
          pass.base.transitionInfos.texture textureBarriers ∧
        bufferBarriers.length + textureBarriers.length =
          pass.base.transitionInfos.buffer.length + pass.base.transitionInfos.texture.length ∧
        w'.timeline = w.timeline ++ pass.executeSteps context ∧
        ∀ r ∈ pass.base.transitioned, w.devirtualizedAt r = some true) ∧
    ((∃ r ∈ pass.base.transitioned, w.devirtualizedAt r = some false) →
      (pass.Execute context w).isOk = false) ∧
    (∀ s, pass.Execute context w = Outcome.fatal s →
      ∃ old done r rest barriers,
        pass.base.transitioned = done ++ r :: rest ∧
        w.devirtualizedAt r = some false ∧
        (∀ q ∈ done, w.devirtualizedAt q = some true) ∧
        w.device.commandBuffers[pass.cmdBuffer context]? = some old ∧
        s.device.commandBuffers[pass.cmdBuffer context]? =
          some (old ++ ([Command.begin, pass.beginPass] ++ barriers)) ∧
        barriers.length = done.length ∧ (∀ c ∈ barriers, c.isBarrier = true) ∧
        s.timeline = w.timeline ++
          ([Step.command (pass.cmdBuffer context) Command.begin,
            Step.command (pass.cmdBuffer context) pass.beginPass] ++
            done.map (Step.barrier (pass.cmdBuffer context)))) := by
  have hdev : ∀ w', pass.Execute context w = Outcome.ok w' →
      ∀ r ∈ pass.base.transitioned, w.devirtualizedAt r = some true := by
    intro w' h
    cases pass with
    | copy p => exact executeScope_ok_devirtualized _ _ _ _ _ _ h
    | compute p => exact executeScope_ok_devirtualized _ _ _ _ _ _ h
    | raster p =>
      simp only [RGPass.Execute, RGRasterPass.Execute] at h
      split at h
      · exact executeScope_ok_devirtualized _ _ _ _ _ _ h
      · simp at h
  refine ⟨?_, ?_, ?_⟩
  · intro w' h
    obtain ⟨old, bs, ts, hold, ⟨ht, _, hrec⟩, hbs, hts⟩ := pass_execute_does pass context w w' h
    exact ⟨old, bs, ts, hold, hrec old hold, hbs, hts, by rw [hbs.length_eq, hts.length_eq], ht,
      hdev w' h⟩
  · rintro ⟨r, hr, hnot⟩
    cases h : pass.Execute context w with
    | ok w' =>
      have := hdev w' h r hr
      rw [hnot] at this
      simp at this
    | fatal s => rfl
    | undefinedBehaviour => rfl
  · intro s h
    cases pass with
    | copy p => exact executeScope_fatal _ _ _ _ _ _ h
    | compute p => exact executeScope_fatal _ _ _ _ _ _ h
    | raster p =>
      simp only [RGPass.Execute, RGRasterPass.Execute] at h
      split at h
      · exact executeScope_fatal _ _ _ _ _ _ h
      · simp at h

/-- C19, witness: the first pass of the compiled graph whose first pass writes the buffer and
whose second pass reads it, executed on the builder as the guard leaves it; the buffer is
devirtualized then, and the command buffer receives Begin, BeginComputePass, the barrier of the
buffer to storage, callback 1, EndPass, End. -/
theorem pass_execute_records_witness :
    writeThenReadGraph.Compile = Outcome.ok writeThenReadCompiled ∧
    writeThenReadCompiled.passes[0]? = some sampleWriterPass ∧
    ((sampleWriterPass.Execute (writeThenReadCompiled.context noFences)
      (writeThenReadCompiled.guarded noFences)).stateD
        writeThenReadCompiled).device.commandBuffers =
      [[Command.begin, Command.beginComputePass,
        Command.bufferBarrier none (BufferState.other 0) BufferState.storage,
        Command.callback 1, Command.endPass, Command.endEncoding]] ∧
    ∃ old bufferBarriers textureBarriers,
      (writeThenReadCompiled.guarded noFences).device.commandBuffers[0]? = some old ∧
      ((sampleWriterPass.Execute (writeThenReadCompiled.context noFences)
        (writeThenReadCompiled.guarded noFences)).stateD
          writeThenReadCompiled).device.commandBuffers[0]? =
        some (old ++ ([Command.begin, Command.beginComputePass] ++ bufferBarriers ++
          textureBarriers ++ [Command.callback 1, Command.endPass, Command.endEncoding])) ∧
      bufferBarriers.length + textureBarriers.length = 1 := by
  refine ⟨by rfl, by rfl, by rfl, ?_⟩
  obtain ⟨old, bs, ts, h1, h2, _, _, h5, _⟩ := (pass_execute_records sampleWriterPass
    (writeThenReadCompiled.context noFences) (writeThenReadCompiled.guarded noFences)).1
    ((sampleWriterPass.Execute (writeThenReadCompiled.context noFences)
      (writeThenReadCompiled.guarded noFences)).stateD writeThenReadCompiled) (by rfl)
  exact ⟨old, bs, ts, h1, h2, h5⟩

/-- C19, counterexample. In the graph of one buffer and one compute pass that writes it, the
buffer is read by no pass and not marked as used, so `Compile` leaves it not devirtualized.
Execute of the pass is stopped by the assertion of `GetRHI` at the barrier of the buffer, the
only entry of the transition map: the command buffer holds Begin and BeginComputePass only,
with no barrier, no callback, no EndPass and no End. -/
theorem pass_execute_stops_at_first_barrier :
    writeOnlyGraph.Compile = Outcome.ok writeOnlyCompiled ∧
    writeOnlyCompiled.passes = [sampleWriterPass] ∧
    sampleWriterPass.base.transitionInfos =
      { buffer := [(0, BufferState.storage)], texture := [] } ∧
    (writeOnlyCompiled.guarded noFences).devirtualizedAt 0 = some false ∧
    (sampleWriterPass.Execute (writeOnlyCompiled.context noFences)
      (writeOnlyCompiled.guarded noFences)).isFatal = true ∧
    ((sampleWriterPass.Execute (writeOnlyCompiled.context noFences)
      (writeOnlyCompiled.guarded noFences)).stateD
      writeOnlyCompiled).device.commandBuffers =
      [[Command.begin, Command.beginComputePass]] := by
  refine ⟨by rfl, by rfl, by rfl, by rfl, by rfl, by rfl⟩


/-! ## C12, C13: writing and reading one buffer in one pass -/

section PerBuffer

theorem entry_buffer_eq (s t : RGPassBase) (b : Nat)
    (h : s.entry? (MapKey.buffer b) = t.entry? (MapKey.buffer b)) :
    s.transitionInfos.buffer.lookup b = t.transitionInfos.buffer.lookup b := by
  simp only [RGPassBase.entry?] at h
  cases hs : s.transitionInfos.buffer.lookup b <;>
    cases ht : t.transitionInfos.buffer.lookup b <;> simp_all

theorem entry_texture_eq (s t : RGPassBase) (k : Nat)
    (h : s.entry? (MapKey.texture k) = t.entry? (MapKey.texture k)) :
    s.transitionInfos.texture.lookup k = t.transitionInfos.texture.lookup k := by
  simp only [RGPassBase.entry?] at h
  cases hs : s.transitionInfos.texture.lookup k <;>
    cases ht : t.transitionInfos.texture.lookup k <;> simp_all

/-- Whether a request is accepted depends on the entry under its key only, and so does the
entry it leaves there. -/
theorem save_congr (r : StateRequest) (s t : RGPassBase)
    (h : s.entry? r.key = t.entry? r.key) :
    (RGPassBase.save r s).isOk = (RGPassBase.save r t).isOk ∧
      ∀ s' t', RGPassBase.save r s = Outcome.ok s' → RGPassBase.save r t = Outcome.ok t' →
        s'.entry? r.key = t'.entry? r.key := by
  cases r with
  | buffer k st =>
    have hl := entry_buffer_eq s t k h
    simp only [RGPassBase.save, StateRequest.key]
    cases hs : s.transitionInfos.buffer.lookup k with
    | none =>
      have ht : t.transitionInfos.buffer.lookup k = none := by rw [← hl, hs]
      rw [saveBuffer_fresh s k st hs, saveBuffer_fresh t k st ht]
      refine ⟨rfl, ?_⟩
      intro s' t' h1 h2
      simp only [Outcome.ok.injEq] at h1 h2
      subst h1 h2
      simp only [RGPassBase.entry?]
      rw [lookup_append_fresh _ k st hs, lookup_append_fresh _ k st ht]
    | some recorded =>
      have ht : t.transitionInfos.buffer.lookup k = some recorded := by rw [← hl, hs]
      rw [saveBuffer_recorded s k st recorded hs, saveBuffer_recorded t k st recorded ht]
      cases h1 : Internal.IsBufferStateWrite st <;> cases h2 : Internal.IsBufferStateRead st <;>
        cases h3 : Internal.IsBufferStateWrite recorded <;>
        simp [Assert, Outcome.isOk, RGPassBase.entry?, hs, ht]
  | texture k st =>
    have hl := entry_texture_eq s t k h
    simp only [RGPassBase.save, StateRequest.key]
    cases hs : s.transitionInfos.texture.lookup k with
    | none =>
      have ht : t.transitionInfos.texture.lookup k = none := by rw [← hl, hs]
      rw [saveTexture_fresh s k st hs, saveTexture_fresh t k st ht]
      refine ⟨rfl, ?_⟩
      intro s' t' h1 h2
      simp only [Outcome.ok.injEq] at h1 h2
      subst h1 h2
      simp only [RGPassBase.entry?]
      rw [lookup_append_fresh _ k st hs, lookup_append_fresh _ k st ht]
    | some recorded =>
      have ht : t.transitionInfos.texture.lookup k = some recorded := by rw [← hl, hs]
      rw [saveTexture_recorded s k st recorded hs, saveTexture_recorded t k st recorded ht]
      cases h1 : Internal.IsTextureStateWrite st <;> cases h2 : Internal.IsTextureStateRead st <;>
        cases h3 : Internal.IsTextureStateWrite recorded <;>
        simp [Assert, Outcome.isOk, RGPassBase.entry?, hs, ht]

/-- A request that returns leaves the entries under the other keys as they were. -/
theorem save_frame (r : StateRequest) (s s' : RGPassBase)
    (h : RGPassBase.save r s = Outcome.ok s') (k : MapKey) (hk : k ≠ r.key) :
    s'.entry? k = s.entry? k := by
  cases r with
  | buffer b st =>
    simp only [RGPassBase.save] at h
    simp only [StateRequest.key] at hk
    cases hs : s.transitionInfos.buffer.lookup b with
    | none =>
      rw [saveBuffer_fresh s b st hs] at h
      simp only [Outcome.ok.injEq] at h
      subst h
      cases k with
      | buffer b' =>
        have hne : b' ≠ b := fun e => hk (by rw [e])
        simp only [RGPassBase.entry?]
        rw [lookup_append_ne_key _ _ _ _ hne]
      | texture t' => rfl
    | some recorded =>
      rw [saveBuffer_recorded s b st recorded hs] at h
      cases h1 : Internal.IsBufferStateWrite st <;> cases h2 : Internal.IsBufferStateRead st <;>
        cases h3 : Internal.IsBufferStateWrite recorded <;>
        simp [Assert, h1, h2, h3] at h
      subst h
      cases k <;> rfl
  | texture b st =>
    simp only [RGPassBase.save] at h
    simp only [StateRequest.key] at hk
    cases hs : s.transitionInfos.texture.lookup b with
    | none =>
      rw [saveTexture_fresh s b st hs] at h
      simp only [Outcome.ok.injEq] at h
      subst h
      cases k with
      | buffer b' => rfl
      | texture b' =>
        have hne : b' ≠ b := fun e => hk (by rw [e])
        simp only [RGPassBase.entry?]
        rw [lookup_append_ne_key _ _ _ _ hne]
    | some recorded =>
      rw [saveTexture_recorded s b st recorded hs] at h
      cases h1 : Internal.IsTextureStateWrite st <;> cases h2 : Internal.IsTextureStateRead st <;>
        cases h3 : Internal.IsTextureStateWrite recorded <;>
        simp [Assert, h1, h2, h3] at h
      subst h
      cases k <;> rfl

theorem saveAll_cons (r : StateRequest) (rs : List StateRequest) (s : RGPassBase) :
    RGPassBase.saveAll (r :: rs) s = (RGPassBase.save r s).andThen (RGPassBase.saveAll rs) :=
  rfl

/-- The requests of a list are accepted exactly if the requests about buffer `b` are accepted
on their own and the other requests are accepted on their own; and the entries they leave are
the entries the two parts leave. -/
theorem saveAll_split (b : Nat) (rs : List StateRequest) :
    ∀ s t u : RGPassBase, t.entry? (MapKey.buffer b) = s.entry? (MapKey.buffer b) →
      (∀ k, k ≠ MapKey.buffer b → u.entry? k = s.entry? k) →
      (RGPassBase.saveAll rs s).isOk =
        ((RGPassBase.saveAll (requestsFor b rs) t).isOk &&
          (RGPassBase.saveAll (requestsBeside b rs) u).isOk) ∧
      ∀ s', RGPassBase.saveAll rs s = Outcome.ok s' →
        ∃ t' u', RGPassBase.saveAll (requestsFor b rs) t = Outcome.ok t' ∧
          RGPassBase.saveAll (requestsBeside b rs) u = Outcome.ok u' ∧
          t'.entry? (MapKey.buffer b) = s'.entry? (MapKey.buffer b) ∧
          ∀ k, k ≠ MapKey.buffer b → u'.entry? k = s'.entry? k := by
  induction rs with
  | nil =>
    intro s t u ht hu
    refine ⟨rfl, ?_⟩
    intro s' h
    simp only [RGPassBase.saveAll, forEach, Outcome.ok.injEq] at h
    subst h
    exact ⟨t, u, rfl, rfl, ht, hu⟩
  | cons r rs ih =>
    intro s t u ht hu
    by_cases hk : r.key = MapKey.buffer b
    · have e1 : requestsFor b (r :: rs) = r :: requestsFor b rs := by
        simp [requestsFor, List.filter_cons, hk]
      have e2 : requestsBeside b (r :: rs) = requestsBeside b rs := by
        simp [requestsBeside, List.filter_cons, hk]
      rw [e1, e2, saveAll_cons, saveAll_cons]
      obtain ⟨hok, hent⟩ := save_congr r s t (by rw [hk]; exact ht.symm)
      cases hs : RGPassBase.save r s with
      | ok s1 =>
        cases hst : RGPassBase.save r t with
        | ok t1 =>
          have h1 : t1.entry? (MapKey.buffer b) = s1.entry? (MapKey.buffer b) := by
            have := hent s1 t1 hs hst
            rw [hk] at this
            exact this.symm
          have h2 : ∀ k, k ≠ MapKey.buffer b → u.entry? k = s1.entry? k := by
            intro k hkb
            rw [hu k hkb, save_frame r s s1 hs k (by rw [hk]; exact hkb)]
          exact ih s1 t1 u h1 h2
        | fatal t1 => simp [hs, hst, Outcome.isOk] at hok
        | undefinedBehaviour => simp [hs, hst, Outcome.isOk] at hok
      | fatal s1 =>
        cases hst : RGPassBase.save r t with
        | ok t1 => simp [hs, hst, Outcome.isOk] at hok
        | fatal t1 => simp [Outcome.andThen, Outcome.isOk]
        | undefinedBehaviour => simp [Outcome.andThen, Outcome.isOk]
      | undefinedBehaviour =>
        cases hst : RGPassBase.save r t with
        | ok t1 => simp [hs, hst, Outcome.isOk] at hok
        | fatal t1 => simp [Outcome.andThen, Outcome.isOk]
        | undefinedBehaviour => simp [Outcome.andThen, Outcome.isOk]
    · have e1 : requestsFor b (r :: rs) = requestsFor b rs := by
        simp [requestsFor, List.filter_cons, hk]
      have e2 : requestsBeside b (r :: rs) = r :: requestsBeside b rs := by
        simp [requestsBeside, List.filter_cons, hk]
      rw [e1, e2, saveAll_cons, saveAll_cons]
      obtain ⟨hok, hent⟩ := save_congr r s u (hu r.key hk).symm
      cases hs : RGPassBase.save r s with
      | ok s1 =>
        cases hsu : RGPassBase.save r u with
        | ok u1 =>
          have h1 : t.entry? (MapKey.buffer b) = s1.entry? (MapKey.buffer b) := by
            rw [ht, save_frame r s s1 hs _ (Ne.symm hk)]
          have h2 : ∀ k, k ≠ MapKey.buffer b → u1.entry? k = s1.entry? k := by
            intro k hkb
            by_cases hkr : k = r.key
            · rw [hkr]
              exact (hent s1 u1 hs hsu).symm
            · rw [save_frame r u u1 hsu k hkr, save_frame r s s1 hs k hkr]
              exact hu k hkb
          exact ih s1 t u1 h1 h2
        | fatal u1 => simp [hs, hsu, Outcome.isOk] at hok
        | undefinedBehaviour => simp [hs, hsu, Outcome.isOk] at hok
      | fatal s1 =>
        cases hsu : RGPassBase.save r u with
        | ok u1 => simp [hs, hsu, Outcome.isOk] at hok
        | fatal u1 => simp [Outcome.andThen, Outcome.isOk]
        | undefinedBehaviour => simp [Outcome.andThen, Outcome.isOk]
      | undefinedBehaviour =>
        cases hsu : RGPassBase.save r u with
        | ok u1 => simp [hs, hsu, Outcome.isOk] at hok
        | fatal u1 => simp [Outcome.andThen, Outcome.isOk]
        | undefinedBehaviour => simp [Outcome.andThen, Outcome.isOk]

/-- A request whose key has no entry is accepted. -/
theorem save_fresh_ok (r : StateRequest) (s : RGPassBase) (h : s.entry? r.key = none) :
    (RGPassBase.save r s).isOk = true := by
  cases r with
  | buffer b st =>
    simp only [RGPassBase.entry?, StateRequest.key, Option.map_eq_none'] at h
    simp only [RGPassBase.save]
    rw [saveBuffer_fresh s b st h]
    rfl
  | texture b st =>
    simp only [RGPassBase.entry?, StateRequest.key, Option.map_eq_none'] at h
    simp only [RGPassBase.save]
    rw [saveTexture_fresh s b st h]
    rfl

/-- Requests with pairwise different keys, none of which has an entry, are all accepted. -/
theorem saveAll_fresh_ok (rs : List StateRequest) :
    ∀ s : RGPassBase, (rs.map StateRequest.key).Nodup → (∀ r ∈ rs, s.entry? r.key = none) →
      (RGPassBase.saveAll rs s).isOk = true := by
  induction rs with
  | nil => intro s _ _; rfl
  | cons r rs ih =>
    intro s hnd hfresh
    rw [saveAll_cons]
    have hok := save_fresh_ok r s (hfresh r (List.mem_cons_self _ _))
    cases hs : RGPassBase.save r s with
    | ok s1 =>
      simp only [Outcome.andThen]
      rw [List.map_cons, List.nodup_cons] at hnd
      apply ih s1 hnd.2
      intro r' hr'
      have hne : r'.key ≠ r.key := by
        intro e
        exact hnd.1 (e ▸ List.mem_map_of_mem _ hr')
      rw [save_frame r s s1 hs _ hne]
      exact hfresh r' (List.mem_cons_of_mem _ hr')
    | fatal s1 => simp [hs, Outcome.isOk] at hok
    | undefinedBehaviour => simp [hs, Outcome.isOk] at hok

/-- A request that returns keeps the elements of `reads` and adds the resource it reads. -/
theorem save_reads (r : StateRequest) (s s' : RGPassBase)
    (h : RGPassBase.save r s = Outcome.ok s') :
    (∀ x ∈ s.reads, x ∈ s'.reads) ∧ ∀ x, r.readKey = some x → x ∈ s'.reads := by
  have hmono : ∀ (set : List Nat) (y x : Nat), x ∈ set → x ∈ setEmplace set y := by
    intro set y x hx
    unfold setEmplace
    split
    · exact hx
    · exact List.mem_append_left _ hx
  cases r with
  | buffer b st =>
    simp only [RGPassBase.save] at h
    simp only [StateRequest.readKey]
    cases hs : s.transitionInfos.buffer.lookup b with
    | none =>
      rw [saveBuffer_fresh s b st hs] at h
      simp only [Outcome.ok.injEq] at h
      subst h
      cases h2 : Internal.IsBufferStateRead st
      · simp
      · simp only [if_true, Option.some.injEq]
        exact ⟨fun x hx => hmono _ _ _ hx, fun x hx => hx ▸ mem_setEmplace _ _⟩
    | some recorded =>
      rw [saveBuffer_recorded s b st recorded hs] at h
      cases h1 : Internal.IsBufferStateWrite st <;> cases h2 : Internal.IsBufferStateRead st <;>
        cases h3 : Internal.IsBufferStateWrite recorded <;>
        simp [Assert, h1, h2, h3] at h
      subst h
      simp only [if_true, Option.some.injEq]
      exact ⟨fun x hx => hmono _ _ _ hx, fun x hx => hx ▸ mem_setEmplace _ _⟩
  | texture b st =>
    simp only [RGPassBase.save] at h
    simp only [StateRequest.readKey]
    cases hs : s.transitionInfos.texture.lookup b with
    | none =>
      rw [saveTexture_fresh s b st hs] at h
      simp only [Outcome.ok.injEq] at h
      subst h
      cases h2 : Internal.IsTextureStateRead st
      · simp
      · simp only [if_true, Option.some.injEq]
        exact ⟨fun x hx => hmono _ _ _ hx, fun x hx => hx ▸ mem_setEmplace _ _⟩
    | some recorded =>
      rw [saveTexture_recorded s b st recorded hs] at h
      cases h1 : Internal.IsTextureStateWrite st <;> cases h2 : Internal.IsTextureStateRead st <;>
        cases h3 : Internal.IsTextureStateWrite recorded <;>
        simp [Assert, h1, h2, h3] at h
      subst h
      simp only [if_true, Option.some.injEq]
      exact ⟨fun x hx => hmono _ _ _ hx, fun x hx => hx ▸ mem_setEmplace _ _⟩

/-- When the requests of a list have all returned, every resource one of them reads is in
`reads`. -/
theorem saveAll_reads (rs : List StateRequest) :
    ∀ s s', RGPassBase.saveAll rs s = Outcome.ok s' →
      (∀ x ∈ s.reads, x ∈ s'.reads) ∧ ∀ r ∈ rs, ∀ x, r.readKey = some x → x ∈ s'.reads := by
  induction rs with
  | nil =>
    intro s s' h
    simp only [RGPassBase.saveAll, forEach, Outcome.ok.injEq] at h
    subst h
    exact ⟨fun _ hx => hx, by simp⟩
  | cons r rs ih =>
    intro s s' h
    rw [saveAll_cons] at h
    obtain ⟨s1, h1, h2⟩ := (andThen_eq_ok _ _ _).mp h
    obtain ⟨m1, r1⟩ := save_reads r s s1 h1
    obtain ⟨m2, r2⟩ := ih s1 s' h2
    refine ⟨fun x hx => m2 x (m1 x hx), ?_⟩
    intro r' hr' x hx
    rcases List.mem_cons.mp hr' with e | hr'
    · subst e
      exact m2 x (r1 x hx)
    · exact r2 r' hr' x hx

/-- The requests a storage-buffer binding and then a uniform-buffer binding of a buffer without
entry make are accepted: storage is recorded and the buffer is read. -/
theorem save_write_then_read (s : RGPassBase) (b : Nat)
    (h : s.transitionInfos.buffer.lookup b = none) :
    ∃ s', RGPassBase.saveAll
        [StateRequest.buffer b BufferState.storage,
          StateRequest.buffer b BufferState.shaderReadOnly] s = Outcome.ok s' ∧
      s'.transitionInfos.buffer.lookup b = some BufferState.storage := by
  have hrec : ({ name := s.name, type := s.type, reads := s.reads
                 transitionInfos :=
                   { buffer := s.transitionInfos.buffer ++ [(b, BufferState.storage)]
                     texture := s.transitionInfos.texture } } :
      RGPassBase).transitionInfos.buffer.lookup b = some BufferState.storage :=
    lookup_append_fresh s.transitionInfos.buffer b BufferState.storage h
  refine ⟨{ name := s.name, type := s.type, reads := setEmplace s.reads b
            transitionInfos :=
              { buffer := s.transitionInfos.buffer ++ [(b, BufferState.storage)]
                texture := s.transitionInfos.texture } }, ?_, hrec⟩
  simp [RGPassBase.saveAll, forEach, RGPassBase.save, Outcome.andThen,
    saveBuffer_fresh _ b _ h, saveBuffer_recorded _ b _ _ hrec,
    Internal.IsBufferStateRead, Internal.IsBufferStateWrite, Assert]

/-- The requests a uniform-buffer binding and then a storage-buffer binding of a buffer without
entry make are not accepted: the second finds the entry of the first. -/
theorem save_read_then_write (s : RGPassBase) (b : Nat)
    (h : s.transitionInfos.buffer.lookup b = none) :
    (RGPassBase.saveAll
      [StateRequest.buffer b BufferState.shaderReadOnly,
        StateRequest.buffer b BufferState.storage] s).isOk = false := by
  have hrec : ({ name := s.name, type := s.type, reads := setEmplace s.reads b
                 transitionInfos :=
                   { buffer := s.transitionInfos.buffer ++ [(b, BufferState.shaderReadOnly)]
                     texture := s.transitionInfos.texture } } :
      RGPassBase).transitionInfos.buffer.lookup b = some BufferState.shaderReadOnly :=
    lookup_append_fresh s.transitionInfos.buffer b BufferState.shaderReadOnly h
  simp [RGPassBase.saveAll, forEach, RGPassBase.save, Outcome.andThen,
    saveBuffer_fresh _ b _ h, saveBuffer_recorded _ b _ _ hrec,
    Internal.IsBufferStateRead, Internal.IsBufferStateWrite, Outcome.isOk]

end PerBuffer

section PerBufferBridge

/-- With the requests for a buffer without entry being a storage request followed by a
shaderReadOnly request, the requests of a list are accepted exactly if the remaining requests
are accepted on their own; storage is then recorded for the buffer and the buffer is read. -/
theorem saveAll_write_then_read (b : Nat) (rs : List StateRequest) (s : RGPassBase)
    (hfresh : s.transitionInfos.buffer.lookup b = none)
    (hfor : requestsFor b rs =
      [StateRequest.buffer b BufferState.storage,
        StateRequest.buffer b BufferState.shaderReadOnly]) :
    (RGPassBase.saveAll rs s).isOk = (RGPassBase.saveAll (requestsBeside b rs) s).isOk ∧
      ∀ s', RGPassBase.saveAll rs s = Outcome.ok s' →
        s'.transitionInfos.buffer.lookup b = some BufferState.storage ∧ b ∈ s'.reads := by
  obtain ⟨hok, hres⟩ := saveAll_split b rs s s s rfl (fun _ _ => rfl)
  obtain ⟨t0, ht0, hl0⟩ := save_write_then_read s b hfresh
  rw [hfor, ht0] at hok
  refine ⟨by simpa [Outcome.isOk] using hok, ?_⟩
  intro s' hs'
  obtain ⟨t', u', ht', _, hent, _⟩ := hres s' hs'
  rw [hfor, ht0] at ht'
  simp only [Outcome.ok.injEq] at ht'
  subst ht'
  constructor
  · have := entry_buffer_eq _ _ b hent
    rw [← this]
    exact hl0
  · have hmem : StateRequest.buffer b BufferState.shaderReadOnly ∈ rs := by
      have : StateRequest.buffer b BufferState.shaderReadOnly ∈ requestsFor b rs := by
        rw [hfor]
        simp
      exact (List.mem_filter.mp this).1
    exact (saveAll_reads rs s s' hs').2 _ hmem b (by simp [StateRequest.readKey,
      Internal.IsBufferStateRead])

/-- With the requests for a buffer without entry being a shaderReadOnly request followed by a
storage request, the requests of a list are not all accepted. -/
theorem saveAll_read_then_write (b : Nat) (rs : List StateRequest) (s : RGPassBase)
    (hfresh : s.transitionInfos.buffer.lookup b = none)
    (hfor : requestsFor b rs =
      [StateRequest.buffer b BufferState.shaderReadOnly,
        StateRequest.buffer b BufferState.storage]) :
    (RGPassBase.saveAll rs s).isFatal = true := by
  obtain ⟨hok, _⟩ := saveAll_split b rs s s s rfl (fun _ _ => rfl)
  rw [hfor, save_read_then_write s b hfresh, Bool.false_and] at hok
  cases h : RGPassBase.saveAll rs s with
  | ok s' => simp [h, Outcome.isOk] at hok
  | fatal s' => rfl
  | undefinedBehaviour => exact absurd h (saveAll_ne_undefined rs s)

theorem requestsFor_append (b : Nat) (a c : List StateRequest) :
    requestsFor b (a ++ c) = requestsFor b a ++ requestsFor b c := by
  simp [requestsFor, List.filter_append]

theorem requestsBeside_append (b : Nat) (a c : List StateRequest) :
    requestsBeside b (a ++ c) = requestsBeside b a ++ requestsBeside b c := by
  simp [requestsBeside, List.filter_append]

/-- The request the writes loop makes for one item is about buffer `b` exactly if the item
binds `b` as storage buffer. -/
theorem writeRequest_for (g : RGBuilder) (b : Nat) (item : String × RGBindItemDesc)
    (a : List StateRequest) (h : g.writeRequest? item = some a) :
    requestsFor b a =
      if g.bindsBuffer item.2 BindingType.storageBuffer b then
        [StateRequest.buffer b BufferState.storage]
      else [] := by
  unfold RGBuilder.writeRequest? at h
  by_cases h1 : item.2.type = BindingType.storageBuffer
  · rw [if_pos h1] at h
    split at h
    · rename_i view hv
      cases hb : view.GetBuffer with
      | none => simp [hb] at h
      | some b' =>
        simp only [hb, Option.map_some', Option.some.injEq] at h
        subst h
        by_cases e : b' = b
        · subst e
          rw [if_pos ⟨h1, by rw [hv]; simp [hb]⟩]
          simp [requestsFor, StateRequest.key]
        · rw [if_neg (fun hc => e (by
            have := hc.2
            rw [hv] at this
            simpa [hb] using this))]
          simp [requestsFor, StateRequest.key, e]
    · simp at h
  · rw [if_neg (fun hc => h1 hc.1)]
    rw [if_neg h1] at h
    by_cases h2 : item.2.type = BindingType.storageTexture
    · rw [if_pos h2] at h
      split at h
      · rename_i view hv
        cases hb : view.GetTexture with
        | none => simp [hb] at h
        | some t =>
          simp only [hb, Option.map_some', Option.some.injEq] at h
          subst h
          simp [requestsFor, StateRequest.key]
      · simp at h
    · rw [if_neg h2] at h
      simp only [Option.some.injEq] at h
      subst h
      simp [requestsFor]

/-- The request the reads loop makes for one item is about buffer `b` exactly if the item binds
`b` as uniform buffer. -/
theorem readRequest_for (g : RGBuilder) (b : Nat) (item : String × RGBindItemDesc)
    (a : List StateRequest) (h : g.readRequest? item = some a) :
    requestsFor b a =
      if g.bindsBuffer item.2 BindingType.uniformBuffer b then
        [StateRequest.buffer b BufferState.shaderReadOnly]
      else [] := by
  unfold RGBuilder.readRequest? at h
  by_cases h1 : item.2.type = BindingType.uniformBuffer
  · rw [if_pos h1] at h
    split at h
    · rename_i view hv
      cases hb : view.GetBuffer with
      | none => simp [hb] at h
      | some b' =>
        simp only [hb, Option.map_some', Option.some.injEq] at h
        subst h
        by_cases e : b' = b
        · subst e
          rw [if_pos ⟨h1, by rw [hv]; simp [hb]⟩]
          simp [requestsFor, StateRequest.key]
        · rw [if_neg (fun hc => e (by
            have := hc.2
            rw [hv] at this
            simpa [hb] using this))]
          simp [requestsFor, StateRequest.key, e]
    · simp at h
  · rw [if_neg (fun hc => h1 hc.1)]
    rw [if_neg h1] at h
    by_cases h2 : item.2.type = BindingType.texture
    · rw [if_pos h2] at h
      split at h
      · rename_i view hv
        cases hb : view.GetTexture with
        | none => simp [hb] at h
        | some t =>
          simp only [hb, Option.map_some', Option.some.injEq] at h
          subst h
          simp [requestsFor, StateRequest.key]
      · simp at h
    · rw [if_neg h2] at h
      simp only [Option.some.injEq] at h
      subst h
      simp [requestsFor]

/-- The requests one loop over the items of a bind group makes for buffer `b`: one per item
that binds `b` with the binding type of the loop. -/
theorem collect_for (b : Nat) (f : String × RGBindItemDesc → Option (List StateRequest))
    (p : String × RGBindItemDesc → Bool) (request : StateRequest)
    (hf : ∀ item a, f item = some a → requestsFor b a = if p item then [request] else [])
    (items : List (String × RGBindItemDesc)) :
    ∀ rs, collect f items = some rs →
      requestsFor b rs = List.replicate (items.countP p) request := by
  induction items with
  | nil =>
    intro rs h
    simp only [collect, Option.some.injEq] at h
    subst h
    rfl
  | cons item items ih =>
    intro rs h
    cases hx : f item with
    | none => simp [collect, hx] at h
    | some a =>
      cases hc : collect f items with
      | none => simp [collect, hx, hc] at h
      | some c =>
        simp only [collect, hx, hc, Option.some.injEq] at h
        subst h
        rw [requestsFor_append, hf item a hx, ih c hc, List.countP_cons]
        by_cases hp : p item = true
        · simp [hp, List.replicate_succ']
          rw [← List.replicate_succ, List.replicate_succ']
        · simp [hp]

end PerBufferBridge

section PerBufferCounts

/-- The requests `CompileForBindGroups` makes for buffer `b` in one bind group: a storage
request per item that binds `b` as storage buffer, then a shaderReadOnly request per item that
binds `b` as uniform buffer. -/
theorem groupRequests_for (g : RGBuilder) (b : Nat) (bg : RGBindGroupRef)
    (rs : List StateRequest) (h : g.groupRequests? bg = some rs) :
    requestsFor b rs =
      List.replicate (g.bindingCount BindingType.storageBuffer b bg)
          (StateRequest.buffer b BufferState.storage) ++
        List.replicate (g.bindingCount BindingType.uniformBuffer b bg)
          (StateRequest.buffer b BufferState.shaderReadOnly) := by
  unfold RGBuilder.groupRequests? at h
  cases hg : g.bindGroup? bg with
  | none => simp [hg] at h
  | some group =>
    simp only [hg] at h
    cases hw : collect g.writeRequest? group.GetDesc.items with
    | none => simp [hw] at h
    | some ws =>
      cases hr : collect g.readRequest? group.GetDesc.items with
      | none => simp [hw, hr] at h
      | some rds =>
        simp only [hw, hr, Option.some.injEq] at h
        subst h
        have hi : g.groupItems? bg = some group.GetDesc.items := by
          simp [RGBuilder.groupItems?, hg]
        rw [requestsFor_append,
          collect_for b g.writeRequest?
            (fun item => decide (g.bindsBuffer item.2 BindingType.storageBuffer b))
            (StateRequest.buffer b BufferState.storage)
            (fun item a ha => by
              rw [writeRequest_for g b item a ha]
              simp) _ ws hw,
          collect_for b g.readRequest?
            (fun item => decide (g.bindsBuffer item.2 BindingType.uniformBuffer b))
            (StateRequest.buffer b BufferState.shaderReadOnly)
            (fun item a ha => by
              rw [readRequest_for g b item a ha]
              simp) _ rds hr]
        simp [RGBuilder.bindingCount, hi]

/-- The requests `CompileForBindGroups` makes for buffer `b`, bind group by bind group. -/
theorem groupsRequests_for (g : RGBuilder) (b : Nat) (bindGroups : List RGBindGroupRef) :
    ∀ rs, collect g.groupRequests? bindGroups = some rs →
      requestsFor b rs =
        (g.bindingCounts b bindGroups).flatMap fun c =>
          List.replicate c.1 (StateRequest.buffer b BufferState.storage) ++
            List.replicate c.2 (StateRequest.buffer b BufferState.shaderReadOnly) := by
  induction bindGroups with
  | nil =>
    intro rs h
    simp only [collect, Option.some.injEq] at h
    subst h
    rfl
  | cons bg bgs ih =>
    intro rs h
    cases hx : g.groupRequests? bg with
    | none => simp [collect, hx] at h
    | some a =>
      cases hc : collect g.groupRequests? bgs with
      | none => simp [collect, hx, hc] at h
      | some c =>
        simp only [collect, hx, hc, Option.some.injEq] at h
        subst h
        rw [requestsFor_append, groupRequests_for g b bg a hx, ih c hc]
        simp [RGBuilder.bindingCounts, List.flatMap_cons]

theorem attachmentRequest_for (g : RGBuilder) (b : Nat) (state : TextureState)
    (view : RGTextureViewRef) (a : List StateRequest)
    (h : g.attachmentRequest? state view = some a) : requestsFor b a = [] := by
  unfold RGBuilder.attachmentRequest? at h
  split at h
  · rename_i v hv
    cases ht : v.GetTexture with
    | none => simp [ht] at h
    | some t =>
      simp only [ht, Option.map_some', Option.some.injEq] at h
      subst h
      simp [requestsFor, StateRequest.key]
  · simp at h

theorem attachmentRequests_for (g : RGBuilder) (b : Nat) (desc : RGRasterPassDesc)
    (a : List StateRequest) (h : g.attachmentRequests? desc = some a) :
    requestsFor b a = [] := by
  have hcol : ∀ (cs : List RGColorAttachment) (rs : List StateRequest),
      collect (fun (c : RGColorAttachment) =>
        g.attachmentRequest? TextureState.renderTarget c.view) cs = some rs →
      requestsFor b rs = [] := by
    intro cs
    induction cs with
    | nil =>
      intro rs hc
      simp only [collect, Option.some.injEq] at hc
      subst hc
      rfl
    | cons c cs ih =>
      intro rs hc
      cases hx : g.attachmentRequest? TextureState.renderTarget c.view with
      | none => simp [collect, hx] at hc
      | some x =>
        cases hy : collect (fun (c : RGColorAttachment) =>
            g.attachmentRequest? TextureState.renderTarget c.view) cs with
        | none => simp [collect, hx, hy] at hc
        | some y =>
          simp only [collect, hx, hy, Option.some.injEq] at hc
          subst hc
          rw [requestsFor_append, attachmentRequest_for g b _ _ x hx, ih y hy]
          rfl
  unfold RGBuilder.attachmentRequests? at h
  cases hc : collect (fun (c : RGColorAttachment) =>
      g.attachmentRequest? TextureState.renderTarget c.view) desc.colorAttachments with
  | none => simp [hc] at h
  | some colors =>
    cases hd : desc.depthStencilAttachment with
    | none =>
      simp only [hc, hd, Option.some.injEq] at h
      subst h
      rw [requestsFor_append, hcol _ colors hc]
      rfl
    | some depth =>
      simp only [hc, hd] at h
      cases hx : g.attachmentRequest? TextureState.depthStencilWrite depth.view with
      | none => simp [hx] at h
      | some x =>
        simp only [hx, Option.some.injEq] at h
        subst h
        rw [requestsFor_append, hcol _ colors hc, attachmentRequest_for g b _ _ x hx]
        rfl

/-- The requests `Compile` of a compute or raster pass makes for buffer `b`, bind group by bind
group: the attachments of a raster pass make none. -/
theorem passRequests_for (g : RGBuilder) (b : Nat) (pass : RGPass)
    (bindGroups : List RGBindGroupRef) (rs : List StateRequest)
    (hbg : pass.bindGroups? = some bindGroups) (hrs : g.requests? pass = some rs) :
    requestsFor b rs =
      (g.bindingCounts b bindGroups).flatMap fun c =>
        List.replicate c.1 (StateRequest.buffer b BufferState.storage) ++
          List.replicate c.2 (StateRequest.buffer b BufferState.shaderReadOnly) := by
  cases pass with
  | copy p => simp [RGPass.bindGroups?] at hbg
  | compute p =>
    simp only [RGPass.bindGroups?, Option.some.injEq] at hbg
    subst hbg
    exact groupsRequests_for g b _ rs hrs
  | raster p =>
    simp only [RGPass.bindGroups?, Option.some.injEq] at hbg
    subst hbg
    simp only [RGBuilder.requests?] at hrs
    cases ha : g.attachmentRequests? p.passDesc with
    | none => simp [ha] at hrs
    | some as =>
      cases hc : collect g.groupRequests? p.bindGroups with
      | none => simp [ha, hc] at hrs
      | some bs =>
        simp only [ha, hc, Option.some.injEq] at hrs
        subst hrs
        rw [requestsFor_append, attachmentRequests_for g b _ as ha,
          groupsRequests_for g b _ bs hc]
        rfl

theorem flatMap_zeros {β : Type} (f : Nat × Nat → List β) (hf : f (0, 0) = []) (n : Nat) :
    (List.replicate n ((0 : Nat), (0 : Nat))).flatMap f = [] := by
  induction n with
  | zero => rfl
  | succ n ih => rw [List.replicate_succ, List.flatMap_cons, hf, ih]; rfl

/-- With the storage-buffer binding not in a later bind group than the uniform-buffer binding,
the requests for the buffer are the storage request followed by the shaderReadOnly request. -/
theorem requests_of_writeNotAfterRead {β : Type} (W R : β) (counts : List (Nat × Nat))
    (h : WriteNotAfterRead counts) :
    (counts.flatMap fun c => List.replicate c.1 W ++ List.replicate c.2 R) = [W, R] := by
  have hz := flatMap_zeros (fun c : Nat × Nat => List.replicate c.1 W ++ List.replicate c.2 R)
    rfl
  rcases h with ⟨n, m, rfl⟩ | ⟨n, m, k, rfl⟩
  · simp only [List.flatMap_append, List.flatMap_cons, hz]
    rfl
  · simp only [List.flatMap_append, List.flatMap_cons, hz]
    rfl

/-- With the uniform-buffer binding in an earlier bind group than the storage-buffer binding,
the requests for the buffer are the shaderReadOnly request followed by the storage request. -/
theorem requests_of_readBeforeWrite {β : Type} (W R : β) (counts : List (Nat × Nat))
    (h : ReadBeforeWrite counts) :
    (counts.flatMap fun c => List.replicate c.1 W ++ List.replicate c.2 R) = [R, W] := by
  have hz := flatMap_zeros (fun c : Nat × Nat => List.replicate c.1 W ++ List.replicate c.2 R)
    rfl
  obtain ⟨n, m, k, rfl⟩ := h
  simp only [List.flatMap_append, List.flatMap_cons, hz]
  rfl

theorem counts_zero (counts : List (Nat × Nat)) :
    (counts.map Prod.fst).sum = 0 → (counts.map Prod.snd).sum = 0 →
      counts = List.replicate counts.length (0, 0) := by
  induction counts with
  | nil => intro _ _; rfl
  | cons c cs ih =>
    intro h1 h2
    simp only [List.map_cons, List.sum_cons] at h1 h2
    obtain ⟨a, d⟩ := c
    simp only at h1 h2
    have ha : a = 0 := by omega
    have hd : d = 0 := by omega
    subst ha hd
    rw [List.length_cons, List.replicate_succ, ← ih (by omega) (by omega)]

theorem counts_one_zero (counts : List (Nat × Nat)) :
    (counts.map Prod.fst).sum = 1 → (counts.map Prod.snd).sum = 0 →
      ∃ n m, counts = List.replicate n (0, 0) ++ (1, 0) :: List.replicate m (0, 0) := by
  induction counts with
  | nil => intro h1 _; simp at h1
  | cons c cs ih =>
    intro h1 h2
    simp only [List.map_cons, List.sum_cons] at h1 h2
    obtain ⟨a, d⟩ := c
    simp only at h1 h2
    have hd : d = 0 := by omega
    subst hd
    rcases Nat.eq_zero_or_pos a with ha | ha
    · subst ha
      obtain ⟨n, m, e⟩ := ih (by omega) (by omega)
      exact ⟨n + 1, m, by rw [e, List.replicate_succ]; rfl⟩
    · have ha1 : a = 1 := by omega
      subst ha1
      exact ⟨0, cs.length, by rw [← counts_zero cs (by omega) (by omega)]; rfl⟩

theorem counts_zero_one (counts : List (Nat × Nat)) :
    (counts.map Prod.fst).sum = 0 → (counts.map Prod.snd).sum = 1 →
      ∃ n m, counts = List.replicate n (0, 0) ++ (0, 1) :: List.replicate m (0, 0) := by
  induction counts with
  | nil => intro _ h2; simp at h2
  | cons c cs ih =>
    intro h1 h2
    simp only [List.map_cons, List.sum_cons] at h1 h2
    obtain ⟨a, d⟩ := c
    simp only at h1 h2
    have ha : a = 0 := by omega
    subst ha
    rcases Nat.eq_zero_or_pos d with hd | hd
    · subst hd
      obtain ⟨n, m, e⟩ := ih (by omega) (by omega)
      exact ⟨n + 1, m, by rw [e, List.replicate_succ]; rfl⟩
    · have hd1 : d = 1 := by omega
      subst hd1
      exact ⟨0, cs.length, by rw [← counts_zero cs (by omega) (by omega)]; rfl⟩

/-- A bind-group list that binds the buffer exactly once as storage buffer and exactly once as
uniform buffer has the storage-buffer binding not after the uniform-buffer binding, or the
uniform-buffer binding in an earlier bind group. -/
theorem counts_once (counts : List (Nat × Nat)) :
    (counts.map Prod.fst).sum = 1 → (counts.map Prod.snd).sum = 1 →
      WriteNotAfterRead counts ∨ ReadBeforeWrite counts := by
  induction counts with
  | nil => intro h1 _; simp at h1
  | cons c cs ih =>
    intro h1 h2
    simp only [List.map_cons, List.sum_cons] at h1 h2
    obtain ⟨a, d⟩ := c
    simp only at h1 h2
    rcases Nat.eq_zero_or_pos a with ha | ha
    · subst ha
      rcases Nat.eq_zero_or_pos d with hd | hd
      · subst hd
        rcases ih (by omega) (by omega) with (⟨n, m, e⟩ | ⟨n, m, k, e⟩) | ⟨n, m, k, e⟩
        · exact Or.inl (Or.inl ⟨n + 1, m, by rw [e, List.replicate_succ]; rfl⟩)
        · exact Or.inl (Or.inr ⟨n + 1, m, k, by rw [e, List.replicate_succ]; rfl⟩)
        · exact Or.inr ⟨n + 1, m, k, by rw [e, List.replicate_succ]; rfl⟩
      · have hd1 : d = 1 := by omega
        subst hd1
        obtain ⟨m, k, e⟩ := counts_one_zero cs (by omega) (by omega)
        exact Or.inr ⟨0, m, k, by rw [e]; rfl⟩
    · have ha1 : a = 1 := by omega
      subst ha1
      rcases Nat.eq_zero_or_pos d with hd | hd
      · subst hd
        obtain ⟨m, k, e⟩ := counts_zero_one cs (by omega) (by omega)
        exact Or.inl (Or.inr ⟨0, m, k, by rw [e]; rfl⟩)
      · have hd1 : d = 1 := by omega
        subst hd1
        exact Or.inl (Or.inl ⟨0, cs.length,
          by rw [← counts_zero cs (by omega) (by omega)]; rfl⟩)

end PerBufferCounts

theorem isOk_lift {σ τ : Type} (o : Outcome τ) (put : τ → σ) : (o.lift put).isOk = o.isOk := by
  cases o <;> rfl

theorem isFatal_of_not_ok (rs : List StateRequest) (s : RGPassBase)
    (h : (RGPassBase.saveAll rs s).isOk = false) : (RGPassBase.saveAll rs s).isFatal = true := by
  cases hs : RGPassBase.saveAll rs s with
  | ok s' => simp [hs, Outcome.isOk] at h
  | fatal s' => rfl
  | undefinedBehaviour => exact absurd hs (saveAll_ne_undefined rs s)

/-- C12, amended. Within one bind group the writes-first order makes write-plus-read of one
buffer legal whatever the iteration order of the item map: for every bind group whose view
pointers designate views of resources and that binds buffer B exactly once as StorageBuffer and
exactly once as UniformBuffer, whatever else it binds, and every pass that has no entry for B
yet, the requests made for B are the storage request followed by the shaderReadOnly request,
and both are accepted. CompileForBindGroups therefore succeeds exactly if the requests of the
other items of the group are accepted on their own, which they are when they are about
pairwise different resources the pass has no entry for; when it succeeds it has recorded
B ↦ storage and put B in the reads set, and when it does not it has stopped at a fatal
failure. -/
theorem write_then_read_in_one_group (g : RGBuilder) (self : RGPassBase)
    (bg : RGBindGroupRef) (rs : List StateRequest) (b : Nat)
    (hrs : g.groupRequests? bg = some rs)
    (hw : g.bindingCount BindingType.storageBuffer b bg = 1)
    (hr : g.bindingCount BindingType.uniformBuffer b bg = 1)
    (hfresh : self.transitionInfos.buffer.lookup b = none) :
    requestsFor b rs =
      [StateRequest.buffer b BufferState.storage,
        StateRequest.buffer b BufferState.shaderReadOnly] ∧
    (self.CompileForBindGroups g [bg]).isOk = (self.saveAll (requestsBeside b rs)).isOk ∧
    (((requestsBeside b rs).map StateRequest.key).Nodup →
      (∀ r ∈ requestsBeside b rs, self.entry? r.key = none) →
      (self.CompileForBindGroups g [bg]).isOk = true) ∧
    (∀ self', self.CompileForBindGroups g [bg] = Outcome.ok self' →
      self'.transitionInfos.buffer.lookup b = some BufferState.storage ∧ b ∈ self'.reads) ∧
    ((self.CompileForBindGroups g [bg]).isOk = false →
      (self.CompileForBindGroups g [bg]).isFatal = true) := by
  have hfor : requestsFor b rs =
      [StateRequest.buffer b BufferState.storage,
        StateRequest.buffer b BufferState.shaderReadOnly] := by
    rw [groupRequests_for g b bg rs hrs, hw, hr]
    rfl
  have hc : self.CompileForBindGroups g [bg] = RGPassBase.saveAll rs self := by
    rw [compileForBindGroups_requests g [bg] (rs ++ []) (by simp [collect, hrs]) self,
      List.append_nil]
  obtain ⟨hok, hres⟩ := saveAll_write_then_read b rs self hfresh hfor
  rw [hc]
  refine ⟨hfor, hok, ?_, hres, isFatal_of_not_ok rs self⟩
  intro hnd hnone
  rw [hok]
  exact saveAll_fresh_ok _ self hnd hnone

/-- C12, witness: bind group 3 of the sample builder, which binds buffer 0 as storage buffer
"out" and as uniform buffer "in" and buffer 1 as uniform buffer "other", on a new compute
pass. -/
theorem write_then_read_in_one_group_witness :
    sampleBufferBindings.groupItems? (some 3) = some sampleWriteReadOtherBindings.items ∧
    sampleBufferBindings.groupRequests? (some 3) =
      some [StateRequest.buffer 0 BufferState.storage,
        StateRequest.buffer 0 BufferState.shaderReadOnly,
        StateRequest.buffer 1 BufferState.shaderReadOnly] ∧
    sampleBufferBindings.bindingCount BindingType.storageBuffer 0 (some 3) = 1 ∧
    sampleBufferBindings.bindingCount BindingType.uniformBuffer 0 (some 3) = 1 ∧
    (RGPassBase.new "pass" RGPassType.compute).transitionInfos.buffer.lookup 0 = none ∧
    ((RGPassBase.new "pass" RGPassType.compute).CompileForBindGroups sampleBufferBindings
      [some 3]).isOk = true ∧
    ∀ self', (RGPassBase.new "pass" RGPassType.compute).CompileForBindGroups
        sampleBufferBindings [some 3] = Outcome.ok self' →
      self'.transitionInfos.buffer.lookup 0 = some BufferState.storage ∧ 0 ∈ self'.reads := by
  have h := write_then_read_in_one_group sampleBufferBindings
    (RGPassBase.new "pass" RGPassType.compute) (some 3)
    [StateRequest.buffer 0 BufferState.storage,
      StateRequest.buffer 0 BufferState.shaderReadOnly,
      StateRequest.buffer 1 BufferState.shaderReadOnly] 0 (by rfl) (by decide) (by decide)
    (by rfl)
  exact ⟨by rfl, by rfl, by decide, by decide, by rfl,
    h.2.2.1 (by decide) (by decide), h.2.2.2.1⟩

/-- C12, counterexample: bind group 4 of the sample builder binds buffer 0 exactly once as
storage buffer and exactly once as uniform buffer, and buffer 1 as uniform buffer under two
names. CompileForBindGroups with it on a new compute pass does not succeed: the second read
request for buffer 1 finds the entry of the first, which is not a write state. -/
theorem group_with_repeated_read_fails :
    sampleBufferBindings.groupItems? (some 4) = some sampleWriteReadTwiceBindings.items ∧
    sampleBufferBindings.bindingCount BindingType.storageBuffer 0 (some 4) = 1 ∧
    sampleBufferBindings.bindingCount BindingType.uniformBuffer 0 (some 4) = 1 ∧
    ((RGPassBase.new "pass" RGPassType.compute).CompileForBindGroups sampleBufferBindings
      [some 4]).isFatal = true ∧
    ((RGComputePass.new "pass" [some 4] 7 false).Compile sampleBufferBindings
      RGAsyncInfo.new).isFatal = true := by
  refine ⟨by rfl, by decide, by decide, by rfl, by rfl⟩

/-- C13, amended. A buffer written as storage and read as shader-read-only in one pass
compiles when the write is recorded first. For every compute or raster pass whose pointers
designate objects of the graph, and every buffer B without entry that is bound exactly once as
StorageBuffer and exactly once as UniformBuffer among the pass's bind groups, whatever else
they bind: either the StorageBuffer binding is not in a later bind group than the UniformBuffer
binding, or the UniformBuffer binding's bind group comes first. In the first case the requests
for B are accepted, so Compile succeeds exactly if the other requests of the pass are accepted
on their own, which they are when they are about pairwise different resources the pass has no
entry for; when it succeeds it has recorded B ↦ storage and put B in the reads set. In the
second case Compile stops at a fatal failure. -/
theorem write_and_read_compile_when_write_group_first (g : RGBuilder) (pass : RGPass)
    (info : RGAsyncInfo) (bindGroups : List RGBindGroupRef) (rs : List StateRequest) (b : Nat)
    (hbg : pass.bindGroups? = some bindGroups)
    (hrs : g.requests? pass = some rs)
    (hfresh : pass.base.transitionInfos.buffer.lookup b = none)
    (hw : ((g.bindingCounts b bindGroups).map Prod.fst).sum = 1)
    (hr : ((g.bindingCounts b bindGroups).map Prod.snd).sum = 1) :
    (WriteNotAfterRead (g.bindingCounts b bindGroups) ∨
      ReadBeforeWrite (g.bindingCounts b bindGroups)) ∧
    (WriteNotAfterRead (g.bindingCounts b bindGroups) →
      (pass.Compile g info).isOk = (pass.base.saveAll (requestsBeside b rs)).isOk ∧
      (((requestsBeside b rs).map StateRequest.key).Nodup →
        (∀ r ∈ requestsBeside b rs, pass.base.entry? r.key = none) →
        (pass.Compile g info).isOk = true) ∧
      ∀ pass' info', pass.Compile g info = Outcome.ok (pass', info') →
        pass'.base.transitionInfos.buffer.lookup b = some BufferState.storage ∧
          b ∈ pass'.base.reads) ∧
    (ReadBeforeWrite (g.bindingCounts b bindGroups) →
      (pass.Compile g info).isFatal = true) := by
  have hreq := compile_requests g pass info rs hrs
  have hfor := passRequests_for g b pass bindGroups rs hbg hrs
  have hokc : (pass.Compile g info).isOk = (RGPassBase.saveAll rs pass.base).isOk := by
    rw [← hreq, isOk_lift]
  refine ⟨counts_once _ hw hr, ?_, ?_⟩
  · intro hpat
    rw [requests_of_writeNotAfterRead _ _ _ hpat] at hfor
    obtain ⟨hok, hres⟩ := saveAll_write_then_read b rs pass.base hfresh hfor
    refine ⟨hokc.trans hok, ?_, ?_⟩
    · intro hnd hnone
      rw [hokc, hok]
      exact saveAll_fresh_ok _ pass.base hnd hnone
    · intro pass' info' hc
      apply hres
      rw [← hreq, hc]
      rfl
  · intro hpat
    rw [requests_of_readBeforeWrite _ _ _ hpat] at hfor
    have := saveAll_read_then_write b rs pass.base hfresh hfor
    rw [← hreq, isFatal_lift] at this
    exact this

/-- C13, witness: a compute pass constructed with bind group 5 of the sample builder (buffer 1
as uniform buffer), then bind group 1 (buffer 0 as storage buffer), then bind group 0 (buffer 0
as uniform buffer). -/
theorem write_and_read_compile_when_write_group_first_witness :
    sampleBufferBindings.bindingCounts 0 [some 5, some 1, some 0] = [(0, 0), (1, 0), (0, 1)] ∧
    sampleBufferBindings.requests? (RGPass.compute
        (RGComputePass.new "pass" [some 5, some 1, some 0] 7 false)) =
      some [StateRequest.buffer 1 BufferState.shaderReadOnly,
        StateRequest.buffer 0 BufferState.storage,
        StateRequest.buffer 0 BufferState.shaderReadOnly] ∧
    ((RGPass.compute (RGComputePass.new "pass" [some 5, some 1, some 0] 7 false)).Compile
      sampleBufferBindings RGAsyncInfo.new).isOk = true ∧
    ∀ pass' info',
      (RGPass.compute (RGComputePass.new "pass" [some 5, some 1, some 0] 7 false)).Compile
        sampleBufferBindings RGAsyncInfo.new = Outcome.ok (pass', info') →
      pass'.base.transitionInfos.buffer.lookup 0 = some BufferState.storage ∧
        0 ∈ pass'.base.reads := by
  have hpat : WriteNotAfterRead
      (sampleBufferBindings.bindingCounts 0 [some 5, some 1, some 0]) :=
    Or.inr ⟨1, 0, 0, by decide⟩
  have h := (write_and_read_compile_when_write_group_first sampleBufferBindings
    (RGPass.compute (RGComputePass.new "pass" [some 5, some 1, some 0] 7 false))
    RGAsyncInfo.new [some 5, some 1, some 0]
    [StateRequest.buffer 1 BufferState.shaderReadOnly,
      StateRequest.buffer 0 BufferState.storage,
      StateRequest.buffer 0 BufferState.shaderReadOnly] 0
    (by rfl) (by rfl) (by rfl) (by decide) (by decide)).2.1 hpat
  exact ⟨by decide, by rfl, h.2.1 (by decide) (by decide), h.2.2⟩

/-- C13, counterexample: bind group 0 of the sample builder (buffer 0 as uniform buffer)
followed by bind group 1 (buffer 0 as storage buffer). Each binds buffer 0 exactly once, yet
Compile of the compute pass and of the raster pass constructed with them stops at a fatal
failure. -/
theorem uniform_group_before_storage_group_fails :
    sampleBufferBindings.groupItems? (some 0) = some sampleReadBindings.items ∧
    sampleBufferBindings.groupItems? (some 1) = some sampleWriteBindings.items ∧
    sampleBufferBindings.bindingCounts 0 [some 0, some 1] = [(0, 1), (1, 0)] ∧
    ((RGComputePass.new "pass" [some 0, some 1] 7 false).Compile sampleBufferBindings
      RGAsyncInfo.new).isFatal = true ∧
    ((RGRasterPass.new "pass" { colorAttachments := [], depthStencilAttachment := none }
      [some 0, some 1] 7).Compile sampleBufferBindings RGAsyncInfo.new).isFatal = true := by
  refine ⟨by rfl, by rfl, by decide, by rfl, by rfl⟩

end Rendering
